import Mathlib

/-!
# tgnet obfuscated framed transport: `Connection` and `ConnectionSocket`

A shallow embedding of `TMessagesProj/jni/tgnet/Connection.cpp` and
`ConnectionSocket.cpp`, followed by theorems about the frame codec.

Conventions of the embedding.

* Bytes and machine integers are natural numbers; where the C++ arithmetic is
  `uint32_t` arithmetic that can wrap, the wrap is written `% 4294967296`.
* A C++ object that is mutated in place becomes a value that is passed in and
  returned.  The two pointers `buffer` and `restOfTheData` of
  `Connection::onReceivedData` may point to the same object; the embedding
  keeps one copy of that object and records the aliasing (`RestRef.same`).
* Calls to the collaborators that are outside the two source files
  (`ConnectionsManager` callbacks, `Datacenter`, the epoll loop, timers) are
  recorded as a list of `Event`s in call order; what they answer is read from
  an `Env`.  The callbacks are not re-entrant in the embedding.
* Every call of `getCurrentTimeMonotonicMillis` inside one top-level
  operation reads the same `Env.now`.
-/

namespace Tgnet

/-! ## NativeByteBuffer -/

/-- Modelled from the spec: `NativeByteBuffer` (the class is declared outside the
two source files; the spec calls it a fixed-capacity reusable byte buffer).  A
backing store with the usual `position <= limit <= capacity` cursors; `bytes`
is the backing store, addressed by offset. -/
@[ext]
structure NativeByteBuffer where
  bytes : Nat → Nat
  position : Nat
  limit : Nat
  capacity : Nat

namespace NativeByteBuffer

/-- The `len` bytes of the backing store that start at offset `start`. -/
def slice (b : NativeByteBuffer) (start len : Nat) : List Nat :=
  (List.range len).map (fun i => b.bytes (start + i))

/-- Modelled from the spec: `NativeByteBuffer::remaining()`. -/
def remaining (b : NativeByteBuffer) : Nat := b.limit - b.position

/-- Modelled from the spec: `NativeByteBuffer::hasRemaining()`. -/
def hasRemaining (b : NativeByteBuffer) : Bool := decide (b.position < b.limit)

/-- Modelled from the spec: `NativeByteBuffer::position(uint32_t)`; a position
past the limit is ignored. -/
def setPosition (b : NativeByteBuffer) (p : Nat) : NativeByteBuffer :=
  if p > b.limit then b else { b with position := p }

/-- Modelled from the spec: `NativeByteBuffer::limit(uint32_t)`; a limit past
the capacity is ignored, and the position is pulled back to the new limit. -/
def setLimit (b : NativeByteBuffer) (l : Nat) : NativeByteBuffer :=
  if l > b.capacity then b
  else { b with limit := l, position := if b.position > l then l else b.position }

/-- Modelled from the spec: `NativeByteBuffer::rewind()`. -/
def rewind (b : NativeByteBuffer) : NativeByteBuffer := { b with position := 0 }

/-- Modelled from the spec: `NativeByteBuffer::compact()`: the unread bytes move
to the front, the position is set after them and the limit to the capacity;
nothing happens when there is no unread byte. -/
def compact (b : NativeByteBuffer) : NativeByteBuffer :=
  if b.position = b.limit then b
  else
    { bytes := fun i => if i < b.limit - b.position then b.bytes (b.position + i) else b.bytes i
      position := b.limit - b.position
      limit := b.capacity
      capacity := b.capacity }

/-- Modelled from the spec: `NativeByteBuffer::readByte(nullptr)`; reading past
the limit yields 0 and leaves the position. -/
def readByte (b : NativeByteBuffer) : Nat × NativeByteBuffer :=
  if b.position + 1 > b.limit then (0, b)
  else (b.bytes b.position, { b with position := b.position + 1 })

/-- Modelled from the spec: `NativeByteBuffer::readInt32(nullptr)`, little
endian; the result is given as the 32-bit pattern (the value after the
`(uint32_t)` cast of the caller). -/
def readInt32 (b : NativeByteBuffer) : Nat × NativeByteBuffer :=
  if b.position + 4 > b.limit then (0, b)
  else
    (b.bytes b.position + b.bytes (b.position + 1) * 256
        + b.bytes (b.position + 2) * 65536 + b.bytes (b.position + 3) * 16777216,
      { b with position := b.position + 4 })

/-- Modelled from the spec: `NativeByteBuffer::readBigInt32(nullptr)`, big
endian; the result is given as the 32-bit pattern. -/
def readBigInt32 (b : NativeByteBuffer) : Nat × NativeByteBuffer :=
  if b.position + 4 > b.limit then (0, b)
  else
    (b.bytes b.position * 16777216 + b.bytes (b.position + 1) * 65536
        + b.bytes (b.position + 2) * 256 + b.bytes (b.position + 3),
      { b with position := b.position + 4 })

/-- Modelled from the spec: `NativeByteBuffer::writeBytes(NativeByteBuffer *)`:
copies the unread bytes of `src` at the position of `dst` and advances both;
nothing is copied when they do not fit below the limit of `dst`.  Returns the
destination and the source. -/
def writeBytes (dst src : NativeByteBuffer) : NativeByteBuffer × NativeByteBuffer :=
  let length := src.limit - src.position
  if length = 0 then (dst, src)
  else if dst.position + length > dst.limit then (dst, src)
  else
    ({ dst with
        bytes := fun i =>
          if dst.position ≤ i ∧ i < dst.position + length
          then src.bytes (src.position + (i - dst.position)) else dst.bytes i
        position := dst.position + length },
      src.setPosition src.limit)

/-- Modelled from the spec: `NativeByteBuffer::writeByte(uint8_t)`. -/
def writeByte (b : NativeByteBuffer) (v : Nat) : NativeByteBuffer :=
  if b.position + 1 > b.limit then b
  else
    { b with
      bytes := fun i => if i = b.position then v else b.bytes i
      position := b.position + 1 }

/-- Modelled from the spec: `NativeByteBuffer::writeInt32(int32_t)`, little
endian. -/
def writeInt32 (b : NativeByteBuffer) (v : Nat) : NativeByteBuffer :=
  if b.position + 4 > b.limit then b
  else
    { b with
      bytes := fun i =>
        if i = b.position then v % 256
        else if i = b.position + 1 then v / 256 % 256
        else if i = b.position + 2 then v / 65536 % 256
        else if i = b.position + 3 then v / 16777216 % 256
        else b.bytes i
      position := b.position + 4 }

/-- Raw store through the `uint8_t *bytes()` pointer: `src` is copied to the
offsets `start, start + 1, ...` without touching the cursors. -/
def poke (b : NativeByteBuffer) (start : Nat) (src : List Nat) : NativeByteBuffer :=
  { b with
    bytes := fun i =>
      if start ≤ i ∧ i < start + src.length then src.getD (i - start) 0 else b.bytes i }

/-- A buffer that holds `data` from offset 0, position 0 and limit
`data.length`: the shape in which `ConnectionSocket::onEvent` hands a received
chunk to `onReceivedData` (`rewind`, `recv`, `limit(readCount)`), and in which a
caller hands a payload to `sendData`. -/
def ofList (data : List Nat) (capacity : Nat) : NativeByteBuffer :=
  { bytes := fun i => data.getD i 0, position := 0, limit := data.length, capacity := capacity }

end NativeByteBuffer

/-! ## AES-256 in counter mode -/

/-- Big-endian increment of a counter block given least significant byte
first. -/
def ctr128_inc_rev : List Nat → List Nat
  | [] => []
  | b :: rest => if b + 1 < 256 then (b + 1) :: rest else 0 :: ctr128_inc_rev rest

/-- The `ctr128_inc` of the AES library: big-endian increment of the 16-byte
counter block, wrapping at the top. -/
def ctr128_inc (block : List Nat) : List Nat := (ctr128_inc_rev block.reverse).reverse

/-- The fields the AES library reads and writes in one `AES_ctr128_encrypt`
call: key, `ivec`, `ecount_buf` and `num`. -/
structure CtrState where
  key : List Nat
  iv : List Nat
  count : List Nat
  num : Nat

/-- One byte of `AES_ctr128_encrypt`: when `num` is 0 a new keystream block
`aes key ivec` is stored in `ecount_buf` and `ivec` is incremented; the byte is
XORed with `ecount_buf[num]` and `num` advances modulo 16.  The block cipher
`aes` is a parameter. -/
def ctrByte (aes : List Nat → List Nat → List Nat) (s : CtrState) (b : Nat) : Nat × CtrState :=
  let s1 : CtrState :=
    if s.num = 0 then { s with count := aes s.key s.iv, iv := ctr128_inc s.iv } else s
  (b ^^^ s1.count.getD s.num 0, { s1 with num := (s.num + 1) % 16 })

/-- The library call `AES_ctr128_encrypt(in, out, length, key, ivec, ecount_buf,
num)` on the bytes `input`: the output bytes and the state left behind. -/
def AES_ctr128_encrypt (aes : List Nat → List Nat → List Nat) :
    CtrState → List Nat → List Nat × CtrState
  | s, [] => ([], s)
  | s, b :: rest =>
    let r := ctrByte aes s b
    let t := AES_ctr128_encrypt aes r.2 rest
    (r.1 :: t.1, t.2)

/-! ## Constants and enumerations of `Defines.h` -/

/-- Modelled from the spec: connection states (`TcpConnectionState`). -/
inductive TcpConnectionState where
  | TcpConnectionStageIdle
  | TcpConnectionStageConnecting
  | TcpConnectionStageReconnecting
  | TcpConnectionStageConnected
  | TcpConnectionStageSuspended
  deriving DecidableEq, Repr

/-- Modelled from the spec: connection types (`ConnectionType`). -/
inductive ConnectionType where
  | ConnectionTypeGeneric
  | ConnectionTypeDownload
  | ConnectionTypeUpload
  | ConnectionTypePush
  | ConnectionTypeTemp
  | ConnectionTypeProxy
  | ConnectionTypeGenericMedia
  deriving DecidableEq, Repr

/-- Modelled from the spec: the IP strategies of the connections manager. -/
inductive IpStrategy where
  | USE_IPV4_ONLY
  | USE_IPV6_ONLY
  | USE_IPV4_IPV6_RANDOM
  deriving DecidableEq, Repr

/-- Modelled from the spec: address flag bit `Static = 1`. -/
def TcpAddressFlagStatic : Nat := 1
/-- Modelled from the spec: address flag bit `Download = 2`. -/
def TcpAddressFlagDownload : Nat := 2
/-- Modelled from the spec: address flag bit `Temp = 4`. -/
def TcpAddressFlagTemp : Nat := 4
/-- Modelled from the spec: address flag bit `Ipv6 = 8`. -/
def TcpAddressFlagIpv6 : Nat := 8

/-- The epoll bits of `sys/epoll.h` used by `ConnectionSocket`. -/
def EPOLLIN : Nat := 1
/-- Writable interest. -/
def EPOLLOUT : Nat := 4
/-- Error condition. -/
def EPOLLERR : Nat := 8
/-- Peer closed its end. -/
def EPOLLRDHUP : Nat := 8192
/-- Edge-triggered registration. -/
def EPOLLET : Nat := 2147483648
/-- `EPOLLHUP`. -/
def EPOLLHUP : Nat := 16

/-- A datacenter address (`TcpAddress`). -/
structure TcpAddress where
  address : String
  port : Nat
  secret : String
  deriving DecidableEq, Repr

/-! ## Calls to the collaborators -/

/-- The calls a connection makes to its collaborators, recorded in call
order. -/
inductive Event where
  | onConnectionClosed (reason : Int)
  | onConnectionConnected
  | onConnectionDataReceived (payload : List Nat) (length : Nat)
  | onConnectionQuickAckReceived (ackId : Nat)
  | storeCurrentAddressAndPortNum
  | nextAddressOrPort (flags : Nat)
  | attachConnection
  | detachConnection
  | scheduleTask (reason error : Int)
  /-- The call of `Connection::reconnect` made by the frame loop on an invalid
  length, recorded so that this exit is visible among the calls. -/
  | reconnect
  /-- The call of the `onReceivedData` hook that `ConnectionSocket::onEvent` makes
  with a chunk of `length` bytes, recorded so that its place among the calls is
  visible. -/
  | onReceivedData (length : Nat)
  deriving DecidableEq, Repr

/-- What the collaborators and the operating system answer during one
top-level operation. -/
structure Env where
  /-- Capacity of the pool buffer `BuffersStorage::getFreeBuffer(size)` hands out. -/
  poolCapacity : Nat → Nat
  /-- The block cipher: `aes key block`. -/
  aes : List Nat → List Nat → List Nat
  /-- Successive results of `RAND_bytes(bytes, 64)`. -/
  randBlocks : List (List Nat)
  /-- Result of `RAND_bytes(&value, 1)` in `connect`. -/
  randByte : Nat
  /-- Reading of `getCurrentTimeMonotonicMillis`. -/
  now : Int
  /-- Answer of `isNetworkAvailable`. -/
  isNetworkAvailable : Bool
  /-- Datacenter: `getCurrentAddress(flags)`. -/
  getCurrentAddress : Nat → Option TcpAddress
  /-- Datacenter: `getCurrentPort(flags)`. -/
  getCurrentPort : Nat → Nat
  /-- Datacenter: `isCustomPort(flags)`. -/
  isCustomPort : Nat → Bool
  /-- Datacenter: `isRepeatCheckingAddresses()`, asked after `nextAddressOrPort`. -/
  isRepeatCheckingAddresses : Bool
  /-- Datacenter: `isHandshaking(media)`. -/
  isHandshaking : Bool → Bool
  /-- Datacenter: `getDatacenterId()`. -/
  datacenterId : Nat
  /-- Result of `socket(...)`; negative on failure. -/
  socketResult : Int
  /-- Whether `inet_pton(family, address)` returns 1; the flag is `ipv6`. -/
  inetPton : Bool → String → Bool
  /-- Whether `fcntl(fd, F_SETFL, O_NONBLOCK)` succeeds. -/
  fcntlOk : Bool
  /-- Whether `connect` returns 0 or fails with `EINPROGRESS`. -/
  connectOk : Bool
  /-- Whether `epoll_ctl(EPOLL_CTL_ADD)` succeeds on the descriptor. -/
  epollCtlAdd : Int → Bool
  /-- Whether `epoll_ctl(EPOLL_CTL_MOD)` succeeds on the descriptor. -/
  epollCtlMod : Int → Bool
  /-- Answer of `hasPendingRequestsForConnection`, asked by
  `Connection::hasPendingRequests`. -/
  hasPendingRequests : Bool
  /-- The `(ret, code)` of `getsockopt(fd, SOL_SOCKET, SO_ERROR)` asked by the
  readable part of `onEvent`. -/
  getsockoptReadable : Int → Int × Int
  /-- The `(ret, code)` of `getsockopt(fd, SOL_SOCKET, SO_ERROR)` asked by the
  writable part of `onEvent`. -/
  getsockoptWritable : Int → Int × Int
  /-- The value the local `error` of `onEvent` holds before anything is stored in
  it. -/
  errorGarbage : Int
  /-- Successive results of `recv` during one `onEvent`: `none` for a negative
  result, otherwise the bytes read. -/
  recv : List (Option (List Nat))
  /-- Result of `send(fd, bytes, remaining)`; negative on failure. -/
  send : Int → Nat → Int

/-- Modelled from the spec: `BuffersStorage::getFreeBuffer(size)` (the pool is
outside the two source files): a buffer of the pool capacity for that size,
rewound, with the limit set to `size`.  Its bytes are taken to be zero. -/
def getFreeBuffer (env : Env) (size : Nat) : NativeByteBuffer :=
  (NativeByteBuffer.setLimit
    { bytes := fun _ => 0, position := 0, limit := env.poolCapacity size,
      capacity := env.poolCapacity size } size).rewind

/-! ## State -/

/-- The fields of the `ConnectionsManager` instance that `Connection` reads or
writes. -/
structure ConnectionsManager where
  ipStrategy : IpStrategy
  lastProtocolUsefullData : Bool
  lastProtocolIsIpv6 : Bool
  networkSlow : Bool
  currentNetworkType : Int
  currentDatacenterId : Nat
  movingToDatacenterId : Nat
  /-- Tasks posted with `scheduleTask` and not yet run: the arguments of the
  deferred `onDisconnectedInternal(reason, error)`. -/
  scheduledTasks : List (Int × Int)

/-- The state of one `Connection` object (the members of `Connection` and of its
base `ConnectionSocket`), together with the manager instance and the
thread-local `lastConnectionToken` it works with. -/
structure Connection where
  -- ConnectionSocket
  outgoingByteStream : List NativeByteBuffer
  eventMaskEvents : Nat
  socketFd : Int
  timeout : Nat
  onConnectedSent : Bool
  lastEventTime : Int
  currentNetworkType : Int
  isIpv6 : Bool
  currentAddress : String
  currentPort : Nat
  waitingForHostResolve : String
  adjustWriteOpAfterResolve : Bool
  -- Connection
  connectionState : TcpConnectionState
  connectionType : ConnectionType
  connectionToken : Nat
  hostAddress : String
  hostPort : Nat
  secret : String
  failedConnectionCount : Nat
  willRetryConnectCount : Nat
  currentAddressFlags : Nat
  firstPacketSent : Bool
  restOfTheData : Option NativeByteBuffer
  lastPacketLength : Nat
  hasSomeDataSinceLastConnect : Bool
  isTryingNextPort : Bool
  wasConnected : Bool
  usefullData : Bool
  usefullDataReceiveTime : Int
  forceNextPort : Bool
  isMediaConnection : Bool
  waitForReconnectTimer : Bool
  connectionInProcess : Bool
  lastReconnectTimeout : Nat
  currentTimeout : Nat
  receivedDataAmount : Nat
  /-- `reconnectTimer`: whether it is started, and its delay in ms. -/
  reconnectTimerStarted : Bool
  reconnectTimerTimeout : Nat
  -- obfuscation keys
  encryptKey : List Nat
  encryptIv : List Nat
  encryptCount : List Nat
  encryptNum : Nat
  decryptKey : List Nat
  decryptIv : List Nat
  decryptCount : List Nat
  decryptNum : Nat
  -- collaborators
  manager : ConnectionsManager
  lastConnectionToken : Nat

/-! ## ConnectionSocket -/

/-- `ConnectionSocket::setTimeout`. -/
def setTimeout (env : Env) (c : Connection) (time : Nat) : Connection :=
  { c with timeout := time, lastEventTime := env.now }

/-- `ConnectionSocket::isDisconnected`. -/
def isDisconnected (c : Connection) : Bool := decide (c.socketFd < 0)

/-- `Connection::hasUsefullData`. -/
def hasUsefullData (env : Env) (c : Connection) : Bool :=
  if c.usefullData && decide ((env.now - c.usefullDataReceiveTime).natAbs < 4 * 1000) then false
  else c.usefullData

/-- `Connection::isMediaConnectionType`. -/
def isMediaConnectionType (type : ConnectionType) : Bool :=
  type == ConnectionType.ConnectionTypeGenericMedia || type == ConnectionType.ConnectionTypeDownload

/-- The types whose timeout adapts: Generic, Temp and GenericMedia. -/
def isAdaptiveType (type : ConnectionType) : Bool :=
  type == ConnectionType.ConnectionTypeGeneric || type == ConnectionType.ConnectionTypeTemp
    || type == ConnectionType.ConnectionTypeGenericMedia

/-- The block of `Connection::onDisconnectedInternal` that runs when the state
is Idle after the close notification: failure counting, address rotation and
the reconnect timer. -/
def onDisconnectedReconnecting (env : Env) (c : Connection) (switchToNextPort : Bool)
    (error : Int) : Connection × List Event :=
  let c : Connection :=
    { c with
      connectionState := TcpConnectionState.TcpConnectionStageReconnecting
      failedConnectionCount := c.failedConnectionCount + 1 }
  let c : Connection :=
    if c.failedConnectionCount = 1 then
      { c with willRetryConnectCount := if hasUsefullData env c then 3 else 1 }
    else c
  let r : Connection × List Event :=
    if env.isNetworkAvailable && c.connectionType != ConnectionType.ConnectionTypeProxy then
      let c : Connection := { c with isTryingNextPort := true }
      if decide (c.failedConnectionCount > c.willRetryConnectCount) || switchToNextPort then
        let c : Connection :=
          if env.isRepeatCheckingAddresses
              && (c.manager.ipStrategy == IpStrategy.USE_IPV4_ONLY
                  || c.manager.ipStrategy == IpStrategy.USE_IPV6_ONLY) then
            { c with manager := { c.manager with ipStrategy := IpStrategy.USE_IPV4_IPV6_RANDOM } }
          else c
        ({ c with failedConnectionCount := 0 }, [Event.nextAddressOrPort c.currentAddressFlags])
      else (c, [])
    else (c, [])
  let c := r.1
  let c : Connection :=
    if error = 0x68 ∨ error = 0x71 then
      if c.connectionType != ConnectionType.ConnectionTypeProxy then
        let doubled := c.lastReconnectTimeout * 2 % 4294967296
        { c with
          waitForReconnectTimer := true
          reconnectTimerTimeout := c.lastReconnectTimeout
          lastReconnectTimeout := if doubled > 400 then 400 else doubled
          reconnectTimerStarted := true }
      else c
    else
      let c : Connection := { c with waitForReconnectTimer := false }
      if (c.connectionType == ConnectionType.ConnectionTypeGenericMedia && env.isHandshaking true)
          || (c.connectionType == ConnectionType.ConnectionTypeGeneric
              && (env.isHandshaking false
                  || decide (env.datacenterId = c.manager.currentDatacenterId)
                  || decide (env.datacenterId = c.manager.movingToDatacenterId))) then
        { c with reconnectTimerTimeout := 1000, reconnectTimerStarted := true }
      else c
  (c, r.2)

/-- `Connection::onDisconnectedInternal`. -/
def onDisconnectedInternal (env : Env) (c : Connection) (reason error : Int) :
    Connection × List Event :=
  let c : Connection := { c with reconnectTimerStarted := false }
  let switchToNextPort : Bool :=
    (decide (reason = 2) && c.wasConnected
        && (!c.hasSomeDataSinceLastConnect || env.isCustomPort c.currentAddressFlags))
      || c.forceNextPort
  let c : Connection :=
    if isAdaptiveType c.connectionType then
      if c.wasConnected && decide (reason = 2) && decide (c.currentTimeout < 16) then
        { c with currentTimeout := c.currentTimeout + 2 }
      else c
    else c
  let c : Connection :=
    { c with
      firstPacketSent := false
      restOfTheData := none
      lastPacketLength := 0
      receivedDataAmount := 0
      wasConnected := false }
  let c : Connection :=
    if c.connectionState != TcpConnectionState.TcpConnectionStageSuspended
        && c.connectionState != TcpConnectionState.TcpConnectionStageIdle then
      { c with connectionState := TcpConnectionState.TcpConnectionStageIdle }
    else c
  let c : Connection := { c with connectionToken := 0 }
  let r : Connection × List Event :=
    if c.connectionState = TcpConnectionState.TcpConnectionStageIdle then
      onDisconnectedReconnecting env c switchToNextPort error
    else (c, [])
  ({ r.1 with usefullData := false }, Event.onConnectionClosed reason :: r.2)

/-- `Connection::onDisconnected`: inside `connect` the work is posted to the
task queue, otherwise it runs at once. -/
def onDisconnected (env : Env) (c : Connection) (reason error : Int) : Connection × List Event :=
  if c.connectionInProcess then
    ({ c with
        manager := { c.manager with scheduledTasks := c.manager.scheduledTasks ++ [(reason, error)] } },
      [Event.scheduleTask reason error])
  else onDisconnectedInternal env c reason error

/-- `ConnectionSocket::closeSocket`. -/
def closeSocket (env : Env) (c : Connection) (reason error : Int) : Connection × List Event :=
  let c : Connection :=
    { c with
      lastEventTime := env.now
      socketFd := if c.socketFd ≥ 0 then -1 else c.socketFd
      waitingForHostResolve := ""
      adjustWriteOpAfterResolve := false
      onConnectedSent := false
      outgoingByteStream := [] }
  let r := onDisconnected env c reason error
  (r.1, Event.detachConnection :: r.2)

/-- `ConnectionSocket::dropConnection`. -/
def dropConnection (env : Env) (c : Connection) : Connection × List Event :=
  closeSocket env c 0 0

/-- `ConnectionSocket::checkTimeout(now)`: the value returned, the connection
and the calls made.  `timeout` is only ever assigned by `setTimeout`, with
non-negative constants or with the unsigned `currentTimeout`, so it is a
natural number here and `timeout != 0` reads as in the source. -/
def checkTimeout (env : Env) (c : Connection) (now : Int) : Bool × Connection × List Event :=
  if c.timeout ≠ 0 ∧ now - c.lastEventTime > (c.timeout : Int) * 1000 then
    if !c.onConnectedSent || env.hasPendingRequests then
      let r := closeSocket env c 2 0
      (true, r.1, r.2)
    else (false, { c with lastEventTime := env.now }, [])
  else (false, c, [])

/-- `ConnectionSocket::adjustWriteOp`. -/
def adjustWriteOp (env : Env) (c : Connection) : Connection × List Event :=
  if c.waitingForHostResolve ≠ "" then ({ c with adjustWriteOpAfterResolve := true }, [])
  else
    let events := EPOLLIN ||| EPOLLRDHUP ||| EPOLLERR ||| EPOLLET
    let events :=
      if c.outgoingByteStream.any NativeByteBuffer.hasRemaining || !c.onConnectedSent then
        events ||| EPOLLOUT
      else events
    let c : Connection := { c with eventMaskEvents := events }
    if env.epollCtlMod c.socketFd then (c, []) else closeSocket env c 1 (-1)

/-- `ConnectionSocket::writeBuffer(NativeByteBuffer *)`. -/
def writeBuffer (env : Env) (c : Connection) (buffer : NativeByteBuffer) :
    Connection × List Event :=
  adjustWriteOp env { c with outgoingByteStream := c.outgoingByteStream ++ [buffer] }

/-- `ConnectionSocket::openConnectionInternal`. -/
def openConnectionInternal (env : Env) (c : Connection) : Connection × List Event :=
  if !env.fcntlOk then closeSocket env c 1 (-1)
  else
    let r : Connection × List Event :=
      if !env.connectOk then closeSocket env c 1 (-1)
      else
        let c : Connection :=
          { c with eventMaskEvents := EPOLLOUT ||| EPOLLIN ||| EPOLLRDHUP ||| EPOLLERR ||| EPOLLET }
        if env.epollCtlAdd c.socketFd then (c, []) else closeSocket env c 1 (-1)
    if r.1.adjustWriteOpAfterResolve then
      let a := adjustWriteOp env r.1
      (a.1, r.2 ++ a.2)
    else r

/-- `ConnectionSocket::openConnection`. -/
def openConnection (env : Env) (c : Connection) (address : String) (port : Nat)
    (ipv6 : Bool) (networkType : Int) : Connection × List Event :=
  let c : Connection :=
    { c with
      currentNetworkType := networkType
      isIpv6 := ipv6
      currentAddress := address
      currentPort := port
      waitingForHostResolve := ""
      adjustWriteOpAfterResolve := false }
  let c : Connection := { c with socketFd := env.socketResult }
  let r : Connection × List Event :=
    if c.socketFd < 0 then closeSocket env c 1 (-1)
    else if !env.inetPton ipv6 address then closeSocket env c 1 (-1)
    else openConnectionInternal env c
  (r.1, Event.attachConnection :: r.2)

/-! ## Connection -/

/-- `Connection::suspendConnection(bool idle)`. -/
def suspendConnection (env : Env) (c : Connection) (idle : Bool) : Connection × List Event :=
  let c : Connection := { c with reconnectTimerStarted := false, waitForReconnectTimer := false }
  if c.connectionState = TcpConnectionState.TcpConnectionStageIdle
      ∨ c.connectionState = TcpConnectionState.TcpConnectionStageSuspended then (c, [])
  else
    let c : Connection :=
      { c with
        connectionState :=
          if idle then TcpConnectionState.TcpConnectionStageIdle
          else TcpConnectionState.TcpConnectionStageSuspended }
    let r := dropConnection env c
    ({ r.1 with
        firstPacketSent := false
        restOfTheData := none
        lastPacketLength := 0
        connectionToken := 0
        wasConnected := false },
      r.2 ++ [Event.onConnectionClosed 0])

/-- The address choice of `Connection::connect`: the flag word kept in
`currentAddressFlags`, the address found, the final `ipv6` bit and whether the
address is a media address. -/
def chooseAddress (env : Env) (type : ConnectionType) (ipv6 : Nat) :
    Nat × Option TcpAddress × Nat × Bool :=
  let isStatic : Nat := if type = ConnectionType.ConnectionTypeProxy then 1 else 0
  if isMediaConnectionType type then
    let flags := TcpAddressFlagDownload ||| isStatic
    match env.getCurrentAddress (flags ||| ipv6) with
    | some a => (flags, some a, ipv6, true)
    | none =>
      let flags := isStatic
      match env.getCurrentAddress (flags ||| ipv6) with
      | some a => (flags, some a, ipv6, false)
      | none =>
        if ipv6 ≠ 0 then
          let flags := TcpAddressFlagDownload ||| isStatic
          match env.getCurrentAddress flags with
          | some a => (flags, some a, 0, true)
          | none => (isStatic, env.getCurrentAddress isStatic, 0, false)
        else (flags, none, ipv6, false)
  else if type = ConnectionType.ConnectionTypeTemp then
    (TcpAddressFlagTemp, env.getCurrentAddress TcpAddressFlagTemp, 0, false)
  else
    let flags := isStatic
    match env.getCurrentAddress (flags ||| ipv6) with
    | some a => (flags, some a, ipv6, false)
    | none =>
      if ipv6 ≠ 0 then (flags, env.getCurrentAddress flags, 0, false)
      else (flags, none, ipv6, false)

/-- The IP family choice of `Connection::connect`: the `ipv6` flag word and the
manager fields it updates. -/
def chooseIpv6 (env : Env) (c : Connection) : Nat × ConnectionsManager :=
  match c.manager.ipStrategy with
  | IpStrategy.USE_IPV6_ONLY => (TcpAddressFlagIpv6, c.manager)
  | IpStrategy.USE_IPV4_IPV6_RANDOM =>
    let r : Nat × ConnectionsManager :=
      if c.manager.lastProtocolUsefullData then
        (if c.manager.lastProtocolIsIpv6 then TcpAddressFlagIpv6 else 0, c.manager)
      else
        let ipv6 := if env.randByte % 3 = 0 then TcpAddressFlagIpv6 else 0
        (ipv6, { c.manager with lastProtocolIsIpv6 := decide (ipv6 ≠ 0) })
    if c.connectionType = ConnectionType.ConnectionTypeGeneric then
      (r.1, { r.2 with lastProtocolUsefullData := false })
    else r
  | IpStrategy.USE_IPV4_ONLY => (0, c.manager)

/-- The timeout `Connection::connect` sets after opening the socket. -/
def connectTimeout (c : Connection) : Nat :=
  if c.connectionType = ConnectionType.ConnectionTypeProxy then 5
  else if c.connectionType = ConnectionType.ConnectionTypePush then
    if c.isTryingNextPort then 20 else 30
  else if c.connectionType = ConnectionType.ConnectionTypeUpload then
    if c.manager.networkSlow then 40 else 25
  else if c.isTryingNextPort then 8 else 12

/-- `Connection::connect`. -/
def connect (env : Env) (c : Connection) : Connection × List Event :=
  if c.waitForReconnectTimer then (c, [])
  else if !env.isNetworkAvailable then (c, [Event.onConnectionClosed 0])
  else if c.connectionState = TcpConnectionState.TcpConnectionStageConnected
      ∨ c.connectionState = TcpConnectionState.TcpConnectionStageConnecting then (c, [])
  else
    let c : Connection :=
      { c with
        connectionInProcess := true
        connectionState := TcpConnectionState.TcpConnectionStageConnecting
        isMediaConnection := false }
    let ip := chooseIpv6 env c
    let c : Connection := { c with manager := ip.2 }
    let choice := chooseAddress env c.connectionType ip.1
    let isStatic : Bool := decide (c.connectionType = ConnectionType.ConnectionTypeProxy)
    let c : Connection :=
      { c with currentAddressFlags := choice.1, isMediaConnection := choice.2.2.2 }
    let c : Connection :=
      match choice.2.1 with
      | none => { c with hostAddress := "" }
      | some a => { c with hostAddress := a.address, secret := a.secret }
    let c : Connection :=
      match choice.2.1 with
      | some a =>
        if isStatic then { c with hostPort := a.port % 65536 }
        else { c with hostPort := env.getCurrentPort c.currentAddressFlags % 65536 }
      | none => { c with hostPort := env.getCurrentPort c.currentAddressFlags % 65536 }
    let c : Connection :=
      { c with
        reconnectTimerStarted := false
        firstPacketSent := false
        restOfTheData := none
        lastPacketLength := 0
        wasConnected := false
        hasSomeDataSinceLastConnect := false }
    let r := openConnection env c c.hostAddress c.hostPort (decide (choice.2.2.1 ≠ 0))
      c.manager.currentNetworkType
    let c := setTimeout env r.1 (connectTimeout r.1)
    ({ c with connectionInProcess := false }, r.2)

/-- `Connection::reconnect`. -/
def reconnect (env : Env) (c : Connection) : Connection × List Event :=
  if c.connectionType = ConnectionType.ConnectionTypeProxy then suspendConnection env c false
  else
    let r := suspendConnection env { c with forceNextPort := true } true
    let k := connect env r.1
    (k.1, r.2 ++ k.2)

/-- `Connection::setHasUsefullData`. -/
def setHasUsefullData (env : Env) (c : Connection) : Connection :=
  if !c.usefullData then
    { c with usefullDataReceiveTime := env.now, usefullData := true, lastReconnectTimeout := 50 }
  else c

/-- `Connection::onConnected`. -/
def onConnected (c : Connection) : Connection × List Event :=
  ({ c with
      connectionState := TcpConnectionState.TcpConnectionStageConnected
      connectionToken := c.lastConnectionToken
      lastConnectionToken := (c.lastConnectionToken + 1) % 4294967296
      wasConnected := true },
    [Event.onConnectionConnected])

/-! ## Outbound: `sendData` -/

/-- The acceptance test of the prelude loop of `Connection::sendData` on the
64 random bytes. -/
def preludeAccepted (bytes : List Nat) : Bool :=
  let val := (bytes.getD 3 0 <<< 24) ||| (bytes.getD 2 0 <<< 16) ||| (bytes.getD 1 0 <<< 8)
    ||| bytes.getD 0 0
  let val2 := (bytes.getD 7 0 <<< 24) ||| (bytes.getD 6 0 <<< 16) ||| (bytes.getD 5 0 <<< 8)
    ||| bytes.getD 4 0
  bytes.getD 0 0 != 0xef && val != 0x44414548 && val != 0x54534f50 && val != 0x20544547
    && val != 0x4954504f && val != 0xeeeeeeee && val != 0xdddddddd && val != 0x02010316
    && val2 != 0x00000000

/-- The `while (true)` loop of the prelude: the first accepted result of
`RAND_bytes(bytes, 64)`; `none` when the random source gives no accepted block
(the loop does not end). -/
def firstAccepted : List (List Nat) → Option (List Nat)
  | [] => none
  | block :: rest => if preludeAccepted block then some block else firstAccepted rest

/-- The 64 bytes one `RAND_bytes(bytes, 64)` call stores. -/
def block64 (block : List Nat) : List Nat := (List.range 64).map (fun i => block.getD i 0)

/-- The outbound cipher fields of a connection as one `AES_ctr128_encrypt`
state. -/
def encryptState (c : Connection) : CtrState :=
  { key := c.encryptKey, iv := c.encryptIv, count := c.encryptCount, num := c.encryptNum }

/-- The inbound cipher fields of a connection. -/
def decryptState (c : Connection) : CtrState :=
  { key := c.decryptKey, iv := c.decryptIv, count := c.decryptCount, num := c.decryptNum }

/-- The call `AES_ctr128_encrypt(p, p, len, &encryptKey, encryptIv, encryptCount,
&encryptNum)` with `p = bytes() + start`: in-place encryption of `len` bytes. -/
def encryptAt (env : Env) (c : Connection) (b : NativeByteBuffer) (start len : Nat) :
    Connection × NativeByteBuffer :=
  let r := AES_ctr128_encrypt env.aes (encryptState c) (b.slice start len)
  ({ c with encryptIv := r.2.iv, encryptCount := r.2.count, encryptNum := r.2.num },
    b.poke start r.1)

/-- Lines 460-480 of `Connection::sendData`: both cipher states are reset
(`num` 0, `ecount_buf` zeroed) and the keys are taken from `buffer`: the
outbound key and IV are bytes 8..39 and 40..55, the inbound key and IV are the
same 48 bytes read backwards from byte 55.  The key schedule of
`AES_set_encrypt_key` is part of the block cipher `Env.aes`, so the key fields
hold the 32 key bytes. -/
def deriveKeys (c : Connection) (buffer : NativeByteBuffer) : Connection :=
  let c : Connection :=
    { c with
      encryptNum := 0
      decryptNum := 0
      encryptCount := List.replicate 16 0
      decryptCount := List.replicate 16 0 }
  let temp := (List.range 48).map (fun a => buffer.bytes (a + 8))
  let c : Connection := { c with encryptKey := temp.take 32, encryptIv := (temp.drop 32).take 16 }
  let temp := (List.range 48).map (fun a => buffer.bytes (55 - a))
  { c with decryptKey := temp.take 32, decryptIv := (temp.drop 32).take 16 }

/-- The `if (!firstPacketSent)` block of `Connection::sendData` that fills the
first 64 bytes of `buffer` and derives both cipher states, given the accepted
random block. -/
def writePrelude (env : Env) (c : Connection) (buffer : NativeByteBuffer) (block : List Nat) :
    Connection × NativeByteBuffer :=
  let buffer := buffer.poke 0 (block64 block)
  let buffer := buffer.poke 56 [0xef, 0xef, 0xef, 0xef]
  let c : Connection := deriveKeys c buffer
  let r := AES_ctr128_encrypt env.aes (encryptState c) (buffer.slice 0 64)
  let c : Connection :=
    { c with encryptIv := r.2.iv, encryptCount := r.2.count, encryptNum := r.2.num }
  let buffer := buffer.poke 56 ((r.1.drop 56).take 8)
  ({ c with firstPacketSent := true }, buffer)

/-- The plaintext length field `Connection::sendData` writes for a payload of
`limit` bytes: the value handed to `writeByte` (short form) or `writeInt32`
(long form). -/
def lengthField (limit : Nat) (reportAck : Bool) : Nat :=
  let packetLength := limit / 4
  if packetLength < 0x7f then
    (if reportAck then packetLength ||| (1 <<< 7) else packetLength) % 256
  else
    let packetLength := ((packetLength <<< 8) + 0x7f) % 4294967296
    if reportAck then packetLength ||| (1 <<< 7) else packetLength

/-- The block of `Connection::sendData` that writes the length field at the
position of `buffer`: `writeByte` in the short form, `writeInt32` in the long
form. -/
def storeLength (buffer : NativeByteBuffer) (limit : Nat) (reportAck : Bool) : NativeByteBuffer :=
  if limit / 4 < 0x7f then buffer.writeByte (lengthField limit reportAck)
  else buffer.writeInt32 (lengthField limit reportAck)

/-- The block of `Connection::sendData` that writes the length field at the
position of `buffer` and encrypts it in place, at `bytes + (limit - 1)` or
`bytes + (limit - 4)`. -/
def writeLength (env : Env) (c : Connection) (buffer : NativeByteBuffer) (limit : Nat)
    (reportAck : Bool) : Connection × NativeByteBuffer :=
  let buffer := storeLength buffer limit reportAck
  if limit / 4 < 0x7f then encryptAt env c buffer (buffer.limit - 1) 1
  else encryptAt env c buffer (buffer.limit - 4) 4

/-- The size of the length field for a payload of `limit` bytes: 1 or 4. -/
def lengthSize (limit : Nat) : Nat := if limit / 4 < 0x7f then 1 else 4

/-- The plaintext length field of a payload of `limit` bytes as bytes: what
`storeLength` stores, read back from a scratch buffer. -/
def lengthBytes (limit : Nat) (reportAck : Bool) : List Nat :=
  (storeLength { bytes := fun _ => 0, position := 0, limit := 4, capacity := 4 } limit
    reportAck).slice 0 (lengthSize limit)

/-- Lines 487-510 of `Connection::sendData`: the length field is written to
`buffer` and encrypted, `buffer` is queued, then the payload `buff` is
encrypted in place and queued. -/
def sendFrame (env : Env) (c : Connection) (buffer buff : NativeByteBuffer) (reportAck : Bool) :
    Connection × List Event :=
  let l := writeLength env c buffer buff.limit reportAck
  let w1 := writeBuffer env l.1 l.2.rewind
  let buff := buff.rewind
  let e := encryptAt env w1.1 buff 0 buff.limit
  let w2 := writeBuffer env e.1 e.2
  (w2.1, w1.2 ++ w2.2)

/-- `Connection::sendData`.  The result is `none` only when the prelude loop
does not end. -/
def sendData (env : Env) (c : Connection) (buff : Option NativeByteBuffer)
    (reportAck _encrypted : Bool) : Option (Connection × List Event) :=
  match buff with
  | none => some (c, [])
  | some buff =>
    let buff := buff.rewind
    let r0 : Connection × List Event :=
      if c.connectionState = TcpConnectionState.TcpConnectionStageIdle
          ∨ c.connectionState = TcpConnectionState.TcpConnectionStageReconnecting
          ∨ c.connectionState = TcpConnectionState.TcpConnectionStageSuspended then connect env c
      else (c, [])
    let c := r0.1
    if isDisconnected c then some (c, r0.2)
    else
      let packetLength := buff.limit / 4
      let bufferLen := (if packetLength < 0x7f then 1 else 4) + (if !c.firstPacketSent then 64 else 0)
      let buffer := getFreeBuffer env bufferLen
      let start : Option (Connection × NativeByteBuffer) :=
        if !c.firstPacketSent then
          (firstAccepted env.randBlocks).map (fun block => writePrelude env c (buffer.setPosition 64) block)
        else some (c, buffer)
      match start with
      | none => none
      | some (c, buffer) =>
        let f := sendFrame env c buffer buff reportAck
        some (f.1, r0.2 ++ f.2)

/-- The bytes the queued buffers of a stream contribute to the wire: the unread
bytes of each, in queue order. -/
def queuedBytes (stream : List NativeByteBuffer) : List Nat :=
  (stream.map (fun b => b.slice b.position (b.limit - b.position))).flatten

/-- A sequence of `sendData(buff, reportAck, false)` calls made one after the
other on one connection, with the calls to the collaborators collected in
order. -/
def sendAll (env : Env) : Connection → List (NativeByteBuffer × Bool) →
    Option (Connection × List Event)
  | c, [] => some (c, [])
  | c, call :: calls =>
    match sendData env c (some call.1) call.2 false with
    | none => none
    | some r =>
      match sendAll env r.1 calls with
      | none => none
      | some t => some (t.1, r.2 ++ t.2)

/-! ## Inbound: `onReceivedData` -/

/-- Where `restOfTheData` points during `Connection::onReceivedData`: nowhere,
to the object `buffer` points to, or to another object. -/
inductive RestRef where
  | null
  | same
  | other (b : NativeByteBuffer)

/-- The local state of the frame loop: the connection (its `restOfTheData`
member is held in `rest`), the active `buffer`, `parseLaterBuffer` and the
calls made so far. -/
structure ParseState where
  conn : Connection
  buffer : NativeByteBuffer
  rest : RestRef
  parseLaterBuffer : Option NativeByteBuffer
  events : List Event

/-- The connection as it is when `onReceivedData` returns: `restOfTheData` is
stored back. -/
def ParseState.finish (s : ParseState) : Connection × List Event :=
  ({ s.conn with
      restOfTheData :=
        match s.rest with
        | RestRef.null => none
        | RestRef.same => some s.buffer
        | RestRef.other b => some b },
    s.events)

/-- One pass of the frame loop either goes round again or leaves the
function. -/
inductive Step where
  | next (s : ParseState)
  | stop (r : Connection × List Event)

/-- The first-data block at the head of the loop body (known-good address,
per-type timeout). -/
def firstDataSeen (env : Env) (c : Connection) : Connection × List Event :=
  let r : Connection × List Event :=
    if !c.hasSomeDataSinceLastConnect then
      let c : Connection := { c with isTryingNextPort := false }
      let c : Connection :=
        if c.connectionType = ConnectionType.ConnectionTypeProxy then setTimeout env c 5
        else if c.connectionType = ConnectionType.ConnectionTypePush then setTimeout env c (60 * 15)
        else if c.connectionType = ConnectionType.ConnectionTypeUpload then
          if c.manager.networkSlow then setTimeout env c 40 else setTimeout env c 25
        else if c.connectionType = ConnectionType.ConnectionTypeDownload then setTimeout env c 25
        else setTimeout env c c.currentTimeout
      (c, [Event.storeCurrentAddressAndPortNum])
    else (c, [])
  ({ r.1 with hasSomeDataSinceLastConnect := true }, r.2)

/-- The stash of an incomplete header: a fresh 16384-byte buffer takes the
unread bytes of `buffer`, `lastPacketLength` becomes 0 and the old
`restOfTheData` goes back to the pool. -/
def stashHeader (env : Env) (s : ParseState) : ParseState :=
  let w := (getFreeBuffer env 16384).writeBytes s.buffer
  { s with
    conn := { s.conn with lastPacketLength := 0 }
    buffer := w.2
    rest := RestRef.other (w.1.setLimit w.1.position) }

/-- The stash of a frame whose payload is not complete (`len` is the length of
header and payload): `restOfTheData` is kept when it is large enough, otherwise
a fresh buffer of `len` bytes takes the bytes from `mark`. -/
def stashFrame (env : Env) (s : ParseState) (mark len : Nat) : ParseState :=
  let fresh : ParseState :=
    let w := (getFreeBuffer env len).writeBytes (s.buffer.setPosition mark)
    { s with buffer := w.2, rest := RestRef.other w.1 }
  let s : ParseState :=
    match s.rest with
    | RestRef.null => fresh
    | RestRef.same =>
      if s.buffer.capacity < len then fresh
      else { s with buffer := (s.buffer.setPosition s.buffer.limit).setLimit len }
    | RestRef.other r =>
      if r.capacity < len then fresh
      else { s with rest := RestRef.other ((r.setPosition r.limit).setLimit len) }
  { s with conn := { s.conn with lastPacketLength := len } }

/-- The tail of the loop body after a frame was handed over: `restOfTheData` is
released when it is used up and compacted otherwise, and the parse-later
buffer becomes the active one. -/
def afterDelivery (s : ParseState) : ParseState :=
  let used (r : NativeByteBuffer) : Bool :=
    (s.conn.lastPacketLength != 0 && r.position == s.conn.lastPacketLength)
      || (s.conn.lastPacketLength == 0 && !r.hasRemaining)
  let squeeze (r : NativeByteBuffer) : NativeByteBuffer :=
    (r.compact.setLimit r.compact.position).setPosition 0
  let s : ParseState :=
    match s.rest with
    | RestRef.null => s
    | RestRef.same =>
      if used s.buffer then { s with rest := RestRef.null }
      else { s with buffer := squeeze s.buffer }
    | RestRef.other r =>
      if used r then { s with rest := RestRef.null }
      else { s with rest := RestRef.other (squeeze r) }
  match s.parseLaterBuffer with
  | none => s
  | some later =>
    { s with
      buffer := later
      parseLaterBuffer := none
      rest :=
        match s.rest with
        | RestRef.same => RestRef.other s.buffer
        | r => r }

/-- The part of the loop body after the length was decoded: validation, then
either the stash of an incomplete frame or the delivery of the payload.
`currentPacketLength` is the decoded payload length, `header` the size of the
length field (1 or 4), `mark` the offset of the frame in `buffer`. -/
def parseFrame (env : Env) (s : ParseState) (mark currentPacketLength header : Nat) : Step :=
  let len := currentPacketLength + header
  if currentPacketLength % 4 ≠ 0 ∨ currentPacketLength > 2 * 1024 * 1024 then
    let r := reconnect env s.finish.1
    Step.stop (r.1, s.events ++ Event.reconnect :: r.2)
  else if currentPacketLength < s.buffer.remaining ∨ currentPacketLength = s.buffer.remaining then
    let old := s.buffer.limit
    let b := s.buffer.setLimit (s.buffer.position + currentPacketLength)
    let delivered :=
      Event.onConnectionDataReceived (b.slice b.position (b.limit - b.position)) currentPacketLength
    let b := (b.setPosition b.limit).setLimit old
    Step.next (afterDelivery { s with buffer := b, events := s.events ++ [delivered] })
  else Step.stop (stashFrame env s mark len).finish

/-- One pass of the `while (buffer->hasRemaining())` loop of
`Connection::onReceivedData`.  Modelled from the spec: `protocol_type` is
Obfuscated-EF, the only variant, so `currentProtocolType == ProtocolTypeEF`
holds. -/
def parseStep (env : Env) (s : ParseState) : Step :=
  let seen := firstDataSeen env s.conn
  let s : ParseState := { s with conn := seen.1, events := s.events ++ seen.2 }
  let mark := s.buffer.position
  let rb := s.buffer.readByte
  let fByte := rb.1
  if fByte &&& (1 <<< 7) ≠ 0 then
    let b := rb.2.setPosition mark
    if b.remaining < 4 then Step.stop (stashHeader env { s with buffer := b }).finish
    else
      let r := b.readBigInt32
      Step.next
        { s with
          buffer := r.2
          events := s.events ++ [Event.onConnectionQuickAckReceived (r.1 &&& 0x7fffffff)] }
  else if fByte ≠ 0x7f then parseFrame env { s with buffer := rb.2 } mark (fByte * 4) 1
  else
    let b := rb.2.setPosition mark
    if b.remaining < 4 then
      match s.rest with
      | RestRef.null => Step.stop (stashHeader env { s with buffer := b }).finish
      | RestRef.same =>
        if b.position ≠ 0 then Step.stop (stashHeader env { s with buffer := b }).finish
        else Step.stop ({ s with buffer := b.setPosition b.limit } : ParseState).finish
      | RestRef.other r =>
        if r.position ≠ 0 then Step.stop (stashHeader env { s with buffer := b }).finish
        else
          Step.stop
            ({ s with buffer := b, rest := RestRef.other (r.setPosition r.limit) } : ParseState).finish
    else
      let r := b.readInt32
      parseFrame env { s with buffer := r.2 } mark ((r.1 >>> 8) * 4) 4

/-- The `while (buffer->hasRemaining())` loop, run for at most `fuel` passes;
`none` when the passes do not suffice. -/
def parseLoop (env : Env) : Nat → ParseState → Option (Connection × List Event)
  | fuel, s =>
    if !s.buffer.hasRemaining then some s.finish
    else
      match fuel with
      | 0 => none
      | fuel + 1 =>
        match parseStep env s with
        | Step.next t => parseLoop env fuel t
        | Step.stop r => some r

/-- The merge of the received bytes with `restOfTheData` before the loop of
`Connection::onReceivedData`: either the loop starts on the state given, or the
function returns because the buffered frame is still incomplete. -/
def mergeRest (env : Env) (c : Connection) (buffer : NativeByteBuffer) : Step :=
  match c.restOfTheData with
  | none =>
    Step.next
      { conn := c, buffer := buffer, rest := RestRef.null, parseLaterBuffer := none, events := [] }
  | some rest =>
    if c.lastPacketLength = 0 then
      if rest.capacity - rest.position ≥ buffer.limit then
        let w := (rest.setLimit (rest.position + buffer.limit)).writeBytes buffer
        Step.next
          { conn := c, buffer := w.1, rest := RestRef.same, parseLaterBuffer := none, events := [] }
      else
        let newBuffer := getFreeBuffer env (rest.limit + buffer.limit)
        let w1 := newBuffer.writeBytes rest.rewind
        let w2 := w1.1.writeBytes buffer
        Step.next
          { conn := c, buffer := w2.1, rest := RestRef.same, parseLaterBuffer := none, events := [] }
    else
      let missing := (c.lastPacketLength + 4294967296 - rest.position) % 4294967296
      let len := if missing ≤ buffer.limit then missing else buffer.limit
      let oldLimit := buffer.limit
      let w := rest.writeBytes (buffer.setLimit len)
      let buffer := w.2.setLimit oldLimit
      if w.1.position = c.lastPacketLength then
        Step.next
          { conn := c, buffer := w.1, rest := RestRef.same,
            parseLaterBuffer := if buffer.hasRemaining then some buffer else none, events := [] }
      else Step.stop ({ c with restOfTheData := some w.1 }, [])

/-- The adaptive-timeout block at the head of `Connection::onReceivedData`. -/
def countReceived (env : Env) (c : Connection) (limit : Nat) : Connection :=
  let c : Connection := { c with failedConnectionCount := 0 }
  if isAdaptiveType c.connectionType then
    let c : Connection :=
      { c with receivedDataAmount := (c.receivedDataAmount + limit) % 4294967296 }
    if c.receivedDataAmount ≥ 512 * 1024 then
      let c : Connection :=
        if c.currentTimeout > 4 then
          setTimeout env { c with currentTimeout := c.currentTimeout - 2 } (c.currentTimeout - 2)
        else c
      { c with receivedDataAmount := 0 }
    else c
  else c

/-- `Connection::onReceivedData` from its second statement on, that is, applied
to a buffer that is already decrypted.  The loop gets one pass more than there
are bytes to parse. -/
def onReceivedDataDecrypted (env : Env) (c : Connection) (buffer : NativeByteBuffer) :
    Option (Connection × List Event) :=
  match mergeRest env (countReceived env c buffer.limit) buffer with
  | Step.stop r => some r
  | Step.next s =>
    let s : ParseState := { s with buffer := s.buffer.rewind }
    let later := match s.parseLaterBuffer with
      | none => 0
      | some b => b.remaining
    parseLoop env (s.buffer.remaining + later + 1) s

/-- `Connection::onReceivedData`: the received bytes are decrypted in place
with the inbound cipher state, then parsed. -/
def onReceivedData (env : Env) (c : Connection) (buffer : NativeByteBuffer) :
    Option (Connection × List Event) :=
  let r := AES_ctr128_encrypt env.aes (decryptState c) (buffer.slice 0 buffer.limit)
  let c : Connection :=
    { c with decryptIv := r.2.iv, decryptCount := r.2.count, decryptNum := r.2.num }
  onReceivedDataDecrypted env c (buffer.poke 0 r.1)

/-- `READ_BUFFER_SIZE` of `Defines.h`: the capacity of the shared network
buffer and the largest chunk one `recv` returns. -/
def READ_BUFFER_SIZE : Nat := 1024 * 1024 * 2

/-- `ConnectionSocket::checkSocketError(&error)`: the value returned and what
`error` holds afterwards.  `answer` is the `(ret, code)` of `getsockopt`; with
no socket the function returns true and stores nothing in `error`. -/
def checkSocketError (c : Connection) (answer : Int × Int) (error : Int) : Bool × Int :=
  if c.socketFd < 0 then (true, error)
  else (decide (answer.1 ≠ 0 ∨ answer.2 ≠ 0), answer.2)

/-- Modelled from the spec: `ByteStream::discard(count)` (the stream class is
outside the two source files): `count` bytes are marked as sent, and every head
buffer that is fully consumed is released. -/
def discard : List NativeByteBuffer → Nat → List NativeByteBuffer
  | [], _ => []
  | b :: rest, count =>
    if count = 0 then b :: rest
    else if count < b.remaining then { b with position := b.position + count } :: rest
    else discard rest (count - b.remaining)

/-- The `while (true)` loop of the readable part of `ConnectionSocket::onEvent`
over the successive results of `recv`: whether `onEvent` goes on after the loop
(false after `closeSocket(1, -1); return`), the connection and the calls made.
A chunk is at most `READ_BUFFER_SIZE` bytes and is handed over in the shared
network buffer, whose bytes past the chunk are taken to be zero.  The result
is `none` when `onReceivedData` does not return or the results run out. -/
def recvLoop (env : Env) :
    Connection → List (Option (List Nat)) → Option (Bool × Connection × List Event)
  | _, [] => none
  | c, none :: _ =>
    let r := closeSocket env c 1 (-1)
    some (false, r.1, r.2)
  | c, some bytes :: results =>
    let chunk := bytes.take READ_BUFFER_SIZE
    let r : Option (Connection × List Event) :=
      if chunk.length > 0 then
        (onReceivedData env { c with lastEventTime := env.now }
            (NativeByteBuffer.ofList chunk READ_BUFFER_SIZE)).map
          (fun r => (r.1, Event.onReceivedData chunk.length :: r.2))
      else some (c, [])
    match r with
    | none => none
    | some r =>
      if chunk.length ≠ READ_BUFFER_SIZE then some (true, r.1, r.2)
      else (recvLoop env r.1 results).map (fun t => (t.1, t.2.1, r.2 ++ t.2.2))

/-- The writable part of `ConnectionSocket::onEvent` (the body of
`if (events & EPOLLOUT)`): whether `onEvent` goes on after it, the connection
and the calls made. -/
def onEventWritable (env : Env) (c : Connection) : Bool × Connection × List Event :=
  let check := checkSocketError c (env.getsockoptWritable c.socketFd) env.errorGarbage
  if check.1 then
    let r := closeSocket env c 1 check.2
    (false, r.1, r.2)
  else
    let r : Connection × List Event :=
      if !c.onConnectedSent then
        let k := onConnected { c with lastEventTime := env.now }
        ({ k.1 with onConnectedSent := true }, k.2)
      else (c, [])
    let c := r.1
    let remaining := min (queuedBytes c.outgoingByteStream).length READ_BUFFER_SIZE
    if remaining ≠ 0 then
      let sentLength := env.send c.socketFd remaining
      if sentLength < 0 then
        let k := closeSocket env c 1 (-1)
        (false, k.1, r.2 ++ k.2)
      else
        let a := adjustWriteOp env
          { c with outgoingByteStream := discard c.outgoingByteStream sentLength.toNat }
        (true, a.1, r.2 ++ a.2)
    else (true, c, r.2)

/-- `ConnectionSocket::onEvent(events)`: the readable part, then the writable
part, then the hang-up test; the closing `EPOLLERR` test only logs.  The byte
counters of the delegate (`onBytesReceived`, `onBytesSent`) are not recorded.
The result is `none` when `onReceivedData` does not return or the results of
`recv` run out. -/
def onEvent (env : Env) (c : Connection) (events : Nat) : Option (Connection × List Event) :=
  let readable : Option (Bool × Connection × List Event) :=
    if events &&& EPOLLIN ≠ 0 then
      let check := checkSocketError c (env.getsockoptReadable c.socketFd) env.errorGarbage
      if check.1 then
        let r := closeSocket env c 1 check.2
        some (false, r.1, r.2)
      else recvLoop env c env.recv
    else some (true, c, [])
  match readable with
  | none => none
  | some (false, c, evs) => some (c, evs)
  | some (true, c, evs) =>
    let writable : Bool × Connection × List Event :=
      if events &&& EPOLLOUT ≠ 0 then onEventWritable env c else (true, c, [])
    if !writable.1 then some (writable.2.1, evs ++ writable.2.2)
    else if events &&& EPOLLHUP ≠ 0 ∨ events &&& EPOLLRDHUP ≠ 0 then
      let r := closeSocket env writable.2.1 1 (-1)
      some (r.1, evs ++ writable.2.2 ++ r.2)
    else some (writable.2.1, evs ++ writable.2.2)

/-- The decrypted chunks of an inbound stream handed to the parser one after
the other, as `ConnectionSocket::onEvent` does with what `recv` returns; the
calls made are collected in order. -/
def receiveAll (env : Env) : Connection → List (List Nat) → Option (Connection × List Event)
  | c, [] => some (c, [])
  | c, chunk :: chunks =>
    match onReceivedDataDecrypted env c (NativeByteBuffer.ofList chunk READ_BUFFER_SIZE) with
    | none => none
    | some r =>
      match receiveAll env r.1 chunks with
      | none => none
      | some t => some (t.1, r.2 ++ t.2)

/-- The operations on a connection that the layers around it invoke: the
public entry points, the three hooks of the socket driver, and the deferred
`onDisconnectedInternal` that `onDisconnected` posts while `connect` runs. -/
inductive Op where
  | connect
  | onConnected
  | onDisconnected (reason error : Int)
  | suspendConnection (idle : Bool)
  | reconnect
  | sendData (buff : Option NativeByteBuffer) (reportAck encrypted : Bool)
  | onReceivedData (buffer : NativeByteBuffer)
  | scheduledTask (reason error : Int)

/-- The connection after one operation; `none` when the operation does not
return. -/
def Op.apply (env : Env) (c : Connection) : Op → Option Connection
  | Op.connect => some (Tgnet.connect env c).1
  | Op.onConnected => some (Tgnet.onConnected c).1
  | Op.onDisconnected reason error => some (Tgnet.onDisconnected env c reason error).1
  | Op.suspendConnection idle => some (Tgnet.suspendConnection env c idle).1
  | Op.reconnect => some (Tgnet.reconnect env c).1
  | Op.sendData buff reportAck encrypted =>
    (Tgnet.sendData env c buff reportAck encrypted).map Prod.fst
  | Op.onReceivedData buffer => (Tgnet.onReceivedData env c buffer).map Prod.fst
  | Op.scheduledTask reason error => some (onDisconnectedInternal env c reason error).1

/-- A finite sequence of operations, each with the answers the collaborators
give during it. -/
def runOps : Connection → List (Env × Op) → Option Connection
  | c, [] => some c
  | c, step :: steps =>
    match step.2.apply step.1 c with
    | none => none
    | some d => runOps d steps

/-- The connections after `n` successive `onConnected` calls. -/
def connectedTimes (n : Nat) (c : Connection) : Connection :=
  (fun k => (onConnected k).1)^[n] c

/-- The token assigned by the `k`-th `onConnected` call (`k = 1` is the first)
of a run that starts at `c`. -/
def tokenAt (k : Nat) (c : Connection) : Nat := (connectedTimes k c).connectionToken

/-- The connection after a sequence of `onDisconnected(reason, error)` calls,
each with the answers the collaborators give during it. -/
def disconnectAll : Connection → List (Env × Int × Int) → Connection
  | c, [] => c
  | c, step :: steps => disconnectAll (onDisconnected step.1 c step.2.1 step.2.2).1 steps

/-- The part of `Connection::onDisconnectedInternal` before the reconnect
block (lines 514-536): the timer is stopped, the adaptive timeout is widened,
the per-session fields are reset, the state becomes Idle unless it is Suspended
or Idle, and the token is cleared. -/
def disconnectReset (c : Connection) (reason : Int) : Connection :=
  let c : Connection := { c with reconnectTimerStarted := false }
  let c : Connection :=
    if isAdaptiveType c.connectionType then
      if c.wasConnected && decide (reason = 2) && decide (c.currentTimeout < 16) then
        { c with currentTimeout := c.currentTimeout + 2 }
      else c
    else c
  let c : Connection :=
    { c with
      firstPacketSent := false
      restOfTheData := none
      lastPacketLength := 0
      receivedDataAmount := 0
      wasConnected := false }
  let c : Connection :=
    if c.connectionState != TcpConnectionState.TcpConnectionStageSuspended
        && c.connectionState != TcpConnectionState.TcpConnectionStageIdle then
      { c with connectionState := TcpConnectionState.TcpConnectionStageIdle }
    else c
  { c with connectionToken := 0 }

/-- The backoff step of lines 558-567 on the delay: doubled, at most 400. -/
def nextBackoff (t : Nat) : Nat := min (2 * t) 400

/-- The payloads handed to `onConnectionDataReceived`, in call order. -/
def dataPayloads : List Event → List (List Nat)
  | [] => []
  | Event.onConnectionDataReceived payload _ :: rest => payload :: dataPayloads rest
  | _ :: rest => dataPayloads rest

/-- The ids handed to `onConnectionQuickAckReceived`, in call order. -/
def quickAcks : List Event → List Nat
  | [] => []
  | Event.onConnectionQuickAckReceived ackId :: rest => ackId :: quickAcks rest
  | _ :: rest => quickAcks rest

/-- The deliveries of both kinds in call order: a payload (`Sum.inl`) or a
quick-ack id (`Sum.inr`). -/
def deliveries : List Event → List (List Nat ⊕ Nat)
  | [] => []
  | Event.onConnectionDataReceived payload _ :: rest => Sum.inl payload :: deliveries rest
  | Event.onConnectionQuickAckReceived ackId :: rest => Sum.inr ackId :: deliveries rest
  | _ :: rest => deliveries rest

/-- The calls of the frame loop that the claims count: payload deliveries,
quick-acks and `reconnect()`. -/
def Event.isFrameCall : Event → Bool
  | Event.onConnectionDataReceived _ _ => true
  | Event.onConnectionQuickAckReceived _ => true
  | Event.reconnect => true
  | _ => false

/-- The payload deliveries, quick-acks and `reconnect()` calls among the calls
made, in call order. -/
def frameCalls (events : List Event) : List Event := events.filter Event.isFrameCall

/-- The class invariant of `NativeByteBuffer`: `position <= limit <= capacity`. -/
def NativeByteBuffer.WF (b : NativeByteBuffer) : Prop :=
  b.position ≤ b.limit ∧ b.limit ≤ b.capacity

/-- The unread bytes of a buffer, from the position to the limit. -/
def NativeByteBuffer.unread (b : NativeByteBuffer) : List Nat :=
  b.slice b.position (b.limit - b.position)

/-- A data frame as the wire format describes it: the length field and the
payload. -/
structure DataFrame where
  header : List Nat
  payload : List Nat

/-- The bytes of a frame on the wire. -/
def DataFrame.wire (f : DataFrame) : List Nat := f.header ++ f.payload

/-- A valid data frame: a one-byte length field `q < 0x7f` followed by `4 q`
payload bytes, or the four-byte field `0x7f, b1, b2, b3` followed by
`4 (b1 + 256 b2 + 65536 b3)` payload bytes, at most 2 MiB of them.  In both
forms the first byte is below `0x80`. -/
def DataFrame.Valid (f : DataFrame) : Prop :=
  (∃ q, f.header = [q] ∧ q < 0x7f ∧ f.payload.length = q * 4)
  ∨ (∃ b1 b2 b3, f.header = [0x7f, b1, b2, b3] ∧ b1 < 256 ∧ b2 < 256 ∧ b3 < 256
      ∧ f.payload.length = (b1 + b2 * 256 + b3 * 65536) * 4
      ∧ f.payload.length ≤ 2 * 1024 * 1024)

/-- The call that hands the payload of a frame to the layer above. -/
def DataFrame.call (f : DataFrame) : Event :=
  Event.onConnectionDataReceived f.payload f.payload.length

/-- The wire bytes of a sequence of frames. -/
def wireOf (fs : List DataFrame) : List Nat := (fs.map DataFrame.wire).flatten

/-- The wire length of the first frame of a sequence, 0 when there is none. -/
def nextTotal : List DataFrame → Nat
  | [] => 0
  | f :: _ => f.wire.length

/-- The reassembly state holds the bytes `l` of a frame of `total` wire bytes:
nothing is buffered when `l` is empty; otherwise `restOfTheData` holds `l`
from offset 0 with its position after them, and either the length field is
still incomplete (`lastPacketLength = 0`, limit at the position) or
`lastPacketLength` and the limit are `total`. -/
def Stashed (c : Connection) (l : List Nat) (total : Nat) : Prop :=
  match c.restOfTheData with
  | none => l = []
  | some r =>
    l ≠ [] ∧ r.position = l.length ∧ r.slice 0 l.length = l ∧ r.limit ≤ r.capacity
      ∧ ((c.lastPacketLength = 0 ∧ r.limit = l.length ∧ l.length < 4 ∧ l.head? = some 0x7f)
        ∨ (c.lastPacketLength = total ∧ r.limit = total ∧ l.length < total))

/-- The invariant between two calls of `onReceivedData` on a stream of data
frames: `l`, the bytes received and not yet delivered, start the frames `fs`
still to come, stop short of the end of the first one, and are held by the
reassembly state. -/
def Pending (c : Connection) (l : List Nat) (fs : List DataFrame) : Prop :=
  l <+: wireOf fs ∧ (l = [] ∨ l.length < nextTotal fs) ∧ Stashed c l (nextTotal fs)

/-- The invariant at the head of the frame loop on a stream of data frames:
no parse-later buffer, and `restOfTheData` is either null or the active
buffer itself, rewound, non-empty and with `lastPacketLength = 0`. -/
def AtHead (s : ParseState) : Prop :=
  s.parseLaterBuffer = none ∧ s.buffer.WF
    ∧ (s.rest = RestRef.null
      ∨ (s.rest = RestRef.same ∧ s.conn.lastPacketLength = 0 ∧ s.buffer.position = 0
          ∧ s.buffer.position < s.buffer.limit))

/-- How often the frame loop called `reconnect()`. -/
def reconnectCount : List Event → Nat
  | [] => 0
  | Event.reconnect :: rest => reconnectCount rest + 1
  | _ :: rest => reconnectCount rest

/-- The token invariant between operations: no `connect` is running, and the
token is zero unless the state is Connected. -/
def TokenInv (c : Connection) : Prop :=
  c.connectionInProcess = false
    ∧ (c.connectionState ≠ TcpConnectionState.TcpConnectionStageConnected → c.connectionToken = 0)

/-- Two connections agree on state, token and `connectionInProcess`. -/
def SameCore (c d : Connection) : Prop :=
  d.connectionState = c.connectionState ∧ d.connectionToken = c.connectionToken
    ∧ d.connectionInProcess = c.connectionInProcess

/-- The condition under which `onDisconnectedInternal` arms the reconnect
timer for 1000 ms (lines 568-575): a GenericMedia connection whose datacenter
is handshaking as media, or a Generic connection whose datacenter is
handshaking, current or being moved to. -/
def rearmCondition (env : Env) (c : Connection) : Bool :=
  (c.connectionType == ConnectionType.ConnectionTypeGenericMedia && env.isHandshaking true)
    || (c.connectionType == ConnectionType.ConnectionTypeGeneric
        && (env.isHandshaking false
            || decide (env.datacenterId = c.manager.currentDatacenterId)
            || decide (env.datacenterId = c.manager.movingToDatacenterId)))

/-- The port switch flag as the state machine describes it:
`(reason == 2 and was_connected and (not has_data_since_last_connect or
is_custom_port)) or force_next_port`. -/
def switchToNextPort (env : Env) (c : Connection) (reason : Int) : Bool :=
  (decide (reason = 2) && c.wasConnected
      && (!c.hasSomeDataSinceLastConnect || env.isCustomPort c.currentAddressFlags))
    || c.forceNextPort

/-- A connection inside a session: the state is Connecting or Connected, the
socket is open, and the kernel accepts the change of the epoll interest set
that every write asks for. -/
def SessionOpen (env : Env) (c : Connection) : Prop :=
  (c.connectionState = TcpConnectionState.TcpConnectionStageConnecting
      ∨ c.connectionState = TcpConnectionState.TcpConnectionStageConnected)
    ∧ 0 ≤ c.socketFd ∧ env.epollCtlMod c.socketFd = true

/-- The plaintext of one outbound frame: the length field `sendData` stores for
the payload, then the payload, which is the content of `buff` up to its
limit. -/
def plainFrame (call : NativeByteBuffer × Bool) : List Nat :=
  lengthBytes call.1.limit call.2 ++ call.1.slice 0 call.1.limit

/-- The number of bytes one `sendData` call queues after the prelude: the
length field and the payload. -/
def frameSize (call : NativeByteBuffer × Bool) : Nat :=
  lengthSize call.1.limit + call.1.limit

/-- The 64 plaintext bytes of the prelude: the bytes `RAND_bytes` stored, with
the marker `ef ef ef ef` at offsets 56..59 (line 454). -/
def markedBlock (block : List Nat) : List Nat :=
  (List.range 64).map (fun i => if 56 ≤ i ∧ i < 60 then 0xef else block.getD i 0)

/-- The outbound cipher state right after the key derivation, before the
prelude is encrypted, for the random block `block`: key bytes 8..39, IV bytes
40..55, `ecount_buf` zeroed and `num` 0. -/
def initialEncryptState (block : List Nat) : CtrState :=
  { key := (List.range 32).map (fun a => block.getD (a + 8) 0)
    iv := (List.range 16).map (fun a => block.getD (a + 40) 0)
    count := List.replicate 16 0
    num := 0 }

/-- The 64 bytes of the prelude as they are queued (lines 482-483): bytes
0..55 of the random block, then bytes 56..63 of the encryption of the marked
block under the derived outbound state. -/
def preludeBytes (aes : List Nat → List Nat → List Nat) (block : List Nat) : List Nat :=
  (List.range 64).map (fun i =>
    if i < 56 then block.getD i 0
    else (AES_ctr128_encrypt aes (initialEncryptState block) (markedBlock block)).1.getD i 0)

/-- The little-endian 32-bit value of the four bytes of `l` from offset `off`,
as the wire format describes it. -/
def u32le (l : List Nat) (off : Nat) : Nat :=
  l.getD off 0 + 256 * l.getD (off + 1) 0 + 65536 * l.getD (off + 2) 0
    + 16777216 * l.getD (off + 3) 0

/-- The first-word values the prelude must not start with. -/
def blacklist : List Nat :=
  [0x44414548, 0x54534f50, 0x20544547, 0x4954504f, 0xeeeeeeee, 0xdddddddd, 0x02010316]

/-- A candidate block is acceptable, in the words of the wire format: its first
byte is not `0xef`, its first little-endian word is none of the blacklisted
signatures and its second word is not zero. -/
def acceptable (b : List Nat) : Prop :=
  b.getD 0 0 ≠ 0xef ∧ u32le b 0 ∉ blacklist ∧ u32le b 4 ≠ 0

/-- Acceptability can be computed. -/
instance acceptableDecidable (b : List Nat) : Decidable (acceptable b) := by
  unfold acceptable
  infer_instance

/-- The keystream of counter mode as the wire format describes it, indexed by
byte offset: byte `i` is byte `i % 16` of the block cipher applied to the IV
incremented `i / 16` times as a big-endian counter. -/
def keystream (aes : List Nat → List Nat → List Nat) (key iv : List Nat) (i : Nat) : Nat :=
  (aes key (ctr128_inc^[i / 16] iv)).getD (i % 16) 0

/-- The bytes `plain` XORed with the keystream from offset `off` on. -/
def xorStream (aes : List Nat → List Nat → List Nat) (key iv : List Nat) (off : Nat)
    (plain : List Nat) : List Nat :=
  (List.range plain.length).map (fun i => plain.getD i 0 ^^^ keystream aes key iv (off + i))

/-- The state of `AES_ctr128_encrypt` after `off` bytes of the stream under
`key` and `iv`: `num` is `off % 16`, `ivec` has been incremented once per block
started, and inside a block `ecount_buf` holds the keystream block. -/
def CtrAt (aes : List Nat → List Nat → List Nat) (key iv : List Nat) (off : Nat)
    (s : CtrState) : Prop :=
  s.key = key ∧ s.num = off % 16 ∧ s.iv = ctr128_inc^[(off + 15) / 16] iv
    ∧ (off % 16 ≠ 0 → s.count = aes key (ctr128_inc^[off / 16] iv))

/-- A pool that hands out buffers of exactly the size asked for, the identity
cipher block, one accepted random block and system calls that succeed; `recv`
has nothing to read. -/
def sampleEnv : Env :=
  { poolCapacity := fun n => n
    aes := fun _ block => block
    randBlocks := [List.replicate 64 1]
    randByte := 1
    now := 0
    isNetworkAvailable := true
    getCurrentAddress := fun _ => some { address := "10.0.0.1", port := 443, secret := "" }
    getCurrentPort := fun _ => 443
    isCustomPort := fun _ => false
    isRepeatCheckingAddresses := false
    isHandshaking := fun _ => false
    datacenterId := 2
    socketResult := 5
    inetPton := fun _ _ => true
    fcntlOk := true
    connectOk := true
    epollCtlAdd := fun _ => true
    epollCtlMod := fun fd => decide (0 ≤ fd)
    hasPendingRequests := false
    getsockoptReadable := fun _ => (0, 0)
    getsockoptWritable := fun _ => (0, 0)
    errorGarbage := 0
    recv := [some []]
    send := fun _ n => n }

/-- A connection of type Generic as it is after construction: Idle, no socket,
no token, nothing buffered. -/
def sampleConnection : Connection :=
  { outgoingByteStream := []
    eventMaskEvents := 0
    socketFd := -1
    timeout := 12
    onConnectedSent := false
    lastEventTime := 0
    currentNetworkType := 0
    isIpv6 := false
    currentAddress := ""
    currentPort := 0
    waitingForHostResolve := ""
    adjustWriteOpAfterResolve := false
    connectionState := TcpConnectionState.TcpConnectionStageIdle
    connectionType := ConnectionType.ConnectionTypeGeneric
    connectionToken := 0
    hostAddress := ""
    hostPort := 0
    secret := ""
    failedConnectionCount := 0
    willRetryConnectCount := 5
    currentAddressFlags := 0
    firstPacketSent := false
    restOfTheData := none
    lastPacketLength := 0
    hasSomeDataSinceLastConnect := false
    isTryingNextPort := false
    wasConnected := false
    usefullData := false
    usefullDataReceiveTime := 0
    forceNextPort := false
    isMediaConnection := false
    waitForReconnectTimer := false
    connectionInProcess := false
    lastReconnectTimeout := 100
    currentTimeout := 4
    receivedDataAmount := 0
    reconnectTimerStarted := false
    reconnectTimerTimeout := 0
    encryptKey := []
    encryptIv := []
    encryptCount := []
    encryptNum := 0
    decryptKey := []
    decryptIv := []
    decryptCount := []
    decryptNum := 0
    manager :=
      { ipStrategy := IpStrategy.USE_IPV4_ONLY
        lastProtocolUsefullData := false
        lastProtocolIsIpv6 := false
        networkSlow := false
        currentNetworkType := 0
        currentDatacenterId := 2
        movingToDatacenterId := 0
        scheduledTasks := [] }
    lastConnectionToken := 1 }

/-- The `reason` arguments of the `onConnectionClosed` calls, in call order. -/
def closedReasons : List Event → List Int
  | [] => []
  | Event.onConnectionClosed reason :: rest => reason :: closedReasons rest
  | _ :: rest => closedReasons rest

/-- How often the `onDisconnected` hook was invoked: `closeSocket` is its only
caller, and `closeSocket` is the only caller of `detachConnection`, once per
call, so the `detachConnection` calls are counted. -/
def disconnectedCalls : List Event → Nat
  | [] => 0
  | Event.detachConnection :: rest => disconnectedCalls rest + 1
  | _ :: rest => disconnectedCalls rest

/-- How often `openConnection` ran: it is the only caller of
`attachConnection`, once per call. -/
def openedCalls : List Event → Nat
  | [] => 0
  | Event.attachConnection :: rest => openedCalls rest + 1
  | _ :: rest => openedCalls rest

/-- How often the `onReceivedData` hook was invoked. -/
def receivedCalls : List Event → Nat
  | [] => 0
  | Event.onReceivedData _ :: rest => receivedCalls rest + 1
  | _ :: rest => receivedCalls rest

/-- The length decoding of the frame loop (`Connection::onReceivedData`, the
`fByte != 0x7f` test and its two branches) in unsigned 32-bit arithmetic:
`currentPacketLength` for the first byte `fByte` and, in the long form, for the
value `v` of `(uint32_t) buffer->readInt32(nullptr)`. -/
def currentPacketLength (fByte v : Nat) : Nat :=
  if fByte ≠ 0x7f then fByte * 4 % 4294967296 else (v >>> 8) * 4 % 4294967296

/-- The assignment `len = currentPacketLength + (fByte != 0x7f ? 1 : 4)` of the
frame loop, in unsigned 32-bit arithmetic. -/
def len (fByte v : Nat) : Nat :=
  (currentPacketLength fByte v + (if fByte ≠ 0x7f then 1 else 4)) % 4294967296

/-- The length of length field and payload that the length field at offset `m`
announces, computed as the frame loop computes `len`. -/
def announcedLength (bytes : Nat → Nat) (m : Nat) : Nat :=
  if bytes m ≠ 0x7f then bytes m * 4 + 1
  else
    ((bytes m + bytes (m + 1) * 256 + bytes (m + 2) * 65536 + bytes (m + 3) * 16777216) >>> 8)
      * 4 + 4

/-- The bytes of a reassembly buffer that is filled with the `total` bytes of
the frame it waits for: they start with some quick-acks (four bytes each,
first byte with bit 7 set), and the byte after them, if there is one, starts a
length field that, when it is complete, announces `total`. -/
def Framed (bytes : Nat → Nat) (total : Nat) : Prop :=
  ∃ k, (∀ i, i < k → 4 * i < total ∧ bytes (4 * i) &&& (1 <<< 7) ≠ 0)
    ∧ (4 * k < total →
        bytes (4 * k) &&& (1 <<< 7) = 0
          ∧ (bytes (4 * k) ≠ 0x7f ∨ 4 * k + 4 ≤ total → announcedLength bytes (4 * k) = total))

/-- The invariant of the reassembly state between two operations: the buffer
has its cursors in order, and while a frame is awaited (`lastPacketLength` not
0) its limit is the frame length and its bytes are framed however the missing
bytes are filled in. -/
def RestInv (c : Connection) : Prop :=
  match c.restOfTheData with
  | none => True
  | some r =>
    r.WF ∧ (c.lastPacketLength ≠ 0 →
      r.limit = c.lastPacketLength ∧ c.lastPacketLength < 4294967296
        ∧ ∀ bytes : Nat → Nat, (∀ i, i < r.position → bytes i = r.bytes i) →
            Framed bytes c.lastPacketLength)

/-- What an operation other than `onReceivedData` does to the reassembly state:
it leaves buffer and frame length as they are, or it drops the buffer. -/
def RestKept (c d : Connection) : Prop :=
  (d.restOfTheData = c.restOfTheData ∧ d.lastPacketLength = c.lastPacketLength)
    ∨ d.restOfTheData = none

/-- The invariant of the frame loop at its head: the active buffer and the
parse-later buffer have their cursors in order; `restOfTheData` is null or the
active buffer; in the latter case the bytes before the position are
quick-acks, and either no frame is awaited and there is no parse-later buffer,
or the awaited frame fills the buffer up to its limit. -/
def LoopInv (s : ParseState) : Prop :=
  s.buffer.WF ∧ (∀ b, s.parseLaterBuffer = some b → b.WF)
    ∧ (s.rest = RestRef.null
      ∨ (s.rest = RestRef.same
          ∧ (∃ j, s.buffer.position = 4 * j
              ∧ ∀ i, i < j → s.buffer.bytes (4 * i) &&& (1 <<< 7) ≠ 0)
          ∧ ((s.conn.lastPacketLength = 0 ∧ s.parseLaterBuffer = none)
            ∨ (s.conn.lastPacketLength ≠ 0 ∧ s.buffer.limit = s.conn.lastPacketLength
                ∧ s.conn.lastPacketLength < 4294967296
                ∧ Framed s.buffer.bytes s.conn.lastPacketLength))))

/-- The bytes the frame loop has still to parse: the unread bytes of the active
buffer and of the parse-later buffer. -/
def ParseState.pending (s : ParseState) : Nat :=
  s.buffer.remaining
    + (match s.parseLaterBuffer with
      | none => 0
      | some b => b.remaining)

/-- What the operations keep between two connections: a set `forceNextPort`
stays set, the connection type is the same, `connectionInProcess` is the same
or has been cleared, and, when `timeout` is set, `currentTimeout` is the same. -/
def Kept (timeout : Bool) (c d : Connection) : Prop :=
  (c.forceNextPort = true → d.forceNextPort = true)
    ∧ d.connectionType = c.connectionType
    ∧ (d.connectionInProcess = c.connectionInProcess ∨ d.connectionInProcess = false)
    ∧ (timeout = true → d.currentTimeout = c.currentTimeout)

/-- A property `Q` of the connection and of the calls made so far that every
statement of the frame loop of `onReceivedData` keeps: the first-data block,
the stores to `lastPacketLength` and `restOfTheData`, the two deliveries and
`reconnect()`. -/
structure LoopStable (env : Env) (Q : Connection → List Event → Prop) : Prop where
  seen : ∀ c evs, Q c evs → Q (firstDataSeen env c).1 (evs ++ (firstDataSeen env c).2)
  stored : ∀ c evs n, Q c evs → Q { c with lastPacketLength := n } evs
  released : ∀ c evs r, Q c evs → Q { c with restOfTheData := r } evs
  delivered : ∀ c evs payload n,
    Q c evs → Q c (evs ++ [Event.onConnectionDataReceived payload n])
  acked : ∀ c evs ackId, Q c evs → Q c (evs ++ [Event.onConnectionQuickAckReceived ackId])
  reconnected : ∀ c evs,
    Q c evs → Q (reconnect env c).1 (evs ++ Event.reconnect :: (reconnect env c).2)

/-- The part of `Connection::connect` after the address choice (lines 298-340):
the address, secret and port are stored, the per-session fields are reset, the
socket is opened and the connect timeout is set. -/
def connectWith (env : Env) (c : Connection) (choice : Nat × Option TcpAddress × Nat × Bool) :
    Connection × List Event :=
  let isStatic : Bool := decide (c.connectionType = ConnectionType.ConnectionTypeProxy)
  let c : Connection :=
    { c with currentAddressFlags := choice.1, isMediaConnection := choice.2.2.2 }
  let c : Connection :=
    match choice.2.1 with
    | none => { c with hostAddress := "" }
    | some a => { c with hostAddress := a.address, secret := a.secret }
  let c : Connection :=
    match choice.2.1 with
    | some a =>
      if isStatic then { c with hostPort := a.port % 65536 }
      else { c with hostPort := env.getCurrentPort c.currentAddressFlags % 65536 }
    | none => { c with hostPort := env.getCurrentPort c.currentAddressFlags % 65536 }
  let c : Connection :=
    { c with
      reconnectTimerStarted := false
      firstPacketSent := false
      restOfTheData := none
      lastPacketLength := 0
      wasConnected := false
      hasSomeDataSinceLastConnect := false }
  let r := openConnection env c c.hostAddress c.hostPort (decide (choice.2.2.1 ≠ 0))
    c.manager.currentNetworkType
  let c := setTimeout env r.1 (connectTimeout r.1)
  ({ c with connectionInProcess := false }, r.2)

/-- The sample connection inside a session: Connected on descriptor 5, nothing
sent yet. -/
def sampleSession : Connection :=
  { sampleConnection with
    socketFd := 5
    connectionState := TcpConnectionState.TcpConnectionStageConnected
    wasConnected := true
    onConnectedSent := true }

end Tgnet

/-! # Theorems -/

namespace Tgnet
open NativeByteBuffer

/-! ## Bit arithmetic on bytes -/

theorem and_128_of_lt {q : Nat} (h : q < 128) : q &&& 128 = 0 := by
  interval_cases q <;> rfl

theorem and_128_of_ge {b : Nat} (h : 128 ≤ b) (h2 : b < 256) : b &&& 128 ≠ 0 := by
  interval_cases b <;> decide

theorem or_128_of_lt {q : Nat} (h : q < 128) : q ||| 128 = q + 128 := by
  interval_cases q <;> rfl

theorem mul256_or (q r : Nat) (h : r < 256) : q * 256 + r = (q <<< 8) ||| r := by
  rw [Nat.shiftLeft_eq, Nat.mul_comm]
  exact @Nat.mul_add_lt_is_or 8 r h q

theorem long_or_128 (q : Nat) : (q * 256 + 127) ||| 128 = q * 256 + 255 := by
  have h1 : q * 256 + 127 = 2 ^ 8 * q ||| 127 := by
    rw [Nat.mul_comm]; exact @Nat.mul_add_lt_is_or 8 127 (by norm_num) q
  have h2 : q * 256 + 255 = 2 ^ 8 * q ||| 255 := by
    rw [Nat.mul_comm]; exact @Nat.mul_add_lt_is_or 8 255 (by norm_num) q
  rw [h1, h2, Nat.or_assoc]
  rfl

/-! ## Buffers -/

namespace NativeByteBuffer

@[simp] theorem slice_length (b : NativeByteBuffer) (p n : Nat) : (b.slice p n).length = n := by
  simp [slice]

theorem slice_getD (b : NativeByteBuffer) (p n i : Nat) (h : i < n) :
    (b.slice p n).getD i 0 = b.bytes (p + i) := by
  simp [slice, List.getD_eq_getElem?_getD, h]

theorem slice_congr {a b : NativeByteBuffer} {p q n : Nat}
    (h : ∀ i, i < n → a.bytes (p + i) = b.bytes (q + i)) : a.slice p n = b.slice q n := by
  apply List.ext_getElem (by simp)
  intro i h1 h2
  simp only [slice, List.getElem_map, List.getElem_range]
  exact h i (by simpa using h1)

theorem slice_add (b : NativeByteBuffer) (p m n : Nat) :
    b.slice p (m + n) = b.slice p m ++ b.slice (p + m) n := by
  simp only [slice, List.range_add, List.map_append, List.map_map]
  congr 1
  apply List.map_congr_left
  intro i _
  simp [Nat.add_assoc]

theorem bytes_of_slice {b : NativeByteBuffer} {p n : Nat} {V : List Nat}
    (h : b.slice p n = V) (i : Nat) (hi : i < n) : b.bytes (p + i) = V.getD i 0 := by
  rw [← h, slice_getD _ _ _ _ hi]

theorem slice_ofList (data : List Nat) (cap : Nat) :
    (ofList data cap).slice 0 data.length = data := by
  apply List.ext_getElem (by simp)
  intro i h1 h2
  simp [slice, ofList, List.getD_eq_getElem?_getD, h2]

theorem readByte_of_lt {b : NativeByteBuffer} (h : b.position < b.limit) :
    b.readByte = (b.bytes b.position, { b with position := b.position + 1 }) := by
  unfold readByte
  rw [if_neg (by omega)]

theorem readInt32_of_le {b : NativeByteBuffer} (h : b.position + 4 ≤ b.limit) :
    b.readInt32 = (b.bytes b.position + b.bytes (b.position + 1) * 256
        + b.bytes (b.position + 2) * 65536 + b.bytes (b.position + 3) * 16777216,
      { b with position := b.position + 4 }) := by
  unfold readInt32
  rw [if_neg (by omega)]

theorem readBigInt32_of_le {b : NativeByteBuffer} (h : b.position + 4 ≤ b.limit) :
    b.readBigInt32 = (b.bytes b.position * 16777216 + b.bytes (b.position + 1) * 65536
        + b.bytes (b.position + 2) * 256 + b.bytes (b.position + 3),
      { b with position := b.position + 4 }) := by
  unfold readBigInt32
  rw [if_neg (by omega)]

theorem setPosition_of_le {b : NativeByteBuffer} {p : Nat} (h : p ≤ b.limit) :
    b.setPosition p = { b with position := p } := by
  unfold setPosition
  rw [if_neg (by omega)]

theorem setLimit_of_le {b : NativeByteBuffer} {l : Nat} (h : l ≤ b.capacity)
    (hp : b.position ≤ l) : b.setLimit l = { b with limit := l } := by
  unfold setLimit
  rw [if_neg (by omega), if_neg (by omega)]

end NativeByteBuffer

theorem parseFrame_deliver (env : Env) (s : ParseState) (mark cpl header : Nat)
    (h4 : cpl % 4 = 0) (hmax : cpl ≤ 2 * 1024 * 1024)
    (hrem : s.buffer.position + cpl ≤ s.buffer.limit) (hcap : s.buffer.limit ≤ s.buffer.capacity) :
    parseFrame env s mark cpl header
      = Step.next (afterDelivery
          { s with
            buffer := { s.buffer with position := s.buffer.position + cpl }
            events := s.events
              ++ [Event.onConnectionDataReceived (s.buffer.slice s.buffer.position cpl) cpl] }) := by
  unfold parseFrame
  have h1 : ¬ (cpl % 4 ≠ 0 ∨ cpl > 2 * 1024 * 1024) := by omega
  have h2 : cpl < s.buffer.remaining ∨ cpl = s.buffer.remaining := by
    unfold remaining; omega
  simp only [if_neg h1, if_pos h2]
  simp (disch := first | omega | (dsimp only; omega)) only
    [setPosition_of_le, setLimit_of_le, Nat.add_sub_cancel_left]
  rfl


theorem shl_1_7 : (1 <<< 7 : Nat) = 128 := rfl

theorem parseStep_short (env : Env) (s : ParseState) (q : Nat) (hq : q < 127)
    (hb : s.buffer.bytes s.buffer.position = q)
    (hrem : s.buffer.position + 1 + q * 4 ≤ s.buffer.limit)
    (hcap : s.buffer.limit ≤ s.buffer.capacity) :
    parseStep env s
      = Step.next (afterDelivery
          { conn := (firstDataSeen env s.conn).1
            buffer := { s.buffer with position := s.buffer.position + 1 + q * 4 }
            rest := s.rest
            parseLaterBuffer := s.parseLaterBuffer
            events := s.events ++ (firstDataSeen env s.conn).2
              ++ [Event.onConnectionDataReceived (s.buffer.slice (s.buffer.position + 1) (q * 4))
                    (q * 4)] }) := by
  unfold parseStep
  simp only [readByte_of_lt (show s.buffer.position < s.buffer.limit by omega), hb, shl_1_7,
    and_128_of_lt (show q < 128 by omega), ne_eq, not_true_eq_false, if_false,
    show ¬ q = 127 by omega, not_false_eq_true, if_true]
  rw [parseFrame_deliver env _ _ _ _ (by omega) (by omega) (by dsimp only; omega)
    (by dsimp only; omega)]
  rfl

theorem parseStep_long (env : Env) (s : ParseState) (b1 b2 b3 : Nat)
    (hmax : (b1 + b2 * 256 + b3 * 65536) * 4 ≤ 2 * 1024 * 1024)
    (hb0 : s.buffer.bytes s.buffer.position = 127)
    (hb1 : s.buffer.bytes (s.buffer.position + 1) = b1)
    (hb2 : s.buffer.bytes (s.buffer.position + 2) = b2)
    (hb3 : s.buffer.bytes (s.buffer.position + 3) = b3)
    (hrem : s.buffer.position + 4 + (b1 + b2 * 256 + b3 * 65536) * 4 ≤ s.buffer.limit)
    (hcap : s.buffer.limit ≤ s.buffer.capacity) :
    parseStep env s
      = Step.next (afterDelivery
          { conn := (firstDataSeen env s.conn).1
            buffer :=
              { s.buffer with
                position := s.buffer.position + 4 + (b1 + b2 * 256 + b3 * 65536) * 4 }
            rest := s.rest
            parseLaterBuffer := s.parseLaterBuffer
            events := s.events ++ (firstDataSeen env s.conn).2
              ++ [Event.onConnectionDataReceived
                    (s.buffer.slice (s.buffer.position + 4) ((b1 + b2 * 256 + b3 * 65536) * 4))
                    ((b1 + b2 * 256 + b3 * 65536) * 4)] }) := by
  have hv : (127 + b1 * 256 + b2 * 65536 + b3 * 16777216) >>> 8 = b1 + b2 * 256 + b3 * 65536 := by
    rw [Nat.shiftRight_eq_div_pow]; omega
  unfold parseStep
  simp (disch := first | omega | (dsimp only; omega)) only
    [readByte_of_lt (show s.buffer.position < s.buffer.limit by omega), hb0, shl_1_7,
    and_128_of_lt (show 127 < 128 by omega), ne_eq, not_true_eq_false, if_false,
    setPosition_of_le, remaining, readInt32_of_le, hb1, hb2, hb3, hv]
  rw [parseFrame_deliver env _ _ _ _ (by omega) (by omega) (by dsimp only; omega)
    (by dsimp only; omega)]
  rw [if_neg (show ¬ (s.buffer.limit - s.buffer.position < 4) by omega)]
  rfl

namespace NativeByteBuffer

theorem unread_length (b : NativeByteBuffer) : b.unread.length = b.limit - b.position := by
  simp [unread]

theorem unread_split {b : NativeByteBuffer} {A B : List Nat} (h : b.unread = A ++ B) :
    b.slice b.position A.length = A ∧ b.slice (b.position + A.length) B.length = B
      ∧ b.limit - b.position = A.length + B.length := by
  have hl : b.limit - b.position = A.length + B.length := by
    rw [← unread_length, h, List.length_append]
  unfold unread at h
  rw [hl, slice_add] at h
  have := List.append_inj h (by simp)
  exact ⟨this.1, this.2, hl⟩

theorem unread_advance {b : NativeByteBuffer} {A B : List Nat} (h : b.unread = A ++ B) :
    ({ b with position := b.position + A.length } : NativeByteBuffer).unread = B := by
  obtain ⟨_, h2, h3⟩ := unread_split h
  unfold unread
  dsimp only
  rw [show b.limit - (b.position + A.length) = B.length by omega]
  exact h2

theorem unread_eq_nil {b : NativeByteBuffer} (h : b.unread = []) : ¬ b.position < b.limit := by
  have := unread_length b
  rw [h] at this
  simp at this
  omega

end NativeByteBuffer

theorem firstDataSeen_lastPacketLength (env : Env) (c : Connection) :
    (firstDataSeen env c).1.lastPacketLength = c.lastPacketLength := by
  unfold firstDataSeen setTimeout
  dsimp only
  split_ifs <;> rfl

theorem firstDataSeen_frameCalls (env : Env) (c : Connection) :
    frameCalls (firstDataSeen env c).2 = [] := by
  unfold firstDataSeen
  dsimp only
  split_ifs <;> rfl

theorem frameCalls_append (a b : List Event) : frameCalls (a ++ b) = frameCalls a ++ frameCalls b := by
  simp [frameCalls]

theorem squeezed_unread (b : NativeByteBuffer) :
    ({ bytes := fun i => if i < b.limit - b.position then b.bytes (b.position + i) else b.bytes i
       position := 0
       limit := b.limit - b.position
       capacity := b.capacity } : NativeByteBuffer).unread = b.unread := by
  unfold unread
  dsimp only
  rw [Nat.sub_zero]
  apply slice_congr
  intro i hi
  simp [hi]

theorem getFreeBuffer_eq (env : Env) (size : Nat) (h : size ≤ env.poolCapacity size) :
    getFreeBuffer env size
      = { bytes := fun _ => 0, position := 0, limit := size, capacity := env.poolCapacity size } := by
  unfold getFreeBuffer
  rw [setLimit_of_le (by dsimp only; omega) (by dsimp only; omega)]
  rfl

/-- Copying the unread bytes of `src` into a fresh pool buffer of `size` bytes. -/
theorem fresh_copy (env : Env) (size : Nat) (h : size ≤ env.poolCapacity size)
    (src : NativeByteBuffer) (h1 : src.position < src.limit)
    (h2 : src.limit - src.position ≤ size) :
    let w := (getFreeBuffer env size).writeBytes src
    w.1.position = src.limit - src.position ∧ w.1.limit = size
      ∧ w.1.capacity = env.poolCapacity size
      ∧ w.1.slice 0 (src.limit - src.position) = src.unread := by
  rw [getFreeBuffer_eq env size h]
  unfold writeBytes
  dsimp only
  rw [if_neg (by omega), if_neg (by omega)]
  refine ⟨by simp, rfl, rfl, ?_⟩
  unfold unread
  apply slice_congr
  intro i hi
  simp [hi]

theorem DataFrame.wire_length (f : DataFrame) :
    f.wire.length = f.header.length + f.payload.length := by
  simp [DataFrame.wire]

theorem DataFrame.Valid.wire_pos {f : DataFrame} (hf : f.Valid) : 0 < f.wire.length := by
  rw [DataFrame.wire_length]
  rcases hf with ⟨q, h1, _, _⟩ | ⟨b1, b2, b3, h1, _⟩ <;> simp [h1]

theorem DataFrame.Valid.wire_le {f : DataFrame} (hf : f.Valid) :
    f.wire.length ≤ 2 * 1024 * 1024 + 4 := by
  rw [DataFrame.wire_length]
  rcases hf with ⟨q, h1, h2, h3⟩ | ⟨b1, b2, b3, h1, _, _, _, _, h6⟩
  · simp [h1, h3]; omega
  · simp [h1]; omega

/-- On a complete valid frame at the position of the active buffer, one pass
of the loop hands over its payload and moves behind it. -/
theorem parseStep_frame (env : Env) (s : ParseState) (f : DataFrame) (V : List Nat)
    (hf : f.Valid) (hcap : s.buffer.limit ≤ s.buffer.capacity)
    (hu : s.buffer.unread = f.wire ++ V) :
    parseStep env s
      = Step.next (afterDelivery
          { conn := (firstDataSeen env s.conn).1
            buffer := { s.buffer with position := s.buffer.position + f.wire.length }
            rest := s.rest
            parseLaterBuffer := s.parseLaterBuffer
            events := s.events ++ (firstDataSeen env s.conn).2 ++ [f.call] }) := by
  obtain ⟨h1, _, h3⟩ := unread_split hu
  have hpay : s.buffer.slice (s.buffer.position + f.header.length) f.payload.length
      = f.payload := by
    have h1c := h1
    rw [DataFrame.wire_length, slice_add] at h1c
    exact (List.append_inj (show _ = f.header ++ f.payload from h1c) (by simp)).2
  rcases hf with ⟨q, e1, e2, e3⟩ | ⟨b1, b2, b3, e1, _, _, _, e5, e6⟩
  · have hw : f.wire = q :: f.payload := by simp [DataFrame.wire, e1]
    have hlen : f.wire.length = 1 + q * 4 := by simp [hw, e3]; omega
    rw [hlen] at h1 h3
    have hb : s.buffer.bytes s.buffer.position = q := by
      have := bytes_of_slice h1 0 (by omega)
      simpa [hw] using this
    have hp : s.buffer.slice (s.buffer.position + 1) (q * 4) = f.payload := by
      simpa [e1, e3] using hpay
    rw [parseStep_short env s q (by omega) hb (by omega) hcap, hp, hlen]
    simp only [DataFrame.call, e3, Nat.add_assoc]
  · have hw : f.wire = 127 :: b1 :: b2 :: b3 :: f.payload := by simp [DataFrame.wire, e1]
    have hlen : f.wire.length = 4 + (b1 + b2 * 256 + b3 * 65536) * 4 := by
      simp [hw, e5]; omega
    rw [hlen] at h1 h3
    have hb0 : s.buffer.bytes s.buffer.position = 127 := by
      have := bytes_of_slice h1 0 (by omega)
      simpa [hw] using this
    have hb1 : s.buffer.bytes (s.buffer.position + 1) = b1 := by
      have := bytes_of_slice h1 1 (by omega)
      simpa [hw] using this
    have hb2 : s.buffer.bytes (s.buffer.position + 2) = b2 := by
      have := bytes_of_slice h1 2 (by omega)
      simpa [hw] using this
    have hb3 : s.buffer.bytes (s.buffer.position + 3) = b3 := by
      have := bytes_of_slice h1 3 (by omega)
      simpa [hw] using this
    have hp : s.buffer.slice (s.buffer.position + 4) ((b1 + b2 * 256 + b3 * 65536) * 4)
        = f.payload := by
      simpa [e1, e5] using hpay
    rw [parseStep_long env s b1 b2 b3 (by omega) hb0 hb1 hb2 hb3 (by omega) hcap, hp, hlen]
    simp only [DataFrame.call, e5, Nat.add_assoc]

theorem afterDelivery_null (conn : Connection) (buffer : NativeByteBuffer) (events : List Event) :
    afterDelivery ⟨conn, buffer, RestRef.null, none, events⟩
      = ⟨conn, buffer, RestRef.null, none, events⟩ := rfl

theorem afterDelivery_same_used (conn : Connection) (buffer : NativeByteBuffer)
    (events : List Event) (h3 : conn.lastPacketLength = 0)
    (h4 : ¬ buffer.position < buffer.limit) :
    afterDelivery ⟨conn, buffer, RestRef.same, none, events⟩
      = ⟨conn, buffer, RestRef.null, none, events⟩ := by
  simp [afterDelivery, h3, hasRemaining, h4]

theorem afterDelivery_same_squeeze (conn : Connection) (buffer : NativeByteBuffer)
    (events : List Event) (h3 : conn.lastPacketLength = 0)
    (h4 : buffer.position < buffer.limit) (hcap : buffer.limit ≤ buffer.capacity) :
    afterDelivery ⟨conn, buffer, RestRef.same, none, events⟩
      = ⟨conn,
          { bytes := fun i =>
              if i < buffer.limit - buffer.position then buffer.bytes (buffer.position + i)
              else buffer.bytes i
            position := 0
            limit := buffer.limit - buffer.position
            capacity := buffer.capacity },
          RestRef.same, none, events⟩ := by
  unfold afterDelivery
  simp only [h3, hasRemaining, h4, compact, if_neg (show ¬ buffer.position = buffer.limit by omega)]
  simp (disch := first | omega | (dsimp only; omega)) [setLimit_of_le, setPosition_of_le]

theorem afterDelivery_same_complete (conn : Connection) (buffer : NativeByteBuffer)
    (later : Option NativeByteBuffer) (events : List Event)
    (h3 : conn.lastPacketLength ≠ 0) (h4 : buffer.position = conn.lastPacketLength) :
    afterDelivery ⟨conn, buffer, RestRef.same, later, events⟩
      = ⟨conn, later.getD buffer, RestRef.null, none, events⟩ := by
  unfold afterDelivery
  cases later <;> simp [h3, h4]

/-- At the head of the loop, a complete valid frame is handed over and the loop
is at its head again on the bytes after the frame. -/
theorem deliver_step (env : Env) (s : ParseState) (f : DataFrame) (V : List Nat)
    (hf : f.Valid) (hs : AtHead s) (hu : s.buffer.unread = f.wire ++ V) :
    ∃ s1, parseStep env s = Step.next s1 ∧ AtHead s1 ∧ s1.buffer.unread = V
      ∧ s1.events = s.events ++ (firstDataSeen env s.conn).2 ++ [f.call] := by
  obtain ⟨hl, hwf, hmode⟩ := hs
  obtain ⟨_, _, h3⟩ := unread_split hu
  have hpos := hf.wire_pos
  rw [parseStep_frame env s f V hf hwf.2 hu, hl]
  have hadv := unread_advance hu
  have hw1 : s.buffer.position ≤ s.buffer.limit := hwf.1
  have hw2 : s.buffer.limit ≤ s.buffer.capacity := hwf.2
  rcases hmode with hnull | ⟨hsame, hL, hp0, hlt⟩
  · rw [hnull, afterDelivery_null]
    exact ⟨_, rfl, ⟨rfl, ⟨by dsimp only; omega, hwf.2⟩, Or.inl rfl⟩, hadv, rfl⟩
  · rw [hsame]
    have hL1 : (firstDataSeen env s.conn).1.lastPacketLength = 0 := by
      rw [firstDataSeen_lastPacketLength]; exact hL
    by_cases hV : V = []
    · rw [afterDelivery_same_used _ _ _ hL1 (by dsimp only; rw [hV] at h3; simp at h3; omega)]
      exact ⟨_, rfl, ⟨rfl, ⟨by dsimp only; omega, hwf.2⟩, Or.inl rfl⟩, hadv, rfl⟩
    · have hVl : 0 < V.length := List.length_pos.mpr hV
      rw [afterDelivery_same_squeeze _
        { s.buffer with position := s.buffer.position + f.wire.length } _ hL1
        (by dsimp only; omega) hwf.2]
      refine ⟨_, rfl, ⟨rfl, ⟨by dsimp only; omega, by dsimp only; omega⟩,
        Or.inr ⟨rfl, hL1, rfl, by dsimp only; omega⟩⟩, ?_, rfl⟩
      exact (squeezed_unread _).trans hadv

theorem parseStep_short_cut (env : Env) (s : ParseState) (q : Nat) (hq : q < 127)
    (hb : s.buffer.bytes s.buffer.position = q) (hlt : s.buffer.position < s.buffer.limit)
    (hrem : s.buffer.limit < s.buffer.position + 1 + q * 4) :
    parseStep env s
      = Step.stop (stashFrame env
          { conn := (firstDataSeen env s.conn).1
            buffer := { s.buffer with position := s.buffer.position + 1 }
            rest := s.rest
            parseLaterBuffer := s.parseLaterBuffer
            events := s.events ++ (firstDataSeen env s.conn).2 } s.buffer.position (q * 4 + 1)).finish := by
  unfold parseStep
  simp only [readByte_of_lt hlt, hb, shl_1_7,
    and_128_of_lt (show q < 128 by omega), ne_eq, not_true_eq_false, if_false,
    show ¬ q = 127 by omega, not_false_eq_true, if_true]
  unfold parseFrame
  dsimp only
  rw [if_neg (by omega), if_neg (by unfold remaining; dsimp only; omega)]

theorem parseStep_long_cut (env : Env) (s : ParseState) (b1 b2 b3 : Nat)
    (hmax : (b1 + b2 * 256 + b3 * 65536) * 4 ≤ 2 * 1024 * 1024)
    (hb0 : s.buffer.bytes s.buffer.position = 127)
    (hb1 : s.buffer.bytes (s.buffer.position + 1) = b1)
    (hb2 : s.buffer.bytes (s.buffer.position + 2) = b2)
    (hb3 : s.buffer.bytes (s.buffer.position + 3) = b3)
    (hhdr : s.buffer.position + 4 ≤ s.buffer.limit)
    (hrem : s.buffer.limit < s.buffer.position + 4 + (b1 + b2 * 256 + b3 * 65536) * 4) :
    parseStep env s
      = Step.stop (stashFrame env
          { conn := (firstDataSeen env s.conn).1
            buffer := { s.buffer with position := s.buffer.position + 4 }
            rest := s.rest
            parseLaterBuffer := s.parseLaterBuffer
            events := s.events ++ (firstDataSeen env s.conn).2 } s.buffer.position
          ((b1 + b2 * 256 + b3 * 65536) * 4 + 4)).finish := by
  have hv : (127 + b1 * 256 + b2 * 65536 + b3 * 16777216) >>> 8 = b1 + b2 * 256 + b3 * 65536 := by
    rw [Nat.shiftRight_eq_div_pow]; omega
  unfold parseStep
  simp (disch := first | omega | (dsimp only; omega)) only
    [readByte_of_lt (show s.buffer.position < s.buffer.limit by omega), hb0, shl_1_7,
    and_128_of_lt (show 127 < 128 by omega), ne_eq, not_true_eq_false, if_false,
    setPosition_of_le, remaining, readInt32_of_le, hb1, hb2, hb3, hv]
  rw [if_neg (show ¬ (s.buffer.limit - s.buffer.position < 4) by omega)]
  unfold parseFrame
  dsimp only
  rw [if_neg (by omega), if_neg (by unfold remaining; dsimp only; omega)]

theorem parseStep_long_incomplete (env : Env) (s : ParseState)
    (hb0 : s.buffer.bytes s.buffer.position = 127)
    (hlt : s.buffer.position < s.buffer.limit)
    (hhdr : s.buffer.limit < s.buffer.position + 4) :
    parseStep env s
      = match s.rest with
        | RestRef.null =>
          Step.stop (stashHeader env
            { conn := (firstDataSeen env s.conn).1
              buffer := s.buffer
              rest := s.rest
              parseLaterBuffer := s.parseLaterBuffer
              events := s.events ++ (firstDataSeen env s.conn).2 }).finish
        | RestRef.same =>
          if s.buffer.position ≠ 0 then
            Step.stop (stashHeader env
              { conn := (firstDataSeen env s.conn).1
                buffer := s.buffer
                rest := s.rest
                parseLaterBuffer := s.parseLaterBuffer
                events := s.events ++ (firstDataSeen env s.conn).2 }).finish
          else
            Step.stop
              ({ conn := (firstDataSeen env s.conn).1
                 buffer := { s.buffer with position := s.buffer.limit }
                 rest := s.rest
                 parseLaterBuffer := s.parseLaterBuffer
                 events := s.events ++ (firstDataSeen env s.conn).2 } : ParseState).finish
        | RestRef.other r =>
          if r.position ≠ 0 then
            Step.stop (stashHeader env
              { conn := (firstDataSeen env s.conn).1
                buffer := s.buffer
                rest := s.rest
                parseLaterBuffer := s.parseLaterBuffer
                events := s.events ++ (firstDataSeen env s.conn).2 }).finish
          else
            Step.stop
              ({ conn := (firstDataSeen env s.conn).1
                 buffer := s.buffer
                 rest := RestRef.other (r.setPosition r.limit)
                 parseLaterBuffer := s.parseLaterBuffer
                 events := s.events ++ (firstDataSeen env s.conn).2 } : ParseState).finish := by
  unfold parseStep
  simp (disch := first | omega | (dsimp only; omega)) only
    [readByte_of_lt hlt, hb0, shl_1_7,
    and_128_of_lt (show 127 < 128 by omega), ne_eq, not_true_eq_false, if_false,
    setPosition_of_le, remaining]
  rw [if_pos (show s.buffer.limit - s.buffer.position < 4 by omega)]

theorem Stashed.of_frame {c : Connection} {r : NativeByteBuffer} {V : List Nat} {total : Nat}
    (h1 : c.restOfTheData = some r) (h2 : c.lastPacketLength = total) (hne : V ≠ [])
    (hp : r.position = V.length) (hs : r.slice 0 V.length = V) (hl : r.limit = total)
    (hc : total ≤ r.capacity) (hlt : V.length < total) : Stashed c V total := by
  unfold Stashed
  rw [h1]
  exact ⟨hne, hp, hs, by omega, Or.inr ⟨h2, hl, hlt⟩⟩

theorem Stashed.of_header {c : Connection} {r : NativeByteBuffer} {V : List Nat} {total : Nat}
    (h1 : c.restOfTheData = some r) (h2 : c.lastPacketLength = 0) (hne : V ≠ [])
    (hp : r.position = V.length) (hs : r.slice 0 V.length = V) (hl : r.limit = V.length)
    (hc : r.limit ≤ r.capacity) (hlt : V.length < 4) (hh : V.head? = some 0x7f) :
    Stashed c V total := by
  unfold Stashed
  rw [h1]
  exact ⟨hne, hp, hs, hc, Or.inl ⟨h2, hl, hlt, hh⟩⟩

/-- The stash of an incomplete frame into a fresh buffer of `len` bytes holds
the unread bytes from `mark`. -/
theorem stashFrame_fresh (env : Env) (hpool : ∀ n, n ≤ env.poolCapacity n)
    (conn : Connection) (b : NativeByteBuffer) (mark len : Nat) (V : List Nat)
    (hm : mark < b.limit) (hV : b.slice mark (b.limit - mark) = V) (hlen : V.length < len) :
    Stashed
      { conn with
        lastPacketLength := len
        restOfTheData := some ((getFreeBuffer env len).writeBytes (b.setPosition mark)).1 }
      V len := by
  have hVl : V.length = b.limit - mark := by rw [← hV]; simp
  have hne : V ≠ [] := by
    intro h; rw [h] at hVl; simp at hVl; omega
  rw [setPosition_of_le (by omega)]
  obtain ⟨f1, f2, f3, f4⟩ := fresh_copy env len (hpool len)
    ({ b with position := mark } : NativeByteBuffer) (by dsimp only; omega) (by dsimp only; omega)
  dsimp only at f1 f2 f3 f4
  refine Stashed.of_frame rfl rfl hne (by rw [f1, hVl]) ?_ f2 (by rw [f3]; exact hpool len) hlen
  rw [hVl, f4]
  exact hV

theorem prefix_getD {V W : List Nat} (h : V <+: W) (i : Nat) (hi : i < V.length) :
    V.getD i 0 = W.getD i 0 := by
  obtain ⟨t, rfl⟩ := h
  simp [List.getD_eq_getElem?_getD, List.getElem?_append_left hi]

theorem prefix_head {V W : List Nat} (h : V <+: W) (hne : V ≠ []) : V.head? = some (W.getD 0 0) := by
  cases V with
  | nil => exact absurd rfl hne
  | cons v V =>
    have := prefix_getD h 0 (by simp)
    simp at this
    simp [this]

/-- The stash of an incomplete length field into a fresh buffer. -/
theorem stashHeader_fresh (env : Env) (hpool : ∀ n, n ≤ env.poolCapacity n)
    (conn : Connection) (b : NativeByteBuffer) (total : Nat) (V : List Nat)
    (hm : b.position < b.limit) (hV : b.unread = V) (hlen : V.length < 4)
    (hh : V.head? = some 0x7f) :
    Stashed
      { conn with
        lastPacketLength := 0
        restOfTheData :=
          some (((getFreeBuffer env 16384).writeBytes b).1.setLimit
            ((getFreeBuffer env 16384).writeBytes b).1.position) }
      V total := by
  have hVl : V.length = b.limit - b.position := by rw [← hV]; simp [unread]
  have hne : V ≠ [] := by
    intro h; rw [h] at hVl; simp at hVl; omega
  obtain ⟨f1, f2, f3, f4⟩ := fresh_copy env 16384 (hpool _) b hm (by omega)
  have hcap := hpool 16384
  rw [setLimit_of_le (by omega) (by omega)]
  refine Stashed.of_header rfl rfl hne (by dsimp only; rw [f1, hVl]) ?_ (by dsimp only; rw [f1, hVl])
    (by dsimp only; omega) hlen hh
  rw [hVl]
  exact f4.trans hV

/-- The in-place stash of an incomplete frame: `restOfTheData` is the active
buffer, rewound, and stays so with its limit moved to the frame length. -/
theorem stashFrame_inplace (conn : Connection) (b : NativeByteBuffer) (k len : Nat) (V : List Nat)
    (hp : b.position = 0) (hV : b.unread = V) (hlt : b.position < b.limit)
    (hlen : V.length < len) (hcap : len ≤ b.capacity) (hL : conn.lastPacketLength = len) :
    Stashed
      { conn with
        restOfTheData :=
          some ((({ b with position := k } : NativeByteBuffer).setPosition b.limit).setLimit len) }
      V len := by
  have hVl : V.length = b.limit := by rw [← hV]; simp [unread, hp]
  have hne : V ≠ [] := by
    intro h; rw [h] at hVl; simp at hVl; omega
  rw [setPosition_of_le (by dsimp only; omega), setLimit_of_le (by dsimp only; omega)
    (by dsimp only; omega)]
  have hs : b.slice 0 b.limit = V := by
    rw [← hV]; unfold unread; rw [hp, Nat.sub_zero]
  refine Stashed.of_frame rfl hL hne (by dsimp only; omega) ?_ rfl hcap hlen
  rw [hVl]
  exact hs

/-- At the head of the loop, an incomplete valid frame is stashed: the function
returns and the reassembly state holds the unread bytes. -/
theorem stash_step (env : Env) (hpool : ∀ n, n ≤ env.poolCapacity n) (s : ParseState)
    (f : DataFrame) (hf : f.Valid) (hs : AtHead s) (hne : s.buffer.unread ≠ [])
    (hpre : s.buffer.unread <+: f.wire) (hlen : s.buffer.unread.length < f.wire.length) :
    ∃ c, parseStep env s = Step.stop (c, s.events ++ (firstDataSeen env s.conn).2)
      ∧ Stashed c s.buffer.unread f.wire.length := by
  obtain ⟨hl, hwf, hmode⟩ := hs
  have hw1 : s.buffer.position ≤ s.buffer.limit := hwf.1
  have hw2 : s.buffer.limit ≤ s.buffer.capacity := hwf.2
  have hVl : s.buffer.unread.length = s.buffer.limit - s.buffer.position := unread_length _
  have hVpos : 0 < s.buffer.unread.length := List.length_pos.mpr hne
  have hbyte : ∀ i, i < s.buffer.limit - s.buffer.position →
      s.buffer.bytes (s.buffer.position + i) = f.wire.getD i 0 := by
    intro i hi
    rw [bytes_of_slice (V := s.buffer.unread) rfl i hi]
    exact prefix_getD hpre i (by omega)
  have hL1 : (firstDataSeen env s.conn).1.lastPacketLength = s.conn.lastPacketLength :=
    firstDataSeen_lastPacketLength env s.conn
  rcases hf with ⟨q, e1, e2, e3⟩ | ⟨b1, b2, b3, e1, _, _, _, e5, e6⟩
  · have hw : f.wire = q :: f.payload := by simp [DataFrame.wire, e1]
    have hwl : f.wire.length = q * 4 + 1 := by simp [hw, e3]
    have hb : s.buffer.bytes s.buffer.position = q := by
      have := hbyte 0 (by omega)
      simpa [hw] using this
    rw [parseStep_short_cut env s q e2 hb (by omega) (by omega), hwl]
    rcases hmode with hnull | ⟨hsame, hL, hp0, hlt⟩
    · rw [hnull]
      exact ⟨_, rfl, stashFrame_fresh env hpool _ _ _ _ _ (by dsimp only; omega) rfl (by omega)⟩
    · rw [hsame]
      by_cases hc : s.buffer.capacity < q * 4 + 1
      · refine ⟨_, ?_, stashFrame_fresh env hpool (firstDataSeen env s.conn).1
          ({ s.buffer with position := s.buffer.position + 1 } : NativeByteBuffer)
          s.buffer.position _ _ (by dsimp only; omega) rfl (by omega)⟩
        simp only [stashFrame, if_pos hc, ParseState.finish]
      · refine ⟨_, ?_, stashFrame_inplace
          { (firstDataSeen env s.conn).1 with lastPacketLength := q * 4 + 1 } s.buffer
          (s.buffer.position + 1) (q * 4 + 1) _ hp0 rfl hlt (by omega) (by omega) rfl⟩
        simp only [stashFrame, if_neg hc, ParseState.finish]
  · have hw : f.wire = 127 :: b1 :: b2 :: b3 :: f.payload := by simp [DataFrame.wire, e1]
    have hwl : f.wire.length = (b1 + b2 * 256 + b3 * 65536) * 4 + 4 := by simp [hw, e5]
    have hb0 : s.buffer.bytes s.buffer.position = 127 := by
      have := hbyte 0 (by omega)
      simpa [hw] using this
    by_cases h4 : s.buffer.limit < s.buffer.position + 4
    · have hh : s.buffer.unread.head? = some 0x7f := by
        rw [prefix_head hpre hne, hw]; rfl
      rw [parseStep_long_incomplete env s hb0 (by omega) h4]
      rcases hmode with hnull | ⟨hsame, hL, hp0, hlt⟩
      · rw [hnull]
        exact ⟨_, rfl, stashHeader_fresh env hpool _ _ _ _ (by dsimp only; omega) rfl (by omega) hh⟩
      · rw [hsame]
        dsimp only
        rw [if_neg (by simp [hp0])]
        refine ⟨_, rfl, Stashed.of_header rfl (by dsimp only; rw [hL1, hL]) hne
          (by dsimp only; omega) ?_ (by dsimp only; omega) (by dsimp only; omega) (by omega) hh⟩
        rw [hVl]
        unfold unread
        rw [hp0, Nat.sub_zero]
        rfl
    · have hb1 : s.buffer.bytes (s.buffer.position + 1) = b1 := by
        have := hbyte 1 (by omega)
        simpa [hw] using this
      have hb2 : s.buffer.bytes (s.buffer.position + 2) = b2 := by
        have := hbyte 2 (by omega)
        simpa [hw] using this
      have hb3 : s.buffer.bytes (s.buffer.position + 3) = b3 := by
        have := hbyte 3 (by omega)
        simpa [hw] using this
      rw [parseStep_long_cut env s b1 b2 b3 (by omega) hb0 hb1 hb2 hb3 (by omega) (by omega),
        hwl]
      rcases hmode with hnull | ⟨hsame, hL, hp0, hlt⟩
      · rw [hnull]
        exact ⟨_, rfl, stashFrame_fresh env hpool _ _ _ _ _ (by dsimp only; omega) rfl (by omega)⟩
      · rw [hsame]
        by_cases hc : s.buffer.capacity < (b1 + b2 * 256 + b3 * 65536) * 4 + 4
        · refine ⟨_, ?_, stashFrame_fresh env hpool (firstDataSeen env s.conn).1
            ({ s.buffer with position := s.buffer.position + 4 } : NativeByteBuffer)
            s.buffer.position _ _ (by dsimp only; omega) rfl (by omega)⟩
          simp only [stashFrame, if_pos hc, ParseState.finish]
        · refine ⟨_, ?_, stashFrame_inplace
            { (firstDataSeen env s.conn).1 with
              lastPacketLength := (b1 + b2 * 256 + b3 * 65536) * 4 + 4 } s.buffer
            (s.buffer.position + 4) ((b1 + b2 * 256 + b3 * 65536) * 4 + 4) _ hp0 rfl hlt
            (by omega) (by omega) rfl⟩
          simp only [stashFrame, if_neg hc, ParseState.finish]

theorem wireOf_cons (f : DataFrame) (fs : List DataFrame) : wireOf (f :: fs) = f.wire ++ wireOf fs := by
  simp [wireOf]

theorem wireOf_nil : wireOf [] = [] := rfl

theorem parseLoop_done (env : Env) (fuel : Nat) (s : ParseState)
    (h : ¬ s.buffer.position < s.buffer.limit) : parseLoop env fuel s = some s.finish := by
  cases fuel <;> simp [parseLoop, hasRemaining, h]

theorem parseLoop_step (env : Env) (fuel : Nat) (s : ParseState)
    (h : s.buffer.position < s.buffer.limit) :
    parseLoop env (fuel + 1) s
      = match parseStep env s with
        | Step.next t => parseLoop env fuel t
        | Step.stop r => some r := by
  simp [parseLoop, hasRemaining, h]

theorem Stashed.nil_of_null (c : Connection) (total : Nat) (h : c.restOfTheData = none) :
    Stashed c [] total := by
  unfold Stashed
  rw [h]

/-- The frame loop on a stream of valid data frames: it hands over, in order,
the frames that are complete in the unread bytes, and leaves the bytes of an
incomplete last frame in the reassembly state. -/
theorem parseLoop_frames (env : Env) (hpool : ∀ n, n ≤ env.poolCapacity n) :
    ∀ (fs : List DataFrame), (∀ f ∈ fs, f.Valid) → ∀ (fuel : Nat) (s : ParseState),
      AtHead s → s.buffer.unread <+: wireOf fs → s.buffer.unread.length < fuel →
      ∃ c evs k l, parseLoop env fuel s = some (c, s.events ++ evs)
        ∧ frameCalls evs = (fs.take k).map DataFrame.call
        ∧ s.buffer.unread = wireOf (fs.take k) ++ l
        ∧ Pending c l (fs.drop k) := by
  intro fs
  induction fs with
  | nil =>
    intro _ fuel s hs hpre _
    have hnil : s.buffer.unread = [] := List.prefix_nil.mp hpre
    have hpos := unread_eq_nil hnil
    refine ⟨s.finish.1, [], 0, [], ?_, rfl, by simpa using hnil, ?_⟩
    · rw [parseLoop_done env fuel s hpos]; simp [ParseState.finish]
    · refine ⟨List.nil_prefix, Or.inl rfl, Stashed.nil_of_null _ _ ?_⟩
      rcases hs.2.2 with h | ⟨_, _, _, h⟩
      · simp [ParseState.finish, h]
      · exact absurd h hpos
  | cons f fs ih =>
    intro hv fuel s hs hpre hfuel
    have hf : f.Valid := hv f (List.mem_cons_self _ _)
    have hvs : ∀ g ∈ fs, g.Valid := fun g hg => hv g (List.mem_cons_of_mem _ hg)
    by_cases hnil : s.buffer.unread = []
    · have hpos := unread_eq_nil hnil
      refine ⟨s.finish.1, [], 0, [], ?_, rfl, by simpa using hnil, ?_⟩
      · rw [parseLoop_done env fuel s hpos]; simp [ParseState.finish]
      · refine ⟨List.nil_prefix, Or.inl rfl, Stashed.nil_of_null _ _ ?_⟩
        rcases hs.2.2 with h | ⟨_, _, _, h⟩
        · simp [ParseState.finish, h]
        · exact absurd h hpos
    · have hVl := unread_length s.buffer
      have hVpos : 0 < s.buffer.unread.length := List.length_pos.mpr hnil
      have hlt : s.buffer.position < s.buffer.limit := by omega
      obtain ⟨fuel, rfl⟩ : ∃ n, fuel = n + 1 := ⟨fuel - 1, by omega⟩
      rw [parseLoop_step env fuel s hlt]
      rw [wireOf_cons] at hpre
      by_cases hc : f.wire.length ≤ s.buffer.unread.length
      · -- the first frame is complete
        have hfp : f.wire <+: s.buffer.unread :=
          List.prefix_of_prefix_length_le (List.prefix_append _ _) hpre hc
        obtain ⟨V, hV⟩ := hfp
        have hVpre : V <+: wireOf fs := by
          rw [← hV] at hpre
          exact (List.prefix_append_right_inj _).mp hpre
        obtain ⟨s1, e1, hs1, hu1, hev1⟩ := deliver_step env s f V hf hs hV.symm
        have hwp := hf.wire_pos
        have hlen1 : s1.buffer.unread.length < fuel := by
          rw [hu1]
          have : s.buffer.unread.length = f.wire.length + V.length := by
            rw [← hV, List.length_append]
          omega
        obtain ⟨c, evs, k, l, e2, hcalls, hsplit, hpend⟩ :=
          ih hvs fuel s1 hs1 (by rw [hu1]; exact hVpre) hlen1
        refine ⟨c, (firstDataSeen env s.conn).2 ++ [f.call] ++ evs, k + 1, l, ?_, ?_, ?_, ?_⟩
        · rw [e1]
          dsimp only
          rw [e2, hev1]
          simp [List.append_assoc]
        · rw [frameCalls_append, frameCalls_append, firstDataSeen_frameCalls, hcalls]
          simp [frameCalls, DataFrame.call, Event.isFrameCall]
        · rw [← hV, List.take_succ_cons, wireOf_cons, List.append_assoc, ← hsplit, hu1]
        · simpa using hpend
      · -- the first frame is incomplete
        have hlen : s.buffer.unread.length < f.wire.length := by omega
        have hfp : s.buffer.unread <+: f.wire :=
          List.prefix_of_prefix_length_le hpre (List.prefix_append _ _) (by omega)
        obtain ⟨c, e1, hst⟩ := stash_step env hpool s f hf hs hnil hfp hlen
        refine ⟨c, (firstDataSeen env s.conn).2, 0, s.buffer.unread, ?_, ?_, by simp [wireOf_nil],
          ?_⟩
        · rw [e1]
        · simpa using firstDataSeen_frameCalls env s.conn
        · refine ⟨?_, Or.inr ?_, ?_⟩
          · simpa [wireOf_cons] using hpre
          · simpa [nextTotal] using hlen
          · simpa [nextTotal] using hst

namespace NativeByteBuffer

/-- `writeBytes` when the unread bytes of `src` fit: they are appended at the
position of `dst`, and `src` is read to its limit. -/
theorem writeBytes_fits (dst src : NativeByteBuffer) (h1 : src.position < src.limit)
    (h2 : dst.position + (src.limit - src.position) ≤ dst.limit) :
    (dst.writeBytes src).1.position = dst.position + (src.limit - src.position)
      ∧ (dst.writeBytes src).1.limit = dst.limit
      ∧ (dst.writeBytes src).1.capacity = dst.capacity
      ∧ (dst.writeBytes src).1.slice 0 (dst.position + (src.limit - src.position))
          = dst.slice 0 dst.position ++ src.unread
      ∧ (dst.writeBytes src).2 = { src with position := src.limit } := by
  unfold writeBytes
  dsimp only
  rw [if_neg (by omega), if_neg (by omega)]
  refine ⟨rfl, rfl, rfl, ?_, setPosition_of_le (le_refl _)⟩
  rw [slice_add]
  congr 1
  · apply slice_congr
    intro i hi
    simp
    intro h
    omega
  · unfold unread
    apply slice_congr
    intro i hi
    simp [hi]

theorem ofList_unread (data : List Nat) (cap : Nat) : (ofList data cap).unread = data := by
  unfold unread
  exact slice_ofList data cap

end NativeByteBuffer

theorem countReceived_rest (env : Env) (c : Connection) (n : Nat) :
    (countReceived env c n).restOfTheData = c.restOfTheData := by
  unfold countReceived setTimeout
  dsimp only
  split_ifs <;> rfl

theorem countReceived_lastPacketLength (env : Env) (c : Connection) (n : Nat) :
    (countReceived env c n).lastPacketLength = c.lastPacketLength := by
  unfold countReceived setTimeout
  dsimp only
  split_ifs <;> rfl

theorem Stashed.congr {c d : Connection} {l : List Nat} {total : Nat}
    (h1 : d.restOfTheData = c.restOfTheData) (h2 : d.lastPacketLength = c.lastPacketLength)
    (h : Stashed c l total) : Stashed d l total := by
  unfold Stashed at *
  rw [h1, h2]
  exact h

/-- The merge when only a part of a length field is buffered: the loop starts on
`restOfTheData`, which now holds the buffered bytes followed by the chunk. -/
theorem mergeRest_header (env : Env) (hpool : ∀ n, n ≤ env.poolCapacity n) (c : Connection)
    (r : NativeByteBuffer) (l chunk : List Nat) (cap : Nat)
    (h1 : c.restOfTheData = some r) (h2 : c.lastPacketLength = 0) (hne : l ≠ [])
    (hc : chunk ≠ []) (hp : r.position = l.length) (hs : r.slice 0 l.length = l)
    (hl : r.limit = l.length) (hcap : r.limit ≤ r.capacity) :
    ∃ b, mergeRest env c (ofList chunk cap) = Step.next ⟨c, b, RestRef.same, none, []⟩
      ∧ b.limit = l.length + chunk.length ∧ b.limit ≤ b.capacity
      ∧ b.slice 0 (l.length + chunk.length) = l ++ chunk := by
  have hcl : 0 < chunk.length := List.length_pos.mpr hc
  have hll : 0 < l.length := List.length_pos.mpr hne
  have hcl2 : (ofList chunk cap).limit = chunk.length := rfl
  have hcp : (ofList chunk cap).position = 0 := rfl
  unfold mergeRest
  rw [h1]
  dsimp only
  rw [if_pos h2]
  by_cases hfit : r.capacity - r.position ≥ (ofList chunk cap).limit
  · rw [if_pos hfit]
    have e1 : r.setLimit (r.position + (ofList chunk cap).limit)
        = { r with limit := l.length + chunk.length } := by
      rw [setLimit_of_le (by omega) (by omega), hp, hcl2]
    rw [e1]
    obtain ⟨w1, w2, w3, w4, _⟩ := writeBytes_fits
      ({ r with limit := l.length + chunk.length } : NativeByteBuffer) (ofList chunk cap)
      (by omega) (by dsimp only; omega)
    dsimp only at w1 w2 w3 w4
    refine ⟨_, rfl, w2, by rw [w2, w3]; omega, ?_⟩
    rw [hcl2, hcp, Nat.sub_zero] at w4
    rw [hp] at w4 ⊢
    rw [w4, ofList_unread]
    exact congrArg (· ++ chunk) hs
  · rw [if_neg hfit]
    have key : ∀ nb : NativeByteBuffer, nb.position = 0 → nb.limit = l.length + chunk.length →
        nb.limit ≤ nb.capacity →
        ((nb.writeBytes r.rewind).1.writeBytes (ofList chunk cap)).1.limit
            = l.length + chunk.length
          ∧ ((nb.writeBytes r.rewind).1.writeBytes (ofList chunk cap)).1.limit
            ≤ ((nb.writeBytes r.rewind).1.writeBytes (ofList chunk cap)).1.capacity
          ∧ ((nb.writeBytes r.rewind).1.writeBytes (ofList chunk cap)).1.slice 0
              (l.length + chunk.length) = l ++ chunk := by
      intro nb hn0 hnl hnc
      have hr1 : r.rewind.position = 0 := rfl
      have hr2 : r.rewind.limit = l.length := hl
      obtain ⟨w1, w2, w3, w4, _⟩ := writeBytes_fits nb r.rewind (by omega) (by omega)
      obtain ⟨v1, v2, v3, v4, _⟩ := writeBytes_fits (nb.writeBytes r.rewind).1 (ofList chunk cap)
        (by omega) (by omega)
      refine ⟨by omega, by omega, ?_⟩
      rw [w1, hn0, hr1, hr2, hcl2, hcp, Nat.sub_zero, Nat.sub_zero, Nat.zero_add] at v4
      rw [hn0, hr1, hr2, Nat.sub_zero, Nat.zero_add] at w4
      rw [v4, w4, ofList_unread]
      congr 1
      show [] ++ r.rewind.unread = l
      unfold unread rewind
      dsimp only
      rw [Nat.sub_zero, hl]
      exact hs
    have e0 : getFreeBuffer env (r.limit + (ofList chunk cap).limit)
        = { bytes := fun _ => 0, position := 0, limit := l.length + chunk.length,
            capacity := env.poolCapacity (l.length + chunk.length) } := by
      rw [getFreeBuffer_eq env _ (hpool _), hl, hcl2]
    rw [e0]
    obtain ⟨k1, k2, k3⟩ := key
      { bytes := fun _ => 0, position := 0, limit := l.length + chunk.length,
        capacity := env.poolCapacity (l.length + chunk.length) } rfl rfl (hpool _)
    exact ⟨_, rfl, k1, k2, k3⟩

theorem NativeByteBuffer.slice_ofList_range (data : List Nat) (cap a n : Nat)
    (h : a + n ≤ data.length) : (ofList data cap).slice a n = (data.drop a).take n := by
  apply List.ext_getElem
  · simp; omega
  · intro i h1 h2
    simp at h1
    simp [slice, ofList, List.getD_eq_getElem?_getD]
    rw [List.getElem?_eq_getElem (by omega)]
    simp

/-- The merge when a frame with a complete length field is buffered. -/
theorem mergeRest_frame (env : Env) (c : Connection)
    (r : NativeByteBuffer) (l chunk : List Nat) (cap total : Nat)
    (h1 : c.restOfTheData = some r) (h2 : c.lastPacketLength = total) (hne : l ≠ [])
    (hc : chunk ≠ []) (hcc : chunk.length ≤ cap) (hp : r.position = l.length)
    (hs : r.slice 0 l.length = l) (hl : r.limit = total)
    (hlt : l.length < total) (htot : total < 4294967296) :
    (l.length + chunk.length < total →
      ∃ b, mergeRest env c (ofList chunk cap) = Step.stop ({ c with restOfTheData := some b }, [])
        ∧ b.position = l.length + chunk.length ∧ b.limit = total ∧ b.capacity = r.capacity
        ∧ b.slice 0 (l.length + chunk.length) = l ++ chunk)
    ∧ (total ≤ l.length + chunk.length →
      ∃ b, mergeRest env c (ofList chunk cap)
          = Step.next ⟨c, b, RestRef.same,
              (if total - l.length < chunk.length then
                some { bytes := (ofList chunk cap).bytes, position := total - l.length,
                       limit := chunk.length, capacity := cap }
               else none), []⟩
        ∧ b.position = total ∧ b.limit = total ∧ b.capacity = r.capacity
        ∧ b.slice 0 total = l ++ chunk.take (total - l.length)) := by
  have hcl : 0 < chunk.length := List.length_pos.mpr hc
  have hll : 0 < l.length := List.length_pos.mpr hne
  have hcl2 : (ofList chunk cap).limit = chunk.length := rfl
  have hcp : (ofList chunk cap).position = 0 := rfl
  have hck : (ofList chunk cap).capacity = cap := rfl
  have hmiss : (c.lastPacketLength + 4294967296 - r.position) % 4294967296 = total - l.length := by
    rw [h2, hp]; omega
  have h0 : c.lastPacketLength ≠ 0 := by omega
  unfold mergeRest
  rw [h1]
  dsimp only
  rw [if_neg h0, hmiss, hcl2]
  constructor
  · intro hshort
    rw [if_neg (show ¬ (total - l.length ≤ chunk.length) by omega)]
    have e1 : (ofList chunk cap).setLimit chunk.length = ofList chunk cap := by
      rw [setLimit_of_le (by omega) (by omega)]
      rfl
    rw [e1]
    obtain ⟨w1, w2, w3, w4, _⟩ := writeBytes_fits r (ofList chunk cap) (by omega) (by omega)
    rw [hcl2, hcp, Nat.sub_zero, hp] at w1 w4
    rw [if_neg (show ¬ ((r.writeBytes (ofList chunk cap)).1.position = c.lastPacketLength) by
      omega)]
    refine ⟨_, rfl, w1, by omega, w3, ?_⟩
    rw [w4, ofList_unread, hs]
  · intro hfull
    by_cases hex : total - l.length ≤ chunk.length
    · rw [if_pos hex]
      have e1 : (ofList chunk cap).setLimit (total - l.length)
          = { bytes := (ofList chunk cap).bytes, position := 0, limit := total - l.length,
              capacity := cap } := by
        rw [setLimit_of_le (by omega) (by omega)]
        rfl
      rw [e1]
      obtain ⟨w1, w2, w3, w4, w5⟩ := writeBytes_fits r
        ({ bytes := (ofList chunk cap).bytes, position := 0, limit := total - l.length,
           capacity := cap } : NativeByteBuffer) (by dsimp only; omega) (by dsimp only; omega)
      dsimp only at w1 w2 w3 w4 w5
      rw [Nat.sub_zero, hp] at w1 w4
      have hpos : l.length + (total - l.length) = total := by omega
      rw [hpos] at w1 w4
      rw [w5, if_pos (show (r.writeBytes
        ({ bytes := (ofList chunk cap).bytes, position := 0, limit := total - l.length,
           capacity := cap } : NativeByteBuffer)).1.position = c.lastPacketLength by omega)]
      rw [setLimit_of_le (by dsimp only; omega) (by dsimp only; omega)]
      refine ⟨_, ?_, w1, by omega, w3, ?_⟩
      · dsimp only [hasRemaining]
        by_cases hr : total - l.length < chunk.length
        · simp [hr]
        · simp [hr]
      · rw [w4, hs]
        congr 1
        unfold unread
        dsimp only
        rw [Nat.sub_zero]
        show (ofList chunk cap).slice 0 (total - l.length) = _
        rw [slice_ofList_range chunk cap 0 (total - l.length) (by omega)]
        simp
    · omega

theorem onReceivedDataDecrypted_next (env : Env) (c : Connection) (buffer : NativeByteBuffer)
    (s : ParseState) (h : mergeRest env (countReceived env c buffer.limit) buffer = Step.next s) :
    onReceivedDataDecrypted env c buffer
      = parseLoop env
          (s.buffer.rewind.remaining
            + (match s.parseLaterBuffer with
              | none => 0
              | some b => b.remaining) + 1)
          { s with buffer := s.buffer.rewind } := by
  unfold onReceivedDataDecrypted
  rw [h]

theorem onReceivedDataDecrypted_stop (env : Env) (c : Connection) (buffer : NativeByteBuffer)
    (r : Connection × List Event)
    (h : mergeRest env (countReceived env c buffer.limit) buffer = Step.stop r) :
    onReceivedDataDecrypted env c buffer = some r := by
  unfold onReceivedDataDecrypted
  rw [h]

theorem mergeRest_null (env : Env) (c : Connection) (buffer : NativeByteBuffer)
    (h : c.restOfTheData = none) :
    mergeRest env c buffer = Step.next ⟨c, buffer, RestRef.null, none, []⟩ := by
  unfold mergeRest
  rw [h]

/-- One call of `onReceivedData` on decrypted bytes, on a stream of valid data
frames: the frames completed by the chunk are handed over in order and the
invariant holds again for the frames that remain. -/
theorem receive_step (env : Env) (hpool : ∀ n, n ≤ env.poolCapacity n)
    (fs : List DataFrame) (hv : ∀ f ∈ fs, f.Valid) (c : Connection) (l chunk : List Nat)
    (cap : Nat) (hp : Pending c l fs) (hne : chunk ≠ []) (hsz : chunk.length ≤ cap)
    (hpre : l ++ chunk <+: wireOf fs) :
    ∃ d evs k t, onReceivedDataDecrypted env c (ofList chunk cap) = some (d, evs)
      ∧ frameCalls evs = (fs.take k).map DataFrame.call
      ∧ l ++ chunk = wireOf (fs.take k) ++ t
      ∧ Pending d t (fs.drop k) := by
  have hcl : 0 < chunk.length := List.length_pos.mpr hne
  obtain ⟨hlpre, hlshort, hst⟩ := hp
  have hlim : (ofList chunk cap).limit = chunk.length := rfl
  have hst0 : Stashed (countReceived env c chunk.length) l (nextTotal fs) :=
    Stashed.congr (countReceived_rest env c _) (countReceived_lastPacketLength env c _) hst
  generalize hc0 : countReceived env c chunk.length = c0 at hst0
  cases hr : c0.restOfTheData with
  | none =>
    have hl : l = [] := by
      unfold Stashed at hst0; rw [hr] at hst0; exact hst0
    subst hl
    rw [onReceivedDataDecrypted_next env c _ _ (by rw [hlim, hc0]; exact mergeRest_null env c0 _ hr)]
    obtain ⟨d, evs, k, t, e, h1, h2, h3⟩ := parseLoop_frames env hpool fs hv
      ((ofList chunk cap).rewind.remaining + 0 + 1)
      ⟨c0, (ofList chunk cap).rewind, RestRef.null, none, []⟩
      ⟨rfl, ⟨Nat.zero_le _, hsz⟩, Or.inl rfl⟩
      (by rw [show (ofList chunk cap).rewind = ofList chunk cap from rfl,
            ofList_unread]; simpa using hpre)
      (by rw [show (ofList chunk cap).rewind = ofList chunk cap from rfl,
            ofList_unread]; show chunk.length < chunk.length - 0 + 0 + 1; omega)
    refine ⟨d, evs, k, t, ?_, h1, ?_, h3⟩
    · exact e
    · rw [show (ofList chunk cap).rewind = ofList chunk cap from rfl,
        ofList_unread] at h2
      simpa using h2
  | some r =>
    have hst1 := hst0
    unfold Stashed at hst1
    rw [hr] at hst1
    obtain ⟨hlne, hrp, hrs, hrc, ⟨hL, hrl, hl4, hh⟩ | ⟨hL, hrl, hlt⟩⟩ := hst1
    · -- a part of a length field is buffered
      obtain ⟨b, e, hbl, hbc, hbs⟩ := mergeRest_header env hpool c0 r l chunk cap
        hr hL hlne hne hrp hrs hrl hrc
      rw [onReceivedDataDecrypted_next env c _ _ (by rw [hlim, hc0]; exact e)]
      have hun : b.rewind.unread = l ++ chunk := by
        unfold unread rewind
        dsimp only
        rw [Nat.sub_zero, hbl]
        exact hbs
      obtain ⟨d, evs, k, t, e2, h1, h2, h3⟩ := parseLoop_frames env hpool fs hv
        (b.rewind.remaining + 0 + 1) ⟨c0, b.rewind, RestRef.same, none, []⟩
        ⟨rfl, ⟨Nat.zero_le _, hbc⟩, Or.inr ⟨rfl, hL, rfl, by show 0 < b.limit; omega⟩⟩
        (by rw [hun]; exact hpre)
        (by rw [hun, List.length_append]; show _ < b.limit - 0 + 0 + 1; omega)
      refine ⟨d, evs, k, t, e2, h1, ?_, h3⟩
      rw [← hun]
      exact h2
    · -- a frame with a complete length field is buffered
      cases fs with
      | nil => simp [nextTotal] at hlt
      | cons f fs =>
        have hf : f.Valid := hv f (List.mem_cons_self _ _)
        have hvs : ∀ g ∈ fs, g.Valid := fun g hg => hv g (List.mem_cons_of_mem _ hg)
        have hwl := hf.wire_le
        simp only [nextTotal] at hL hrl hlt hlshort
        rw [wireOf_cons] at hpre
        obtain ⟨hshort, hfull⟩ := mergeRest_frame env c0 r l chunk cap f.wire.length
          hr hL hlne hne hsz hrp hrs hrl hlt (by omega)
        by_cases hcase : l.length + chunk.length < f.wire.length
        · obtain ⟨b, e, hbp, hbl, hbc, hbs⟩ := hshort hcase
          rw [onReceivedDataDecrypted_stop env c _ _ (by rw [hlim, hc0]; exact e)]
          refine ⟨_, [], 0, l ++ chunk, rfl, rfl, by simp [wireOf_nil], ?_, Or.inr ?_, ?_⟩
          · simpa [wireOf_cons] using hpre
          · simpa [nextTotal] using hcase
          · simp only [List.drop_zero, nextTotal]
            exact Stashed.of_frame rfl hL (by simp [hne]) (by simpa using hbp)
              (by simpa using hbs) hbl (by omega) (by simpa using hcase)
        · obtain ⟨b, e, hbp, hbl, hbc, hbs⟩ := hfull (by omega)
          clear hshort hfull
          have hw : l ++ chunk.take (f.wire.length - l.length) = f.wire := by
            have p1 : l ++ chunk.take (f.wire.length - l.length) <+: f.wire ++ wireOf fs :=
              List.IsPrefix.trans
                ((List.prefix_append_right_inj l).mpr (List.take_prefix _ chunk)) hpre
            have hlen : (l ++ chunk.take (f.wire.length - l.length)).length = f.wire.length := by
              rw [List.length_append, List.length_take]; omega
            exact List.IsPrefix.eq_of_length
              (List.prefix_of_prefix_length_le p1 (List.prefix_append _ _) (by omega)) hlen
          have hun : b.rewind.unread = f.wire ++ [] := by
            show b.slice 0 (b.limit - 0) = _
            rw [Nat.sub_zero, hbl, hbs, hw, List.append_nil]
          have hwp := hf.wire_pos
          have hseen : (firstDataSeen env c0).1.lastPacketLength = f.wire.length := by
            rw [firstDataSeen_lastPacketLength]; exact hL
          rw [onReceivedDataDecrypted_next env c _ _ (by rw [hlim, hc0]; exact e)]
          dsimp only
          rw [parseLoop_step env _ _ (by show 0 < b.limit; omega),
            parseStep_frame env _ f [] hf (by show b.limit ≤ b.capacity; omega) hun]
          dsimp only
          rw [afterDelivery_same_complete _ _ _ _ (by omega)
            (by show 0 + f.wire.length = _; omega)]
          have hdrop : chunk = chunk.take (f.wire.length - l.length)
              ++ chunk.drop (f.wire.length - l.length) := (List.take_append_drop _ _).symm
          by_cases hr2 : f.wire.length - l.length < chunk.length
          · rw [if_pos hr2]
            have hslice : (ofList chunk cap).slice (f.wire.length - l.length)
                (chunk.length - (f.wire.length - l.length))
                  = chunk.drop (f.wire.length - l.length) := by
              rw [slice_ofList_range chunk cap (f.wire.length - l.length)
                (chunk.length - (f.wire.length - l.length)) (by omega),
                List.take_of_length_le (by simp)]
            obtain ⟨d, evs, k, t, e2, h1, h2, h3⟩ := parseLoop_frames env hpool fs hvs
              (b.rewind.remaining
                + ({ bytes := (ofList chunk cap).bytes,
                     position := f.wire.length - l.length, limit := chunk.length,
                     capacity := cap } : NativeByteBuffer).remaining)
              ⟨(firstDataSeen env c0).1,
                { bytes := (ofList chunk cap).bytes,
                  position := f.wire.length - l.length, limit := chunk.length,
                  capacity := cap }, RestRef.null, none,
                [] ++ (firstDataSeen env c0).2 ++ [f.call]⟩
              ⟨rfl, ⟨by dsimp only; omega, hsz⟩, Or.inl rfl⟩
              (by
                show (ofList chunk cap).slice (f.wire.length - l.length)
                  (chunk.length - (f.wire.length - l.length)) <+: _
                rw [hslice]
                rw [hdrop, ← List.append_assoc, hw] at hpre
                exact (List.prefix_append_right_inj _).mp hpre)
              (by
                rw [unread_length]
                show chunk.length - (f.wire.length - l.length)
                  < b.limit - 0 + (chunk.length - (f.wire.length - l.length))
                omega)
            refine ⟨d, (firstDataSeen env c0).2 ++ [f.call] ++ evs, k + 1, t, ?_, ?_, ?_, ?_⟩
            · exact e2.trans (by simp)
            · rw [frameCalls_append, frameCalls_append, firstDataSeen_frameCalls, h1]
              simp [frameCalls, DataFrame.call, Event.isFrameCall]
            · have h2c : chunk.drop (f.wire.length - l.length) = wireOf (fs.take k) ++ t := by
                rw [← h2]
                exact hslice.symm
              rw [List.take_succ_cons, wireOf_cons, ← hw, List.append_assoc, List.append_assoc,
                ← h2c, List.take_append_drop]
            · simpa using h3
          · rw [if_neg hr2]
            have hm : f.wire.length - l.length = chunk.length := by omega
            obtain ⟨d, evs, k, t, e2, h1, h2, h3⟩ := parseLoop_frames env hpool fs hvs
              (b.rewind.remaining + 0)
              ⟨(firstDataSeen env c0).1,
                { b.rewind with position := b.rewind.position + f.wire.length }, RestRef.null, none,
                [] ++ (firstDataSeen env c0).2 ++ [f.call]⟩
              ⟨rfl, ⟨by show 0 + f.wire.length ≤ b.limit; omega,
                by show b.limit ≤ b.capacity; omega⟩, Or.inl rfl⟩
              (by rw [unread_advance hun]; exact List.nil_prefix)
              (by rw [unread_advance hun]; show 0 < b.limit - 0 + 0; omega)
            refine ⟨d, (firstDataSeen env c0).2 ++ [f.call] ++ evs, k + 1, t, ?_, ?_, ?_, ?_⟩
            · exact e2.trans (by simp)
            · rw [frameCalls_append, frameCalls_append, firstDataSeen_frameCalls, h1]
              simp [frameCalls, DataFrame.call, Event.isFrameCall]
            · rw [unread_advance hun] at h2
              rw [List.take_succ_cons, wireOf_cons, List.append_assoc, ← h2, List.append_nil, ← hw,
                hm, List.take_of_length_le (le_refl _)]
            · simpa using h3

theorem wireOf_append (a b : List DataFrame) : wireOf (a ++ b) = wireOf a ++ wireOf b := by
  simp [wireOf]

theorem Pending.init (c : Connection) (fs : List DataFrame) (h : c.restOfTheData = none) :
    Pending c [] fs :=
  ⟨List.nil_prefix, Or.inl rfl, Stashed.nil_of_null c _ h⟩

/-- When the bytes not yet delivered are all the bytes of the frames to come,
no frame is to come and nothing is buffered. -/
theorem Pending.done {c : Connection} {l : List Nat} {fs : List DataFrame}
    (hv : ∀ f ∈ fs, f.Valid) (hp : Pending c l fs) (h : l = wireOf fs) :
    fs = [] ∧ c.restOfTheData = none := by
  obtain ⟨_, hshort, hst⟩ := hp
  cases fs with
  | nil =>
    refine ⟨rfl, ?_⟩
    rw [wireOf_nil] at h
    subst h
    unfold Stashed at hst
    cases hr : c.restOfTheData with
    | none => rfl
    | some r => rw [hr] at hst; exact absurd rfl hst.1
  | cons f fs =>
    exfalso
    have hpos := (hv f (List.mem_cons_self _ _)).wire_pos
    have hlen : l.length = f.wire.length + (wireOf fs).length := by
      rw [h, wireOf_cons, List.length_append]
    rcases hshort with h0 | h1
    · rw [h0] at hlen; simp at hlen; omega
    · simp only [nextTotal] at h1; omega

theorem dataPayloads_append (a b : List Event) :
    dataPayloads (a ++ b) = dataPayloads a ++ dataPayloads b := by
  induction a with
  | nil => rfl
  | cons e a ih => cases e <;> simp [dataPayloads, ih]

theorem dataPayloads_frameCalls (evs : List Event) :
    dataPayloads (frameCalls evs) = dataPayloads evs := by
  induction evs with
  | nil => rfl
  | cons e evs ih =>
    cases e <;> simp [frameCalls, List.filter, Event.isFrameCall, dataPayloads] <;>
      simpa [frameCalls] using ih

theorem dataPayloads_calls (fs : List DataFrame) :
    dataPayloads (fs.map DataFrame.call) = fs.map DataFrame.payload := by
  induction fs with
  | nil => rfl
  | cons f fs ih => simp [DataFrame.call, dataPayloads, ih]

/-- Fragmentation invariance, in the form used by the claims: from a state that
holds the bytes `l`, the chunks that complete the stream of `fs` make the parser
hand over exactly the frames `fs`, in order, and leave nothing buffered. -/
theorem receiveAll_frames (env : Env) (hpool : ∀ n, n ≤ env.poolCapacity n) :
    ∀ (chunks : List (List Nat)) (c : Connection) (l : List Nat) (fs : List DataFrame),
      (∀ f ∈ fs, f.Valid) → Pending c l fs →
      (∀ ch ∈ chunks, ch ≠ [] ∧ ch.length ≤ READ_BUFFER_SIZE) →
      l ++ chunks.flatten = wireOf fs →
      ∃ d evs, receiveAll env c chunks = some (d, evs)
        ∧ frameCalls evs = fs.map DataFrame.call ∧ d.restOfTheData = none := by
  intro chunks
  induction chunks with
  | nil =>
    intro c l fs hv hp _ hcat
    simp only [List.flatten_nil, List.append_nil] at hcat
    obtain ⟨h1, h2⟩ := hp.done hv hcat
    subst h1
    exact ⟨c, [], rfl, rfl, h2⟩
  | cons ch chunks ih =>
    intro c l fs hv hp hch hcat
    have hch1 := hch ch (List.mem_cons_self _ _)
    rw [List.flatten_cons, ← List.append_assoc] at hcat
    obtain ⟨d, evs, k, t, e, h1, h2, h3⟩ := receive_step env hpool fs hv c l ch READ_BUFFER_SIZE
      hp hch1.1 hch1.2 ⟨_, hcat⟩
    have hcat2 : t ++ chunks.flatten = wireOf (fs.drop k) := by
      have : wireOf fs = wireOf (fs.take k) ++ wireOf (fs.drop k) := by
        rw [← wireOf_append, List.take_append_drop]
      rw [this, h2, List.append_assoc] at hcat
      exact List.append_cancel_left hcat
    obtain ⟨d2, evs2, e2, g1, g2⟩ := ih d t (fs.drop k)
      (fun f hf => hv f (List.mem_of_mem_drop hf)) h3
      (fun x hx => hch x (List.mem_cons_of_mem _ hx)) hcat2
    refine ⟨d2, evs ++ evs2, ?_, ?_, g2⟩
    · simp only [receiveAll, e, e2]
    · rw [frameCalls_append, h1, g1, ← List.map_append, List.take_append_drop]

/-! ## C2: fragmentation invariance for data frames -/

/-- C2. Fragmentation invariance for data frames: for every list of valid data
frames (short or long length field with first byte below 0x80, payload at most
2 MiB) and every split of their concatenated, already decrypted wire bytes into
non-empty chunks (each at most `READ_BUFFER_SIZE` bytes, what one `recv`
returns), calling `onReceivedData` once per chunk in order, starting with
`restOfTheData = null`, terminates, makes exactly the `onConnectionDataReceived`
calls of these frames in wire order (their payloads are the payloads of the
frames), makes no quick-ack call and no `reconnect()`, and ends with
`restOfTheData = null`.  The buffer pool may have any capacities that are at
least the size asked for. -/
theorem fragmentation_invariance_data_frames (env : Env)
    (hpool : ∀ n, n ≤ env.poolCapacity n) (c : Connection) (hc : c.restOfTheData = none)
    (fs : List DataFrame) (hv : ∀ f ∈ fs, f.Valid) (chunks : List (List Nat))
    (hch : ∀ ch ∈ chunks, ch ≠ [] ∧ ch.length ≤ READ_BUFFER_SIZE)
    (hcat : chunks.flatten = wireOf fs) :
    ∃ d evs, receiveAll env c chunks = some (d, evs)
      ∧ dataPayloads evs = fs.map DataFrame.payload
      ∧ frameCalls evs = fs.map DataFrame.call
      ∧ d.restOfTheData = none := by
  obtain ⟨d, evs, e, h1, h2⟩ := receiveAll_frames env hpool chunks c [] fs hv
    (Pending.init c fs hc) hch (by simpa using hcat)
  refine ⟨d, evs, e, ?_, h1, h2⟩
  rw [← dataPayloads_frameCalls, h1, dataPayloads_calls]

/-- C2 at a concrete input: a short frame and a long frame split into three
chunks that cut both length fields from their payloads. -/
theorem fragmentation_invariance_data_frames_witness :
    ∃ d evs,
      receiveAll sampleEnv sampleConnection [[1, 10], [20, 30, 40, 127, 1], [0, 0, 9, 9, 9, 9]]
        = some (d, evs)
      ∧ dataPayloads evs = [[10, 20, 30, 40], [9, 9, 9, 9]]
      ∧ frameCalls evs
        = [Event.onConnectionDataReceived [10, 20, 30, 40] 4,
           Event.onConnectionDataReceived [9, 9, 9, 9] 4]
      ∧ d.restOfTheData = none :=
  fragmentation_invariance_data_frames sampleEnv (fun n => Nat.le_refl n) sampleConnection rfl
    [⟨[1], [10, 20, 30, 40]⟩, ⟨[127, 1, 0, 0], [9, 9, 9, 9]⟩]
    (by
      intro f hf
      simp only [List.mem_cons, List.mem_singleton, List.not_mem_nil, or_false] at hf
      rcases hf with rfl | rfl
      · exact Or.inl ⟨1, rfl, by decide, rfl⟩
      · exact Or.inr ⟨1, 0, 0, rfl, by decide, by decide, by decide, rfl, by decide⟩)
    [[1, 10], [20, 30, 40, 127, 1], [0, 0, 9, 9, 9, 9]]
    (by decide) rfl

theorem AES_ctr128_encrypt_length (aes : List Nat → List Nat → List Nat) :
    ∀ (input : List Nat) (s : CtrState), (AES_ctr128_encrypt aes s input).1.length = input.length := by
  intro input
  induction input with
  | nil => intro s; rfl
  | cons b rest ih => intro s; simp [AES_ctr128_encrypt, ih]

theorem poke_ofList (wire plain : List Nat) (cap : Nat) (h : plain.length = wire.length) :
    (ofList wire cap).poke 0 plain = ofList plain cap := by
  apply NativeByteBuffer.ext
  · funext i
    simp only [poke, ofList, Nat.zero_le, true_and, Nat.zero_add, Nat.sub_zero]
    split_ifs with hi
    · rfl
    · rw [List.getD_eq_default _ _ (by omega), List.getD_eq_default _ _ (by omega)]
  · rfl
  · exact h.symm
  · rfl

/-- `onReceivedData` on a received chunk is the parser applied to the decrypted
chunk, with the inbound cipher state advanced. -/
theorem onReceivedData_ofList (env : Env) (c : Connection) (wire : List Nat) (cap : Nat) :
    onReceivedData env c (ofList wire cap)
      = onReceivedDataDecrypted env
          { c with
            decryptIv := (AES_ctr128_encrypt env.aes (decryptState c) wire).2.iv
            decryptCount := (AES_ctr128_encrypt env.aes (decryptState c) wire).2.count
            decryptNum := (AES_ctr128_encrypt env.aes (decryptState c) wire).2.num }
          (ofList (AES_ctr128_encrypt env.aes (decryptState c) wire).1 cap) := by
  unfold onReceivedData
  have h1 : (ofList wire cap).slice 0 (ofList wire cap).limit = wire := slice_ofList wire cap
  simp only [h1]
  rw [poke_ofList wire _ cap (AES_ctr128_encrypt_length _ _ _)]

theorem quickAck_id (b0 b1 b2 b3 : Nat) (h1 : b1 < 256) (h2 : b2 < 256) (h3 : b3 < 256) :
    (b0 * 16777216 + b1 * 65536 + b2 * 256 + b3) &&& 0x7fffffff
      = ((b0 &&& 0x7f) <<< 24) ||| (b1 <<< 16) ||| (b2 <<< 8) ||| b3 := by
  have e1 : (b0 * 16777216 + b1 * 65536 + b2 * 256 + b3) &&& 0x7fffffff
      = (b0 * 16777216 + b1 * 65536 + b2 * 256 + b3) % 2 ^ 31 :=
    Nat.and_pow_two_sub_one_eq_mod _ 31
  have e2 : b0 &&& 0x7f = b0 % 2 ^ 7 := Nat.and_pow_two_sub_one_eq_mod _ 7
  rw [e1, e2, Nat.shiftLeft_eq, Nat.shiftLeft_eq, Nat.shiftLeft_eq]
  have s1 : 2 ^ 24 * (b0 % 2 ^ 7) + b1 * 2 ^ 16 = 2 ^ 24 * (b0 % 2 ^ 7) ||| b1 * 2 ^ 16 :=
    @Nat.mul_add_lt_is_or 24 (b1 * 2 ^ 16) (by omega) _
  have s2 : 2 ^ 16 * ((b0 % 2 ^ 7) * 256 + b1) + b2 * 2 ^ 8
      = 2 ^ 16 * ((b0 % 2 ^ 7) * 256 + b1) ||| b2 * 2 ^ 8 :=
    @Nat.mul_add_lt_is_or 16 (b2 * 2 ^ 8) (by omega) _
  have s3 : 2 ^ 8 * (((b0 % 2 ^ 7) * 256 + b1) * 256 + b2) + b3
      = 2 ^ 8 * (((b0 % 2 ^ 7) * 256 + b1) * 256 + b2) ||| b3 :=
    @Nat.mul_add_lt_is_or 8 b3 (by omega) _
  have t1 : b0 % 2 ^ 7 * 2 ^ 24 = 2 ^ 24 * (b0 % 2 ^ 7) := Nat.mul_comm _ _
  have t2 : 2 ^ 24 * (b0 % 2 ^ 7) + b1 * 2 ^ 16 = 2 ^ 16 * ((b0 % 2 ^ 7) * 256 + b1) := by omega
  have t3 : 2 ^ 16 * ((b0 % 2 ^ 7) * 256 + b1) + b2 * 2 ^ 8
      = 2 ^ 8 * (((b0 % 2 ^ 7) * 256 + b1) * 256 + b2) := by omega
  rw [t1, ← s1, t2, ← s2, t3, ← s3]
  omega

theorem parseStep_quickAck (env : Env) (s : ParseState) (b0 : Nat)
    (hb : s.buffer.bytes s.buffer.position = b0) (h0 : b0 &&& 0x80 ≠ 0)
    (hrem : s.buffer.position + 4 ≤ s.buffer.limit) :
    parseStep env s
      = Step.next
          { conn := (firstDataSeen env s.conn).1
            buffer := { s.buffer with position := s.buffer.position + 4 }
            rest := s.rest
            parseLaterBuffer := s.parseLaterBuffer
            events := s.events ++ (firstDataSeen env s.conn).2
              ++ [Event.onConnectionQuickAckReceived
                    ((b0 * 16777216 + s.buffer.bytes (s.buffer.position + 1) * 65536
                        + s.buffer.bytes (s.buffer.position + 2) * 256
                        + s.buffer.bytes (s.buffer.position + 3)) &&& 0x7fffffff)] } := by
  unfold parseStep
  simp (disch := first | omega | (dsimp only; omega)) only
    [readByte_of_lt (show s.buffer.position < s.buffer.limit by omega), hb, shl_1_7, h0,
      ne_eq, not_false_eq_true, if_true, setPosition_of_le, remaining, readBigInt32_of_le]
  rw [if_neg (show ¬ (s.buffer.limit - s.buffer.position < 4) by omega)]

/-! ## C9: quick-ack decoding -/

/-- C9. Quick-ack decoding: when a received chunk decrypts to four bytes
`b0 b1 b2 b3` with `b0 & 0x80 != 0` and the reassembly buffer is empty,
`onReceivedData` terminates, calls `onConnectionQuickAckReceived` exactly once,
with `id = ((b0 & 0x7f) << 24) | (b1 << 16) | (b2 << 8) | b3`, never calls
`onConnectionDataReceived` nor `reconnect()`, and leaves the reassembly buffer
empty. -/
theorem quick_ack_decoding (env : Env) (c : Connection) (wire : List Nat) (cap : Nat)
    (b0 b1 b2 b3 : Nat) (hc : c.restOfTheData = none)
    (hd : (AES_ctr128_encrypt env.aes (decryptState c) wire).1 = [b0, b1, b2, b3])
    (h0 : b0 &&& 0x80 ≠ 0) (h1 : b1 < 256) (h2 : b2 < 256) (h3 : b3 < 256) :
    ∃ d evs, onReceivedData env c (ofList wire cap) = some (d, evs)
      ∧ frameCalls evs
          = [Event.onConnectionQuickAckReceived
              (((b0 &&& 0x7f) <<< 24) ||| (b1 <<< 16) ||| (b2 <<< 8) ||| b3)]
      ∧ d.restOfTheData = none := by
  rw [onReceivedData_ofList, hd]
  generalize hc1 : ({ c with
      decryptIv := (AES_ctr128_encrypt env.aes (decryptState c) wire).2.iv
      decryptCount := (AES_ctr128_encrypt env.aes (decryptState c) wire).2.count
      decryptNum := (AES_ctr128_encrypt env.aes (decryptState c) wire).2.num } : Connection) = c1
  have hr1 : c1.restOfTheData = none := by rw [← hc1]; exact hc
  have hr0 : (countReceived env c1 (ofList [b0, b1, b2, b3] cap).limit).restOfTheData = none := by
    rw [countReceived_rest]; exact hr1
  rw [onReceivedDataDecrypted_next env c1 _ _ (mergeRest_null env _ _ hr0)]
  dsimp only
  rw [parseLoop_step env _ _ (by show 0 < 4; omega),
    parseStep_quickAck env _ b0 rfl h0 (by show 0 + 4 ≤ 4; omega)]
  dsimp only
  rw [parseLoop_done env _ _ (by show ¬ (0 + 4 < 4); omega)]
  refine ⟨_, _, rfl, ?_, rfl⟩
  dsimp only [ParseState.finish]
  rw [frameCalls_append, frameCalls_append, firstDataSeen_frameCalls]
  have hid := quickAck_id b0 b1 b2 b3 h1 h2 h3
  simp only [frameCalls, List.filter, Event.isFrameCall, List.nil_append, List.append_nil]
  exact congrArg (fun x => [Event.onConnectionQuickAckReceived x]) hid

/-- C9 at the bytes of scenario S2: `{0x80, 0x00, 0x00, 0x01}` gives the id 1
(with the identity keystream of `sampleEnv` the chunk is its own plaintext). -/
theorem quick_ack_decoding_witness :
    ∃ d evs, onReceivedData sampleEnv sampleConnection (ofList [0x80, 0x00, 0x00, 0x01] 16)
        = some (d, evs)
      ∧ frameCalls evs = [Event.onConnectionQuickAckReceived 1]
      ∧ d.restOfTheData = none :=
  quick_ack_decoding sampleEnv sampleConnection [0x80, 0x00, 0x00, 0x01] 16 0x80 0x00 0x00 0x01
    rfl (by decide!) (by decide) (by decide) (by decide) (by decide)

/-! ## C3: fragmentation with quick-acks -/

/-- C3, the code at a failing input.  The stream is the quick-ack
`80 00 00 01` followed by the data frame `02 0b 0c 0d 0e 0f 10 11 12` (8 payload
bytes), received as the chunks `80`, `00 00 01 02 0b 0c` and
`0d 0e 0f 10 11 12`.  The quick-ack is handed over twice and the data frame not
at all, and the reassembly buffer stays occupied: after the first quick-ack the
merged buffer is not compacted, and the in-place stash of the incomplete frame
(`restOfTheData->position(limit); limit(len)`) keeps the quick-ack at the front
of the buffer and counts its four bytes as frame bytes.  The same bytes in one
chunk give the quick-ack once and then the payload. -/
theorem quick_ack_then_split_frame_redelivers :
    (receiveAll sampleEnv sampleConnection
        [[0x80], [0, 0, 1, 2, 11, 12], [13, 14, 15, 16, 17, 18]]).map
      (fun r => (deliveries r.2, r.1.restOfTheData.isSome, r.1.lastPacketLength))
      = some ([Sum.inr 1, Sum.inr 1], true, 9)
    ∧ (receiveAll sampleEnv sampleConnection
        [[0x80, 0, 0, 1, 2, 11, 12, 13, 14, 15, 16, 17, 18]]).map
      (fun r => (deliveries r.2, r.1.restOfTheData.isSome))
      = some ([Sum.inr 1, Sum.inl [11, 12, 13, 14, 15, 16, 17, 18]], false) := by
  decide!

theorem lengthField_short (n : Nat) (ack : Bool) (h : n / 4 < 127) :
    lengthField n ack = if ack then n / 4 + 128 else n / 4 := by
  unfold lengthField
  simp only [show n / 4 < 0x7f from h, if_true, shl_1_7]
  cases ack
  · simp; omega
  · simp only [if_true, or_128_of_lt (show n / 4 < 128 by omega)]; omega

theorem lengthField_long (n : Nat) (ack : Bool) (h : 127 ≤ n / 4) (hq : n / 4 < 16777216) :
    lengthField n ack = n / 4 * 256 + (if ack then 255 else 127) := by
  unfold lengthField
  simp only [show ¬ n / 4 < 0x7f by omega, if_false, shl_1_7]
  have e : ((n / 4) <<< 8 + 0x7f) % 4294967296 = n / 4 * 256 + 127 := by
    rw [Nat.shiftLeft_eq]; omega
  rw [e]
  cases ack
  · simp
  · simp only [if_true, long_or_128]

/-- The length field `storeLength` writes, byte by byte: the short form. -/
theorem storeLength_short (b : NativeByteBuffer) (n : Nat) (ack : Bool) (h : n / 4 < 127)
    (hroom : b.position + 1 ≤ b.limit) :
    (storeLength b n ack).slice b.position 1 = [if ack then n / 4 + 128 else n / 4]
      ∧ (storeLength b n ack).position = b.position + 1
      ∧ (storeLength b n ack).limit = b.limit
      ∧ (storeLength b n ack).capacity = b.capacity
      ∧ ∀ i, i ≠ b.position → (storeLength b n ack).bytes i = b.bytes i := by
  unfold storeLength writeByte
  rw [if_pos (show n / 4 < 0x7f from h), if_neg (by omega), lengthField_short n ack h]
  refine ⟨?_, rfl, rfl, rfl, ?_⟩
  · simp [NativeByteBuffer.slice, List.range_succ]
  · intro i hi
    simp [hi]

/-- The length field `storeLength` writes, byte by byte: the long form. -/
theorem storeLength_long (b : NativeByteBuffer) (n : Nat) (ack : Bool) (h : 127 ≤ n / 4)
    (hq : n / 4 < 16777216) (hroom : b.position + 4 ≤ b.limit) :
    (storeLength b n ack).slice b.position 4
        = [if ack then 255 else 127, n / 4 % 256, n / 4 / 256 % 256, n / 4 / 65536 % 256]
      ∧ (storeLength b n ack).position = b.position + 4
      ∧ (storeLength b n ack).limit = b.limit
      ∧ (storeLength b n ack).capacity = b.capacity
      ∧ ∀ i, (i < b.position ∨ b.position + 4 ≤ i) → (storeLength b n ack).bytes i = b.bytes i := by
  unfold storeLength writeInt32
  rw [if_neg (show ¬ n / 4 < 0x7f by omega), if_neg (by omega), lengthField_long n ack h hq]
  refine ⟨?_, rfl, rfl, rfl, ?_⟩
  · simp only [NativeByteBuffer.slice, List.range_succ, List.range_zero, List.nil_append, List.map_append,
      List.map_cons, List.map_nil, List.cons_append, Nat.add_zero]
    cases ack <;> simp <;> omega
  · intro i hi
    dsimp only
    rw [if_neg (by omega), if_neg (by omega), if_neg (by omega), if_neg (by omega)]

/-! ## C5: the outbound length field -/

/-- C5. Outbound length field: for every payload of `n <= 2 MiB` bytes (a
multiple of 4 or not), with `q = n / 4`, and every buffer with room at its
position, the plaintext that `sendData` writes there is the single byte `q`
(`q | 0x80` when `reportAck`) when `q < 0x7f`, and otherwise the four
little-endian bytes of `(q << 8) | 0x7f` with `0x80` OR-ed into the first byte
when `reportAck`; the position moves behind the field.  In particular 508 bytes
use the long form `7f 7f 00 00` and 504 bytes the short form `7e`. -/
theorem outbound_length_field (b : NativeByteBuffer) (n : Nat) (ack : Bool)
    (hmax : n ≤ 2 * 1024 * 1024) (hroom : b.position + lengthSize n ≤ b.limit) :
    (n / 4 < 0x7f →
        (storeLength b n ack).slice b.position 1 = [if ack then n / 4 ||| 0x80 else n / 4])
    ∧ (0x7f ≤ n / 4 →
        (storeLength b n ack).slice b.position 4
          = [if ack then (((n / 4) <<< 8 ||| 0x7f) % 256) ||| 0x80
               else ((n / 4) <<< 8 ||| 0x7f) % 256,
             ((n / 4) <<< 8 ||| 0x7f) / 256 % 256,
             ((n / 4) <<< 8 ||| 0x7f) / 65536 % 256,
             ((n / 4) <<< 8 ||| 0x7f) / 16777216 % 256])
    ∧ (storeLength b n ack).position = b.position + lengthSize n
    ∧ lengthBytes 508 false = [0x7f, 0x7f, 0, 0]
    ∧ lengthBytes 504 false = [0x7e] := by
  refine ⟨?_, ?_, ?_, by decide!, by decide!⟩
  · intro h
    have hr : b.position + 1 ≤ b.limit := by
      unfold lengthSize at hroom; rw [if_pos h] at hroom; exact hroom
    rw [(storeLength_short b n ack h hr).1]
    cases ack
    · rfl
    · simp only [if_true, or_128_of_lt (show n / 4 < 128 by omega)]
  · intro h
    have hr : b.position + 4 ≤ b.limit := by
      unfold lengthSize at hroom; rw [if_neg (by omega)] at hroom; exact hroom
    have hv : (n / 4) <<< 8 ||| 0x7f = n / 4 * 256 + 127 := (mul256_or (n / 4) 127 (by omega)).symm
    rw [(storeLength_long b n ack h (by omega) hr).1, hv]
    have e0 : (n / 4 * 256 + 127) % 256 = 127 := by omega
    have e1 : (n / 4 * 256 + 127) / 256 % 256 = n / 4 % 256 := by omega
    have e2 : (n / 4 * 256 + 127) / 65536 % 256 = n / 4 / 256 % 256 := by omega
    have e3 : (n / 4 * 256 + 127) / 16777216 % 256 = n / 4 / 65536 % 256 := by omega
    rw [e0, e1, e2, e3]
    cases ack <;> rfl
  · by_cases h : n / 4 < 0x7f
    · have hr : b.position + 1 ≤ b.limit := by
        unfold lengthSize at hroom; rw [if_pos h] at hroom; exact hroom
      rw [(storeLength_short b n ack h hr).2.1]
      unfold lengthSize; rw [if_pos h]
    · have hr : b.position + 4 ≤ b.limit := by
        unfold lengthSize at hroom; rw [if_neg h] at hroom; exact hroom
      rw [(storeLength_long b n ack (by omega) (by omega) hr).2.1]
      unfold lengthSize; rw [if_neg h]

/-- C5 at a concrete input: 508 payload bytes with `reportAck`, written at
offset 64 of a buffer of 68 bytes. -/
theorem outbound_length_field_witness :
    (508 / 4 < 0x7f →
        (storeLength ⟨fun _ => 0, 64, 68, 68⟩ 508 true).slice 64 1
          = [if true then 508 / 4 ||| 0x80 else 508 / 4])
    ∧ (0x7f ≤ 508 / 4 →
        (storeLength ⟨fun _ => 0, 64, 68, 68⟩ 508 true).slice 64 4
          = [if true then (((508 / 4) <<< 8 ||| 0x7f) % 256) ||| 0x80
               else ((508 / 4) <<< 8 ||| 0x7f) % 256,
             ((508 / 4) <<< 8 ||| 0x7f) / 256 % 256,
             ((508 / 4) <<< 8 ||| 0x7f) / 65536 % 256,
             ((508 / 4) <<< 8 ||| 0x7f) / 16777216 % 256])
    ∧ (storeLength ⟨fun _ => 0, 64, 68, 68⟩ 508 true).position = 64 + lengthSize 508
    ∧ lengthBytes 508 false = [0x7f, 0x7f, 0, 0]
    ∧ lengthBytes 504 false = [0x7e] :=
  outbound_length_field ⟨fun _ => 0, 64, 68, 68⟩ 508 true (by decide) (by decide)

/-- One chunk that holds exactly the wire bytes of valid frames, parsed from an
empty reassembly state: the frames are handed over in order and nothing stays
buffered. -/
theorem receive_whole (env : Env) (hpool : ∀ n, n ≤ env.poolCapacity n) (c : Connection)
    (hc : c.restOfTheData = none) (fs : List DataFrame) (hv : ∀ f ∈ fs, f.Valid) (cap : Nat)
    (hne : wireOf fs ≠ []) (hcap : (wireOf fs).length ≤ cap) :
    ∃ d evs, onReceivedDataDecrypted env c (ofList (wireOf fs) cap) = some (d, evs)
      ∧ frameCalls evs = fs.map DataFrame.call ∧ d.restOfTheData = none := by
  obtain ⟨d, evs, k, t, e, h1, h2, h3⟩ := receive_step env hpool fs hv c [] (wireOf fs) cap
    (Pending.init c fs hc) hne hcap (by simp)
  have hsplit : wireOf fs = wireOf (fs.take k) ++ wireOf (fs.drop k) := by
    rw [← wireOf_append, List.take_append_drop]
  have ht : t = wireOf (fs.drop k) := by
    rw [List.nil_append] at h2
    rw [h2] at hsplit
    exact List.append_cancel_left hsplit
  obtain ⟨g1, g2⟩ := h3.done (fun f hf => hv f (List.mem_of_mem_drop hf)) ht
  refine ⟨d, evs, e, ?_, g2⟩
  rw [h1]
  congr 1
  conv_rhs => rw [← List.take_append_drop k fs, g1, List.append_nil]

theorem lengthBytes_short (n : Nat) (ack : Bool) (h : n / 4 < 127) :
    lengthBytes n ack = [if ack then n / 4 + 128 else n / 4] := by
  unfold lengthBytes lengthSize
  rw [if_pos (show n / 4 < 0x7f from h)]
  exact (storeLength_short ⟨fun _ => 0, 0, 4, 4⟩ n ack h (by decide)).1

theorem lengthBytes_long (n : Nat) (ack : Bool) (h : 127 ≤ n / 4) (hq : n / 4 < 16777216) :
    lengthBytes n ack
      = [if ack then 255 else 127, n / 4 % 256, n / 4 / 256 % 256, n / 4 / 65536 % 256] := by
  unfold lengthBytes lengthSize
  rw [if_neg (show ¬ n / 4 < 0x7f by omega)]
  exact (storeLength_long ⟨fun _ => 0, 0, 4, 4⟩ n ack h hq (by decide)).1

/-- The frame `sendData` builds without `reportAck` is a valid data frame. -/
theorem sent_frame_valid (X : List Nat) (h4 : X.length % 4 = 0)
    (hmax : X.length ≤ 2 * 1024 * 1024) :
    (⟨lengthBytes X.length false, X⟩ : DataFrame).Valid := by
  by_cases h : X.length / 4 < 127
  · left
    refine ⟨X.length / 4, ?_, h, ?_⟩
    · rw [lengthBytes_short _ _ h]; rfl
    · show X.length = _; omega
  · right
    refine ⟨X.length / 4 % 256, X.length / 4 / 256 % 256, X.length / 4 / 65536 % 256, ?_,
      by omega, by omega, by omega, ?_, hmax⟩
    · rw [lengthBytes_long _ _ (by omega) (by omega)]; rfl
    · show X.length = _; omega

/-! ## C1: frame round trip -/

/-- C1. Frame round trip: for every byte sequence `X` with `|X| % 4 = 0` and
`|X| <= 2 MiB` (the empty one included), when a received chunk decrypts to the
plaintext length field that `sendData` builds for `X` without `reportAck`
followed by `X`, and the reassembly buffer is empty, `onReceivedData`
terminates with exactly one `onConnectionDataReceived`, whose payload is `X`
and whose length is `|X|`, no quick-ack call and no `reconnect()`, and the
reassembly buffer is empty afterwards.  Both forms of the length field are
covered. -/
theorem frame_round_trip (env : Env) (hpool : ∀ n, n ≤ env.poolCapacity n) (c : Connection)
    (hc : c.restOfTheData = none) (X wire : List Nat) (cap : Nat)
    (h4 : X.length % 4 = 0) (hmax : X.length ≤ 2 * 1024 * 1024)
    (hcap : wire.length ≤ cap)
    (hd : (AES_ctr128_encrypt env.aes (decryptState c) wire).1 = lengthBytes X.length false ++ X) :
    ∃ d evs, onReceivedData env c (ofList wire cap) = some (d, evs)
      ∧ frameCalls evs = [Event.onConnectionDataReceived X X.length]
      ∧ d.restOfTheData = none := by
  have hf := sent_frame_valid X h4 hmax
  have hw : wireOf [(⟨lengthBytes X.length false, X⟩ : DataFrame)]
      = lengthBytes X.length false ++ X := by
    simp [wireOf, DataFrame.wire]
  have hlen : (lengthBytes X.length false ++ X).length = wire.length := by
    rw [← hd, AES_ctr128_encrypt_length]
  rw [onReceivedData_ofList, hd, ← hw]
  refine receive_whole env hpool _ ?_ [⟨lengthBytes X.length false, X⟩]
    (by intro f hf2; rw [List.mem_singleton] at hf2; rw [hf2]; exact hf) cap
    (by rw [hw]; intro h0; have := hf.wire_pos; simp [DataFrame.wire, h0] at this)
    (by rw [hw, hlen]; exact hcap)
  exact hc

/-- C1 at a concrete input: a 4-byte payload behind the length byte `01` (with
the identity keystream of `sampleEnv` the chunk is its own plaintext). -/
theorem frame_round_trip_witness :
    ∃ d evs, onReceivedData sampleEnv sampleConnection (ofList [1, 10, 20, 30, 40] 16)
        = some (d, evs)
      ∧ frameCalls evs = [Event.onConnectionDataReceived [10, 20, 30, 40] 4]
      ∧ d.restOfTheData = none :=
  frame_round_trip sampleEnv (fun n => Nat.le_refl n) sampleConnection rfl [10, 20, 30, 40]
    [1, 10, 20, 30, 40] 16 (by decide) (by decide) (by decide) (by decide!)

/-! ## The calls of `reconnect()` -/

theorem frameCalls_nil : frameCalls [] = [] := rfl

theorem frameCalls_closed (reason : Int) (evs : List Event) :
    frameCalls (Event.onConnectionClosed reason :: evs) = frameCalls evs := rfl

theorem frameCalls_detach (evs : List Event) :
    frameCalls (Event.detachConnection :: evs) = frameCalls evs := rfl

theorem frameCalls_attach (evs : List Event) :
    frameCalls (Event.attachConnection :: evs) = frameCalls evs := rfl

theorem onDisconnectedReconnecting_frameCalls (env : Env) (c : Connection) (sw : Bool)
    (error : Int) : frameCalls (onDisconnectedReconnecting env c sw error).2 = [] := by
  unfold onDisconnectedReconnecting
  dsimp only
  split_ifs <;> rfl

theorem onDisconnectedInternal_frameCalls (env : Env) (c : Connection) (reason error : Int) :
    frameCalls (onDisconnectedInternal env c reason error).2 = [] := by
  unfold onDisconnectedInternal
  dsimp only
  rw [frameCalls_closed]
  simp only [apply_ite Prod.snd, apply_ite frameCalls, onDisconnectedReconnecting_frameCalls,
    frameCalls_nil, ite_self]

theorem onDisconnected_frameCalls (env : Env) (c : Connection) (reason error : Int) :
    frameCalls (onDisconnected env c reason error).2 = [] := by
  unfold onDisconnected
  split_ifs
  · rfl
  · exact onDisconnectedInternal_frameCalls _ _ _ _

theorem closeSocket_frameCalls (env : Env) (c : Connection) (reason error : Int) :
    frameCalls (closeSocket env c reason error).2 = [] := by
  unfold closeSocket
  dsimp only
  rw [frameCalls_detach]
  exact onDisconnected_frameCalls _ _ _ _

theorem adjustWriteOp_frameCalls (env : Env) (c : Connection) :
    frameCalls (adjustWriteOp env c).2 = [] := by
  unfold adjustWriteOp
  dsimp only
  simp only [apply_ite Prod.snd, apply_ite frameCalls, closeSocket_frameCalls,
    frameCalls_nil, ite_self]

theorem openConnectionInternal_frameCalls (env : Env) (c : Connection) :
    frameCalls (openConnectionInternal env c).2 = [] := by
  unfold openConnectionInternal
  dsimp only
  simp only [apply_ite Prod.snd, apply_ite frameCalls, frameCalls_append, closeSocket_frameCalls,
    adjustWriteOp_frameCalls, frameCalls_nil, ite_self, List.append_nil]

theorem openConnection_frameCalls (env : Env) (c : Connection) (address : String) (port : Nat)
    (ipv6 : Bool) (networkType : Int) :
    frameCalls (openConnection env c address port ipv6 networkType).2 = [] := by
  unfold openConnection
  dsimp only
  rw [frameCalls_attach]
  simp only [apply_ite Prod.snd, apply_ite frameCalls, closeSocket_frameCalls,
    openConnectionInternal_frameCalls, ite_self]

theorem suspendConnection_frameCalls (env : Env) (c : Connection) (idle : Bool) :
    frameCalls (suspendConnection env c idle).2 = [] := by
  unfold suspendConnection dropConnection
  dsimp only
  simp only [apply_ite Prod.snd, apply_ite frameCalls, frameCalls_append, closeSocket_frameCalls,
    frameCalls_nil, ite_self, List.append_nil]
  split_ifs <;> rfl

theorem connect_frameCalls (env : Env) (c : Connection) : frameCalls (connect env c).2 = [] := by
  unfold connect
  dsimp only
  simp only [apply_ite Prod.snd, apply_ite frameCalls, openConnection_frameCalls,
    frameCalls_nil, ite_self]
  split_ifs <;> rfl

theorem reconnect_frameCalls (env : Env) (c : Connection) :
    frameCalls (reconnect env c).2 = [] := by
  unfold reconnect
  dsimp only
  simp only [apply_ite Prod.snd, apply_ite frameCalls, frameCalls_append,
    suspendConnection_frameCalls, connect_frameCalls, ite_self, List.append_nil]

/-! ## Over-long frames -/

theorem parseFrame_invalid (env : Env) (s : ParseState) (mark cpl header : Nat)
    (hmax : 2 * 1024 * 1024 < cpl) :
    parseFrame env s mark cpl header
      = Step.stop ((reconnect env s.finish.1).1,
          s.events ++ Event.reconnect :: (reconnect env s.finish.1).2) := by
  unfold parseFrame
  have h1 : cpl % 4 ≠ 0 ∨ cpl > 2 * 1024 * 1024 := Or.inr hmax
  simp only [if_pos h1]

theorem parseStep_long_invalid (env : Env) (s : ParseState) (b1 b2 b3 : Nat)
    (hmax : 2 * 1024 * 1024 < (b1 + b2 * 256 + b3 * 65536) * 4)
    (hb0 : s.buffer.bytes s.buffer.position = 127)
    (hb1 : s.buffer.bytes (s.buffer.position + 1) = b1)
    (hb2 : s.buffer.bytes (s.buffer.position + 2) = b2)
    (hb3 : s.buffer.bytes (s.buffer.position + 3) = b3)
    (hrem : s.buffer.position + 4 ≤ s.buffer.limit) :
    ∃ d evs, parseStep env s
        = Step.stop (d, s.events ++ (firstDataSeen env s.conn).2 ++ Event.reconnect :: evs)
      ∧ frameCalls evs = [] := by
  have hv : (127 + b1 * 256 + b2 * 65536 + b3 * 16777216) >>> 8 = b1 + b2 * 256 + b3 * 65536 := by
    rw [Nat.shiftRight_eq_div_pow]; omega
  unfold parseStep
  simp (disch := first | omega | (dsimp only; omega)) only
    [readByte_of_lt (show s.buffer.position < s.buffer.limit by omega), hb0, shl_1_7,
    and_128_of_lt (show 127 < 128 by omega), ne_eq, not_true_eq_false, if_false,
    setPosition_of_le, remaining, readInt32_of_le, hb1, hb2, hb3, hv]
  rw [parseFrame_invalid env _ _ _ _ hmax]
  rw [if_neg (show ¬ (s.buffer.limit - s.buffer.position < 4) by omega)]
  exact ⟨_, _, rfl, reconnect_frameCalls _ _⟩

/-- The frame loop on valid data frames followed by a long-form length field
that announces more than 2 MiB: the frames are handed over in order, then
`reconnect()` is called and the function returns; what follows the length field
is not looked at. -/
theorem parseLoop_invalid (env : Env) (b1 b2 b3 : Nat) (tail : List Nat)
    (hmax : 2 * 1024 * 1024 < (b1 + b2 * 256 + b3 * 65536) * 4) :
    ∀ (fs : List DataFrame), (∀ f ∈ fs, f.Valid) → ∀ (fuel : Nat) (s : ParseState),
      AtHead s → s.buffer.unread = wireOf fs ++ ([127, b1, b2, b3] ++ tail) → fs.length < fuel →
      ∃ d evs, parseLoop env fuel s = some (d, s.events ++ evs)
        ∧ frameCalls evs = fs.map DataFrame.call ++ [Event.reconnect] := by
  intro fs
  induction fs with
  | nil =>
    intro _ fuel s _ hu hfuel
    rw [wireOf_nil, List.nil_append] at hu
    obtain ⟨h1, _, h3⟩ := unread_split hu
    have h4 : ([127, b1, b2, b3] : List Nat).length = 4 := rfl
    rw [h4] at h1 h3
    have hb0 : s.buffer.bytes s.buffer.position = 127 := by
      have := bytes_of_slice h1 0 (by omega)
      simpa using this
    have hb1 : s.buffer.bytes (s.buffer.position + 1) = b1 := by
      have := bytes_of_slice h1 1 (by omega)
      simpa using this
    have hb2 : s.buffer.bytes (s.buffer.position + 2) = b2 := by
      have := bytes_of_slice h1 2 (by omega)
      simpa using this
    have hb3 : s.buffer.bytes (s.buffer.position + 3) = b3 := by
      have := bytes_of_slice h1 3 (by omega)
      simpa using this
    obtain ⟨fuel, rfl⟩ : ∃ n, fuel = n + 1 := ⟨fuel - 1, by simp at hfuel; omega⟩
    rw [parseLoop_step env fuel s (by omega)]
    obtain ⟨d, evs, e, hcalls⟩ :=
      parseStep_long_invalid env s b1 b2 b3 hmax hb0 hb1 hb2 hb3 (by omega)
    refine ⟨d, (firstDataSeen env s.conn).2 ++ Event.reconnect :: evs, ?_, ?_⟩
    · rw [e]
      simp [List.append_assoc]
    · rw [frameCalls_append, firstDataSeen_frameCalls]
      simp [frameCalls, List.filter, Event.isFrameCall] at hcalls ⊢
      exact hcalls
  | cons f fs ih =>
    intro hv fuel s hs hu hfuel
    have hf : f.Valid := hv f (List.mem_cons_self _ _)
    have hvs : ∀ g ∈ fs, g.Valid := fun g hg => hv g (List.mem_cons_of_mem _ hg)
    rw [wireOf_cons, List.append_assoc] at hu
    have hwp := hf.wire_pos
    have hVl := unread_length s.buffer
    have hlt : s.buffer.position < s.buffer.limit := by
      rw [hu, List.length_append] at hVl
      omega
    obtain ⟨fuel, rfl⟩ : ∃ n, fuel = n + 1 := ⟨fuel - 1, by simp at hfuel; omega⟩
    rw [parseLoop_step env fuel s hlt]
    obtain ⟨s1, e1, hs1, hu1, hev1⟩ := deliver_step env s f _ hf hs hu
    obtain ⟨d, evs, e2, hcalls⟩ := ih hvs fuel s1 hs1 hu1 (by simp at hfuel; omega)
    refine ⟨d, (firstDataSeen env s.conn).2 ++ [f.call] ++ evs, ?_, ?_⟩
    · rw [e1]
      dsimp only
      rw [e2, hev1]
      simp [List.append_assoc]
    · rw [frameCalls_append, frameCalls_append, firstDataSeen_frameCalls, hcalls]
      simp [frameCalls, DataFrame.call, Event.isFrameCall]

theorem length_le_wireOf : ∀ (fs : List DataFrame), (∀ f ∈ fs, f.Valid) →
    fs.length ≤ (wireOf fs).length := by
  intro fs
  induction fs with
  | nil => intro _; simp
  | cons f fs ih =>
    intro hv
    have hf := (hv f (List.mem_cons_self _ _)).wire_pos
    have := ih (fun g hg => hv g (List.mem_cons_of_mem _ hg))
    rw [wireOf_cons, List.length_append, List.length_cons]
    omega

/-- One chunk, parsed from an empty reassembly state, that holds valid frames
and then a long-form length field announcing more than 2 MiB. -/
theorem receive_invalid (env : Env) (c : Connection) (hc : c.restOfTheData = none)
    (fs : List DataFrame) (hv : ∀ f ∈ fs, f.Valid) (b1 b2 b3 : Nat) (tail : List Nat) (cap : Nat)
    (hmax : 2 * 1024 * 1024 < (b1 + b2 * 256 + b3 * 65536) * 4)
    (hcap : (wireOf fs ++ ([127, b1, b2, b3] ++ tail)).length ≤ cap) :
    ∃ d evs, onReceivedDataDecrypted env c (ofList (wireOf fs ++ ([127, b1, b2, b3] ++ tail)) cap)
        = some (d, evs)
      ∧ frameCalls evs = fs.map DataFrame.call ++ [Event.reconnect] := by
  generalize hch : wireOf fs ++ ([127, b1, b2, b3] ++ tail) = chunk at hcap ⊢
  have hlim : (ofList chunk cap).limit = chunk.length := rfl
  have hr : (countReceived env c chunk.length).restOfTheData = none := by
    rw [countReceived_rest]; exact hc
  rw [onReceivedDataDecrypted_next env c _ _ (by rw [hlim]; exact mergeRest_null env _ _ hr)]
  have hlen : fs.length < chunk.length := by
    have := length_le_wireOf fs hv
    rw [← hch]
    simp only [List.length_append, List.length_cons]
    omega
  obtain ⟨d, evs, e, h⟩ := parseLoop_invalid env b1 b2 b3 tail hmax fs hv
    ((ofList chunk cap).rewind.remaining + 0 + 1)
    ⟨countReceived env c chunk.length, (ofList chunk cap).rewind, RestRef.null, none, []⟩
    ⟨rfl, ⟨Nat.zero_le _, hcap⟩, Or.inl rfl⟩
    (by rw [show (ofList chunk cap).rewind = ofList chunk cap from rfl, ofList_unread, hch])
    (by show fs.length < chunk.length - 0 + 0 + 1; omega)
  exact ⟨d, evs, by simpa using e, h⟩

/-! ## C10: maximum frame length -/

/-- C10. Maximum frame length.  (a) A frame whose long-form length field
`7f 00 00 08` announces exactly 2097152 payload bytes `X` passes the validation:
received from an empty reassembly state, in one buffer that holds all of it or
split in any way into non-empty chunks of at most `READ_BUFFER_SIZE` bytes, the
only frame-loop call is `onConnectionDataReceived(X, 2097152)`, and nothing
stays buffered.  (b) When a chunk decrypts to valid frames `fs` followed by a
long-form length field `7f b1 b2 b3` that announces 2 MiB + 4 bytes or more and
by any bytes `tail`, `onReceivedData` hands over the frames `fs`, calls
`reconnect()` once and returns: it makes no further delivery, neither for that
frame nor for `tail`. -/
theorem maximum_frame_length (env : Env) (hpool : ∀ n, n ≤ env.poolCapacity n)
    (c : Connection) (hc : c.restOfTheData = none)
    (X : List Nat) (hX : X.length = 2097152) (capX : Nat) (hcapX : 2097156 ≤ capX)
    (chunks : List (List Nat))
    (hch : ∀ ch ∈ chunks, ch ≠ [] ∧ ch.length ≤ READ_BUFFER_SIZE)
    (hcat : chunks.flatten = [0x7f, 0, 0, 8] ++ X)
    (fs : List DataFrame) (hv : ∀ f ∈ fs, f.Valid) (b1 b2 b3 : Nat) (tail wire : List Nat)
    (cap : Nat) (hmax : 2 * 1024 * 1024 + 4 ≤ (b1 + b2 * 256 + b3 * 65536) * 4)
    (hcap : wire.length ≤ cap)
    (hd : (AES_ctr128_encrypt env.aes (decryptState c) wire).1
        = wireOf fs ++ ([0x7f, b1, b2, b3] ++ tail)) :
    (∃ d evs, onReceivedDataDecrypted env c (ofList ([0x7f, 0, 0, 8] ++ X) capX) = some (d, evs)
        ∧ frameCalls evs = [Event.onConnectionDataReceived X 2097152]
        ∧ d.restOfTheData = none)
    ∧ (∃ d evs, receiveAll env c chunks = some (d, evs)
        ∧ frameCalls evs = [Event.onConnectionDataReceived X 2097152]
        ∧ d.restOfTheData = none)
    ∧ (∃ d evs, onReceivedData env c (ofList wire cap) = some (d, evs)
        ∧ frameCalls evs = fs.map DataFrame.call ++ [Event.reconnect]) := by
  have hf : (⟨[0x7f, 0, 0, 8], X⟩ : DataFrame).Valid :=
    Or.inr ⟨0, 0, 8, rfl, by omega, by omega, by omega, by show X.length = _; omega,
      by show X.length ≤ _; omega⟩
  have hvf : ∀ f ∈ [(⟨[0x7f, 0, 0, 8], X⟩ : DataFrame)], f.Valid := by
    intro f hf2
    rw [List.mem_singleton] at hf2
    rw [hf2]
    exact hf
  have hw : wireOf [(⟨[0x7f, 0, 0, 8], X⟩ : DataFrame)] = [0x7f, 0, 0, 8] ++ X := by
    simp [wireOf, DataFrame.wire]
  refine ⟨?_, ?_, ?_⟩
  · obtain ⟨d, evs, e, h1, h2⟩ := receive_whole env hpool c hc [⟨[0x7f, 0, 0, 8], X⟩] hvf capX
      (by rw [hw]; simp) (by rw [hw]; simp [hX]; omega)
    rw [hw] at e
    refine ⟨d, evs, e, ?_, h2⟩
    rw [h1]
    simp [DataFrame.call, hX]
  · obtain ⟨d, evs, e, h1, h2⟩ := receiveAll_frames env hpool chunks c [] [⟨[0x7f, 0, 0, 8], X⟩]
      hvf (Pending.init c _ hc) hch (by rw [hw, List.nil_append]; exact hcat)
    refine ⟨d, evs, e, ?_, h2⟩
    rw [h1]
    simp [DataFrame.call, hX]
  · have hlen : (wireOf fs ++ ([0x7f, b1, b2, b3] ++ tail)).length = wire.length := by
      rw [← hd, AES_ctr128_encrypt_length]
    rw [onReceivedData_ofList, hd]
    have hm : 2 * 1024 * 1024 < (b1 + b2 * 256 + b3 * 65536) * 4 := by omega
    refine receive_invalid env _ ?_ fs hv b1 b2 b3 tail cap hm (by rw [hlen]; exact hcap)
    exact hc

/-- C10 at a concrete input: a payload of 2097152 zero bytes, in one buffer and
split after the length field and after 2 MiB; and (with the identity keystream
of `sampleEnv`) a chunk whose length field `7f 01 00 08` announces 2097156
bytes, followed by two more bytes. -/
theorem maximum_frame_length_witness :
    (∃ d evs, onReceivedDataDecrypted sampleEnv sampleConnection
          (ofList ([0x7f, 0, 0, 8] ++ List.replicate 2097152 0) 2097156) = some (d, evs)
        ∧ frameCalls evs = [Event.onConnectionDataReceived (List.replicate 2097152 0) 2097152]
        ∧ d.restOfTheData = none)
    ∧ (∃ d evs, receiveAll sampleEnv sampleConnection
          [[0x7f, 0, 0, 8], List.replicate 2097152 0] = some (d, evs)
        ∧ frameCalls evs = [Event.onConnectionDataReceived (List.replicate 2097152 0) 2097152]
        ∧ d.restOfTheData = none)
    ∧ (∃ d evs, onReceivedData sampleEnv sampleConnection (ofList [0x7f, 1, 0, 8, 9, 9] 16)
          = some (d, evs)
        ∧ frameCalls evs = List.map DataFrame.call [] ++ [Event.reconnect]) :=
  maximum_frame_length sampleEnv (fun n => Nat.le_refl n) sampleConnection rfl
    (List.replicate 2097152 0) (List.length_replicate _ _) 2097156 (Nat.le_refl _)
    [[0x7f, 0, 0, 8], List.replicate 2097152 0]
    (by
      intro ch hch
      rw [List.mem_cons, List.mem_singleton] at hch
      rcases hch with h | h
      · rw [h]
        exact ⟨List.cons_ne_nil _ _, by decide⟩
      · rw [h]
        refine ⟨fun h0 => ?_, ?_⟩
        · have h1 := congrArg List.length h0
          rw [List.length_replicate] at h1
          exact absurd h1 (by decide)
        · rw [List.length_replicate]
          decide)
    (by rw [List.flatten_cons, List.flatten_cons, List.flatten_nil, List.append_nil])
    [] (by intro f hf; cases hf) 1 0 8 [9, 9] [0x7f, 1, 0, 8, 9, 9] 16 (by decide) (by decide)
    (by decide!)

/-! ## Outbound: buffers and the write queue -/

namespace NativeByteBuffer

theorem slice_eq_map (b : NativeByteBuffer) (start len : Nat) (f : Nat → Nat)
    (h : ∀ i, i < len → b.bytes (start + i) = f i) :
    b.slice start len = (List.range len).map f := by
  unfold NativeByteBuffer.slice
  apply List.map_congr_left
  intro i hi
  exact h i (List.mem_range.mp hi)

theorem slice_poke_same (b : NativeByteBuffer) (start : Nat) (src : List Nat) :
    (b.poke start src).slice start src.length = src := by
  apply List.ext_getElem
  · simp [NativeByteBuffer.slice]
  · intro i h1 h2
    simp only [NativeByteBuffer.slice, List.getElem_map, List.getElem_range, poke]
    rw [if_pos (by omega), Nat.add_sub_cancel_left, List.getD_eq_getElem _ _ h2]

theorem slice_poke_lo (b : NativeByteBuffer) (start : Nat) (src : List Nat) (s n : Nat)
    (h : s + n ≤ start) : (b.poke start src).slice s n = b.slice s n := by
  unfold NativeByteBuffer.slice
  apply List.map_congr_left
  intro i hi
  have := List.mem_range.mp hi
  simp only [poke]
  rw [if_neg (by omega)]

theorem slice_poke_hi (b : NativeByteBuffer) (start : Nat) (src : List Nat) (s n : Nat)
    (h : start + src.length ≤ s) : (b.poke start src).slice s n = b.slice s n := by
  unfold NativeByteBuffer.slice
  apply List.map_congr_left
  intro i hi
  simp only [poke]
  rw [if_neg (by omega)]

end NativeByteBuffer

theorem lengthSize_pos (n : Nat) : 0 < lengthSize n := by
  unfold lengthSize; split_ifs <;> omega

/-- The length field `storeLength` stores at the position of any buffer with
room for it is `lengthBytes`; the cursor moves behind it and the bytes before
the position are left alone. -/
theorem storeLength_slice (b : NativeByteBuffer) (n : Nat) (ack : Bool)
    (h : b.position + lengthSize n ≤ b.limit) :
    (storeLength b n ack).slice b.position (lengthSize n) = lengthBytes n ack
      ∧ (storeLength b n ack).position = b.position + lengthSize n
      ∧ (storeLength b n ack).limit = b.limit
      ∧ (storeLength b n ack).capacity = b.capacity
      ∧ ∀ s m, s + m ≤ b.position → (storeLength b n ack).slice s m = b.slice s m := by
  unfold lengthBytes
  unfold lengthSize at h ⊢
  unfold storeLength
  by_cases hq : n / 4 < 0x7f
  · rw [if_pos hq] at h
    simp only [if_pos hq]
    unfold writeByte
    rw [if_neg (by omega), if_neg (by decide)]
    refine ⟨by simp [NativeByteBuffer.slice], rfl, rfl, rfl, ?_⟩
    intro s m hsm
    unfold NativeByteBuffer.slice
    apply List.map_congr_left
    intro i hi
    have := List.mem_range.mp hi
    dsimp only
    rw [if_neg (by omega)]
  · rw [if_neg hq] at h
    simp only [if_neg hq]
    unfold writeInt32
    rw [if_neg (by omega), if_neg (by decide)]
    refine ⟨by simp [NativeByteBuffer.slice, List.range_succ], rfl, rfl, rfl, ?_⟩
    intro s m hsm
    unfold NativeByteBuffer.slice
    apply List.map_congr_left
    intro i hi
    have := List.mem_range.mp hi
    dsimp only
    rw [if_neg (by omega), if_neg (by omega), if_neg (by omega), if_neg (by omega)]

theorem lengthBytes_length (n : Nat) (ack : Bool) : (lengthBytes n ack).length = lengthSize n := by
  simp [lengthBytes]

/-- Inside a session a write appends the buffer to the queue and touches
neither the cipher states nor the prelude flag. -/
theorem writeBuffer_open (env : Env) (c : Connection) (b : NativeByteBuffer)
    (h : SessionOpen env c) :
    (writeBuffer env c b).2 = []
      ∧ (writeBuffer env c b).1.outgoingByteStream = c.outgoingByteStream ++ [b]
      ∧ encryptState (writeBuffer env c b).1 = encryptState c
      ∧ decryptState (writeBuffer env c b).1 = decryptState c
      ∧ (writeBuffer env c b).1.firstPacketSent = c.firstPacketSent
      ∧ SessionOpen env (writeBuffer env c b).1 := by
  obtain ⟨h1, h2, h3⟩ := h
  unfold writeBuffer adjustWriteOp
  dsimp only
  by_cases hw : c.waitingForHostResolve ≠ ""
  · rw [if_pos hw]
    exact ⟨rfl, rfl, rfl, rfl, rfl, h1, h2, h3⟩
  · rw [if_neg hw, if_pos h3]
    exact ⟨rfl, rfl, rfl, rfl, rfl, h1, h2, h3⟩

/-! ## Outbound: one frame -/

theorem ctrByte_key (aes : List Nat → List Nat → List Nat) (s : CtrState) (b : Nat) :
    (ctrByte aes s b).2.key = s.key := by
  unfold ctrByte
  dsimp only
  split_ifs <;> rfl

theorem AES_ctr128_encrypt_key (aes : List Nat → List Nat → List Nat) :
    ∀ (input : List Nat) (s : CtrState), (AES_ctr128_encrypt aes s input).2.key = s.key := by
  intro input
  induction input with
  | nil => intro s; rfl
  | cons b rest ih =>
    intro s
    simp only [AES_ctr128_encrypt]
    rw [ih, ctrByte_key]

theorem AES_ctr128_encrypt_append (aes : List Nat → List Nat → List Nat) :
    ∀ (A : List Nat) (s : CtrState) (B : List Nat),
      AES_ctr128_encrypt aes s (A ++ B)
        = ((AES_ctr128_encrypt aes s A).1
              ++ (AES_ctr128_encrypt aes (AES_ctr128_encrypt aes s A).2 B).1,
            (AES_ctr128_encrypt aes (AES_ctr128_encrypt aes s A).2 B).2) := by
  intro A
  induction A with
  | nil => intro s B; rfl
  | cons a A ih =>
    intro s B
    simp only [List.cons_append, AES_ctr128_encrypt, List.append_eq, ih]

/-- One in-place encryption through the `bytes()` pointer. -/
theorem encryptAt_spec (env : Env) (c : Connection) (b : NativeByteBuffer) (start len : Nat) :
    (encryptAt env c b start len).2
        = b.poke start (AES_ctr128_encrypt env.aes (encryptState c) (b.slice start len)).1
      ∧ encryptState (encryptAt env c b start len).1
        = (AES_ctr128_encrypt env.aes (encryptState c) (b.slice start len)).2
      ∧ decryptState (encryptAt env c b start len).1 = decryptState c
      ∧ (encryptAt env c b start len).1.firstPacketSent = c.firstPacketSent
      ∧ (encryptAt env c b start len).1.outgoingByteStream = c.outgoingByteStream
      ∧ (SessionOpen env c → SessionOpen env (encryptAt env c b start len).1) := by
  refine ⟨rfl, ?_, rfl, rfl, rfl, fun h => h⟩
  have hk := AES_ctr128_encrypt_key env.aes (b.slice start len) (encryptState c)
  unfold encryptAt encryptState at *
  dsimp only at hk ⊢
  generalize AES_ctr128_encrypt env.aes _ _ = r at hk ⊢
  obtain ⟨o, ⟨k, i, ct, n⟩⟩ := r
  dsimp only at hk ⊢
  rw [hk]

theorem writeLength_eq (env : Env) (c : Connection) (buffer : NativeByteBuffer) (n : Nat)
    (ack : Bool) :
    writeLength env c buffer n ack
      = encryptAt env c (storeLength buffer n ack)
          ((storeLength buffer n ack).limit - lengthSize n) (lengthSize n) := by
  unfold writeLength lengthSize
  dsimp only
  split_ifs <;> rfl

/-- Lines 487-510 inside a session, for a header buffer whose position is
`lengthSize` bytes before its limit: two buffers are queued, the header buffer
from offset 0 and the payload; what they add to the wire is the bytes of the
header buffer before its position, then the encryption of the length field and
the payload as one stream. -/
theorem sendFrame_open (env : Env) (c : Connection) (buffer buff : NativeByteBuffer) (ack : Bool)
    (h : SessionOpen env c) (hb : buffer.position + lengthSize buff.limit = buffer.limit) :
    (sendFrame env c buffer buff ack).2 = []
      ∧ (∃ hdr body,
          (sendFrame env c buffer buff ack).1.outgoingByteStream
              = c.outgoingByteStream ++ [hdr, body]
            ∧ hdr.position = 0 ∧ hdr.limit = buffer.limit
            ∧ hdr.slice 0 buffer.position = buffer.slice 0 buffer.position
            ∧ queuedBytes [hdr, body]
              = buffer.slice 0 buffer.position
                ++ (AES_ctr128_encrypt env.aes (encryptState c) (plainFrame (buff, ack))).1)
      ∧ encryptState (sendFrame env c buffer buff ack).1
          = (AES_ctr128_encrypt env.aes (encryptState c) (plainFrame (buff, ack))).2
      ∧ decryptState (sendFrame env c buffer buff ack).1 = decryptState c
      ∧ (sendFrame env c buffer buff ack).1.firstPacketSent = c.firstPacketSent
      ∧ SessionOpen env (sendFrame env c buffer buff ack).1 := by
  obtain ⟨s1, s2, s3, s4, s5⟩ := storeLength_slice buffer buff.limit ack (by omega)
  have hoff : (storeLength buffer buff.limit ack).limit - lengthSize buff.limit
      = buffer.position := by omega
  obtain ⟨l1, l2, l3, l4, l5, l6⟩ := encryptAt_spec env c (storeLength buffer buff.limit ack)
    buffer.position (lengthSize buff.limit)
  rw [s1] at l1 l2
  have hl := writeLength_eq env c buffer buff.limit ack
  rw [hoff] at hl
  obtain ⟨w1, w2, w3, w4, w5, w6⟩ := writeBuffer_open env
    (encryptAt env c (storeLength buffer buff.limit ack) buffer.position (lengthSize buff.limit)).1
    (encryptAt env c (storeLength buffer buff.limit ack) buffer.position
      (lengthSize buff.limit)).2.rewind (l6 h)
  generalize hc1 : writeBuffer env
    (encryptAt env c (storeLength buffer buff.limit ack) buffer.position (lengthSize buff.limit)).1
    (encryptAt env c (storeLength buffer buff.limit ack) buffer.position
      (lengthSize buff.limit)).2.rewind = W1 at w1 w2 w3 w4 w5 w6
  obtain ⟨e1, e2, e3, e4, e5, e6⟩ := encryptAt_spec env W1.1 buff.rewind 0 buff.rewind.limit
  obtain ⟨v1, v2, v3, v4, v5, v6⟩ := writeBuffer_open env
    (encryptAt env W1.1 buff.rewind 0 buff.rewind.limit).1
    (encryptAt env W1.1 buff.rewind 0 buff.rewind.limit).2 (e6 w6)
  have hsf : sendFrame env c buffer buff ack
      = ((writeBuffer env (encryptAt env W1.1 buff.rewind 0 buff.rewind.limit).1
            (encryptAt env W1.1 buff.rewind 0 buff.rewind.limit).2).1,
          W1.2 ++ (writeBuffer env (encryptAt env W1.1 buff.rewind 0 buff.rewind.limit).1
            (encryptAt env W1.1 buff.rewind 0 buff.rewind.limit).2).2) := by
    unfold sendFrame
    dsimp only
    rw [hl, hc1]
  have hplain : plainFrame (buff, ack) = lengthBytes buff.limit ack ++ buff.slice 0 buff.limit := rfl
  rw [hsf, hplain, AES_ctr128_encrypt_append]
  dsimp only
  rw [w3, l2] at e2
  refine ⟨by rw [w1, v1]; rfl, ⟨_, _, by rw [v2, e5, w2, l5, List.append_assoc]; rfl, rfl,
      by rw [l1]; exact s3,
      by rw [l1]
         show ((storeLength buffer buff.limit ack).poke buffer.position _).slice 0
           buffer.position = _
         rw [slice_poke_lo _ _ _ _ _ (by omega), s5 0 buffer.position (by omega)], ?_⟩,
    by rw [v3, e2]; rfl, by rw [v4, e3, w4, l3], by rw [v5, e4, w5, l4], v6⟩
  -- the bytes queued
  have hlen1 : (AES_ctr128_encrypt env.aes (encryptState c) (lengthBytes buff.limit ack)).1.length
      = lengthSize buff.limit := by
    rw [AES_ctr128_encrypt_length, lengthBytes_length]
  have hq : ∀ (x y : NativeByteBuffer), queuedBytes [x, y]
      = x.slice x.position (x.limit - x.position) ++ y.slice y.position (y.limit - y.position) := by
    intro x y
    simp [queuedBytes]
  rw [hq, l1, e1, w3, l2, ← List.append_assoc]
  congr 1
  · show ((storeLength buffer buff.limit ack).poke buffer.position _).slice 0
        ((storeLength buffer buff.limit ack).limit - 0) = _
    rw [s3, Nat.sub_zero, ← hb]
    have := slice_add ((storeLength buffer buff.limit ack).poke buffer.position
      (AES_ctr128_encrypt env.aes (encryptState c) (lengthBytes buff.limit ack)).1) 0
      buffer.position (lengthSize buff.limit)
    rw [this, Nat.zero_add, slice_poke_lo _ _ _ _ _ (by omega), s5 0 buffer.position (by omega)]
    congr 1
    have h2 := slice_poke_same (storeLength buffer buff.limit ack) buffer.position
      (AES_ctr128_encrypt env.aes (encryptState c) (lengthBytes buff.limit ack)).1
    rw [hlen1] at h2
    exact h2
  · show (buff.rewind.poke 0 _).slice 0 (buff.limit - 0) = _
    rw [Nat.sub_zero]
    have hlen2 : (AES_ctr128_encrypt env.aes
        (AES_ctr128_encrypt env.aes (encryptState c) (lengthBytes buff.limit ack)).2
        (buff.rewind.slice 0 buff.rewind.limit)).1.length = buff.limit := by
      rw [AES_ctr128_encrypt_length]
      simp [NativeByteBuffer.slice, rewind]
    have h2 := slice_poke_same buff.rewind 0
      (AES_ctr128_encrypt env.aes
        (AES_ctr128_encrypt env.aes (encryptState c) (lengthBytes buff.limit ack)).2
        (buff.rewind.slice 0 buff.rewind.limit)).1
    rw [hlen2] at h2
    exact h2

/-! ## Outbound: the prelude -/

theorem block64_length (block : List Nat) : (block64 block).length = 64 := by
  simp [block64]

theorem block64_getD (block : List Nat) (i : Nat) (h : i < 64) :
    (block64 block).getD i 0 = block.getD i 0 := by
  unfold block64
  rw [List.getD_eq_getElem _ _ (by simp; omega)]
  simp

theorem markedBlock_length (block : List Nat) : (markedBlock block).length = 64 := by
  simp [markedBlock]

theorem marker_getD (j : Nat) (h : j < 4) : ([0xef, 0xef, 0xef, 0xef] : List Nat).getD j 0 = 0xef := by
  interval_cases j <;> rfl

/-- The first 64 bytes of the buffer after the random block and the marker were
stored. -/
theorem marked_bytes (buffer : NativeByteBuffer) (block : List Nat) (i : Nat) (h : i < 64) :
    ((buffer.poke 0 (block64 block)).poke 56 [0xef, 0xef, 0xef, 0xef]).bytes i
      = if 56 ≤ i ∧ i < 60 then 0xef else block.getD i 0 := by
  have h4 : ([0xef, 0xef, 0xef, 0xef] : List Nat).length = 4 := rfl
  unfold poke
  dsimp only
  rw [block64_length, h4]
  by_cases hm : 56 ≤ i ∧ i < 60
  · have hm2 : 56 ≤ i ∧ i < 56 + 4 := hm
    simp only [if_pos hm, if_pos hm2]
    exact marker_getD _ (by omega)
  · have hm2 : ¬ (56 ≤ i ∧ i < 56 + 4) := hm
    have h0 : 0 ≤ i ∧ i < 0 + 64 := by omega
    simp only [if_neg hm, if_neg hm2, if_pos h0, Nat.sub_zero]
    exact block64_getD _ _ h

theorem marked_slice (buffer : NativeByteBuffer) (block : List Nat) :
    ((buffer.poke 0 (block64 block)).poke 56 [0xef, 0xef, 0xef, 0xef]).slice 0 64
      = markedBlock block := by
  unfold markedBlock
  apply slice_eq_map
  intro i hi
  rw [Nat.zero_add]
  exact marked_bytes buffer block i hi

theorem take_map_range_48 (f : Nat → Nat) :
    ((List.range 48).map f).take 32 = (List.range 32).map f := rfl

theorem drop_map_range_48 (f : Nat → Nat) :
    (((List.range 48).map f).drop 32).take 16 = (List.range 16).map (fun a => f (a + 32)) := rfl

/-- The key derivation reads bytes 8..55 only: on a buffer that holds the
marked random block both cipher states are as follows. -/
theorem deriveKeys_spec (c : Connection) (b : NativeByteBuffer) (block : List Nat)
    (hb : ∀ i, i < 64 → b.bytes i = if 56 ≤ i ∧ i < 60 then 0xef else block.getD i 0) :
    encryptState (deriveKeys c b) = initialEncryptState block
      ∧ decryptState (deriveKeys c b)
        = { key := (List.range 32).map (fun a => block.getD (55 - a) 0)
            iv := (List.range 16).map (fun a => block.getD (23 - a) 0)
            count := List.replicate 16 0
            num := 0 }
      ∧ (deriveKeys c b).firstPacketSent = c.firstPacketSent
      ∧ (deriveKeys c b).outgoingByteStream = c.outgoingByteStream
      ∧ (deriveKeys c b).connectionState = c.connectionState
      ∧ (deriveKeys c b).socketFd = c.socketFd := by
  have e1 : (List.range 32).map (fun a => b.bytes (a + 8))
      = (List.range 32).map (fun a => block.getD (a + 8) 0) := by
    apply List.map_congr_left
    intro a ha
    have := List.mem_range.mp ha
    rw [hb _ (by omega), if_neg (by omega)]
  have e2 : (List.range 16).map (fun a => b.bytes (a + 32 + 8))
      = (List.range 16).map (fun a => block.getD (a + 40) 0) := by
    apply List.map_congr_left
    intro a ha
    have := List.mem_range.mp ha
    rw [hb _ (by omega), if_neg (by omega)]
  have e3 : (List.range 32).map (fun a => b.bytes (55 - a))
      = (List.range 32).map (fun a => block.getD (55 - a) 0) := by
    apply List.map_congr_left
    intro a ha
    have := List.mem_range.mp ha
    rw [hb _ (by omega), if_neg (by omega)]
  have e4 : (List.range 16).map (fun a => b.bytes (55 - (a + 32)))
      = (List.range 16).map (fun a => block.getD (23 - a) 0) := by
    apply List.map_congr_left
    intro a ha
    have := List.mem_range.mp ha
    rw [hb _ (by omega), if_neg (by omega)]
    congr 1
    omega
  refine ⟨?_, ?_, rfl, rfl, rfl, rfl⟩
  · unfold deriveKeys encryptState initialEncryptState
    dsimp only
    rw [take_map_range_48, drop_map_range_48, e1, e2]
  · unfold deriveKeys decryptState
    dsimp only
    rw [take_map_range_48, drop_map_range_48, e3, e4]

theorem getD_drop_take (l : List Nat) (j : Nat) (hj : j < 8) :
    ((l.drop 56).take 8).getD j 0 = l.getD (56 + j) 0 := by
  simp [List.getD_eq_getElem?_getD, List.getElem?_take, hj]

/-- The prelude block of `sendData` for the accepted random block `block`: the
first 64 bytes of the buffer are bytes 0..55 of the block followed by bytes
56..63 of the encryption of the marked block under the derived outbound state;
the cursors are left alone. -/
theorem writePrelude_spec (env : Env) (c : Connection) (buffer : NativeByteBuffer)
    (block : List Nat) :
    (writePrelude env c buffer block).2.slice 0 64
        = (List.range 64).map (fun i =>
            if i < 56 then block.getD i 0
            else (AES_ctr128_encrypt env.aes (initialEncryptState block)
                    (markedBlock block)).1.getD i 0)
      ∧ (writePrelude env c buffer block).2.position = buffer.position
      ∧ (writePrelude env c buffer block).2.limit = buffer.limit
      ∧ encryptState (writePrelude env c buffer block).1
        = (AES_ctr128_encrypt env.aes (initialEncryptState block) (markedBlock block)).2
      ∧ decryptState (writePrelude env c buffer block).1
        = { key := (List.range 32).map (fun a => block.getD (55 - a) 0)
            iv := (List.range 16).map (fun a => block.getD (23 - a) 0)
            count := List.replicate 16 0
            num := 0 }
      ∧ (writePrelude env c buffer block).1.firstPacketSent = true
      ∧ (writePrelude env c buffer block).1.outgoingByteStream = c.outgoingByteStream
      ∧ (SessionOpen env c → SessionOpen env (writePrelude env c buffer block).1) := by
  obtain ⟨d1, d2, d3, d4, d5, d6⟩ := deriveKeys_spec c
    ((buffer.poke 0 (block64 block)).poke 56 [0xef, 0xef, 0xef, 0xef]) block
    (marked_bytes buffer block)
  have hk := AES_ctr128_encrypt_key env.aes (markedBlock block) (initialEncryptState block)
  have hlen := AES_ctr128_encrypt_length env.aes (markedBlock block) (initialEncryptState block)
  rw [markedBlock_length] at hlen
  unfold writePrelude
  dsimp only
  rw [marked_slice, d1]
  refine ⟨?_, rfl, rfl, ?_, d2, rfl, d4, ?_⟩
  · apply slice_eq_map
    intro i hi
    rw [Nat.zero_add]
    unfold poke
    dsimp only
    have hl8 : (List.take 8 (List.drop 56
        (AES_ctr128_encrypt env.aes (initialEncryptState block) (markedBlock block)).1)).length
        = 8 := by
      rw [List.length_take, List.length_drop, hlen]
      rfl
    rw [hl8]
    by_cases h56 : i < 56
    · rw [if_neg (by omega), if_pos h56]
      have := marked_bytes buffer block i hi
      unfold poke at this
      dsimp only at this
      rw [this, if_neg (by omega)]
    · rw [if_pos (by omega), if_neg h56, getD_drop_take _ _ (by omega),
        show 56 + (i - 56) = i by omega]
  · have hk2 : (deriveKeys c ((buffer.poke 0 (block64 block)).poke 56
        [0xef, 0xef, 0xef, 0xef])).encryptKey = (initialEncryptState block).key := by
      have := congrArg CtrState.key d1
      exact this
    unfold encryptState
    dsimp only
    rw [hk2, ← hk]
  · intro h
    obtain ⟨h1, h2, h3⟩ := h
    rw [← d5] at h1
    rw [← d6] at h2 h3
    exact ⟨h1, h2, h3⟩

/-! ## Outbound: `sendData` inside a session -/

theorem not_idle_of_open {env : Env} {c : Connection} (h : SessionOpen env c) :
    ¬ (c.connectionState = TcpConnectionState.TcpConnectionStageIdle
        ∨ c.connectionState = TcpConnectionState.TcpConnectionStageReconnecting
        ∨ c.connectionState = TcpConnectionState.TcpConnectionStageSuspended) := by
  rcases h.1 with e | e <;> rw [e] <;> decide

theorem isDisconnected_of_open {env : Env} {c : Connection} (h : SessionOpen env c) :
    isDisconnected c = false := by
  unfold isDisconnected
  have := h.2.1
  simp only [decide_eq_false_iff_not, not_lt]
  exact this

/-- A later `sendData` of a session: no prelude, a header buffer of
`lengthSize` bytes from the pool. -/
theorem sendData_later (env : Env) (c : Connection) (buff : NativeByteBuffer) (ack enc : Bool)
    (h : SessionOpen env c) (hf : c.firstPacketSent = true) :
    sendData env c (some buff) ack enc
      = some ((sendFrame env c (getFreeBuffer env (lengthSize buff.limit)) buff.rewind ack).1,
          [] ++ (sendFrame env c (getFreeBuffer env (lengthSize buff.limit)) buff.rewind ack).2) := by
  unfold sendData
  dsimp only
  rw [if_neg (not_idle_of_open h)]
  dsimp only
  rw [isDisconnected_of_open h, hf]
  simp only [Bool.false_eq_true, if_false, Bool.not_true, Nat.add_zero]
  rfl

/-- The first `sendData` of a session: the prelude block runs on a pool buffer
of `lengthSize + 64` bytes positioned at 64. -/
theorem sendData_first (env : Env) (c : Connection) (buff : NativeByteBuffer) (ack enc : Bool)
    (h : SessionOpen env c) (hf : c.firstPacketSent = false) (block : List Nat)
    (hb : firstAccepted env.randBlocks = some block) :
    sendData env c (some buff) ack enc
      = some ((sendFrame env
            (writePrelude env c ((getFreeBuffer env (lengthSize buff.limit + 64)).setPosition 64)
              block).1
            (writePrelude env c ((getFreeBuffer env (lengthSize buff.limit + 64)).setPosition 64)
              block).2 buff.rewind ack).1,
          [] ++ (sendFrame env
            (writePrelude env c ((getFreeBuffer env (lengthSize buff.limit + 64)).setPosition 64)
              block).1
            (writePrelude env c ((getFreeBuffer env (lengthSize buff.limit + 64)).setPosition 64)
              block).2 buff.rewind ack).2) := by
  unfold sendData
  dsimp only
  rw [if_neg (not_idle_of_open h)]
  dsimp only
  rw [isDisconnected_of_open h, hf, hb]
  simp only [Bool.false_eq_true, if_false, Bool.not_false, if_true, Option.map_some']
  rfl

theorem plainFrame_rewind (buff : NativeByteBuffer) (ack : Bool) :
    plainFrame (buff.rewind, ack) = plainFrame (buff, ack) := rfl

/-- A later `sendData` of a session, for a pool that hands out buffers of at
least the size asked for: two buffers are queued, and what they add to the wire
is the encryption of the length field and the payload, as one stream, under the
outbound cipher state the call found. -/
theorem sendData_later_spec (env : Env) (hpool : ∀ n, n ≤ env.poolCapacity n) (c : Connection)
    (buff : NativeByteBuffer) (ack enc : Bool) (h : SessionOpen env c)
    (hf : c.firstPacketSent = true) :
    ∃ d hdr body, sendData env c (some buff) ack enc = some (d, [])
      ∧ d.outgoingByteStream = c.outgoingByteStream ++ [hdr, body]
      ∧ hdr.position = 0 ∧ hdr.limit = lengthSize buff.limit
      ∧ queuedBytes [hdr, body]
        = (AES_ctr128_encrypt env.aes (encryptState c) (plainFrame (buff, ack))).1
      ∧ encryptState d
        = (AES_ctr128_encrypt env.aes (encryptState c) (plainFrame (buff, ack))).2
      ∧ decryptState d = decryptState c
      ∧ d.firstPacketSent = true
      ∧ SessionOpen env d := by
  have hg := getFreeBuffer_eq env (lengthSize buff.limit) (hpool _)
  obtain ⟨f1, ⟨hdr, body, f2, g1, g2, _, f3⟩, f4, f5, f6, f7⟩ := sendFrame_open env c
    (getFreeBuffer env (lengthSize buff.limit)) buff.rewind ack h
    (by rw [hg]; show 0 + lengthSize buff.limit = lengthSize buff.limit; omega)
  rw [plainFrame_rewind] at f3 f4
  refine ⟨_, hdr, body, ?_, f2, g1, by rw [g2, hg], ?_, f4, f5, by rw [f6]; exact hf, f7⟩
  · rw [sendData_later env c buff ack enc h hf, f1]
    rfl
  · rw [f3, hg]
    rfl

/-- The first `sendData` of a session: the header buffer starts with the 64
prelude bytes, and the length field and the payload are encrypted as one
stream under the state the prelude encryption left behind. -/
theorem sendData_first_spec (env : Env) (hpool : ∀ n, n ≤ env.poolCapacity n) (c : Connection)
    (buff : NativeByteBuffer) (ack enc : Bool) (h : SessionOpen env c)
    (hf : c.firstPacketSent = false) (block : List Nat)
    (hb : firstAccepted env.randBlocks = some block) :
    ∃ d hdr body, sendData env c (some buff) ack enc = some (d, [])
      ∧ d.outgoingByteStream = c.outgoingByteStream ++ [hdr, body]
      ∧ hdr.position = 0 ∧ hdr.limit = lengthSize buff.limit + 64
      ∧ hdr.slice 0 64 = preludeBytes env.aes block
      ∧ queuedBytes [hdr, body]
        = preludeBytes env.aes block
          ++ (AES_ctr128_encrypt env.aes
                (AES_ctr128_encrypt env.aes (initialEncryptState block) (markedBlock block)).2
                (plainFrame (buff, ack))).1
      ∧ encryptState d
        = (AES_ctr128_encrypt env.aes
            (AES_ctr128_encrypt env.aes (initialEncryptState block) (markedBlock block)).2
            (plainFrame (buff, ack))).2
      ∧ decryptState d
        = { key := (List.range 32).map (fun a => block.getD (55 - a) 0)
            iv := (List.range 16).map (fun a => block.getD (23 - a) 0)
            count := List.replicate 16 0
            num := 0 }
      ∧ d.encryptKey = (List.range 32).map (fun a => block.getD (a + 8) 0)
      ∧ d.firstPacketSent = true
      ∧ SessionOpen env d := by
  have hg := getFreeBuffer_eq env (lengthSize buff.limit + 64) (hpool _)
  have hpos : ((getFreeBuffer env (lengthSize buff.limit + 64)).setPosition 64).position = 64 := by
    rw [hg, setPosition_of_le (by dsimp only; omega)]
  have hlim : ((getFreeBuffer env (lengthSize buff.limit + 64)).setPosition 64).limit
      = lengthSize buff.limit + 64 := by
    rw [hg, setPosition_of_le (by dsimp only; omega)]
  obtain ⟨p1, p2, p3, p4, p5, p6, p7, p8⟩ := writePrelude_spec env c
    ((getFreeBuffer env (lengthSize buff.limit + 64)).setPosition 64) block
  rw [hpos] at p2
  rw [hlim] at p3
  generalize hW : writePrelude env c
    ((getFreeBuffer env (lengthSize buff.limit + 64)).setPosition 64) block = W
    at p1 p2 p3 p4 p5 p6 p7 p8
  have hsd := sendData_first env c buff ack enc h hf block hb
  rw [hW] at hsd
  obtain ⟨f1, ⟨hdr, body, f2, g1, g2, g3, f3⟩, f4, f5, f6, f7⟩ := sendFrame_open env W.1 W.2
    buff.rewind ack (p8 h) (by rw [p2, p3]; show 64 + lengthSize buff.limit = _; omega)
  rw [plainFrame_rewind, p4] at f3 f4
  rw [p2, p1] at f3 g3
  have hkey := congrArg CtrState.key f4
  rw [AES_ctr128_encrypt_key, AES_ctr128_encrypt_key] at hkey
  refine ⟨_, hdr, body, ?_, by rw [f2, p7], g1, by rw [g2, p3], g3, f3, f4, by rw [f5, p5], hkey,
    by rw [f6, p6], f7⟩
  rw [hsd, f1]
  rfl

/-! ## The acceptance test of the prelude -/

theorem shl_or (q r k : Nat) (h : r < 2 ^ k) : (q <<< k) ||| r = q * 2 ^ k + r := by
  rw [Nat.shiftLeft_eq, Nat.mul_comm]
  exact (@Nat.mul_add_lt_is_or k r h q).symm

theorem word_of_bytes (b0 b1 b2 b3 : Nat) (h0 : b0 < 256) (h1 : b1 < 256) (h2 : b2 < 256) :
    (b3 <<< 24) ||| (b2 <<< 16) ||| (b1 <<< 8) ||| b0
      = b0 + 256 * b1 + 65536 * b2 + 16777216 * b3 := by
  rw [Nat.or_assoc, Nat.or_assoc, shl_or b1 b0 8 (by omega),
    shl_or b2 (b1 * 2 ^ 8 + b0) 16 (by omega),
    shl_or b3 (b2 * 2 ^ 16 + (b1 * 2 ^ 8 + b0)) 24 (by omega)]
  omega

theorem getD_lt_of_bytes (block : List Nat) (h : ∀ x ∈ block, x < 256) (i : Nat) :
    block.getD i 0 < 256 := by
  by_cases hi : i < block.length
  · rw [List.getD_eq_getElem _ _ hi]
    exact h _ (List.getElem_mem hi)
  · rw [List.getD_eq_default _ _ (by omega)]
    omega

/-- The acceptance test of the prelude loop is the acceptability of the wire
format, on blocks of bytes. -/
theorem preludeAccepted_iff (block : List Nat) (h : ∀ x ∈ block, x < 256) :
    preludeAccepted block = true ↔ acceptable block := by
  have hb := getD_lt_of_bytes block h
  unfold preludeAccepted acceptable u32le blacklist
  dsimp only
  rw [word_of_bytes _ _ _ _ (hb 0) (hb 1) (hb 2), word_of_bytes _ _ _ _ (hb 4) (hb 5) (hb 6)]
  simp only [Bool.and_eq_true, bne_iff_ne, ne_eq, List.mem_cons, List.mem_singleton,
    List.not_mem_nil, or_false, not_or, Nat.zero_add]
  tauto

theorem firstAccepted_some : ∀ (l : List (List Nat)), (∃ b ∈ l, preludeAccepted b = true) →
    ∃ pre block post, l = pre ++ block :: post ∧ (∀ b ∈ pre, preludeAccepted b = false)
      ∧ preludeAccepted block = true ∧ firstAccepted l = some block := by
  intro l
  induction l with
  | nil => intro ⟨b, hb, _⟩; cases hb
  | cons a l ih =>
    intro hex
    by_cases ha : preludeAccepted a = true
    · refine ⟨[], a, l, rfl, ?_, ha, ?_⟩
      · intro b hb
        exact absurd hb (List.not_mem_nil b)
      · unfold firstAccepted
        rw [if_pos ha]
    · obtain ⟨b, hb, hacc⟩ := hex
      have hbl : b ∈ l := by
        rcases List.mem_cons.mp hb with e | e
        · rw [e] at hacc; exact absurd hacc ha
        · exact e
      obtain ⟨pre, block, post, e1, e2, e3, e4⟩ := ih ⟨b, hbl, hacc⟩
      refine ⟨a :: pre, block, post, by rw [e1]; rfl, ?_, e3, ?_⟩
      swap
      · unfold firstAccepted
        rw [if_neg ha, e4]
      intro x hx
      rcases List.mem_cons.mp hx with e | e
      · rw [e]; simpa using ha
      · exact e2 x e

theorem preludeBytes_length (aes : List Nat → List Nat → List Nat) (block : List Nat) :
    (preludeBytes aes block).length = 64 := by
  simp [preludeBytes]

theorem preludeBytes_getD_lo (aes : List Nat → List Nat → List Nat) (block : List Nat) (i : Nat)
    (h : i < 56) : (preludeBytes aes block).getD i 0 = block.getD i 0 := by
  unfold preludeBytes
  rw [List.getD_eq_getElem _ _ (by simp; omega)]
  simp [h]

theorem preludeBytes_getD_hi (aes : List Nat → List Nat → List Nat) (block : List Nat) (i : Nat)
    (h : 56 ≤ i) (h2 : i < 64) :
    (preludeBytes aes block).getD i 0
      = (AES_ctr128_encrypt aes (initialEncryptState block) (markedBlock block)).1.getD i 0 := by
  unfold preludeBytes
  rw [List.getD_eq_getElem _ _ (by simp; omega)]
  simp [show ¬ i < 56 by omega]

theorem preludeBytes_take (aes : List Nat → List Nat → List Nat) (block : List Nat) :
    (preludeBytes aes block).take 56 = (block64 block).take 56 := by
  apply List.ext_getElem
  · simp [preludeBytes, block64]
  · intro i h1 h2
    have hi : i < 56 := by
      rw [List.length_take] at h1
      omega
    rw [List.getElem_take, List.getElem_take]
    have e1 := preludeBytes_getD_lo aes block i hi
    have e2 := block64_getD block i (by omega)
    rw [List.getD_eq_getElem _ _ (by rw [preludeBytes_length]; omega)] at e1
    rw [List.getD_eq_getElem _ _ (by rw [block64_length]; omega)] at e2
    rw [e1, e2]

theorem preludeBytes_drop (aes : List Nat → List Nat → List Nat) (block : List Nat) :
    (preludeBytes aes block).drop 56
      = (AES_ctr128_encrypt aes (initialEncryptState block) (markedBlock block)).1.drop 56 := by
  have hlen := AES_ctr128_encrypt_length aes (markedBlock block) (initialEncryptState block)
  rw [markedBlock_length] at hlen
  apply List.ext_getElem
  · simp [preludeBytes_length, hlen]
  · intro i h1 h2
    have hi : i < 8 := by
      rw [List.length_drop, preludeBytes_length] at h1
      omega
    rw [List.getElem_drop, List.getElem_drop]
    have e1 := preludeBytes_getD_hi aes block (56 + i) (by omega) (by omega)
    rw [List.getD_eq_getElem _ _ (show 56 + i < (preludeBytes aes block).length by
        rw [preludeBytes_length]; omega),
      List.getD_eq_getElem _ _ (show 56 + i
          < (AES_ctr128_encrypt aes (initialEncryptState block) (markedBlock block)).1.length by
        rw [hlen]; omega)] at e1
    exact e1

theorem u32le_congr (l m : List Nat) (off : Nat)
    (h : ∀ i, i < 4 → l.getD (off + i) 0 = m.getD (off + i) 0) : u32le l off = u32le m off := by
  unfold u32le
  have h0 := h 0 (by omega)
  rw [Nat.add_zero] at h0
  rw [h0, h 1 (by omega), h 2 (by omega), h 3 (by omega)]

/-- The emitted prelude is acceptable exactly when the random block is. -/
theorem acceptable_preludeBytes (aes : List Nat → List Nat → List Nat) (block : List Nat) :
    acceptable (preludeBytes aes block) ↔ acceptable block := by
  unfold acceptable
  rw [preludeBytes_getD_lo aes block 0 (by omega),
    u32le_congr (preludeBytes aes block) block 0
      (fun i hi => preludeBytes_getD_lo aes block _ (by omega)),
    u32le_congr (preludeBytes aes block) block 4
      (fun i hi => preludeBytes_getD_lo aes block _ (by omega))]

/-! ## C4: prelude blacklist -/

/-- C4. Prelude blacklist.  The random source is the sequence `env.randBlocks`
of candidate blocks of bytes, of which at least one is acceptable (first byte
not `0xef`, first little-endian word not blacklisted, second word not zero).
The first `sendData` of a session then returns; the 64 bytes at the start of
the first buffer it queues are acceptable; their bytes 0..55 are bytes 0..55 of
the first acceptable candidate, and bytes 56..63 are bytes 56..63 of the
encryption of that candidate, with the marker `ef ef ef ef` at 56..59, under
the derived outbound state. -/
theorem prelude_blacklist (env : Env) (hpool : ∀ n, n ≤ env.poolCapacity n) (c : Connection)
    (buff : NativeByteBuffer) (ack enc : Bool) (h : SessionOpen env c)
    (hf : c.firstPacketSent = false)
    (hbytes : ∀ b ∈ env.randBlocks, ∀ x ∈ b, x < 256)
    (hex : ∃ b ∈ env.randBlocks, acceptable b) :
    ∃ pre block post d hdr body,
      env.randBlocks = pre ++ block :: post ∧ (∀ b ∈ pre, ¬ acceptable b) ∧ acceptable block
      ∧ sendData env c (some buff) ack enc = some (d, [])
      ∧ d.outgoingByteStream = c.outgoingByteStream ++ [hdr, body]
      ∧ hdr.position = 0 ∧ 64 ≤ hdr.limit
      ∧ (hdr.slice 0 64).length = 64
      ∧ (hdr.slice 0 64).getD 0 0 ≠ 0xef
      ∧ u32le (hdr.slice 0 64) 0 ∉ blacklist
      ∧ u32le (hdr.slice 0 64) 4 ≠ 0
      ∧ (hdr.slice 0 64).take 56 = (block64 block).take 56
      ∧ (hdr.slice 0 64).drop 56
        = (AES_ctr128_encrypt env.aes (initialEncryptState block) (markedBlock block)).1.drop 56
      ∧ (markedBlock block).take 56 = (block64 block).take 56
      ∧ ((markedBlock block).drop 56).take 4 = [0xef, 0xef, 0xef, 0xef]
      ∧ (markedBlock block).drop 60 = (block64 block).drop 60 := by
  obtain ⟨b, hb, hacc⟩ := hex
  obtain ⟨pre, block, post, e1, e2, e3, e4⟩ := firstAccepted_some env.randBlocks
    ⟨b, hb, (preludeAccepted_iff b (hbytes b hb)).mpr hacc⟩
  have hblock : ∀ x ∈ block, x < 256 := hbytes block (by rw [e1]; simp)
  have hacc2 : acceptable block := (preludeAccepted_iff block hblock).mp e3
  obtain ⟨d, hdr, body, s1, s2, s3, s4, s5, _⟩ :=
    sendData_first_spec env hpool c buff ack enc h hf block e4
  have hacc3 := (acceptable_preludeBytes env.aes block).mpr hacc2
  rw [← s5] at hacc3
  refine ⟨pre, block, post, d, hdr, body, e1, ?_, hacc2, s1, s2, s3, by omega,
    by rw [s5, preludeBytes_length], hacc3.1, hacc3.2.1, hacc3.2.2,
    by rw [s5, preludeBytes_take], by rw [s5, preludeBytes_drop], ?_, ?_, ?_⟩
  · intro x hx hax
    have hx2 : x ∈ env.randBlocks := by rw [e1]; simp [hx]
    have := (preludeAccepted_iff x (hbytes x hx2)).mpr hax
    rw [e2 x hx] at this
    exact Bool.false_ne_true this
  · apply List.ext_getElem
    · simp [markedBlock, block64]
    · intro i h1 h2
      have hi : i < 56 := by
        rw [List.length_take] at h1
        omega
      simp [markedBlock, block64, show ¬ (56 ≤ i) by omega]
  · apply List.ext_getElem
    · simp [markedBlock]
    · intro i h1 h2
      have hi : i < 4 := by simpa using h2
      simp only [List.getElem_take, List.getElem_drop, markedBlock, List.getElem_map,
        List.getElem_range]
      rw [if_pos (by omega)]
      interval_cases i <;> rfl
  · apply List.ext_getElem
    · simp [markedBlock, block64]
    · intro i h1 h2
      have hi : i < 4 := by
        rw [List.length_drop, markedBlock_length] at h1
        omega
      simp [markedBlock, block64, show ¬ (60 + i < 60) by omega]

/-- C4 at a concrete input: the random source gives one blacklisted block (it
starts with `ef`) and then the block of 64 ones; a 16-byte payload is sent on
the sample session. -/
theorem prelude_blacklist_witness :
    ∃ pre block post d hdr body,
      [List.replicate 64 0xef, List.replicate 64 1] = pre ++ block :: post
      ∧ (∀ b ∈ pre, ¬ acceptable b) ∧ acceptable block
      ∧ sendData { sampleEnv with randBlocks := [List.replicate 64 0xef, List.replicate 64 1] }
          sampleSession (some (ofList (List.replicate 16 7) 16)) false false = some (d, [])
      ∧ d.outgoingByteStream = sampleSession.outgoingByteStream ++ [hdr, body]
      ∧ hdr.position = 0 ∧ 64 ≤ hdr.limit
      ∧ (hdr.slice 0 64).length = 64
      ∧ (hdr.slice 0 64).getD 0 0 ≠ 0xef
      ∧ u32le (hdr.slice 0 64) 0 ∉ blacklist
      ∧ u32le (hdr.slice 0 64) 4 ≠ 0
      ∧ (hdr.slice 0 64).take 56 = (block64 block).take 56
      ∧ (hdr.slice 0 64).drop 56
        = (AES_ctr128_encrypt sampleEnv.aes (initialEncryptState block)
            (markedBlock block)).1.drop 56
      ∧ (markedBlock block).take 56 = (block64 block).take 56
      ∧ ((markedBlock block).drop 56).take 4 = [0xef, 0xef, 0xef, 0xef]
      ∧ (markedBlock block).drop 60 = (block64 block).drop 60 :=
  prelude_blacklist { sampleEnv with randBlocks := [List.replicate 64 0xef, List.replicate 64 1] }
    (fun n => Nat.le_refl n) sampleSession (ofList (List.replicate 16 7) 16) false false
    ⟨Or.inr rfl, by decide, rfl⟩ rfl (by decide) ⟨List.replicate 64 1, by decide, by decide⟩

/-! ## Counter mode as a keystream -/

theorem xorStream_nil (aes : List Nat → List Nat → List Nat) (key iv : List Nat) (off : Nat) :
    xorStream aes key iv off [] = [] := rfl

theorem xorStream_length (aes : List Nat → List Nat → List Nat) (key iv : List Nat) (off : Nat)
    (plain : List Nat) : (xorStream aes key iv off plain).length = plain.length := by
  simp [xorStream]

theorem xorStream_cons (aes : List Nat → List Nat → List Nat) (key iv : List Nat) (off b : Nat)
    (rest : List Nat) :
    xorStream aes key iv off (b :: rest)
      = (b ^^^ keystream aes key iv off) :: xorStream aes key iv (off + 1) rest := by
  unfold xorStream
  rw [List.length_cons, List.range_succ_eq_map, List.map_cons, List.map_map]
  congr 1
  apply List.map_congr_left
  intro i _
  simp only [Function.comp_apply, List.getD_cons_succ]
  rw [show off + 1 + i = off + (i + 1) by omega]

theorem xorStream_append (aes : List Nat → List Nat → List Nat) (key iv : List Nat) :
    ∀ (A : List Nat) (off : Nat) (B : List Nat),
      xorStream aes key iv off (A ++ B)
        = xorStream aes key iv off A ++ xorStream aes key iv (off + A.length) B := by
  intro A
  induction A with
  | nil => intro off B; simp [xorStream_nil]
  | cons a A ih =>
    intro off B
    rw [List.cons_append, xorStream_cons, xorStream_cons, ih, List.length_cons, List.cons_append]
    rw [show off + 1 + A.length = off + (A.length + 1) by omega]

/-- One byte of `AES_ctr128_encrypt` at stream offset `off`. -/
theorem ctrByte_at (aes : List Nat → List Nat → List Nat) (key iv : List Nat) (off : Nat)
    (s : CtrState) (b : Nat) (h : CtrAt aes key iv off s) :
    (ctrByte aes s b).1 = b ^^^ keystream aes key iv off
      ∧ CtrAt aes key iv (off + 1) (ctrByte aes s b).2 := by
  obtain ⟨hk, hn, hi, hc⟩ := h
  unfold ctrByte keystream
  dsimp only
  by_cases h0 : off % 16 = 0
  · have hn0 : s.num = 0 := by omega
    rw [if_pos hn0]
    dsimp only
    have e1 : (off + 15) / 16 = off / 16 := by omega
    rw [e1] at hi
    refine ⟨by rw [hk, hi, hn0, h0], hk, by show (s.num + 1) % 16 = (off + 1) % 16; omega, ?_, ?_⟩
    · show ctr128_inc s.iv = _
      rw [hi, show (off + 1 + 15) / 16 = off / 16 + 1 by omega, Function.iterate_succ_apply']
    · intro _
      show aes s.key s.iv = _
      rw [hk, hi, show (off + 1) / 16 = off / 16 by omega]
  · have hn0 : ¬ s.num = 0 := by omega
    rw [if_neg hn0]
    refine ⟨by rw [hc h0, hn], hk, by show (s.num + 1) % 16 = (off + 1) % 16; omega, ?_, ?_⟩
    · show s.iv = _
      rw [hi, show (off + 1 + 15) / 16 = (off + 15) / 16 by omega]
    · intro h1
      show s.count = _
      rw [hc h0, show (off + 1) / 16 = off / 16 by omega]

/-- The library call from stream offset `off`: the output is the input XORed
with the keystream from `off` on, and the state is left at the offset behind
the input. -/
theorem AES_ctr128_encrypt_stream (aes : List Nat → List Nat → List Nat) (key iv : List Nat) :
    ∀ (input : List Nat) (off : Nat) (s : CtrState), CtrAt aes key iv off s →
      (AES_ctr128_encrypt aes s input).1 = xorStream aes key iv off input
        ∧ CtrAt aes key iv (off + input.length) (AES_ctr128_encrypt aes s input).2 := by
  intro input
  induction input with
  | nil => intro off s h; exact ⟨rfl, h⟩
  | cons b rest ih =>
    intro off s h
    obtain ⟨h1, h2⟩ := ctrByte_at aes key iv off s b h
    obtain ⟨h3, h4⟩ := ih (off + 1) _ h2
    simp only [AES_ctr128_encrypt]
    refine ⟨by rw [xorStream_cons, h1, h3], ?_⟩
    rw [List.length_cons, show off + (rest.length + 1) = off + 1 + rest.length by omega]
    exact h4

theorem initialEncryptState_at (aes : List Nat → List Nat → List Nat) (block : List Nat) :
    CtrAt aes (initialEncryptState block).key (initialEncryptState block).iv 0
      (initialEncryptState block) :=
  ⟨rfl, rfl, rfl, fun h => absurd rfl h⟩

theorem queuedBytes_append (a b : List NativeByteBuffer) :
    queuedBytes (a ++ b) = queuedBytes a ++ queuedBytes b := by
  simp [queuedBytes]

theorem plainFrame_length (call : NativeByteBuffer × Bool) :
    (plainFrame call).length = frameSize call := by
  simp [plainFrame, frameSize, lengthBytes_length, NativeByteBuffer.slice]

/-! ## A session of `sendData` calls -/

/-- The calls of a session after the first: every call queues two buffers, and
all of them together add to the wire the plaintext frames XORed with the
keystream from the offset the session had reached. -/
theorem sendAll_later (env : Env) (hpool : ∀ n, n ≤ env.poolCapacity n) (key iv : List Nat) :
    ∀ (calls : List (NativeByteBuffer × Bool)) (c : Connection) (off : Nat),
      SessionOpen env c → c.firstPacketSent = true →
      CtrAt env.aes key iv off (encryptState c) →
      ∃ d new, sendAll env c calls = some (d, [])
        ∧ d.outgoingByteStream = c.outgoingByteStream ++ new
        ∧ new.length = 2 * calls.length
        ∧ queuedBytes new = xorStream env.aes key iv off (calls.map plainFrame).flatten
        ∧ CtrAt env.aes key iv (off + (calls.map plainFrame).flatten.length) (encryptState d)
        ∧ decryptState d = decryptState c
        ∧ d.firstPacketSent = true
        ∧ SessionOpen env d := by
  intro calls
  induction calls with
  | nil =>
    intro c off h hf hat
    exact ⟨c, [], rfl, by simp, rfl, rfl, hat, rfl, hf, h⟩
  | cons call calls ih =>
    intro c off h hf hat
    obtain ⟨d1, hdr, body, s1, s2, _, _, s3, s4, s5, s6, s7⟩ :=
      sendData_later_spec env hpool c call.1 call.2 false h hf
    obtain ⟨a1, a2⟩ := AES_ctr128_encrypt_stream env.aes key iv (plainFrame (call.1, call.2)) off
      (encryptState c) hat
    rw [← s4] at a2
    rw [a1] at s3
    obtain ⟨d, new, t1, t2, t3, t4, t5, t6, t7, t8⟩ := ih d1 _ s7 s6 a2
    refine ⟨d, [hdr, body] ++ new, ?_, by rw [t2, s2, List.append_assoc], ?_, ?_, ?_,
      by rw [t6, s5], t7, t8⟩
    · simp only [sendAll, s1, t1]
      rfl
    · simp only [List.length_append, List.length_cons, List.length_nil, t3]
      omega
    · rw [queuedBytes_append, s3, t4, List.map_cons, List.flatten_cons, xorStream_append]
    · rw [List.map_cons, List.flatten_cons, List.length_append, ← Nat.add_assoc]
      exact t5

theorem key_of_block (block : List Nat) :
    (initialEncryptState block).key = ((block64 block).drop 8).take 32 := rfl

theorem iv_of_block (block : List Nat) :
    (initialEncryptState block).iv = ((block64 block).drop 40).take 16 := rfl

/-- The emitted prelude in terms of the keystream: bytes 56..63 are the marked
block XORed with keystream offsets 56..63. -/
theorem preludeBytes_stream (aes : List Nat → List Nat → List Nat) (block : List Nat) :
    (preludeBytes aes block).drop 56
      = xorStream aes (initialEncryptState block).key (initialEncryptState block).iv 56
          ((markedBlock block).drop 56) := by
  have h := (AES_ctr128_encrypt_stream aes _ _ (markedBlock block) 0 _
    (initialEncryptState_at aes block)).1
  rw [preludeBytes_drop, h]
  conv_lhs => rw [← List.take_append_drop 56 (markedBlock block), xorStream_append]
  have hl : (xorStream aes (initialEncryptState block).key (initialEncryptState block).iv 0
      (List.take 56 (markedBlock block))).length = 56 := by
    rw [xorStream_length, List.length_take, markedBlock_length]
    rfl
  rw [List.drop_left' hl, List.length_take, markedBlock_length]
  rfl

/-- A session from its first `sendData` on. -/
theorem sendAll_first (env : Env) (hpool : ∀ n, n ≤ env.poolCapacity n) (c : Connection)
    (call : NativeByteBuffer × Bool) (calls : List (NativeByteBuffer × Bool))
    (h : SessionOpen env c) (hf : c.firstPacketSent = false) (block : List Nat)
    (hb : firstAccepted env.randBlocks = some block) :
    ∃ d new, sendAll env c (call :: calls) = some (d, [])
      ∧ d.outgoingByteStream = c.outgoingByteStream ++ new
      ∧ new.length = 2 * (call :: calls).length
      ∧ queuedBytes new
        = preludeBytes env.aes block
          ++ xorStream env.aes (initialEncryptState block).key (initialEncryptState block).iv 64
              ((call :: calls).map plainFrame).flatten
      ∧ CtrAt env.aes (initialEncryptState block).key (initialEncryptState block).iv
          (64 + ((call :: calls).map plainFrame).flatten.length) (encryptState d)
      ∧ d.firstPacketSent = true
      ∧ SessionOpen env d := by
  obtain ⟨d1, hdr, body, s1, s2, _, _, _, s3, s4, _, _, s6, s7⟩ :=
    sendData_first_spec env hpool c call.1 call.2 false h hf block hb
  obtain ⟨b1, b2⟩ := AES_ctr128_encrypt_stream env.aes _ _ (markedBlock block) 0 _
    (initialEncryptState_at env.aes block)
  rw [markedBlock_length, Nat.zero_add] at b2
  obtain ⟨a1, a2⟩ := AES_ctr128_encrypt_stream env.aes _ _ (plainFrame (call.1, call.2)) _ _ b2
  rw [← s4] at a2
  rw [a1] at s3
  obtain ⟨d, new, t1, t2, t3, t4, t5, _, t7, t8⟩ := sendAll_later env hpool _ _ calls d1 _ s7 s6 a2
  refine ⟨d, [hdr, body] ++ new, ?_, by rw [t2, s2, List.append_assoc], ?_, ?_, ?_, t7, t8⟩
  · simp only [sendAll, s1, t1]
    rfl
  · simp only [List.length_append, List.length_cons, List.length_nil, t3]
    omega
  · rw [queuedBytes_append, s3, t4, List.map_cons, List.flatten_cons, xorStream_append,
      List.append_assoc]
  · rw [List.map_cons, List.flatten_cons, List.length_append, ← Nat.add_assoc]
    exact t5

/-! ## C8: continuous outbound cipher stream -/

/-- C8. Continuous outbound cipher stream.  Let `block` be the accepted random
block of the first `sendData` of a session, `key` its bytes 8..39 and `iv` its
bytes 40..55, and `keystream aes key iv i` the counter-mode keystream byte at
offset `i`.  For every non-empty sequence of `sendData` calls of the session
(payload buffer and `reportAck` flag each), all calls return, the buffers they
queue start with the 64 prelude bytes, and the bytes queued after them are the
concatenation `prefix_1 payload_1 prefix_2 payload_2 ...` in call order, XORed
byte for byte with the keystream from offset 64 on.  The prelude itself used
offsets 0..63 (its bytes 56..63 are the marked block XORed with offsets
56..63), and the cipher state is left at offset 64 plus the number of bytes
sent, so there is no reset between prefix and payload or between calls. -/
theorem continuous_outbound_stream (env : Env) (hpool : ∀ n, n ≤ env.poolCapacity n)
    (c : Connection) (call : NativeByteBuffer × Bool) (calls : List (NativeByteBuffer × Bool))
    (h : SessionOpen env c) (hf : c.firstPacketSent = false) (block : List Nat)
    (hb : firstAccepted env.randBlocks = some block) :
    ∃ d new, sendAll env c (call :: calls) = some (d, [])
      ∧ d.outgoingByteStream = c.outgoingByteStream ++ new
      ∧ (queuedBytes new).take 64 = preludeBytes env.aes block
      ∧ (queuedBytes new).drop 64
        = xorStream env.aes (((block64 block).drop 8).take 32) (((block64 block).drop 40).take 16)
            64 ((call :: calls).map plainFrame).flatten
      ∧ (preludeBytes env.aes block).drop 56
        = xorStream env.aes (((block64 block).drop 8).take 32) (((block64 block).drop 40).take 16)
            56 ((markedBlock block).drop 56)
      ∧ CtrAt env.aes (((block64 block).drop 8).take 32) (((block64 block).drop 40).take 16)
          (64 + ((call :: calls).map plainFrame).flatten.length) (encryptState d) := by
  obtain ⟨d, new, t1, t2, _, t4, t5, _, _⟩ := sendAll_first env hpool c call calls h hf block hb
  have hp := preludeBytes_stream env.aes block
  rw [key_of_block, iv_of_block] at t4 t5 hp
  refine ⟨d, new, t1, t2, ?_, ?_, hp, t5⟩
  · rw [t4, List.take_left' (preludeBytes_length _ _)]
  · rw [t4, List.drop_left' (preludeBytes_length _ _)]

/-- C8 at a concrete input: on the sample session, whose random source gives
the block of 64 ones, a 16-byte payload without `reportAck` and then a 4-byte
payload with it. -/
theorem continuous_outbound_stream_witness :
    ∃ d new, sendAll sampleEnv sampleSession
        [(ofList (List.replicate 16 7) 16, false), (ofList [1, 2, 3, 4] 4, true)] = some (d, [])
      ∧ d.outgoingByteStream = sampleSession.outgoingByteStream ++ new
      ∧ (queuedBytes new).take 64 = preludeBytes sampleEnv.aes (List.replicate 64 1)
      ∧ (queuedBytes new).drop 64
        = xorStream sampleEnv.aes (((block64 (List.replicate 64 1)).drop 8).take 32)
            (((block64 (List.replicate 64 1)).drop 40).take 16) 64
            (((ofList (List.replicate 16 7) 16, false)
              :: [(ofList [1, 2, 3, 4] 4, true)]).map plainFrame).flatten
      ∧ (preludeBytes sampleEnv.aes (List.replicate 64 1)).drop 56
        = xorStream sampleEnv.aes (((block64 (List.replicate 64 1)).drop 8).take 32)
            (((block64 (List.replicate 64 1)).drop 40).take 16) 56
            ((markedBlock (List.replicate 64 1)).drop 56)
      ∧ CtrAt sampleEnv.aes (((block64 (List.replicate 64 1)).drop 8).take 32)
          (((block64 (List.replicate 64 1)).drop 40).take 16)
          (64 + (((ofList (List.replicate 16 7) 16, false)
              :: [(ofList [1, 2, 3, 4] 4, true)]).map plainFrame).flatten.length)
          (encryptState d) :=
  continuous_outbound_stream sampleEnv (fun n => Nat.le_refl n) sampleSession
    (ofList (List.replicate 16 7) 16, false) [(ofList [1, 2, 3, 4] 4, true)]
    ⟨Or.inr rfl, by decide, rfl⟩ rfl (List.replicate 64 1) (by decide)

/-! ## The prelude flag across connect, suspend and disconnect -/

theorem onDisconnectedReconnecting_firstPacketSent (env : Env) (c : Connection) (sw : Bool)
    (error : Int) :
    (onDisconnectedReconnecting env c sw error).1.firstPacketSent = c.firstPacketSent := by
  unfold onDisconnectedReconnecting
  simp only [apply_ite Prod.fst, apply_ite Connection.firstPacketSent, ite_self]

theorem onDisconnectedInternal_firstPacketSent (env : Env) (c : Connection) (reason error : Int) :
    (onDisconnectedInternal env c reason error).1.firstPacketSent = false := by
  unfold onDisconnectedInternal
  simp only [apply_ite Prod.fst, apply_ite Connection.firstPacketSent,
    onDisconnectedReconnecting_firstPacketSent, ite_self]

/-- While `connect` is running (`connectionInProcess`), a close only posts a
task: the prelude flag and `connectionInProcess` stay as they are. -/
theorem closeSocket_inProcess (env : Env) (c : Connection) (reason error : Int)
    (h : c.connectionInProcess = true) :
    (closeSocket env c reason error).1.firstPacketSent = c.firstPacketSent
      ∧ (closeSocket env c reason error).1.connectionInProcess = true := by
  unfold closeSocket onDisconnected
  dsimp only
  rw [if_pos h]
  exact ⟨rfl, h⟩

theorem adjustWriteOp_inProcess (env : Env) (c : Connection) (h : c.connectionInProcess = true) :
    (adjustWriteOp env c).1.firstPacketSent = c.firstPacketSent
      ∧ (adjustWriteOp env c).1.connectionInProcess = true := by
  unfold adjustWriteOp
  dsimp only
  split_ifs <;> first | exact ⟨rfl, h⟩ | exact closeSocket_inProcess env _ _ _ h

theorem openConnectionInternal_inProcess (env : Env) (c : Connection)
    (h : c.connectionInProcess = true) :
    (openConnectionInternal env c).1.firstPacketSent = c.firstPacketSent
      ∧ (openConnectionInternal env c).1.connectionInProcess = true := by
  have key : ∀ r : Connection × List Event,
      r.1.firstPacketSent = c.firstPacketSent ∧ r.1.connectionInProcess = true →
      (if r.1.adjustWriteOpAfterResolve then ((adjustWriteOp env r.1).1, r.2 ++ (adjustWriteOp env r.1).2)
        else r).1.firstPacketSent = c.firstPacketSent
      ∧ (if r.1.adjustWriteOpAfterResolve then ((adjustWriteOp env r.1).1, r.2 ++ (adjustWriteOp env r.1).2)
        else r).1.connectionInProcess = true := by
    intro r hr
    split_ifs
    · have := adjustWriteOp_inProcess env r.1 hr.2
      exact ⟨this.1.trans hr.1, this.2⟩
    · exact hr
  unfold openConnectionInternal
  dsimp only
  cases hfc : env.fcntlOk
  · simp only [Bool.not_false, if_true]
    exact closeSocket_inProcess env _ _ _ h
  · simp only [Bool.not_true, Bool.false_eq_true, if_false]
    apply key
    cases hco : env.connectOk
    · simp only [Bool.not_false, if_true]
      exact closeSocket_inProcess env _ _ _ h
    · simp only [Bool.not_true, Bool.false_eq_true, if_false]
      by_cases h3 : env.epollCtlAdd c.socketFd = true
      · rw [if_pos h3]
        exact ⟨rfl, h⟩
      · rw [if_neg h3]
        exact closeSocket_inProcess env _ _ _ h

theorem openConnection_inProcess (env : Env) (c : Connection) (address : String) (port : Nat)
    (ipv6 : Bool) (networkType : Int) (h : c.connectionInProcess = true) :
    (openConnection env c address port ipv6 networkType).1.firstPacketSent = c.firstPacketSent
      ∧ (openConnection env c address port ipv6 networkType).1.connectionInProcess = true := by
  unfold openConnection
  dsimp only
  split_ifs
  · exact closeSocket_inProcess env _ _ _ h
  · exact closeSocket_inProcess env _ _ _ h
  · exact openConnectionInternal_inProcess env _ h

/-- A `connect()` that gets past its guards ends with the prelude flag
cleared. -/
theorem connect_firstPacketSent (env : Env) (c : Connection)
    (h1 : c.waitForReconnectTimer = false) (h2 : env.isNetworkAvailable = true)
    (h3 : ¬ (c.connectionState = TcpConnectionState.TcpConnectionStageConnected
        ∨ c.connectionState = TcpConnectionState.TcpConnectionStageConnecting)) :
    (connect env c).1.firstPacketSent = false := by
  unfold connect
  rw [h1, h2]
  simp only [Bool.false_eq_true, if_false, Bool.not_true, if_neg h3]
  generalize chooseAddress env _ _ = choice
  obtain ⟨f, o, v6, m⟩ := choice
  cases o with
  | none =>
    refine (openConnection_inProcess env _ _ _ _ _ ?_).1
    rfl
  | some a =>
    dsimp only
    split_ifs
    · refine (openConnection_inProcess env _ _ _ _ _ ?_).1
      rfl
    · refine (openConnection_inProcess env _ _ _ _ _ ?_).1
      rfl

theorem suspendConnection_firstPacketSent (env : Env) (c : Connection) (idle : Bool)
    (h : ¬ (c.connectionState = TcpConnectionState.TcpConnectionStageIdle
        ∨ c.connectionState = TcpConnectionState.TcpConnectionStageSuspended)) :
    (suspendConnection env c idle).1.firstPacketSent = false := by
  unfold suspendConnection
  dsimp only
  rw [if_neg h]

theorem onDisconnected_firstPacketSent (env : Env) (c : Connection) (reason error : Int)
    (h : c.connectionInProcess = false) :
    (onDisconnected env c reason error).1.firstPacketSent = false := by
  unfold onDisconnected
  rw [h]
  simp only [Bool.false_eq_true, if_false]
  exact onDisconnectedInternal_firstPacketSent env c reason error

theorem flatten_length_frames (calls : List (NativeByteBuffer × Bool)) :
    (calls.map plainFrame).flatten.length = (calls.map frameSize).sum := by
  induction calls with
  | nil => rfl
  | cons a l ih =>
    rw [List.map_cons, List.flatten_cons, List.length_append, ih, plainFrame_length, List.map_cons,
      List.sum_cons]

/-! ## C7: prelude exactly once per session -/

/-- C7. Prelude exactly once per session.  A session is a connection in state
Connecting or Connected with an open socket on which `epoll_ctl` succeeds; the
pool hands out buffers of at least the size asked for and the random source
has an accepted block.
(1) The first `sendData` (`firstPacketSent = false`) returns and queues exactly
`64 + p + n` bytes: the 64 prelude bytes, then the encrypted `p`-byte length
field, then the encrypted `n`-byte payload (`p = lengthSize n`, that is 1 if
`n / 4 < 0x7f` and 4 otherwise); it sets `firstPacketSent` and the session
stays open; for `n = 16` this is 81 bytes.
(2) A `sendData` in a session with `firstPacketSent = true` queues exactly
`p + n` bytes, in a header buffer of `p` bytes and the payload buffer, so no
prelude, and leaves `firstPacketSent = true` and the session open; so this
holds for every later call.
(3) A sequence of calls from the first on queues two buffers per call and
`64 + sum (p_i + n_i)` bytes in all.
(4) After a `connect()` that gets past its guards, after a
`suspendConnection` that finds the connection neither Idle nor Suspended, and
after an `onDisconnected` that is not deferred by a running `connect()`,
`firstPacketSent` is false, which is the precondition of (1). -/
theorem prelude_once_per_session (env : Env) (hpool : ∀ n, n ≤ env.poolCapacity n)
    (c : Connection) (call : NativeByteBuffer × Bool) (calls : List (NativeByteBuffer × Bool))
    (enc : Bool) (h : SessionOpen env c) (hf : c.firstPacketSent = false) (block : List Nat)
    (hb : firstAccepted env.randBlocks = some block)
    (k : Connection) (later : NativeByteBuffer × Bool) (hk : SessionOpen env k)
    (hkf : k.firstPacketSent = true)
    (x y z : Connection) (idle : Bool) (reason error : Int)
    (hx1 : x.waitForReconnectTimer = false) (hx2 : env.isNetworkAvailable = true)
    (hx3 : ¬ (x.connectionState = TcpConnectionState.TcpConnectionStageConnected
        ∨ x.connectionState = TcpConnectionState.TcpConnectionStageConnecting))
    (hy : ¬ (y.connectionState = TcpConnectionState.TcpConnectionStageIdle
        ∨ y.connectionState = TcpConnectionState.TcpConnectionStageSuspended))
    (hz : z.connectionInProcess = false) :
    (∃ d hdr body, sendData env c (some call.1) call.2 enc = some (d, [])
        ∧ d.outgoingByteStream = c.outgoingByteStream ++ [hdr, body]
        ∧ queuedBytes [hdr, body]
          = preludeBytes env.aes block
            ++ xorStream env.aes (((block64 block).drop 8).take 32)
                (((block64 block).drop 40).take 16) 64 (lengthBytes call.1.limit call.2)
            ++ xorStream env.aes (((block64 block).drop 8).take 32)
                (((block64 block).drop 40).take 16) (64 + lengthSize call.1.limit)
                (call.1.slice 0 call.1.limit)
        ∧ (queuedBytes [hdr, body]).length = 64 + lengthSize call.1.limit + call.1.limit
        ∧ (call.1.limit = 16 → (queuedBytes [hdr, body]).length = 81)
        ∧ d.firstPacketSent = true ∧ SessionOpen env d)
    ∧ (∃ d hdr body, sendData env k (some later.1) later.2 enc = some (d, [])
        ∧ d.outgoingByteStream = k.outgoingByteStream ++ [hdr, body]
        ∧ hdr.position = 0 ∧ hdr.limit = lengthSize later.1.limit
        ∧ queuedBytes [hdr, body]
          = (AES_ctr128_encrypt env.aes (encryptState k) (plainFrame later)).1
        ∧ (queuedBytes [hdr, body]).length = lengthSize later.1.limit + later.1.limit
        ∧ d.firstPacketSent = true ∧ SessionOpen env d)
    ∧ (∃ d new, sendAll env c (call :: calls) = some (d, [])
        ∧ d.outgoingByteStream = c.outgoingByteStream ++ new
        ∧ new.length = 2 * (call :: calls).length
        ∧ (queuedBytes new).length = 64 + ((call :: calls).map frameSize).sum
        ∧ d.firstPacketSent = true ∧ SessionOpen env d)
    ∧ (connect env x).1.firstPacketSent = false
    ∧ (suspendConnection env y idle).1.firstPacketSent = false
    ∧ (onDisconnected env z reason error).1.firstPacketSent = false := by
  refine ⟨?_, ?_, ?_, connect_firstPacketSent env x hx1 hx2 hx3,
    suspendConnection_firstPacketSent env y idle hy,
    onDisconnected_firstPacketSent env z reason error hz⟩
  · obtain ⟨d, hdr, body, s1, s2, _, _, _, s3, _, _, _, s6, s7⟩ :=
      sendData_first_spec env hpool c call.1 call.2 enc h hf block hb
    obtain ⟨_, b2⟩ := AES_ctr128_encrypt_stream env.aes _ _ (markedBlock block) 0 _
      (initialEncryptState_at env.aes block)
    rw [markedBlock_length, Nat.zero_add] at b2
    obtain ⟨a1, _⟩ := AES_ctr128_encrypt_stream env.aes _ _ (plainFrame (call.1, call.2)) _ _ b2
    rw [a1, key_of_block, iv_of_block] at s3
    have hpl : plainFrame (call.1, call.2)
        = lengthBytes call.1.limit call.2 ++ call.1.slice 0 call.1.limit := rfl
    rw [hpl, xorStream_append, lengthBytes_length, ← List.append_assoc] at s3
    have hlen : (queuedBytes [hdr, body]).length = 64 + lengthSize call.1.limit + call.1.limit := by
      rw [s3, List.length_append, List.length_append, preludeBytes_length, xorStream_length,
        xorStream_length, lengthBytes_length, slice_length]
    refine ⟨d, hdr, body, s1, s2, s3, hlen, ?_, s6, s7⟩
    intro h16
    rw [hlen, h16]
    rfl
  · obtain ⟨d, hdr, body, s1, s2, g1, g2, s3, _, _, s6, s7⟩ :=
      sendData_later_spec env hpool k later.1 later.2 enc hk hkf
    refine ⟨d, hdr, body, s1, s2, g1, g2, s3, ?_, s6, s7⟩
    rw [s3, AES_ctr128_encrypt_length]
    exact plainFrame_length later
  · obtain ⟨d, new, t1, t2, t3, t4, _, t6, t7⟩ := sendAll_first env hpool c call calls h hf block hb
    refine ⟨d, new, t1, t2, t3, ?_, t6, t7⟩
    rw [t4, List.length_append, preludeBytes_length, xorStream_length, flatten_length_frames]

/-- C7 at a concrete input: the sample session sends a 16-byte payload first
(81 bytes queued); `k` is a session whose prelude is out; `connect()` and
`onDisconnected` act on the sample connection after construction, and
`suspendConnection` on the sample session. -/
theorem prelude_once_per_session_witness :
    (∃ d hdr body, sendData sampleEnv sampleSession (some (ofList (List.replicate 16 7) 16)) false
          false = some (d, [])
        ∧ d.outgoingByteStream = sampleSession.outgoingByteStream ++ [hdr, body]
        ∧ queuedBytes [hdr, body]
          = preludeBytes sampleEnv.aes (List.replicate 64 1)
            ++ xorStream sampleEnv.aes (((block64 (List.replicate 64 1)).drop 8).take 32)
                (((block64 (List.replicate 64 1)).drop 40).take 16) 64 (lengthBytes 16 false)
            ++ xorStream sampleEnv.aes (((block64 (List.replicate 64 1)).drop 8).take 32)
                (((block64 (List.replicate 64 1)).drop 40).take 16) (64 + lengthSize 16)
                ((ofList (List.replicate 16 7) 16).slice 0 16)
        ∧ (queuedBytes [hdr, body]).length = 64 + lengthSize 16 + 16
        ∧ (16 = 16 → (queuedBytes [hdr, body]).length = 81)
        ∧ d.firstPacketSent = true ∧ SessionOpen sampleEnv d)
    ∧ (∃ d hdr body, sendData sampleEnv { sampleSession with firstPacketSent := true }
          (some (ofList [1, 2, 3, 4] 4)) true false = some (d, [])
        ∧ d.outgoingByteStream
          = ({ sampleSession with firstPacketSent := true } : Connection).outgoingByteStream
            ++ [hdr, body]
        ∧ hdr.position = 0 ∧ hdr.limit = lengthSize 4
        ∧ queuedBytes [hdr, body]
          = (AES_ctr128_encrypt sampleEnv.aes
              (encryptState { sampleSession with firstPacketSent := true })
              (plainFrame (ofList [1, 2, 3, 4] 4, true))).1
        ∧ (queuedBytes [hdr, body]).length = lengthSize 4 + 4
        ∧ d.firstPacketSent = true ∧ SessionOpen sampleEnv d)
    ∧ (∃ d new, sendAll sampleEnv sampleSession
          [(ofList (List.replicate 16 7) 16, false), (ofList [1, 2, 3, 4] 4, true)] = some (d, [])
        ∧ d.outgoingByteStream = sampleSession.outgoingByteStream ++ new
        ∧ new.length = 2 * [(ofList (List.replicate 16 7) 16, false),
            (ofList [1, 2, 3, 4] 4, true)].length
        ∧ (queuedBytes new).length
          = 64 + ([(ofList (List.replicate 16 7) 16, false),
              (ofList [1, 2, 3, 4] 4, true)].map frameSize).sum
        ∧ d.firstPacketSent = true ∧ SessionOpen sampleEnv d)
    ∧ (connect sampleEnv sampleConnection).1.firstPacketSent = false
    ∧ (suspendConnection sampleEnv sampleSession true).1.firstPacketSent = false
    ∧ (onDisconnected sampleEnv sampleConnection 2 0).1.firstPacketSent = false :=
  prelude_once_per_session sampleEnv (fun n => Nat.le_refl n) sampleSession
    (ofList (List.replicate 16 7) 16, false) [(ofList [1, 2, 3, 4] 4, true)] false
    ⟨Or.inr rfl, by decide, rfl⟩ rfl (List.replicate 64 1) (by decide)
    { sampleSession with firstPacketSent := true } (ofList [1, 2, 3, 4] 4, true)
    ⟨Or.inr rfl, by decide, rfl⟩ rfl
    sampleConnection sampleSession sampleConnection true 2 0 rfl rfl (by decide) (by decide) rfl

/-! ## C6: key derivation from the prelude -/

theorem decrypt_key_of_block (block : List Nat) :
    (List.range 32).map (fun a => block.getD (55 - a) 0)
      = ((((block64 block).drop 8).take 48).reverse).take 32 := rfl

theorem decrypt_iv_of_block (block : List Nat) :
    (List.range 16).map (fun a => block.getD (23 - a) 0)
      = ((((block64 block).drop 8).take 48).reverse).drop 32 := rfl

/-- The key derivation on any buffer that holds bytes 8..55 of `block` at
offsets 8..55, whatever the other bytes are. -/
theorem deriveKeys_of_bytes (c : Connection) (b : NativeByteBuffer) (block : List Nat)
    (hb : ∀ i, 8 ≤ i → i < 56 → b.bytes i = block.getD i 0) :
    encryptState (deriveKeys c b) = initialEncryptState block
      ∧ decryptState (deriveKeys c b)
        = { key := (List.range 32).map (fun a => block.getD (55 - a) 0)
            iv := (List.range 16).map (fun a => block.getD (23 - a) 0)
            count := List.replicate 16 0
            num := 0 } := by
  have e1 : (List.range 32).map (fun a => b.bytes (a + 8))
      = (List.range 32).map (fun a => block.getD (a + 8) 0) := by
    apply List.map_congr_left
    intro a ha
    have := List.mem_range.mp ha
    rw [hb _ (by omega) (by omega)]
  have e2 : (List.range 16).map (fun a => b.bytes (a + 32 + 8))
      = (List.range 16).map (fun a => block.getD (a + 40) 0) := by
    apply List.map_congr_left
    intro a ha
    have := List.mem_range.mp ha
    rw [hb _ (by omega) (by omega)]
  have e3 : (List.range 32).map (fun a => b.bytes (55 - a))
      = (List.range 32).map (fun a => block.getD (55 - a) 0) := by
    apply List.map_congr_left
    intro a ha
    have := List.mem_range.mp ha
    rw [hb _ (by omega) (by omega)]
  have e4 : (List.range 16).map (fun a => b.bytes (55 - (a + 32)))
      = (List.range 16).map (fun a => block.getD (23 - a) 0) := by
    apply List.map_congr_left
    intro a ha
    have := List.mem_range.mp ha
    rw [hb _ (by omega) (by omega)]
    congr 1
    omega
  refine ⟨?_, ?_⟩
  · unfold deriveKeys encryptState initialEncryptState
    dsimp only
    rw [take_map_range_48, drop_map_range_48, e1, e2]
  · unfold deriveKeys decryptState
    dsimp only
    rw [take_map_range_48, drop_map_range_48, e3, e4]

/-- C6, counterexample.  On the sample session, whose accepted random block is
64 bytes `01`, the first `sendData` (a 16-byte payload, 81 bytes in all) leaves
the encrypt key equal to `b[8..40]`, but the encrypt IV field is `b[40..56]`
incremented six times as a big-endian counter, not `b[40..56]`: the cipher
call advances `encryptIv` once per keystream block. -/
theorem encrypt_iv_after_first_send :
    (sendData sampleEnv sampleSession (some (ofList (List.replicate 16 7) 16)) false false).map
        (fun r => (r.1.encryptKey, r.1.encryptIv))
      = some (List.replicate 32 1, [1, 1, 1, 1, 1, 1, 1, 1, 1, 1, 1, 1, 1, 1, 1, 7])
    ∧ firstAccepted sampleEnv.randBlocks = some (List.replicate 64 1)
    ∧ ((block64 (List.replicate 64 1)).drop 8).take 32 = List.replicate 32 1
    ∧ ((block64 (List.replicate 64 1)).drop 40).take 16
      = [1, 1, 1, 1, 1, 1, 1, 1, 1, 1, 1, 1, 1, 1, 1, 1] := by
  decide!

/-- C6, amended.  For the accepted random block `block` of the first `sendData`
of a session: right after the key derivation, before the prelude is encrypted,
the encrypt key is `b[8..40]`, the encrypt IV is `b[40..56]`, the decrypt key
and IV are the first 32 and the next 16 bytes of `reverse(b[8..56])` (byte `i`
of key followed by IV is `b[55 - i]`), and both counter blocks and both byte
offsets are zero; the same states come out of any buffer that agrees with the
block on offsets 8..55, so they do not depend on the marker at 56..59.  After
the call the encrypt key, the decrypt key, the decrypt IV and the zero decrypt
counter and offset are still in place, while the encrypt IV has been advanced
by the cipher: it is `b[40..56]` incremented once per keystream block started,
and the encrypt offset is the number of bytes sent modulo 16. -/
theorem key_derivation (env : Env) (hpool : ∀ n, n ≤ env.poolCapacity n) (c : Connection)
    (buff : NativeByteBuffer) (ack enc : Bool) (h : SessionOpen env c)
    (hf : c.firstPacketSent = false) (block : List Nat)
    (hb : firstAccepted env.randBlocks = some block)
    (buffer other : NativeByteBuffer)
    (ho : ∀ i, 8 ≤ i → i < 56 → other.bytes i = block.getD i 0) :
    encryptState (deriveKeys c ((buffer.poke 0 (block64 block)).poke 56 [0xef, 0xef, 0xef, 0xef]))
        = { key := ((block64 block).drop 8).take 32
            iv := ((block64 block).drop 40).take 16
            count := List.replicate 16 0
            num := 0 }
      ∧ decryptState
          (deriveKeys c ((buffer.poke 0 (block64 block)).poke 56 [0xef, 0xef, 0xef, 0xef]))
        = { key := ((((block64 block).drop 8).take 48).reverse).take 32
            iv := ((((block64 block).drop 8).take 48).reverse).drop 32
            count := List.replicate 16 0
            num := 0 }
      ∧ (∀ i, i < 48 →
          (((((block64 block).drop 8).take 48).reverse).take 32
              ++ ((((block64 block).drop 8).take 48).reverse).drop 32).getD i 0
            = block.getD (55 - i) 0)
      ∧ encryptState (deriveKeys c other)
        = encryptState
            (deriveKeys c ((buffer.poke 0 (block64 block)).poke 56 [0xef, 0xef, 0xef, 0xef]))
      ∧ decryptState (deriveKeys c other)
        = decryptState
            (deriveKeys c ((buffer.poke 0 (block64 block)).poke 56 [0xef, 0xef, 0xef, 0xef]))
      ∧ ∃ d, sendData env c (some buff) ack enc = some (d, [])
        ∧ d.encryptKey = ((block64 block).drop 8).take 32
        ∧ d.encryptIv
          = ctr128_inc^[(64 + lengthSize buff.limit + buff.limit + 15) / 16]
              (((block64 block).drop 40).take 16)
        ∧ d.encryptNum = (64 + lengthSize buff.limit + buff.limit) % 16
        ∧ d.decryptKey = ((((block64 block).drop 8).take 48).reverse).take 32
        ∧ d.decryptIv = ((((block64 block).drop 8).take 48).reverse).drop 32
        ∧ d.decryptCount = List.replicate 16 0
        ∧ d.decryptNum = 0 := by
  obtain ⟨d1, d2, _⟩ := deriveKeys_spec c
    ((buffer.poke 0 (block64 block)).poke 56 [0xef, 0xef, 0xef, 0xef]) block
    (marked_bytes buffer block)
  obtain ⟨o1, o2⟩ := deriveKeys_of_bytes c other block ho
  refine ⟨d1, ?_, ?_, by rw [o1, d1], by rw [o2, d2], ?_⟩
  · rw [d2, decrypt_key_of_block, decrypt_iv_of_block]
  · intro i hi
    rw [List.take_append_drop]
    rw [List.getD_eq_getElem _ _ (by simp [block64]; omega)]
    simp only [List.getElem_reverse, List.getElem_take, List.getElem_drop, block64,
      List.getElem_map, List.getElem_range, List.length_take, List.length_drop,
      List.length_map, List.length_range]
    congr 1
    omega
  · obtain ⟨d, hdr, body, s1, _, _, _, _, _, s4, s5, s6, _, _⟩ :=
      sendData_first_spec env hpool c buff ack enc h hf block hb
    obtain ⟨_, b2⟩ := AES_ctr128_encrypt_stream env.aes _ _ (markedBlock block) 0 _
      (initialEncryptState_at env.aes block)
    rw [markedBlock_length, Nat.zero_add] at b2
    obtain ⟨_, a2⟩ := AES_ctr128_encrypt_stream env.aes _ _ (plainFrame (buff, ack)) _ _ b2
    rw [← s4, plainFrame_length] at a2
    obtain ⟨_, hnum, hiv, _⟩ := a2
    have hdk := congrArg CtrState.key s5
    have hdi := congrArg CtrState.iv s5
    have hdc := congrArg CtrState.count s5
    have hdn := congrArg CtrState.num s5
    have hfs : frameSize (buff, ack) = lengthSize buff.limit + buff.limit := rfl
    rw [hfs, ← Nat.add_assoc] at hiv hnum
    exact ⟨d, s1, s6, hiv, hnum, hdk, hdi, hdc, hdn⟩

/-- C6 at a concrete input: the sample session with a 16-byte payload. -/
theorem key_derivation_witness :
    encryptState (deriveKeys sampleSession
          (((ofList [] 0).poke 0 (block64 (List.replicate 64 1))).poke 56 [0xef, 0xef, 0xef, 0xef]))
        = { key := ((block64 (List.replicate 64 1)).drop 8).take 32
            iv := ((block64 (List.replicate 64 1)).drop 40).take 16
            count := List.replicate 16 0
            num := 0 }
      ∧ decryptState (deriveKeys sampleSession
          (((ofList [] 0).poke 0 (block64 (List.replicate 64 1))).poke 56 [0xef, 0xef, 0xef, 0xef]))
        = { key := ((((block64 (List.replicate 64 1)).drop 8).take 48).reverse).take 32
            iv := ((((block64 (List.replicate 64 1)).drop 8).take 48).reverse).drop 32
            count := List.replicate 16 0
            num := 0 }
      ∧ (∀ i, i < 48 →
          (((((block64 (List.replicate 64 1)).drop 8).take 48).reverse).take 32
              ++ ((((block64 (List.replicate 64 1)).drop 8).take 48).reverse).drop 32).getD i 0
            = (List.replicate 64 1).getD (55 - i) 0)
      ∧ encryptState (deriveKeys sampleSession (ofList (List.replicate 64 1) 64))
        = encryptState (deriveKeys sampleSession
            (((ofList [] 0).poke 0 (block64 (List.replicate 64 1))).poke 56
              [0xef, 0xef, 0xef, 0xef]))
      ∧ decryptState (deriveKeys sampleSession (ofList (List.replicate 64 1) 64))
        = decryptState (deriveKeys sampleSession
            (((ofList [] 0).poke 0 (block64 (List.replicate 64 1))).poke 56
              [0xef, 0xef, 0xef, 0xef]))
      ∧ ∃ d, sendData sampleEnv sampleSession (some (ofList (List.replicate 16 7) 16)) false false
          = some (d, [])
        ∧ d.encryptKey = ((block64 (List.replicate 64 1)).drop 8).take 32
        ∧ d.encryptIv
          = ctr128_inc^[(64 + lengthSize (ofList (List.replicate 16 7) 16).limit
                + (ofList (List.replicate 16 7) 16).limit + 15) / 16]
              (((block64 (List.replicate 64 1)).drop 40).take 16)
        ∧ d.encryptNum = (64 + lengthSize (ofList (List.replicate 16 7) 16).limit
            + (ofList (List.replicate 16 7) 16).limit) % 16
        ∧ d.decryptKey = ((((block64 (List.replicate 64 1)).drop 8).take 48).reverse).take 32
        ∧ d.decryptIv = ((((block64 (List.replicate 64 1)).drop 8).take 48).reverse).drop 32
        ∧ d.decryptCount = List.replicate 16 0
        ∧ d.decryptNum = 0 :=
  key_derivation sampleEnv (fun n => Nat.le_refl n) sampleSession
    (ofList (List.replicate 16 7) 16) false false ⟨Or.inr rfl, by decide, rfl⟩ rfl
    (List.replicate 64 1) (by decide) (ofList [] 0) (ofList (List.replicate 64 1) 64)
    (fun i _ _ => rfl)

/-! ## C16: useful-data stabilization window -/

/-- C16, counterexample.  With the flag set at time 0 and the clock at exactly
4000 ms, so that 4 s and no more have elapsed, `hasUsefullData()` returns
true: the code tests `llabs(time - usefullDataReceiveTime) < 4000`. -/
theorem hasUsefullData_at_four_seconds :
    hasUsefullData { sampleEnv with now := 4000 }
      { sampleConnection with usefullData := true, usefullDataReceiveTime := 0 } = true := by
  decide

/-- C16, amended.  `hasUsefullData()` returns true if and only if the
useful-data flag is set and the distance between the clock and the recorded
time is at least 4000 ms; for a monotonic clock (`t0 <= now`) that is
`now - t0 >= 4000`.  It returns false whenever the flag is unset, and whenever
the flag is set and less than 4 s have elapsed. -/
theorem hasUsefullData_window (env : Env) (c : Connection) :
    (hasUsefullData env c = true
        ↔ c.usefullData = true ∧ 4000 ≤ (env.now - c.usefullDataReceiveTime).natAbs)
      ∧ (c.usefullDataReceiveTime ≤ env.now →
          (hasUsefullData env c = true
            ↔ c.usefullData = true ∧ env.now - c.usefullDataReceiveTime ≥ 4000))
      ∧ (c.usefullData = false → hasUsefullData env c = false)
      ∧ (c.usefullData = true → c.usefullDataReceiveTime ≤ env.now →
          env.now - c.usefullDataReceiveTime < 4000 → hasUsefullData env c = false) := by
  have key : hasUsefullData env c = true
      ↔ c.usefullData = true ∧ 4000 ≤ (env.now - c.usefullDataReceiveTime).natAbs := by
    unfold hasUsefullData
    cases hu : c.usefullData
    · simp
    · by_cases h : (env.now - c.usefullDataReceiveTime).natAbs < 4 * 1000
      · simp [h]
      · simp [h]
        omega
  refine ⟨key, ?_, ?_, ?_⟩
  · intro hmono
    rw [key]
    constructor
    · rintro ⟨h1, h2⟩
      exact ⟨h1, by omega⟩
    · rintro ⟨h1, h2⟩
      exact ⟨h1, by omega⟩
  · intro hu
    cases hr : hasUsefullData env c
    · rfl
    · have := (key.mp hr).1
      rw [hu] at this
      exact absurd this (by decide)
  · intro _ hmono hlt
    cases hr : hasUsefullData env c
    · rfl
    · have := (key.mp hr).2
      omega

/-! ## C17: `setHasUsefullData` is idempotent -/

/-- C17. `setHasUsefullData` is idempotent: for every connection and every pair
of clock readings (the collaborators' answers `env1` at the first call and
`env2` at the second), two calls leave exactly the state that one call leaves;
and on a connection with the flag unset the call records the clock reading,
sets the flag and sets `lastReconnectTimeout` to 50, and changes no other
field. -/
theorem setHasUsefullData_idempotent (env1 env2 : Env) (c : Connection) :
    setHasUsefullData env2 (setHasUsefullData env1 c) = setHasUsefullData env1 c
      ∧ (setHasUsefullData env1 c).usefullData = true
      ∧ (c.usefullData = false →
          setHasUsefullData env1 c
            = { c with
                usefullDataReceiveTime := env1.now
                usefullData := true
                lastReconnectTimeout := 50 })
      ∧ (c.usefullData = true → setHasUsefullData env1 c = c) := by
  unfold setHasUsefullData
  cases hu : c.usefullData <;> simp [hu]

/-! ## C18: the `checkTimeout` contract -/

theorem onDisconnectedReconnecting_socketFd (env : Env) (c : Connection) (sw : Bool)
    (error : Int) : (onDisconnectedReconnecting env c sw error).1.socketFd = c.socketFd := by
  unfold onDisconnectedReconnecting
  simp only [apply_ite Prod.fst, apply_ite Connection.socketFd, ite_self]

theorem onDisconnectedInternal_socketFd (env : Env) (c : Connection) (reason error : Int) :
    (onDisconnectedInternal env c reason error).1.socketFd = c.socketFd := by
  unfold onDisconnectedInternal
  simp only [apply_ite Prod.fst, apply_ite Connection.socketFd,
    onDisconnectedReconnecting_socketFd, ite_self]

theorem onDisconnected_socketFd (env : Env) (c : Connection) (reason error : Int) :
    (onDisconnected env c reason error).1.socketFd = c.socketFd := by
  unfold onDisconnected
  split_ifs
  · rfl
  · exact onDisconnectedInternal_socketFd env c reason error

/-- After `closeSocket` there is no descriptor and the write queue is empty at
the moment `onDisconnected` is called. -/
theorem closeSocket_socketFd (env : Env) (c : Connection) (reason error : Int) :
    (closeSocket env c reason error).1.socketFd < 0 := by
  unfold closeSocket
  dsimp only
  rw [onDisconnected_socketFd]
  dsimp only
  split_ifs <;> omega

/-- C18. The `checkTimeout` contract: for every `now`, `timeout` and
`lastEventTime`, `checkTimeout(now)` returns true if and only if `timeout > 0`
and `now - lastEventTime > timeout * 1000` and (`onConnectedSent` is false or
`hasPendingRequests()` is true), and then what it did is `closeSocket(2, 0)`,
after which the descriptor is gone; when it returns false it makes no call and
leaves the connection as it was, except that `lastEventTime` is reset to the
clock when the deadline has passed (which then means `onConnectedSent` and no
pending requests); with `timeout = 0` it returns false and changes nothing. -/
theorem checkTimeout_contract (env : Env) (c : Connection) (now : Int) :
    ((checkTimeout env c now).1 = true
        ↔ 0 < c.timeout ∧ now - c.lastEventTime > (c.timeout : Int) * 1000
          ∧ (c.onConnectedSent = false ∨ env.hasPendingRequests = true))
      ∧ ((checkTimeout env c now).1 = true →
          (checkTimeout env c now).2 = closeSocket env c 2 0
            ∧ (checkTimeout env c now).2.1.socketFd < 0)
      ∧ ((checkTimeout env c now).1 = false →
          (checkTimeout env c now).2.2 = []
            ∧ (checkTimeout env c now).2.1
              = if 0 < c.timeout ∧ now - c.lastEventTime > (c.timeout : Int) * 1000 then
                  { c with lastEventTime := env.now }
                else c)
      ∧ ((checkTimeout env c now).1 = false → 0 < c.timeout →
          now - c.lastEventTime > (c.timeout : Int) * 1000 →
          c.onConnectedSent = true ∧ env.hasPendingRequests = false)
      ∧ (c.timeout = 0 → checkTimeout env c now = (false, c, [])) := by
  unfold checkTimeout
  by_cases hd : c.timeout ≠ 0 ∧ now - c.lastEventTime > (c.timeout : Int) * 1000
  · have hd2 : 0 < c.timeout ∧ now - c.lastEventTime > (c.timeout : Int) * 1000 :=
      ⟨Nat.pos_of_ne_zero hd.1, hd.2⟩
    rw [if_pos hd, if_pos hd2]
    by_cases hc : (!c.onConnectedSent || env.hasPendingRequests) = true
    · rw [if_pos hc]
      have hc2 : c.onConnectedSent = false ∨ env.hasPendingRequests = true := by
        simpa using hc
      refine ⟨⟨fun _ => ⟨hd2.1, hd2.2, hc2⟩, fun _ => rfl⟩,
        fun _ => ⟨rfl, closeSocket_socketFd env c 2 0⟩, fun h => ?_, fun h => ?_, fun h => ?_⟩
      · exact Bool.noConfusion h
      · exact Bool.noConfusion h
      · exact absurd h hd.1
    · rw [if_neg hc]
      have hc2 : c.onConnectedSent = true ∧ env.hasPendingRequests = false := by
        simpa using hc
      refine ⟨⟨fun h => Bool.noConfusion h, fun h => ?_⟩, fun h => Bool.noConfusion h,
        fun _ => ⟨rfl, rfl⟩, fun _ _ _ => hc2, fun h => absurd h hd.1⟩
      rcases h.2.2 with h1 | h1
      · rw [hc2.1] at h1
        exact Bool.noConfusion h1
      · rw [hc2.2] at h1
        exact Bool.noConfusion h1
  · have hd2 : ¬ (0 < c.timeout ∧ now - c.lastEventTime > (c.timeout : Int) * 1000) := by
      rintro ⟨h1, h2⟩
      exact hd ⟨Nat.pos_iff_ne_zero.mp h1, h2⟩
    rw [if_neg hd, if_neg hd2]
    refine ⟨⟨fun h => Bool.noConfusion h, fun h => absurd ⟨h.1, h.2.1⟩ hd2⟩,
      fun h => Bool.noConfusion h, fun _ => ⟨rfl, rfl⟩,
      fun _ h1 h2 => absurd ⟨h1, h2⟩ hd2, fun _ => rfl⟩

/-! ## C13: the connection token -/

theorem connectedTimes_succ (n : Nat) (c : Connection) :
    connectedTimes (n + 1) c = (onConnected (connectedTimes n c)).1 := by
  unfold connectedTimes
  rw [Function.iterate_succ_apply']

theorem connectedTimes_counter (c : Connection) (h : c.lastConnectionToken < 4294967296) :
    ∀ n, (connectedTimes n c).lastConnectionToken = (c.lastConnectionToken + n) % 4294967296 := by
  intro n
  induction n with
  | zero =>
    show c.lastConnectionToken = _
    rw [Nat.add_zero, Nat.mod_eq_of_lt h]
  | succ n ih =>
    rw [connectedTimes_succ]
    show ((connectedTimes n c).lastConnectionToken + 1) % 4294967296 = _
    rw [ih]
    omega

/-- The token the `(n + 1)`-th `onConnected` assigns is the counter after `n`
calls. -/
theorem tokenAt_succ (c : Connection) (h : c.lastConnectionToken < 4294967296) (n : Nat) :
    tokenAt (n + 1) c = (c.lastConnectionToken + n) % 4294967296 := by
  unfold tokenAt
  rw [connectedTimes_succ]
  show (connectedTimes n c).lastConnectionToken = _
  exact connectedTimes_counter c h n

/-- C13, counterexample.  With the thread-local counter starting at 1 (the
sample connection), the 4294967295-th `onConnected` assigns the token
4294967295 and the next one assigns 0: `lastConnectionToken++` wraps at
32 bits, so the later token is smaller than the earlier one. -/
theorem token_wraps_after_2_32_connects :
    sampleConnection.lastConnectionToken = 1
      ∧ tokenAt 4294967295 sampleConnection = 4294967295
      ∧ tokenAt 4294967296 sampleConnection = 0 :=
  ⟨rfl, tokenAt_succ sampleConnection (by decide) 4294967294,
    tokenAt_succ sampleConnection (by decide) 4294967295⟩

/-- C13, amended.  With the 32-bit thread-local counter `lastConnectionToken`
starting at 1, the `k`-th `onConnected` of a run assigns the token `k` for
every `k` from 1 to 4294967295, so within the first 4294967295 calls the token
of each call is strictly greater than the token of every earlier call; the
call after that assigns 0. -/
theorem token_strictly_increasing (c : Connection) (h1 : c.lastConnectionToken = 1)
    (j k : Nat) (hj : 1 ≤ j) (hjk : j < k) (hk : k ≤ 4294967295) :
    tokenAt j c = j ∧ tokenAt k c = k ∧ tokenAt j c < tokenAt k c
      ∧ tokenAt 4294967296 c = 0 := by
  have hc : c.lastConnectionToken < 4294967296 := by omega
  have e : ∀ m, 1 ≤ m → m ≤ 4294967295 → tokenAt m c = m := by
    intro m hm1 hm2
    obtain ⟨n, rfl⟩ : ∃ n, m = n + 1 := ⟨m - 1, by omega⟩
    rw [tokenAt_succ c hc n, h1]
    omega
  have e0 : tokenAt (4294967295 + 1) c = 0 := by
    rw [tokenAt_succ c hc 4294967295, h1]
  refine ⟨e j hj (by omega), e k (by omega) hk, ?_, e0⟩
  rw [e j hj (by omega), e k (by omega) hk]
  exact hjk

/-- C13 at a concrete input: the first and the third connect of the sample
connection. -/
theorem token_strictly_increasing_witness :
    tokenAt 1 sampleConnection = 1 ∧ tokenAt 3 sampleConnection = 3
      ∧ tokenAt 1 sampleConnection < tokenAt 3 sampleConnection
      ∧ tokenAt 4294967296 sampleConnection = 0 :=
  token_strictly_increasing sampleConnection rfl 1 3 (by decide) (by decide) (by decide)

/-! ## C15: error-class backoff -/

theorem onDisconnectedReconnecting_type (env : Env) (c : Connection) (sw : Bool)
    (error : Int) :
    (onDisconnectedReconnecting env c sw error).1.connectionType = c.connectionType := by
  unfold onDisconnectedReconnecting
  simp only [apply_ite Prod.fst, apply_ite Connection.connectionType, ite_self]

theorem onDisconnectedReconnecting_inProcess (env : Env) (c : Connection) (sw : Bool)
    (error : Int) :
    (onDisconnectedReconnecting env c sw error).1.connectionInProcess = c.connectionInProcess := by
  unfold onDisconnectedReconnecting
  simp only [apply_ite Prod.fst, apply_ite Connection.connectionInProcess, ite_self]

theorem onDisconnectedReconnecting_state (env : Env) (c : Connection) (sw : Bool)
    (error : Int) :
    (onDisconnectedReconnecting env c sw error).1.connectionState
      = TcpConnectionState.TcpConnectionStageReconnecting := by
  unfold onDisconnectedReconnecting
  simp only [apply_ite Prod.fst, apply_ite Connection.connectionState, ite_self]

theorem onDisconnectedReconnecting_token (env : Env) (c : Connection) (sw : Bool)
    (error : Int) :
    (onDisconnectedReconnecting env c sw error).1.connectionToken = c.connectionToken := by
  unfold onDisconnectedReconnecting
  simp only [apply_ite Prod.fst, apply_ite Connection.connectionToken, ite_self]

theorem onDisconnectedReconnecting_backoff (env : Env) (c : Connection) (sw : Bool)
    (error : Int) (herr : error = 0x68 ∨ error = 0x71)
    (htype : c.connectionType ≠ ConnectionType.ConnectionTypeProxy) :
    (onDisconnectedReconnecting env c sw error).1.waitForReconnectTimer = true
      ∧ (onDisconnectedReconnecting env c sw error).1.reconnectTimerStarted = true
      ∧ (onDisconnectedReconnecting env c sw error).1.reconnectTimerTimeout
        = c.lastReconnectTimeout
      ∧ (onDisconnectedReconnecting env c sw error).1.lastReconnectTimeout
        = (if c.lastReconnectTimeout * 2 % 4294967296 > 400 then 400
            else c.lastReconnectTimeout * 2 % 4294967296) := by
  have hb : (c.connectionType != ConnectionType.ConnectionTypeProxy) = true := by
    simpa using htype
  unfold onDisconnectedReconnecting
  simp only [apply_ite Prod.fst, apply_ite Connection.connectionType,
    apply_ite Connection.lastReconnectTimeout, apply_ite Connection.waitForReconnectTimer,
    apply_ite Connection.reconnectTimerStarted, apply_ite Connection.reconnectTimerTimeout,
    ite_self, if_pos herr, hb, if_true, and_self]

/-- `onDisconnectedInternal` is the reset of lines 514-536, then the reconnect
block when the state is Idle, then `usefullData = false`. -/
theorem onDisconnectedInternal_eq (env : Env) (c : Connection) (reason error : Int) :
    onDisconnectedInternal env c reason error
      = ({ (if (disconnectReset c reason).connectionState
                = TcpConnectionState.TcpConnectionStageIdle then
              onDisconnectedReconnecting env (disconnectReset c reason)
                (switchToNextPort env c reason) error
            else (disconnectReset c reason, [])).1 with usefullData := false },
          Event.onConnectionClosed reason
            :: (if (disconnectReset c reason).connectionState
                  = TcpConnectionState.TcpConnectionStageIdle then
                onDisconnectedReconnecting env (disconnectReset c reason)
                  (switchToNextPort env c reason) error
              else (disconnectReset c reason, [])).2) := rfl

theorem disconnectReset_state (c : Connection) (reason : Int) :
    (disconnectReset c reason).connectionState
      = (if c.connectionState = TcpConnectionState.TcpConnectionStageSuspended then
          TcpConnectionState.TcpConnectionStageSuspended
        else TcpConnectionState.TcpConnectionStageIdle) := by
  unfold disconnectReset
  simp only [apply_ite Connection.connectionState, ite_self]
  cases hs : c.connectionState <;> simp

theorem disconnectReset_fields (c : Connection) (reason : Int) :
    (disconnectReset c reason).connectionType = c.connectionType
      ∧ (disconnectReset c reason).lastReconnectTimeout = c.lastReconnectTimeout
      ∧ (disconnectReset c reason).connectionInProcess = c.connectionInProcess
      ∧ (disconnectReset c reason).failedConnectionCount = c.failedConnectionCount
      ∧ (disconnectReset c reason).willRetryConnectCount = c.willRetryConnectCount
      ∧ (disconnectReset c reason).currentAddressFlags = c.currentAddressFlags
      ∧ (disconnectReset c reason).usefullData = c.usefullData
      ∧ (disconnectReset c reason).usefullDataReceiveTime = c.usefullDataReceiveTime
      ∧ (disconnectReset c reason).manager = c.manager
      ∧ (disconnectReset c reason).connectionToken = 0
      ∧ (disconnectReset c reason).reconnectTimerStarted = false
      ∧ (disconnectReset c reason).wasConnected = false
      ∧ (disconnectReset c reason).firstPacketSent = false
      ∧ (disconnectReset c reason).restOfTheData = none
      ∧ (disconnectReset c reason).lastPacketLength = 0 := by
  unfold disconnectReset
  simp only [apply_ite Connection.connectionType, apply_ite Connection.lastReconnectTimeout,
    apply_ite Connection.connectionInProcess, apply_ite Connection.failedConnectionCount,
    apply_ite Connection.willRetryConnectCount, apply_ite Connection.currentAddressFlags,
    apply_ite Connection.usefullData, apply_ite Connection.usefullDataReceiveTime,
    apply_ite Connection.manager, apply_ite Connection.reconnectTimerStarted,
    apply_ite Connection.wasConnected, apply_ite Connection.firstPacketSent,
    apply_ite Connection.restOfTheData, apply_ite Connection.lastPacketLength,
    ite_self, and_self]

theorem disconnectReset_currentTimeout (c : Connection) (reason : Int) :
    (disconnectReset c reason).currentTimeout
      = (if isAdaptiveType c.connectionType = true ∧ c.wasConnected = true ∧ reason = 2
            ∧ c.currentTimeout < 16 then c.currentTimeout + 2
          else c.currentTimeout) := by
  unfold disconnectReset
  simp only [apply_ite Connection.currentTimeout, ite_self]
  by_cases h1 : isAdaptiveType c.connectionType = true
  · by_cases h2 : (c.wasConnected && decide (reason = 2) && decide (c.currentTimeout < 16)) = true
    · have h3 : c.wasConnected = true ∧ reason = 2 ∧ c.currentTimeout < 16 := by
        simpa [and_assoc] using h2
      rw [if_pos h1, if_pos h2, if_pos ⟨h1, h3⟩]
    · have h3 : ¬ (isAdaptiveType c.connectionType = true ∧ c.wasConnected = true ∧ reason = 2
          ∧ c.currentTimeout < 16) := by
        rintro ⟨_, a, b, d⟩
        exact h2 (by simp [a, b, d])
      rw [if_pos h1, if_neg h2, if_neg h3]
  · rw [if_neg h1, if_neg (fun h => h1 h.1)]

/-- One `onDisconnected` with an error of the class `{0x68, 0x71}`. -/
theorem onDisconnected_backoff (env : Env) (c : Connection) (reason error : Int)
    (hproc : c.connectionInProcess = false)
    (htype : c.connectionType ≠ ConnectionType.ConnectionTypeProxy)
    (hstate : c.connectionState ≠ TcpConnectionState.TcpConnectionStageSuspended)
    (herr : error = 0x68 ∨ error = 0x71) (ht : c.lastReconnectTimeout < 2147483648) :
    (onDisconnected env c reason error).1.waitForReconnectTimer = true
      ∧ (onDisconnected env c reason error).1.reconnectTimerStarted = true
      ∧ (onDisconnected env c reason error).1.reconnectTimerTimeout = c.lastReconnectTimeout
      ∧ (onDisconnected env c reason error).1.lastReconnectTimeout
        = nextBackoff c.lastReconnectTimeout
      ∧ (onDisconnected env c reason error).1.connectionState
        = TcpConnectionState.TcpConnectionStageReconnecting
      ∧ (onDisconnected env c reason error).1.connectionType = c.connectionType
      ∧ (onDisconnected env c reason error).1.connectionInProcess = false
      ∧ (onDisconnected env c reason error).1.usefullData = false := by
  obtain ⟨f1, f2, f3, _⟩ := disconnectReset_fields c reason
  have hidle : (disconnectReset c reason).connectionState
      = TcpConnectionState.TcpConnectionStageIdle := by
    rw [disconnectReset_state, if_neg hstate]
  obtain ⟨b1, b2, b3, b4⟩ := onDisconnectedReconnecting_backoff env (disconnectReset c reason)
    (switchToNextPort env c reason) error herr (by rw [f1]; exact htype)
  unfold onDisconnected
  rw [hproc]
  simp only [Bool.false_eq_true, if_false]
  rw [onDisconnectedInternal_eq, if_pos hidle]
  refine ⟨b1, b2, b3.trans f2, ?_, onDisconnectedReconnecting_state _ _ _ _,
    (onDisconnectedReconnecting_type _ _ _ _).trans f1,
    (onDisconnectedReconnecting_inProcess _ _ _ _).trans (f3.trans hproc), rfl⟩
  show (onDisconnectedReconnecting env (disconnectReset c reason) (switchToNextPort env c reason)
    error).1.lastReconnectTimeout = _
  rw [b4, f2]
  unfold nextBackoff
  rw [Nat.mod_eq_of_lt (by omega)]
  split_ifs <;> omega

theorem nextBackoff_le (t : Nat) : nextBackoff t ≤ 400 := by
  unfold nextBackoff
  omega

theorem nextBackoff_iterate (k : Nat) : nextBackoff^[k] 50 = min (50 * 2 ^ k) 400 := by
  induction k with
  | zero => rfl
  | succ k ih =>
    rw [Function.iterate_succ_apply', ih]
    unfold nextBackoff
    rw [pow_succ]
    omega

/-- A run of `onDisconnected` calls with errors of the class `{0x68, 0x71}`:
the delay armed last and the delay kept for the next time, as iterates of the
backoff step on the delay the run started with. -/
theorem disconnectAll_backoff :
    ∀ (steps : List (Env × Int × Int)) (c : Connection),
      c.connectionInProcess = false →
      c.connectionType ≠ ConnectionType.ConnectionTypeProxy →
      c.connectionState ≠ TcpConnectionState.TcpConnectionStageSuspended →
      c.lastReconnectTimeout ≤ 400 →
      (∀ st ∈ steps, st.2.2 = 0x68 ∨ st.2.2 = 0x71) →
      (disconnectAll c steps).lastReconnectTimeout = nextBackoff^[steps.length] c.lastReconnectTimeout
        ∧ (steps ≠ [] →
            (disconnectAll c steps).reconnectTimerTimeout
                = nextBackoff^[steps.length - 1] c.lastReconnectTimeout
              ∧ (disconnectAll c steps).reconnectTimerStarted = true
              ∧ (disconnectAll c steps).waitForReconnectTimer = true) := by
  intro steps
  induction steps with
  | nil => intro c _ _ _ _ _; exact ⟨rfl, fun h => absurd rfl h⟩
  | cons st rest ih =>
    intro c hproc htype hstate ht herr
    obtain ⟨b1, b2, b3, b4, b5, b6, b7, _⟩ := onDisconnected_backoff st.1 c st.2.1 st.2.2 hproc
      htype hstate (herr st (List.mem_cons_self _ _)) (by omega)
    obtain ⟨i1, i2⟩ := ih (onDisconnected st.1 c st.2.1 st.2.2).1 b7 (by rw [b6]; exact htype)
      (by rw [b5]; decide) (by rw [b4]; exact nextBackoff_le _)
      (fun x hx => herr x (List.mem_cons_of_mem _ hx))
    rw [b4] at i1 i2
    refine ⟨?_, fun _ => ?_⟩
    · show (disconnectAll (onDisconnected st.1 c st.2.1 st.2.2).1 rest).lastReconnectTimeout = _
      rw [i1, List.length_cons, Function.iterate_succ_apply]
    · show (disconnectAll (onDisconnected st.1 c st.2.1 st.2.2).1 rest).reconnectTimerTimeout = _
        ∧ (disconnectAll (onDisconnected st.1 c st.2.1 st.2.2).1 rest).reconnectTimerStarted = true
        ∧ (disconnectAll (onDisconnected st.1 c st.2.1 st.2.2).1 rest).waitForReconnectTimer = true
      cases rest with
      | nil => exact ⟨b3, b2, b1⟩
      | cons r rs =>
        obtain ⟨j1, j2, j3⟩ := i2 (List.cons_ne_nil _ _)
        refine ⟨?_, j2, j3⟩
        rw [j1]
        simp only [List.length_cons, Nat.add_sub_cancel]
        rw [Function.iterate_succ_apply]

/-- C15. Error-class backoff.  For a connection of type other than Proxy that
is not Suspended (and on which no `connect()` is running) with
`lastReconnectTimeout = t` (`2 t` within 32 bits; every value the code stores
is at most 400), `onDisconnected` with `error` in `{0x68, 0x71}` arms the
reconnect timer with delay `t` ms, sets `waitForReconnectTimer` and sets
`lastReconnectTimeout` to `min(2 t, 400)`.  Starting from 50, the `n`-th of
`n` consecutive such disconnects arms the delay `min(50 * 2^(n-1), 400)`, that
is 50, 100, 200, 400, 400, ..., and `lastReconnectTimeout` is
`min(50 * 2^n, 400)` afterwards, never more than 400.  The disconnect clears
the useful-data flag, and a `setHasUsefullData` that finds the flag clear sets
`lastReconnectTimeout` to 50. -/
theorem error_class_backoff (env : Env) (c : Connection) (reason error : Int)
    (hproc : c.connectionInProcess = false)
    (htype : c.connectionType ≠ ConnectionType.ConnectionTypeProxy)
    (hstate : c.connectionState ≠ TcpConnectionState.TcpConnectionStageSuspended)
    (herr : error = 0x68 ∨ error = 0x71) (ht : c.lastReconnectTimeout < 2147483648)
    (k : Connection) (steps : List (Env × Int × Int))
    (hkproc : k.connectionInProcess = false)
    (hktype : k.connectionType ≠ ConnectionType.ConnectionTypeProxy)
    (hkstate : k.connectionState ≠ TcpConnectionState.TcpConnectionStageSuspended)
    (hk50 : k.lastReconnectTimeout = 50) (hne : steps ≠ [])
    (hsteps : ∀ st ∈ steps, st.2.2 = 0x68 ∨ st.2.2 = 0x71)
    (env2 : Env) (u : Connection) (hu : u.usefullData = false) :
    ((onDisconnected env c reason error).1.reconnectTimerStarted = true
        ∧ (onDisconnected env c reason error).1.waitForReconnectTimer = true
        ∧ (onDisconnected env c reason error).1.reconnectTimerTimeout = c.lastReconnectTimeout
        ∧ (onDisconnected env c reason error).1.lastReconnectTimeout
          = min (2 * c.lastReconnectTimeout) 400
        ∧ (onDisconnected env c reason error).1.usefullData = false)
      ∧ ((disconnectAll k steps).reconnectTimerStarted = true
        ∧ (disconnectAll k steps).waitForReconnectTimer = true
        ∧ (disconnectAll k steps).reconnectTimerTimeout = min (50 * 2 ^ (steps.length - 1)) 400
        ∧ (disconnectAll k steps).lastReconnectTimeout = min (50 * 2 ^ steps.length) 400
        ∧ (disconnectAll k steps).lastReconnectTimeout ≤ 400)
      ∧ (setHasUsefullData env2 u).lastReconnectTimeout = 50 := by
  obtain ⟨b1, b2, b3, b4, _, _, _, b8⟩ :=
    onDisconnected_backoff env c reason error hproc htype hstate herr ht
  obtain ⟨i1, i2⟩ := disconnectAll_backoff steps k hkproc hktype hkstate (by omega) hsteps
  obtain ⟨j1, j2, j3⟩ := i2 hne
  rw [hk50, nextBackoff_iterate] at i1 j1
  refine ⟨⟨b2, b1, b3, b4, b8⟩, ⟨j2, j3, j1, i1, ?_⟩, ?_⟩
  · rw [i1]
    omega
  · unfold setHasUsefullData
    rw [hu]
    rfl

/-- C15 at a concrete input: the sample connection with
`lastReconnectTimeout = 50`, one disconnect with error `0x68`, then a run of
five disconnects (delays 50, 100, 200, 400, 400: the fifth arms
`min(50 * 2^4, 400)`), then `setHasUsefullData` on the sample connection. -/
theorem error_class_backoff_witness :
    ((onDisconnected sampleEnv { sampleConnection with lastReconnectTimeout := 50 } 1
          0x68).1.reconnectTimerStarted = true
        ∧ (onDisconnected sampleEnv { sampleConnection with lastReconnectTimeout := 50 } 1
          0x68).1.waitForReconnectTimer = true
        ∧ (onDisconnected sampleEnv { sampleConnection with lastReconnectTimeout := 50 } 1
          0x68).1.reconnectTimerTimeout
          = ({ sampleConnection with lastReconnectTimeout := 50 } : Connection).lastReconnectTimeout
        ∧ (onDisconnected sampleEnv { sampleConnection with lastReconnectTimeout := 50 } 1
          0x68).1.lastReconnectTimeout
          = min (2 * ({ sampleConnection with lastReconnectTimeout := 50 } :
              Connection).lastReconnectTimeout) 400
        ∧ (onDisconnected sampleEnv { sampleConnection with lastReconnectTimeout := 50 } 1
          0x68).1.usefullData = false)
      ∧ ((disconnectAll { sampleConnection with lastReconnectTimeout := 50 }
            [(sampleEnv, 1, 0x68), (sampleEnv, 1, 0x71), (sampleEnv, 1, 0x68),
              (sampleEnv, 1, 0x68), (sampleEnv, 1, 0x71)]).reconnectTimerStarted = true
        ∧ (disconnectAll { sampleConnection with lastReconnectTimeout := 50 }
            [(sampleEnv, 1, 0x68), (sampleEnv, 1, 0x71), (sampleEnv, 1, 0x68),
              (sampleEnv, 1, 0x68), (sampleEnv, 1, 0x71)]).waitForReconnectTimer = true
        ∧ (disconnectAll { sampleConnection with lastReconnectTimeout := 50 }
            [(sampleEnv, 1, 0x68), (sampleEnv, 1, 0x71), (sampleEnv, 1, 0x68),
              (sampleEnv, 1, 0x68), (sampleEnv, 1, 0x71)]).reconnectTimerTimeout
          = min (50 * 2 ^ ([(sampleEnv, 1, 0x68), (sampleEnv, 1, 0x71), (sampleEnv, 1, 0x68),
              (sampleEnv, 1, 0x68), ((sampleEnv, 1, 0x71) : Env × Int × Int)].length - 1)) 400
        ∧ (disconnectAll { sampleConnection with lastReconnectTimeout := 50 }
            [(sampleEnv, 1, 0x68), (sampleEnv, 1, 0x71), (sampleEnv, 1, 0x68),
              (sampleEnv, 1, 0x68), (sampleEnv, 1, 0x71)]).lastReconnectTimeout
          = min (50 * 2 ^ [(sampleEnv, 1, 0x68), (sampleEnv, 1, 0x71), (sampleEnv, 1, 0x68),
              (sampleEnv, 1, 0x68), ((sampleEnv, 1, 0x71) : Env × Int × Int)].length) 400
        ∧ (disconnectAll { sampleConnection with lastReconnectTimeout := 50 }
            [(sampleEnv, 1, 0x68), (sampleEnv, 1, 0x71), (sampleEnv, 1, 0x68),
              (sampleEnv, 1, 0x68), (sampleEnv, 1, 0x71)]).lastReconnectTimeout ≤ 400)
      ∧ (setHasUsefullData sampleEnv sampleConnection).lastReconnectTimeout = 50 :=
  error_class_backoff sampleEnv { sampleConnection with lastReconnectTimeout := 50 } 1 0x68 rfl
    (by decide) (by decide) (Or.inl rfl) (by decide)
    { sampleConnection with lastReconnectTimeout := 50 }
    [(sampleEnv, 1, 0x68), (sampleEnv, 1, 0x71), (sampleEnv, 1, 0x68), (sampleEnv, 1, 0x68),
      (sampleEnv, 1, 0x71)]
    rfl (by decide) (by decide) rfl (List.cons_ne_nil _ _)
    (by
      intro st hst
      simp only [List.mem_cons, List.mem_singleton, List.not_mem_nil, or_false] at hst
      rcases hst with h | h | h | h | h <;> rw [h] <;> simp)
    sampleEnv sampleConnection rfl

/-! ## C19: address and port rotation -/

/-- The reconnect block with the network available and a type other than
Proxy: whether `nextAddressOrPort` is called, and the failure count left. -/
theorem onDisconnectedReconnecting_rotation (env : Env) (c : Connection) (sw : Bool)
    (error : Int) (hnet : env.isNetworkAvailable = true)
    (htype : c.connectionType ≠ ConnectionType.ConnectionTypeProxy) :
    (onDisconnectedReconnecting env c sw error).2
        = (if c.failedConnectionCount + 1
              > (if c.failedConnectionCount + 1 = 1 then (if hasUsefullData env c then 3 else 1)
                  else c.willRetryConnectCount) ∨ sw = true then
            [Event.nextAddressOrPort c.currentAddressFlags]
          else [])
      ∧ (onDisconnectedReconnecting env c sw error).1.failedConnectionCount
        = (if c.failedConnectionCount + 1
              > (if c.failedConnectionCount + 1 = 1 then (if hasUsefullData env c then 3 else 1)
                  else c.willRetryConnectCount) ∨ sw = true then 0
          else c.failedConnectionCount + 1) := by
  have hb : (c.connectionType != ConnectionType.ConnectionTypeProxy) = true := by
    simpa using htype
  unfold onDisconnectedReconnecting
  simp only [apply_ite Prod.fst, apply_ite Prod.snd, apply_ite Connection.connectionType,
    apply_ite Connection.failedConnectionCount, apply_ite Connection.willRetryConnectCount,
    apply_ite Connection.currentAddressFlags,
    ite_self, hnet, hb, if_true, Bool.and_self, Bool.true_and, Bool.or_eq_true,
    decide_eq_true_eq]
  exact ⟨rfl, rfl⟩

theorem hasUsefullData_congr (env : Env) (a b : Connection) (h1 : a.usefullData = b.usefullData)
    (h2 : a.usefullDataReceiveTime = b.usefullDataReceiveTime) :
    hasUsefullData env a = hasUsefullData env b := by
  unfold hasUsefullData
  rw [h1, h2]

/-- C19. Address and port rotation.  In `onDisconnected(reason, error)` on a
connection that is not Suspended (and on which no `connect()` is running), with
the network available and a type other than Proxy, let `n` be the incremented
`failedConnectionCount` and `retry` the value of `willRetryConnectCount` at the
comparison (3 or 1, by `hasUsefullData()`, when `n = 1`, the stored value
otherwise), and let `switchToNextPort` be
`(reason == 2 and wasConnected and (not hasSomeDataSinceLastConnect or
isCustomPort(currentAddressFlags))) or forceNextPort`.  If `n > retry` or
`switchToNextPort`, the calls made are `onConnectionClosed(reason)` and then
`nextAddressOrPort(currentAddressFlags)`, once, and `failedConnectionCount`
ends at 0; otherwise the only call is `onConnectionClosed(reason)` and
`failedConnectionCount` ends at `n`.  So the rotation happens if and only if
the condition holds.  When the stored `willRetryConnectCount` is at least 1
(the code stores 1 or 3), `n > retry` is `n > willRetryConnectCount`. -/
theorem address_port_rotation (env : Env) (c : Connection) (reason error : Int)
    (hproc : c.connectionInProcess = false)
    (hstate : c.connectionState ≠ TcpConnectionState.TcpConnectionStageSuspended)
    (hnet : env.isNetworkAvailable = true)
    (htype : c.connectionType ≠ ConnectionType.ConnectionTypeProxy) :
    ((c.failedConnectionCount + 1
            > (if c.failedConnectionCount + 1 = 1 then (if hasUsefullData env c then 3 else 1)
                else c.willRetryConnectCount)
          ∨ switchToNextPort env c reason = true) →
        (onDisconnected env c reason error).2
            = [Event.onConnectionClosed reason, Event.nextAddressOrPort c.currentAddressFlags]
          ∧ (onDisconnected env c reason error).1.failedConnectionCount = 0)
      ∧ (¬ (c.failedConnectionCount + 1
            > (if c.failedConnectionCount + 1 = 1 then (if hasUsefullData env c then 3 else 1)
                else c.willRetryConnectCount)
          ∨ switchToNextPort env c reason = true) →
        (onDisconnected env c reason error).2 = [Event.onConnectionClosed reason]
          ∧ (onDisconnected env c reason error).1.failedConnectionCount
            = c.failedConnectionCount + 1)
      ∧ (((onDisconnected env c reason error).2
              = [Event.onConnectionClosed reason, Event.nextAddressOrPort c.currentAddressFlags]
            ∧ (onDisconnected env c reason error).1.failedConnectionCount = 0)
          ↔ (c.failedConnectionCount + 1
              > (if c.failedConnectionCount + 1 = 1 then (if hasUsefullData env c then 3 else 1)
                  else c.willRetryConnectCount)
            ∨ switchToNextPort env c reason = true))
      ∧ (1 ≤ c.willRetryConnectCount →
          (c.failedConnectionCount + 1
              > (if c.failedConnectionCount + 1 = 1 then (if hasUsefullData env c then 3 else 1)
                  else c.willRetryConnectCount)
            ↔ c.failedConnectionCount + 1 > c.willRetryConnectCount))
      ∧ switchToNextPort env c reason
        = ((decide (reason = 2) && c.wasConnected
              && (!c.hasSomeDataSinceLastConnect || env.isCustomPort c.currentAddressFlags))
            || c.forceNextPort) := by
  obtain ⟨f1, _, _, f4, f5, f6, f7, f8, _⟩ := disconnectReset_fields c reason
  have hidle : (disconnectReset c reason).connectionState
      = TcpConnectionState.TcpConnectionStageIdle := by
    rw [disconnectReset_state, if_neg hstate]
  obtain ⟨r1, r2⟩ := onDisconnectedReconnecting_rotation env (disconnectReset c reason)
    (switchToNextPort env c reason) error hnet (by rw [f1]; exact htype)
  rw [f4, f5, hasUsefullData_congr env _ c f7 f8] at r1 r2
  rw [f6] at r1
  have hev : (onDisconnected env c reason error).2
      = Event.onConnectionClosed reason
        :: (onDisconnectedReconnecting env (disconnectReset c reason)
            (switchToNextPort env c reason) error).2 := by
    unfold onDisconnected
    rw [hproc]
    simp only [Bool.false_eq_true, if_false]
    rw [onDisconnectedInternal_eq, if_pos hidle]
  have hfc : (onDisconnected env c reason error).1.failedConnectionCount
      = (onDisconnectedReconnecting env (disconnectReset c reason)
          (switchToNextPort env c reason) error).1.failedConnectionCount := by
    unfold onDisconnected
    rw [hproc]
    simp only [Bool.false_eq_true, if_false]
    rw [onDisconnectedInternal_eq, if_pos hidle]
  rw [hev, hfc, r1, r2]
  refine ⟨fun h => by rw [if_pos h, if_pos h]; exact ⟨rfl, rfl⟩,
    fun h => by rw [if_neg h, if_neg h]; exact ⟨rfl, rfl⟩, ⟨fun h => ?_, fun h => ?_⟩, ?_, rfl⟩
  · by_contra hn
    rw [if_neg hn] at h
    simp at h
  · rw [if_pos h, if_pos h]
    exact ⟨rfl, rfl⟩
  · intro hw
    split_ifs <;> omega

/-- C19 at a concrete input: the sample connection with `forceNextPort` set and
a disconnect with reason 1. -/
theorem address_port_rotation_witness :
    ((({ sampleConnection with forceNextPort := true } : Connection).failedConnectionCount + 1
            > (if ({ sampleConnection with forceNextPort := true } :
                    Connection).failedConnectionCount + 1 = 1 then
                (if hasUsefullData sampleEnv { sampleConnection with forceNextPort := true }
                  then 3 else 1)
                else ({ sampleConnection with forceNextPort := true } :
                    Connection).willRetryConnectCount)
          ∨ switchToNextPort sampleEnv { sampleConnection with forceNextPort := true } 1 = true) →
        (onDisconnected sampleEnv { sampleConnection with forceNextPort := true } 1 0).2
            = [Event.onConnectionClosed 1,
                Event.nextAddressOrPort
                  ({ sampleConnection with forceNextPort := true } :
                    Connection).currentAddressFlags]
          ∧ (onDisconnected sampleEnv { sampleConnection with forceNextPort := true } 1
              0).1.failedConnectionCount = 0)
      ∧ (¬ (({ sampleConnection with forceNextPort := true } : Connection).failedConnectionCount + 1
            > (if ({ sampleConnection with forceNextPort := true } :
                    Connection).failedConnectionCount + 1 = 1 then
                (if hasUsefullData sampleEnv { sampleConnection with forceNextPort := true }
                  then 3 else 1)
                else ({ sampleConnection with forceNextPort := true } :
                    Connection).willRetryConnectCount)
          ∨ switchToNextPort sampleEnv { sampleConnection with forceNextPort := true } 1 = true) →
        (onDisconnected sampleEnv { sampleConnection with forceNextPort := true } 1 0).2
            = [Event.onConnectionClosed 1]
          ∧ (onDisconnected sampleEnv { sampleConnection with forceNextPort := true } 1
              0).1.failedConnectionCount
            = ({ sampleConnection with forceNextPort := true } :
                Connection).failedConnectionCount + 1)
      ∧ (((onDisconnected sampleEnv { sampleConnection with forceNextPort := true } 1 0).2
              = [Event.onConnectionClosed 1,
                  Event.nextAddressOrPort
                    ({ sampleConnection with forceNextPort := true } :
                      Connection).currentAddressFlags]
            ∧ (onDisconnected sampleEnv { sampleConnection with forceNextPort := true } 1
                0).1.failedConnectionCount = 0)
          ↔ (({ sampleConnection with forceNextPort := true } :
                  Connection).failedConnectionCount + 1
              > (if ({ sampleConnection with forceNextPort := true } :
                      Connection).failedConnectionCount + 1 = 1 then
                  (if hasUsefullData sampleEnv { sampleConnection with forceNextPort := true }
                    then 3 else 1)
                  else ({ sampleConnection with forceNextPort := true } :
                      Connection).willRetryConnectCount)
            ∨ switchToNextPort sampleEnv { sampleConnection with forceNextPort := true } 1
              = true))
      ∧ (1 ≤ ({ sampleConnection with forceNextPort := true } : Connection).willRetryConnectCount →
          (({ sampleConnection with forceNextPort := true } : Connection).failedConnectionCount + 1
              > (if ({ sampleConnection with forceNextPort := true } :
                      Connection).failedConnectionCount + 1 = 1 then
                  (if hasUsefullData sampleEnv { sampleConnection with forceNextPort := true }
                    then 3 else 1)
                  else ({ sampleConnection with forceNextPort := true } :
                      Connection).willRetryConnectCount)
            ↔ ({ sampleConnection with forceNextPort := true } :
                  Connection).failedConnectionCount + 1
              > ({ sampleConnection with forceNextPort := true } :
                  Connection).willRetryConnectCount))
      ∧ switchToNextPort sampleEnv { sampleConnection with forceNextPort := true } 1
        = ((decide ((1 : Int) = 2)
              && ({ sampleConnection with forceNextPort := true } : Connection).wasConnected
              && (!({ sampleConnection with forceNextPort := true } :
                      Connection).hasSomeDataSinceLastConnect
                  || sampleEnv.isCustomPort
                      ({ sampleConnection with forceNextPort := true } :
                        Connection).currentAddressFlags))
            || ({ sampleConnection with forceNextPort := true } : Connection).forceNextPort) :=
  address_port_rotation sampleEnv { sampleConnection with forceNextPort := true } 1 0 rfl
    (by decide) rfl (by decide)

/-! ## Disconnects outside the error class -/

theorem onDisconnectedReconnecting_rearm (env : Env) (c : Connection) (sw : Bool)
    (error : Int) (herr : ¬ (error = 0x68 ∨ error = 0x71)) :
    (onDisconnectedReconnecting env c sw error).1.waitForReconnectTimer = false
      ∧ (onDisconnectedReconnecting env c sw error).1.reconnectTimerStarted
        = (if rearmCondition env c = true then true else c.reconnectTimerStarted)
      ∧ (onDisconnectedReconnecting env c sw error).1.reconnectTimerTimeout
        = (if rearmCondition env c = true then 1000 else c.reconnectTimerTimeout)
      ∧ (onDisconnectedReconnecting env c sw error).1.currentTimeout = c.currentTimeout
      ∧ (onDisconnectedReconnecting env c sw error).1.lastReconnectTimeout
        = c.lastReconnectTimeout := by
  unfold onDisconnectedReconnecting rearmCondition
  simp only [apply_ite Prod.fst, apply_ite Connection.connectionType,
    apply_ite Connection.lastReconnectTimeout, apply_ite Connection.waitForReconnectTimer,
    apply_ite Connection.reconnectTimerStarted, apply_ite Connection.reconnectTimerTimeout,
    apply_ite Connection.currentTimeout, apply_ite Connection.manager,
    apply_ite ConnectionsManager.currentDatacenterId,
    apply_ite ConnectionsManager.movingToDatacenterId,
    ite_self, if_neg herr, if_false, and_self, true_and]

theorem onDisconnectedReconnecting_session (env : Env) (c : Connection) (sw : Bool)
    (error : Int) :
    (onDisconnectedReconnecting env c sw error).1.wasConnected = c.wasConnected
      ∧ (onDisconnectedReconnecting env c sw error).1.restOfTheData = c.restOfTheData
      ∧ (onDisconnectedReconnecting env c sw error).1.lastPacketLength = c.lastPacketLength := by
  unfold onDisconnectedReconnecting
  simp only [apply_ite Prod.fst, apply_ite Connection.wasConnected,
    apply_ite Connection.restOfTheData, apply_ite Connection.lastPacketLength, ite_self,
    and_self]

theorem rearmCondition_congr (env : Env) (a b : Connection)
    (h1 : a.connectionType = b.connectionType) (h2 : a.manager = b.manager) :
    rearmCondition env a = rearmCondition env b := by
  unfold rearmCondition
  rw [h1, h2]

/-- `onDisconnected(reason, error)` with an error outside `{0x68, 0x71}` on a
connection that is not Suspended and on which no `connect()` is running: the
state ends as Reconnecting, the token is cleared, `waitForReconnectTimer` is
cleared, the timer is armed for 1000 ms exactly under `rearmCondition`, and
the adaptive timeout is widened only after a successful connect. -/
theorem onDisconnected_rearm (env : Env) (c : Connection) (reason error : Int)
    (hproc : c.connectionInProcess = false)
    (hstate : c.connectionState ≠ TcpConnectionState.TcpConnectionStageSuspended)
    (herr : ¬ (error = 0x68 ∨ error = 0x71)) :
    (onDisconnected env c reason error).1.connectionState
        = TcpConnectionState.TcpConnectionStageReconnecting
      ∧ (onDisconnected env c reason error).1.connectionToken = 0
      ∧ (onDisconnected env c reason error).1.waitForReconnectTimer = false
      ∧ (onDisconnected env c reason error).1.reconnectTimerStarted = rearmCondition env c
      ∧ (rearmCondition env c = true →
          (onDisconnected env c reason error).1.reconnectTimerTimeout = 1000)
      ∧ (onDisconnected env c reason error).1.currentTimeout
        = (if isAdaptiveType c.connectionType = true ∧ c.wasConnected = true ∧ reason = 2
              ∧ c.currentTimeout < 16 then c.currentTimeout + 2
            else c.currentTimeout)
      ∧ (onDisconnected env c reason error).1.wasConnected = false
      ∧ (onDisconnected env c reason error).1.restOfTheData = none
      ∧ (onDisconnected env c reason error).1.lastPacketLength = 0
      ∧ (onDisconnected env c reason error).1.firstPacketSent = false
      ∧ (∃ rest, (onDisconnected env c reason error).2 = Event.onConnectionClosed reason :: rest) := by
  obtain ⟨f1, _, _, _, _, _, _, _, f9, f10, f11, f12, _, f14, f15⟩ := disconnectReset_fields c reason
  have hidle : (disconnectReset c reason).connectionState
      = TcpConnectionState.TcpConnectionStageIdle := by
    rw [disconnectReset_state, if_neg hstate]
  obtain ⟨a1, a2, a3, a4, _⟩ := onDisconnectedReconnecting_rearm env (disconnectReset c reason)
    (switchToNextPort env c reason) error herr
  obtain ⟨s1, s2, s3⟩ := onDisconnectedReconnecting_session env (disconnectReset c reason)
    (switchToNextPort env c reason) error
  rw [rearmCondition_congr env _ c f1 f9, f11] at a2
  rw [rearmCondition_congr env _ c f1 f9] at a3
  have hfp := onDisconnected_firstPacketSent env c reason error hproc
  unfold onDisconnected at hfp ⊢
  rw [hproc] at hfp ⊢
  simp only [Bool.false_eq_true, if_false] at hfp ⊢
  rw [onDisconnectedInternal_eq, if_pos hidle] at hfp ⊢
  refine ⟨onDisconnectedReconnecting_state _ _ _ _,
    (onDisconnectedReconnecting_token _ _ _ _).trans f10, a1, ?_, ?_,
    a4.trans (disconnectReset_currentTimeout c reason), s1.trans f12, s2.trans f14,
    s3.trans f15, hfp, ⟨_, rfl⟩⟩
  · show (onDisconnectedReconnecting env (disconnectReset c reason)
      (switchToNextPort env c reason) error).1.reconnectTimerStarted = _
    rw [a2]
    cases rearmCondition env c <;> rfl
  · intro h
    show (onDisconnectedReconnecting env (disconnectReset c reason)
      (switchToNextPort env c reason) error).1.reconnectTimerTimeout = _
    rw [a3, if_pos h]

/-- `onDisconnected` on a Suspended connection on which no `connect()` is
running: only the reset; the state stays Suspended and the timer stays
stopped. -/
theorem onDisconnected_suspended (env : Env) (c : Connection) (reason error : Int)
    (hproc : c.connectionInProcess = false)
    (hstate : c.connectionState = TcpConnectionState.TcpConnectionStageSuspended) :
    onDisconnected env c reason error
      = ({ disconnectReset c reason with usefullData := false },
          [Event.onConnectionClosed reason]) := by
  have hs : (disconnectReset c reason).connectionState
      = TcpConnectionState.TcpConnectionStageSuspended := by
    rw [disconnectReset_state, if_pos hstate]
  unfold onDisconnected
  rw [hproc]
  simp only [Bool.false_eq_true, if_false]
  rw [onDisconnectedInternal_eq, if_neg (by rw [hs]; decide)]

/-! ## C14: `suspendConnection` -/

/-- `closeSocket` is `onDisconnected` on the connection with the socket fields
cleared; the fields of the state machine are the same. -/
theorem closeSocket_eq (env : Env) (c : Connection) (reason error : Int) :
    ∃ k : Connection, k.connectionState = c.connectionState
      ∧ k.connectionInProcess = c.connectionInProcess
      ∧ k.connectionType = c.connectionType
      ∧ k.manager = c.manager
      ∧ k.wasConnected = c.wasConnected
      ∧ k.currentTimeout = c.currentTimeout
      ∧ k.reconnectTimerStarted = c.reconnectTimerStarted
      ∧ k.waitForReconnectTimer = c.waitForReconnectTimer
      ∧ k.reconnectTimerTimeout = c.reconnectTimerTimeout
      ∧ closeSocket env c reason error
        = ((onDisconnected env k reason error).1,
            Event.detachConnection :: (onDisconnected env k reason error).2) :=
  ⟨{ c with
      lastEventTime := env.now
      socketFd := if c.socketFd ≥ 0 then -1 else c.socketFd
      waitingForHostResolve := ""
      adjustWriteOpAfterResolve := false
      onConnectedSent := false
      outgoingByteStream := [] }, rfl, rfl, rfl, rfl, rfl, rfl, rfl, rfl, rfl, rfl⟩

theorem disconnectReset_wait (c : Connection) (reason : Int) :
    (disconnectReset c reason).waitForReconnectTimer = c.waitForReconnectTimer := by
  unfold disconnectReset
  simp only [apply_ite Connection.waitForReconnectTimer, ite_self]

/-- C14, counterexample.  `suspendConnection(true)` on the sample session (a
Generic connection in state Connected, on the current datacenter) ends in
state Reconnecting, not Idle, with the reconnect timer started for 1000 ms:
`dropConnection` runs `onDisconnectedInternal`, which finds the state Idle and
enters its reconnect block.  And `suspendConnection(false)` on the sample
connection, which is Idle, returns early and leaves it Idle, not Suspended. -/
theorem suspendConnection_ends_reconnecting :
    (suspendConnection sampleEnv sampleSession true).1.connectionState
        = TcpConnectionState.TcpConnectionStageReconnecting
      ∧ (suspendConnection sampleEnv sampleSession true).1.reconnectTimerStarted = true
      ∧ (suspendConnection sampleEnv sampleSession true).1.reconnectTimerTimeout = 1000
      ∧ sampleSession.connectionState = TcpConnectionState.TcpConnectionStageConnected
      ∧ (suspendConnection sampleEnv sampleConnection false).1.connectionState
        = TcpConnectionState.TcpConnectionStageIdle := by
  decide

/-- C14, amended.  `suspendConnection(idle)` first stops the reconnect timer
and clears `waitForReconnectTimer`.  From Idle or Suspended it then returns:
nothing else changes, and the state stays what it was.  From Connecting,
Connected or Reconnecting (no `connect()` running) it ends with
`firstPacketSent = false`, `connectionToken = 0`, `wasConnected = false`, the
reassembly buffer released, `lastPacketLength = 0` and no descriptor; with
`idle = false` the state is Suspended and the timer stays stopped; with
`idle = true` the state is Reconnecting (the disconnect handler turns Idle into
Reconnecting), `waitForReconnectTimer` is false, and the reconnect timer is
started again, for 1000 ms, exactly when `rearmCondition` holds. -/
theorem suspendConnection_post_state (env : Env) (c : Connection) (idle : Bool)
    (hproc : c.connectionInProcess = false) :
    ((c.connectionState = TcpConnectionState.TcpConnectionStageIdle
          ∨ c.connectionState = TcpConnectionState.TcpConnectionStageSuspended) →
        suspendConnection env c idle
          = ({ c with reconnectTimerStarted := false, waitForReconnectTimer := false }, []))
      ∧ (¬ (c.connectionState = TcpConnectionState.TcpConnectionStageIdle
          ∨ c.connectionState = TcpConnectionState.TcpConnectionStageSuspended) →
        (suspendConnection env c idle).1.firstPacketSent = false
          ∧ (suspendConnection env c idle).1.connectionToken = 0
          ∧ (suspendConnection env c idle).1.wasConnected = false
          ∧ (suspendConnection env c idle).1.restOfTheData = none
          ∧ (suspendConnection env c idle).1.lastPacketLength = 0
          ∧ (suspendConnection env c idle).1.socketFd < 0
          ∧ (suspendConnection env c idle).1.waitForReconnectTimer = false
          ∧ (idle = false →
              (suspendConnection env c idle).1.connectionState
                  = TcpConnectionState.TcpConnectionStageSuspended
                ∧ (suspendConnection env c idle).1.reconnectTimerStarted = false)
          ∧ (idle = true →
              (suspendConnection env c idle).1.connectionState
                  = TcpConnectionState.TcpConnectionStageReconnecting
                ∧ (suspendConnection env c idle).1.reconnectTimerStarted = rearmCondition env c
                ∧ (rearmCondition env c = true →
                    (suspendConnection env c idle).1.reconnectTimerTimeout = 1000))) := by
  refine ⟨fun h => ?_, fun h => ?_⟩
  · unfold suspendConnection
    dsimp only
    rw [if_pos h]
  · obtain ⟨k, k1, k2, k3, k4, _, _, k7, k8, _, ke⟩ := closeSocket_eq env
      { c with
        reconnectTimerStarted := false
        waitForReconnectTimer := false
        connectionState :=
          if idle then TcpConnectionState.TcpConnectionStageIdle
          else TcpConnectionState.TcpConnectionStageSuspended } 0 0
    have hfd := closeSocket_socketFd env
      { c with
        reconnectTimerStarted := false
        waitForReconnectTimer := false
        connectionState :=
          if idle then TcpConnectionState.TcpConnectionStageIdle
          else TcpConnectionState.TcpConnectionStageSuspended } 0 0
    have hk2 : k.connectionInProcess = false := k2.trans hproc
    have hsus : suspendConnection env c idle
        = ({ (onDisconnected env k 0 0).1 with
              firstPacketSent := false
              restOfTheData := none
              lastPacketLength := 0
              connectionToken := 0
              wasConnected := false },
            (Event.detachConnection :: (onDisconnected env k 0 0).2)
              ++ [Event.onConnectionClosed 0]) := by
      unfold suspendConnection dropConnection
      dsimp only
      rw [if_neg h, ke]
    rw [ke] at hfd
    rw [hsus]
    refine ⟨rfl, rfl, rfl, rfl, rfl, hfd, ?_, fun hi => ?_, fun hi => ?_⟩
    · show (onDisconnected env k 0 0).1.waitForReconnectTimer = false
      cases idle with
      | false =>
        rw [onDisconnected_suspended env k 0 0 hk2 (by rw [k1]; rfl)]
        show (disconnectReset k 0).waitForReconnectTimer = false
        rw [disconnectReset_wait, k8]
      | true =>
        exact (onDisconnected_rearm env k 0 0 hk2 (by
          rw [k1]
          show TcpConnectionState.TcpConnectionStageIdle
            ≠ TcpConnectionState.TcpConnectionStageSuspended
          decide) (by decide)).2.2.1
    · subst hi
      rw [onDisconnected_suspended env k 0 0 hk2 (by rw [k1]; rfl)]
      refine ⟨?_, ?_⟩
      · show (disconnectReset k 0).connectionState = _
        rw [disconnectReset_state, if_pos (by rw [k1]; rfl)]
      · exact (disconnectReset_fields k 0).2.2.2.2.2.2.2.2.2.2.1
    · subst hi
      obtain ⟨r1, _, _, r4, r5, _⟩ :=
        onDisconnected_rearm env k 0 0 hk2 (by
          rw [k1]
          show TcpConnectionState.TcpConnectionStageIdle
            ≠ TcpConnectionState.TcpConnectionStageSuspended
          decide) (by decide)
      rw [rearmCondition_congr env k c k3 k4] at r4 r5
      exact ⟨r1, r4, r5⟩

/-- C14 at a concrete input: the sample session, `idle = false`. -/
theorem suspendConnection_post_state_witness :
    ((sampleSession.connectionState = TcpConnectionState.TcpConnectionStageIdle
          ∨ sampleSession.connectionState = TcpConnectionState.TcpConnectionStageSuspended) →
        suspendConnection sampleEnv sampleSession false
          = ({ sampleSession with reconnectTimerStarted := false, waitForReconnectTimer := false },
              []))
      ∧ (¬ (sampleSession.connectionState = TcpConnectionState.TcpConnectionStageIdle
          ∨ sampleSession.connectionState = TcpConnectionState.TcpConnectionStageSuspended) →
        (suspendConnection sampleEnv sampleSession false).1.firstPacketSent = false
          ∧ (suspendConnection sampleEnv sampleSession false).1.connectionToken = 0
          ∧ (suspendConnection sampleEnv sampleSession false).1.wasConnected = false
          ∧ (suspendConnection sampleEnv sampleSession false).1.restOfTheData = none
          ∧ (suspendConnection sampleEnv sampleSession false).1.lastPacketLength = 0
          ∧ (suspendConnection sampleEnv sampleSession false).1.socketFd < 0
          ∧ (suspendConnection sampleEnv sampleSession false).1.waitForReconnectTimer = false
          ∧ (false = false →
              (suspendConnection sampleEnv sampleSession false).1.connectionState
                  = TcpConnectionState.TcpConnectionStageSuspended
                ∧ (suspendConnection sampleEnv sampleSession false).1.reconnectTimerStarted
                  = false)
          ∧ (false = true →
              (suspendConnection sampleEnv sampleSession false).1.connectionState
                  = TcpConnectionState.TcpConnectionStageReconnecting
                ∧ (suspendConnection sampleEnv sampleSession false).1.reconnectTimerStarted
                  = rearmCondition sampleEnv sampleSession
                ∧ (rearmCondition sampleEnv sampleSession = true →
                    (suspendConnection sampleEnv sampleSession false).1.reconnectTimerTimeout
                      = 1000))) :=
  suspendConnection_post_state sampleEnv sampleSession false rfl

theorem chooseIpv6_ids (env : Env) (c : Connection) :
    (chooseIpv6 env c).2.currentDatacenterId = c.manager.currentDatacenterId
      ∧ (chooseIpv6 env c).2.movingToDatacenterId = c.manager.movingToDatacenterId := by
  unfold chooseIpv6
  cases c.manager.ipStrategy <;>
    simp only [apply_ite Prod.snd, apply_ite ConnectionsManager.currentDatacenterId,
      apply_ite ConnectionsManager.movingToDatacenterId, ite_self, and_self]

theorem connectTimeout_pos (c : Connection) : 0 < connectTimeout c := by
  unfold connectTimeout
  split_ifs <;> omega

theorem openConnection_opens (env : Env) (c : Connection) (address : String) (port : Nat)
    (ipv6 : Bool) (networkType : Int) (hs : 0 ≤ env.socketResult)
    (hp : env.inetPton ipv6 address = true) (hf : env.fcntlOk = true)
    (hc : env.connectOk = true) (he : env.epollCtlAdd env.socketResult = true) :
    openConnection env c address port ipv6 networkType
      = ({ c with
            currentNetworkType := networkType
            isIpv6 := ipv6
            currentAddress := address
            currentPort := port
            waitingForHostResolve := ""
            adjustWriteOpAfterResolve := false
            socketFd := env.socketResult
            eventMaskEvents := EPOLLOUT ||| EPOLLIN ||| EPOLLRDHUP ||| EPOLLERR ||| EPOLLET },
          [Event.attachConnection]) := by
  unfold openConnection openConnectionInternal
  dsimp only
  rw [if_neg (by omega), hp, hf, hc]
  simp only [Bool.not_true, Bool.false_eq_true, if_false, he, if_true]


/-- A `connect()` that gets past its guards is `connectWith` at the chosen
address. -/
theorem connect_eq (env : Env) (c : Connection)
    (h1 : c.waitForReconnectTimer = false) (h2 : env.isNetworkAvailable = true)
    (h3 : ¬ (c.connectionState = TcpConnectionState.TcpConnectionStageConnected
        ∨ c.connectionState = TcpConnectionState.TcpConnectionStageConnecting)) :
    connect env c
      = connectWith env
          { c with
            connectionInProcess := true
            connectionState := TcpConnectionState.TcpConnectionStageConnecting
            isMediaConnection := false
            manager :=
              (chooseIpv6 env
                { c with
                  connectionInProcess := true
                  connectionState := TcpConnectionState.TcpConnectionStageConnecting
                  isMediaConnection := false }).2 }
          (chooseAddress env c.connectionType
            (chooseIpv6 env
              { c with
                connectionInProcess := true
                connectionState := TcpConnectionState.TcpConnectionStageConnecting
                isMediaConnection := false }).1) := by
  unfold connect
  rw [h1, h2, if_neg h3]
  rfl

/-- The shape of `connectWith`: `openConnection` on a connection with the
per-session fields reset, followed by `setTimeout` and the end of
`connectionInProcess`. -/
theorem connectWith_cases (env : Env) (c : Connection)
    (choice : Nat × Option TcpAddress × Nat × Bool) (P : Connection × List Event → Prop)
    (H : ∀ (k : Connection) (address : String) (port : Nat) (v6 : Bool) (networkType : Int),
      k.connectionState = c.connectionState →
      k.wasConnected = false →
      k.onConnectedSent = c.onConnectedSent →
      k.connectionInProcess = c.connectionInProcess →
      k.connectionType = c.connectionType →
      k.currentTimeout = c.currentTimeout →
      k.connectionToken = c.connectionToken →
      k.firstPacketSent = false →
      k.manager = c.manager →
      P ({ setTimeout env (openConnection env k address port v6 networkType).1
                (connectTimeout (openConnection env k address port v6 networkType).1) with
                connectionInProcess := false },
              (openConnection env k address port v6 networkType).2)) :
    P (connectWith env c choice) := by
  obtain ⟨f, o, v6, m⟩ := choice
  cases o with
  | none => exact H _ _ _ _ _ rfl rfl rfl rfl rfl rfl rfl rfl rfl
  | some a =>
    unfold connectWith
    dsimp only
    split_ifs
    · exact H _ _ _ _ _ rfl rfl rfl rfl rfl rfl rfl rfl rfl
    · exact H _ _ _ _ _ rfl rfl rfl rfl rfl rfl rfl rfl rfl

/-- A `connect()` that gets past its guards and whose socket calls all
succeed. -/
theorem connect_opens (env : Env) (c : Connection)
    (h1 : c.waitForReconnectTimer = false) (h2 : env.isNetworkAvailable = true)
    (h3 : ¬ (c.connectionState = TcpConnectionState.TcpConnectionStageConnected
        ∨ c.connectionState = TcpConnectionState.TcpConnectionStageConnecting))
    (hs : 0 ≤ env.socketResult) (hp : ∀ v a, env.inetPton v a = true)
    (hf : env.fcntlOk = true) (hc : env.connectOk = true)
    (he : env.epollCtlAdd env.socketResult = true) :
    (connect env c).1.connectionState = TcpConnectionState.TcpConnectionStageConnecting
      ∧ (connect env c).1.wasConnected = false
      ∧ (connect env c).1.onConnectedSent = c.onConnectedSent
      ∧ (connect env c).1.connectionInProcess = false
      ∧ (connect env c).1.connectionType = c.connectionType
      ∧ (connect env c).1.lastEventTime = env.now
      ∧ 0 < (connect env c).1.timeout
      ∧ (connect env c).1.currentTimeout = c.currentTimeout
      ∧ (connect env c).1.manager.currentDatacenterId = c.manager.currentDatacenterId
      ∧ (connect env c).1.manager.movingToDatacenterId = c.manager.movingToDatacenterId
      ∧ (connect env c).1.socketFd = env.socketResult
      ∧ (connect env c).2 = [Event.attachConnection] := by
  obtain ⟨i1, i2⟩ := chooseIpv6_ids env
    { c with
      connectionInProcess := true
      connectionState := TcpConnectionState.TcpConnectionStageConnecting
      isMediaConnection := false }
  rw [connect_eq env c h1 h2 h3]
  refine connectWith_cases env _ _
    (fun r => r.1.connectionState = TcpConnectionState.TcpConnectionStageConnecting
      ∧ r.1.wasConnected = false
      ∧ r.1.onConnectedSent = c.onConnectedSent
      ∧ r.1.connectionInProcess = false
      ∧ r.1.connectionType = c.connectionType
      ∧ r.1.lastEventTime = env.now
      ∧ 0 < r.1.timeout
      ∧ r.1.currentTimeout = c.currentTimeout
      ∧ r.1.manager.currentDatacenterId = c.manager.currentDatacenterId
      ∧ r.1.manager.movingToDatacenterId = c.manager.movingToDatacenterId
      ∧ r.1.socketFd = env.socketResult
      ∧ r.2 = [Event.attachConnection]) ?_
  intro k address port v6 nt k1 k2 k3 _ k5 k6 _ _ k9
  rw [openConnection_opens env k address port v6 nt hs (hp _ _) hf hc he]
  have k9 : k.manager = (chooseIpv6 env
      { c with
        connectionInProcess := true
        connectionState := TcpConnectionState.TcpConnectionStageConnecting
        isMediaConnection := false }).2 := k9
  rw [← k9] at i1 i2
  exact ⟨k1, k2, k3, rfl, k5, rfl, connectTimeout_pos _, k6, i1, i2, rfl, rfl⟩

/-- The re-arm condition reads only the type and the two datacenter ids. -/
theorem rearmCondition_ids (env : Env) (a b : Connection)
    (h1 : a.connectionType = b.connectionType)
    (h2 : a.manager.currentDatacenterId = b.manager.currentDatacenterId)
    (h3 : a.manager.movingToDatacenterId = b.manager.movingToDatacenterId) :
    rearmCondition env a = rearmCondition env b := by
  unfold rearmCondition
  rw [h1, h2, h3]

/-- C20, the scenario as stated fails: a Generic connection calls `connect()`
at time 0 with timeout 12 s, no writable event arrives, and `checkTimeout` runs
at 12001 ms.  The disconnect is delivered and the timer is armed, but
`currentTimeout` is still 4, not 6: the adaptive timeout is widened only when
`wasConnected` is set, and `connect()` has cleared it. -/
theorem handshake_timeout_keeps_currentTimeout :
    (checkTimeout sampleEnv (connect sampleEnv sampleConnection).1 12001).1 = true
      ∧ (checkTimeout sampleEnv (connect sampleEnv sampleConnection).1 12001).2.2.take 2
        = [Event.detachConnection, Event.onConnectionClosed 2]
      ∧ sampleConnection.currentTimeout = 4
      ∧ (checkTimeout sampleEnv (connect sampleEnv sampleConnection).1 12001).2.1.currentTimeout
        = 4 := by
  decide

/-- C20 (amended): a connection of any type, Generic included, calls
`connect()`, the socket calls succeed, and no writable event has been seen (`onConnectedSent` is
false).  Once `now - lastEventTime` exceeds `timeout * 1000`, `checkTimeout`
returns true and delivers the disconnect with reason 2: the socket is detached,
`onConnectionClosed(2)` is reported, the state becomes Reconnecting and the
token is 0.  `currentTimeout` is unchanged, because `wasConnected` is false
until `onConnected` fires.  The reconnect timer is armed, for 1000 ms, exactly
under `rearmCondition`: for type Generic, when the datacenter is
handshaking, current or being moved to. -/
theorem connect_handshake_timeout (env env2 : Env) (c : Connection) (now : Int)
    (h1 : c.waitForReconnectTimer = false) (h2 : env.isNetworkAvailable = true)
    (h3 : ¬ (c.connectionState = TcpConnectionState.TcpConnectionStageConnected
        ∨ c.connectionState = TcpConnectionState.TcpConnectionStageConnecting))
    (hs : 0 ≤ env.socketResult) (hp : ∀ v a, env.inetPton v a = true)
    (hf : env.fcntlOk = true) (hc : env.connectOk = true)
    (he : env.epollCtlAdd env.socketResult = true)
    (hsent : c.onConnectedSent = false)
    (hnow : now - (connect env c).1.lastEventTime
      > ((connect env c).1.timeout : Int) * 1000) :
    (connect env c).1.connectionState = TcpConnectionState.TcpConnectionStageConnecting
      ∧ (connect env c).1.lastEventTime = env.now
      ∧ (checkTimeout env2 (connect env c).1 now).1 = true
      ∧ (∃ rest, (checkTimeout env2 (connect env c).1 now).2.2
          = Event.detachConnection :: Event.onConnectionClosed 2 :: rest)
      ∧ (checkTimeout env2 (connect env c).1 now).2.1.connectionState
        = TcpConnectionState.TcpConnectionStageReconnecting
      ∧ (checkTimeout env2 (connect env c).1 now).2.1.connectionToken = 0
      ∧ (checkTimeout env2 (connect env c).1 now).2.1.currentTimeout = c.currentTimeout
      ∧ (checkTimeout env2 (connect env c).1 now).2.1.reconnectTimerStarted
        = rearmCondition env2 c
      ∧ (rearmCondition env2 c = true →
          (checkTimeout env2 (connect env c).1 now).2.1.reconnectTimerTimeout = 1000) := by
  obtain ⟨o1, o2, o3, o4, o5, o6, o7, o8, o9, o10, _, _⟩ :=
    connect_opens env c h1 h2 h3 hs hp hf hc he
  generalize connect env c = r at *
  obtain ⟨k, evs⟩ := r
  dsimp only at *
  obtain ⟨q, q1, q2, q3, q4, q5, q6, _, _, _, qe⟩ := closeSocket_eq env2 k 2 0
  have hstate : q.connectionState ≠ TcpConnectionState.TcpConnectionStageSuspended := by
    rw [q1, o1]
    decide
  obtain ⟨r1, r2, _, r4, r5, r6, _, _, _, _, rest, r11⟩ :=
    onDisconnected_rearm env2 q 2 0 (q2.trans o4) hstate (by decide)
  have hre : rearmCondition env2 q = rearmCondition env2 c :=
    rearmCondition_ids env2 q c (q3.trans o5) ((congrArg _ q4).trans o9)
      ((congrArg _ q4).trans o10)
  rw [hre] at r4 r5
  rw [q5, o2] at r6
  have hct : checkTimeout env2 k now
      = (true, (onDisconnected env2 q 2 0).1,
          Event.detachConnection :: (onDisconnected env2 q 2 0).2) := by
    unfold checkTimeout
    rw [if_pos ⟨by omega, hnow⟩, o3, hsent, ← qe]
    rfl
  rw [hct]
  refine ⟨o1, o6, rfl, ⟨rest, ?_⟩, r1, r2, ?_, r4, r5⟩
  · show Event.detachConnection :: (onDisconnected env2 q 2 0).2 = _
    rw [r11]
  · show (onDisconnected env2 q 2 0).1.currentTimeout = _
    rw [r6, q6, o8]
    simp only [Bool.false_eq_true, false_and, and_false, if_false]

theorem connect_handshake_timeout_witness :
    (checkTimeout sampleEnv (connect sampleEnv sampleConnection).1 12001).1 = true
      ∧ (checkTimeout sampleEnv (connect sampleEnv sampleConnection).1 12001).2.1.currentTimeout
        = sampleConnection.currentTimeout
      ∧ (checkTimeout sampleEnv
          (connect sampleEnv sampleConnection).1 12001).2.1.reconnectTimerTimeout = 1000 :=
  have h := connect_handshake_timeout sampleEnv sampleEnv sampleConnection 12001
    (by decide) (by decide) (by decide) (by decide) (fun _ _ => rfl) (by decide) (by decide)
    (by decide) (by decide) (by decide)
  ⟨h.2.2.1, h.2.2.2.2.2.2.1, h.2.2.2.2.2.2.2.2 (by decide)⟩

/-! ## The token invariant -/

theorem tokenInv_of_sameCore (c d : Connection) (h : SameCore c d) (hc : TokenInv c) :
    TokenInv d := by
  obtain ⟨s1, s2, s3⟩ := h
  refine ⟨s3.trans hc.1, fun hs => ?_⟩
  rw [s2]
  exact hc.2 (by rw [← s1]; exact hs)

theorem onDisconnectedInternal_tokenInv (env : Env) (c : Connection) (reason error : Int)
    (h : c.connectionInProcess = false) :
    TokenInv (onDisconnectedInternal env c reason error).1 := by
  obtain ⟨_, _, f3, _, _, _, _, _, _, f10, _⟩ := disconnectReset_fields c reason
  rw [onDisconnectedInternal_eq]
  by_cases hidle : (disconnectReset c reason).connectionState
      = TcpConnectionState.TcpConnectionStageIdle
  · rw [if_pos hidle]
    exact ⟨(onDisconnectedReconnecting_inProcess _ _ _ _).trans (f3.trans h),
      fun _ => (onDisconnectedReconnecting_token _ _ _ _).trans f10⟩
  · rw [if_neg hidle]
    exact ⟨f3.trans h, fun _ => f10⟩

theorem onDisconnected_tokenInv (env : Env) (c : Connection) (reason error : Int)
    (h : c.connectionInProcess = false) :
    TokenInv (onDisconnected env c reason error).1 := by
  unfold onDisconnected
  rw [h]
  simp only [Bool.false_eq_true, if_false]
  exact onDisconnectedInternal_tokenInv env c reason error h

theorem closeSocket_tokenInv (env : Env) (c : Connection) (reason error : Int)
    (h : c.connectionInProcess = false) :
    TokenInv (closeSocket env c reason error).1 := by
  obtain ⟨k, _, k2, _, _, _, _, _, _, _, ke⟩ := closeSocket_eq env c reason error
  rw [ke]
  exact onDisconnected_tokenInv env k reason error (k2.trans h)

theorem closeSocket_sameCore (env : Env) (b c : Connection) (reason error : Int)
    (hb : SameCore b c) (h : c.connectionInProcess = true) :
    SameCore b (closeSocket env c reason error).1 := by
  unfold closeSocket onDisconnected
  dsimp only
  rw [if_pos h]
  exact hb

theorem adjustWriteOp_tokenInv (env : Env) (c : Connection) (h : TokenInv c) :
    TokenInv (adjustWriteOp env c).1 := by
  unfold adjustWriteOp
  dsimp only
  split_ifs <;> first | exact closeSocket_tokenInv env _ _ _ h.1 | exact h

theorem adjustWriteOp_sameCore (env : Env) (b c : Connection) (hb : SameCore b c)
    (h : c.connectionInProcess = true) :
    SameCore b (adjustWriteOp env c).1 := by
  unfold adjustWriteOp
  dsimp only
  split_ifs <;> first | exact closeSocket_sameCore env b _ _ _ hb h | exact hb

theorem openConnectionInternal_sameCore (env : Env) (b c : Connection) (hb : SameCore b c)
    (h : c.connectionInProcess = true) :
    SameCore b (openConnectionInternal env c).1 := by
  have hbt : b.connectionInProcess = true := hb.2.2.symm.trans h
  have key : ∀ r : Connection × List Event, SameCore b r.1 →
      SameCore b (if r.1.adjustWriteOpAfterResolve then
          ((adjustWriteOp env r.1).1, r.2 ++ (adjustWriteOp env r.1).2) else r).1 := by
    intro r hr
    split_ifs
    · exact adjustWriteOp_sameCore env b r.1 hr (hr.2.2.trans hbt)
    · exact hr
  unfold openConnectionInternal
  dsimp only
  cases hfc : env.fcntlOk
  · simp only [Bool.not_false, if_true]
    exact closeSocket_sameCore env b _ _ _ hb h
  · simp only [Bool.not_true, Bool.false_eq_true, if_false]
    apply key
    cases hco : env.connectOk
    · simp only [Bool.not_false, if_true]
      exact closeSocket_sameCore env b _ _ _ hb h
    · simp only [Bool.not_true, Bool.false_eq_true, if_false]
      by_cases h3 : env.epollCtlAdd c.socketFd = true
      · rw [if_pos h3]
        exact hb
      · rw [if_neg h3]
        exact closeSocket_sameCore env b _ _ _ hb h

theorem openConnection_sameCore (env : Env) (c : Connection) (address : String) (port : Nat)
    (ipv6 : Bool) (networkType : Int) (h : c.connectionInProcess = true) :
    SameCore c (openConnection env c address port ipv6 networkType).1 := by
  unfold openConnection
  dsimp only
  split_ifs
  · exact closeSocket_sameCore env c _ _ _ ⟨rfl, rfl, rfl⟩ h
  · exact closeSocket_sameCore env c _ _ _ ⟨rfl, rfl, rfl⟩ h
  · exact openConnectionInternal_sameCore env c _ ⟨rfl, rfl, rfl⟩ h

/-- `connect()` keeps the token invariant: it returns at once when Connected,
and otherwise the state it leaves is Connecting with the token it found, which
is zero. -/
theorem connect_tokenInv (env : Env) (c : Connection) (h : TokenInv c) :
    TokenInv (connect env c).1 := by
  cases h1 : c.waitForReconnectTimer
  · cases h2 : env.isNetworkAvailable
    · unfold connect
      rw [h1, h2]
      exact h
    · by_cases h3 : c.connectionState = TcpConnectionState.TcpConnectionStageConnected
          ∨ c.connectionState = TcpConnectionState.TcpConnectionStageConnecting
      · unfold connect
        rw [h1, h2, if_pos h3]
        exact h
      · rw [connect_eq env c h1 h2 h3]
        refine connectWith_cases env _ _ (fun r => TokenInv r.1) ?_
        intro k address port v6 nt _ _ _ k4 _ _ k7 _ _
        obtain ⟨_, s2, _⟩ := openConnection_sameCore env k address port v6 nt k4
        refine ⟨rfl, fun _ => ?_⟩
        show (openConnection env k address port v6 nt).1.connectionToken = 0
        rw [s2, k7]
        exact h.2 (fun hc => h3 (Or.inl hc))
  · unfold connect
    rw [h1]
    exact h

theorem suspendConnection_tokenInv (env : Env) (c : Connection) (idle : Bool)
    (h : TokenInv c) : TokenInv (suspendConnection env c idle).1 := by
  unfold suspendConnection
  dsimp only
  by_cases hg : c.connectionState = TcpConnectionState.TcpConnectionStageIdle
      ∨ c.connectionState = TcpConnectionState.TcpConnectionStageSuspended
  · rw [if_pos hg]
    exact h
  · rw [if_neg hg]
    refine ⟨?_, fun _ => rfl⟩
    refine (closeSocket_tokenInv env _ 0 0 ?_).1
    exact h.1

theorem reconnect_tokenInv (env : Env) (c : Connection) (h : TokenInv c) :
    TokenInv (reconnect env c).1 := by
  unfold reconnect
  split_ifs
  · exact suspendConnection_tokenInv env c false h
  · exact connect_tokenInv env _ (suspendConnection_tokenInv env _ true h)

theorem onConnected_tokenInv (c : Connection) (h : TokenInv c) : TokenInv (onConnected c).1 :=
  ⟨h.1, fun hs => absurd rfl hs⟩

theorem writeBuffer_tokenInv (env : Env) (c : Connection) (buffer : NativeByteBuffer)
    (h : TokenInv c) : TokenInv (writeBuffer env c buffer).1 :=
  adjustWriteOp_tokenInv env _ h

theorem writeLength_tokenInv (env : Env) (c : Connection) (buffer : NativeByteBuffer)
    (limit : Nat) (reportAck : Bool) (h : TokenInv c) :
    TokenInv (writeLength env c buffer limit reportAck).1 := by
  unfold writeLength
  dsimp only
  split_ifs <;> exact h

theorem sendFrame_tokenInv (env : Env) (c : Connection) (buffer buff : NativeByteBuffer)
    (reportAck : Bool) (h : TokenInv c) :
    TokenInv (sendFrame env c buffer buff reportAck).1 := by
  unfold sendFrame
  dsimp only
  refine writeBuffer_tokenInv env _ _ ?_
  show TokenInv (writeBuffer env (writeLength env c buffer buff.limit reportAck).1 _).1
  exact writeBuffer_tokenInv env _ _ (writeLength_tokenInv env c buffer _ reportAck h)

theorem writePrelude_tokenInv (env : Env) (c : Connection) (buffer : NativeByteBuffer)
    (block : List Nat) (h : TokenInv c) : TokenInv (writePrelude env c buffer block).1 := h

theorem sendData_tokenInv (env : Env) (c : Connection) (buff : Option NativeByteBuffer)
    (reportAck encrypted : Bool) (h : TokenInv c) (r : Connection × List Event)
    (hr : sendData env c buff reportAck encrypted = some r) : TokenInv r.1 := by
  cases buff with
  | none =>
    have e : sendData env c none reportAck encrypted = some (c, []) := rfl
    rw [e] at hr
    cases hr
    exact h
  | some b =>
    have h0 : TokenInv
        (if c.connectionState = TcpConnectionState.TcpConnectionStageIdle
            ∨ c.connectionState = TcpConnectionState.TcpConnectionStageReconnecting
            ∨ c.connectionState = TcpConnectionState.TcpConnectionStageSuspended
          then connect env c else (c, [])).1 := by
      split_ifs
      · exact connect_tokenInv env c h
      · exact h
    unfold sendData at hr
    dsimp only at hr
    generalize (if c.connectionState = TcpConnectionState.TcpConnectionStageIdle
            ∨ c.connectionState = TcpConnectionState.TcpConnectionStageReconnecting
            ∨ c.connectionState = TcpConnectionState.TcpConnectionStageSuspended
          then connect env c else (c, [])) = r0 at h0 hr
    obtain ⟨k, ev⟩ := r0
    dsimp only at h0 hr
    by_cases hd : isDisconnected k = true
    · rw [if_pos hd] at hr
      cases hr
      exact h0
    · rw [if_neg hd] at hr
      cases hfp : k.firstPacketSent
      · rw [hfp] at hr
        simp only [Bool.not_false, if_true] at hr
        cases hb : firstAccepted env.randBlocks with
        | none =>
          rw [hb] at hr
          cases hr
        | some block =>
          rw [hb] at hr
          simp only [Option.map_some'] at hr
          cases hr
          exact sendFrame_tokenInv env _ _ _ _ (writePrelude_tokenInv env k _ block h0)
      · rw [hfp] at hr
        simp only [Bool.not_true, Bool.false_eq_true, if_false] at hr
        cases hr
        exact sendFrame_tokenInv env _ _ _ _ h0

theorem countReceived_tokenInv (env : Env) (c : Connection) (limit : Nat) (h : TokenInv c) :
    TokenInv (countReceived env c limit) := by
  unfold countReceived
  dsimp only
  split_ifs <;> exact h

theorem mergeRest_tokenInv (env : Env) (c : Connection) (buffer : NativeByteBuffer)
    (h : TokenInv c) :
    match mergeRest env c buffer with
    | Step.next s => TokenInv s.conn
    | Step.stop r => TokenInv r.1 := by
  unfold mergeRest
  cases c.restOfTheData with
  | none => exact h
  | some rest =>
    dsimp only
    split_ifs <;> exact h

theorem firstDataSeen_tokenInv (env : Env) (c : Connection) (h : TokenInv c) :
    TokenInv (firstDataSeen env c).1 := by
  unfold firstDataSeen
  dsimp only
  split_ifs <;> exact h

theorem stashFrame_conn (env : Env) (s : ParseState) (mark len : Nat) :
    (stashFrame env s mark len).conn = { s.conn with lastPacketLength := len } := by
  unfold stashFrame
  cases s.rest with
  | null => rfl
  | same =>
    dsimp only
    split_ifs <;> rfl
  | other r =>
    dsimp only
    split_ifs <;> rfl

theorem afterDelivery_conn (s : ParseState) : (afterDelivery s).conn = s.conn := by
  obtain ⟨conn, buffer, rest, later, events⟩ := s
  cases rest <;> cases later <;> unfold afterDelivery <;> dsimp only <;> (try split_ifs) <;> rfl

theorem finish_tokenInv (s : ParseState) (h : TokenInv s.conn) : TokenInv s.finish.1 := h

theorem stashHeader_tokenInv (env : Env) (s : ParseState) (h : TokenInv s.conn) :
    TokenInv (stashHeader env s).finish.1 := h

theorem stashFrame_tokenInv (env : Env) (s : ParseState) (mark len : Nat)
    (h : TokenInv s.conn) : TokenInv (stashFrame env s mark len).finish.1 := by
  refine finish_tokenInv _ ?_
  rw [stashFrame_conn]
  exact h

theorem parseFrame_tokenInv (env : Env) (s : ParseState) (mark len header : Nat)
    (h : TokenInv s.conn) :
    match parseFrame env s mark len header with
    | Step.next t => TokenInv t.conn
    | Step.stop r => TokenInv r.1 := by
  unfold parseFrame
  dsimp only
  by_cases h1 : len % 4 ≠ 0 ∨ len > 2 * 1024 * 1024
  · rw [if_pos h1]
    exact reconnect_tokenInv env _ (finish_tokenInv s h)
  · rw [if_neg h1]
    by_cases h2 : len < s.buffer.remaining ∨ len = s.buffer.remaining
    · rw [if_pos h2]
      show TokenInv (afterDelivery _).conn
      rw [afterDelivery_conn]
      exact h
    · rw [if_neg h2]
      exact stashFrame_tokenInv env s mark (len + header) h

theorem parseStep_tokenInv (env : Env) (s : ParseState) (h : TokenInv s.conn) :
    match parseStep env s with
    | Step.next t => TokenInv t.conn
    | Step.stop r => TokenInv r.1 := by
  have hs := firstDataSeen_tokenInv env s.conn h
  unfold parseStep
  dsimp only
  generalize firstDataSeen env s.conn = seen at hs ⊢
  by_cases hq : s.buffer.readByte.1 &&& (1 <<< 7) ≠ 0
  · rw [if_pos hq]
    by_cases hr : (s.buffer.readByte.2.setPosition s.buffer.position).remaining < 4
    · rw [if_pos hr]
      exact stashHeader_tokenInv env _ hs
    · rw [if_neg hr]
      exact hs
  · rw [if_neg hq]
    by_cases hl : s.buffer.readByte.1 ≠ 0x7f
    · rw [if_pos hl]
      exact parseFrame_tokenInv env _ _ _ _ hs
    · rw [if_neg hl]
      by_cases hr : (s.buffer.readByte.2.setPosition s.buffer.position).remaining < 4
      · rw [if_pos hr]
        cases s.rest with
        | null => exact stashHeader_tokenInv env _ hs
        | same =>
          dsimp only
          by_cases hp : (s.buffer.readByte.2.setPosition s.buffer.position).position ≠ 0
          · rw [if_pos hp]
            exact stashHeader_tokenInv env _ hs
          · rw [if_neg hp]
            exact hs
        | other r =>
          dsimp only
          by_cases hp : r.position ≠ 0
          · rw [if_pos hp]
            exact stashHeader_tokenInv env _ hs
          · rw [if_neg hp]
            exact hs
      · rw [if_neg hr]
        exact parseFrame_tokenInv env _ _ _ _ hs

theorem parseLoop_tokenInv (env : Env) (fuel : Nat) :
    ∀ (s : ParseState), TokenInv s.conn → ∀ r, parseLoop env fuel s = some r → TokenInv r.1 := by
  induction fuel with
  | zero =>
    intro s h r hr
    unfold parseLoop at hr
    by_cases hrem : s.buffer.hasRemaining = true
    · rw [hrem] at hr
      simp only [Bool.not_true, Bool.false_eq_true, if_false] at hr
      cases hr
    · rw [Bool.not_eq_true] at hrem
      rw [hrem] at hr
      simp only [Bool.not_false, if_true] at hr
      cases hr
      exact h
  | succ n ih =>
    intro s h r hr
    unfold parseLoop at hr
    by_cases hrem : s.buffer.hasRemaining = true
    · rw [hrem] at hr
      simp only [Bool.not_true, Bool.false_eq_true, if_false] at hr
      have hp := parseStep_tokenInv env s h
      cases hstep : parseStep env s with
      | next t =>
        rw [hstep] at hr hp
        exact ih t hp r hr
      | stop q =>
        rw [hstep] at hr hp
        cases hr
        exact hp
    · rw [Bool.not_eq_true] at hrem
      rw [hrem] at hr
      simp only [Bool.not_false, if_true] at hr
      cases hr
      exact h

theorem onReceivedDataDecrypted_tokenInv (env : Env) (c : Connection)
    (buffer : NativeByteBuffer) (h : TokenInv c) (r : Connection × List Event)
    (hr : onReceivedDataDecrypted env c buffer = some r) : TokenInv r.1 := by
  have hm := mergeRest_tokenInv env _ buffer (countReceived_tokenInv env c buffer.limit h)
  unfold onReceivedDataDecrypted at hr
  cases hstep : mergeRest env (countReceived env c buffer.limit) buffer with
  | stop q =>
    rw [hstep] at hr hm
    cases hr
    exact hm
  | next s =>
    rw [hstep] at hr hm
    dsimp only at hr hm
    refine parseLoop_tokenInv env _ _ ?_ r hr
    exact hm

theorem onReceivedData_tokenInv (env : Env) (c : Connection) (buffer : NativeByteBuffer)
    (h : TokenInv c) (r : Connection × List Event)
    (hr : onReceivedData env c buffer = some r) : TokenInv r.1 := by
  unfold onReceivedData at hr
  refine onReceivedDataDecrypted_tokenInv env _ _ ?_ r hr
  exact h

/-- Every operation keeps the token invariant. -/
theorem apply_tokenInv (env : Env) (c : Connection) (op : Op) (h : TokenInv c)
    (d : Connection) (hd : op.apply env c = some d) : TokenInv d := by
  cases op with
  | connect =>
    cases hd
    exact connect_tokenInv env c h
  | onConnected =>
    cases hd
    exact onConnected_tokenInv c h
  | onDisconnected reason error =>
    cases hd
    exact onDisconnected_tokenInv env c reason error h.1
  | suspendConnection idle =>
    cases hd
    exact suspendConnection_tokenInv env c idle h
  | reconnect =>
    cases hd
    exact reconnect_tokenInv env c h
  | sendData buff reportAck encrypted =>
    cases hs : sendData env c buff reportAck encrypted with
    | none =>
      have e : (Op.sendData buff reportAck encrypted).apply env c
          = (sendData env c buff reportAck encrypted).map Prod.fst := rfl
      rw [e, hs] at hd
      cases hd
    | some r =>
      have e : (Op.sendData buff reportAck encrypted).apply env c
          = (sendData env c buff reportAck encrypted).map Prod.fst := rfl
      rw [e, hs] at hd
      cases hd
      exact sendData_tokenInv env c buff reportAck encrypted h r hs
  | onReceivedData buffer =>
    cases hs : onReceivedData env c buffer with
    | none =>
      have e : (Op.onReceivedData buffer).apply env c
          = (onReceivedData env c buffer).map Prod.fst := rfl
      rw [e, hs] at hd
      cases hd
    | some r =>
      have e : (Op.onReceivedData buffer).apply env c
          = (onReceivedData env c buffer).map Prod.fst := rfl
      rw [e, hs] at hd
      cases hd
      exact onReceivedData_tokenInv env c buffer h r hs
  | scheduledTask reason error =>
    cases hd
    exact onDisconnectedInternal_tokenInv env c reason error h.1

theorem runOps_tokenInv (ops : List (Env × Op)) :
    ∀ (c d : Connection), TokenInv c → runOps c ops = some d → TokenInv d := by
  induction ops with
  | nil =>
    intro c d h hd
    cases hd
    exact h
  | cons step steps ih =>
    intro c d h hd
    unfold runOps at hd
    cases hs : step.2.apply step.1 c with
    | none =>
      rw [hs] at hd
      cases hd
    | some k =>
      rw [hs] at hd
      exact ih k d (apply_tokenInv step.1 c step.2 h k hs) hd

/-- C12: start from a connection with token 0 on which no `connect` is
running, such as the constructor leaves it (state Idle), and run any finite sequence of `connect`, `onConnected`,
`onDisconnected(reason, error)`, `suspendConnection(idle)`, `reconnect`,
`sendData`, `onReceivedData` and the deferred `onDisconnectedInternal`, each
with any answers of the collaborators.  If the state after the last operation
is not Connected, the token is 0. -/
theorem token_zero_when_not_connected (c0 : Connection)
    (htoken : c0.connectionToken = 0) (hproc : c0.connectionInProcess = false)
    (ops : List (Env × Op)) (d : Connection) (hrun : runOps c0 ops = some d)
    (hd : d.connectionState ≠ TcpConnectionState.TcpConnectionStageConnected) :
    d.connectionToken = 0 :=
  (runOps_tokenInv ops c0 d ⟨hproc, fun _ => htoken⟩ hrun).2 hd

theorem token_zero_when_not_connected_witness :
    (onConnected (connect sampleEnv sampleConnection).1).1.connectionToken = 1
      ∧ runOps sampleConnection
          [(sampleEnv, Op.connect), (sampleEnv, Op.onConnected),
            (sampleEnv, Op.onDisconnected 2 0)]
        = some (onDisconnected sampleEnv
            (onConnected (connect sampleEnv sampleConnection).1).1 2 0).1
      ∧ (onDisconnected sampleEnv
            (onConnected (connect sampleEnv sampleConnection).1).1 2 0).1.connectionState
          = TcpConnectionState.TcpConnectionStageReconnecting
      ∧ (onDisconnected sampleEnv
            (onConnected (connect sampleEnv sampleConnection).1).1 2 0).1.connectionToken = 0 :=
  ⟨by decide, rfl, by decide,
    token_zero_when_not_connected sampleConnection rfl rfl
      [(sampleEnv, Op.connect), (sampleEnv, Op.onConnected), (sampleEnv, Op.onDisconnected 2 0)]
      _ rfl (by decide)⟩

/-! ## The frame loop on a chunk with no reassembly buffer -/

theorem dataPayloads_of_frameCalls_nil (evs : List Event) (h : frameCalls evs = []) :
    dataPayloads evs = [] := by
  rw [← dataPayloads_frameCalls, h]
  rfl

theorem parseFrame_null (env : Env) (conn : Connection) (buffer : NativeByteBuffer)
    (events : List Event) (mark cpl header : Nat) (hpl : buffer.position ≤ buffer.limit)
    (hcap : buffer.limit ≤ buffer.capacity) :
    match parseFrame env ⟨conn, buffer, RestRef.null, none, events⟩ mark cpl header with
    | Step.next t =>
      t = ⟨conn, { buffer with position := buffer.position + cpl }, RestRef.null, none,
            events ++ [Event.onConnectionDataReceived (buffer.slice buffer.position cpl) cpl]⟩
        ∧ buffer.position + cpl ≤ buffer.limit
    | Step.stop r => ∃ more, r.2 = events ++ more ∧ dataPayloads more = [] := by
  by_cases h1 : cpl % 4 ≠ 0 ∨ cpl > 2 * 1024 * 1024
  · unfold parseFrame
    dsimp only
    rw [if_pos h1]
    refine ⟨_, rfl, ?_⟩
    show dataPayloads (reconnect env _).2 = []
    exact dataPayloads_of_frameCalls_nil _ (reconnect_frameCalls env _)
  · by_cases h2 : buffer.position + cpl ≤ buffer.limit
    · rw [parseFrame_deliver env ⟨conn, buffer, RestRef.null, none, events⟩ mark cpl header
        (by omega) (by omega) h2 hcap]
      exact ⟨rfl, h2⟩
    · unfold parseFrame
      dsimp only
      rw [if_neg h1, if_neg (show ¬ (cpl < buffer.remaining ∨ cpl = buffer.remaining) by
        unfold remaining; omega)]
      exact ⟨[], (List.append_nil _).symm, rfl⟩

theorem parseStep_null (env : Env) (conn : Connection) (buffer : NativeByteBuffer)
    (events : List Event) (hpos : buffer.position < buffer.limit)
    (hcap : buffer.limit ≤ buffer.capacity) :
    match parseStep env ⟨conn, buffer, RestRef.null, none, events⟩ with
    | Step.next t => t.rest = RestRef.null ∧ t.parseLaterBuffer = none
        ∧ t.buffer.limit = buffer.limit ∧ t.buffer.capacity = buffer.capacity
        ∧ buffer.position < t.buffer.position ∧ t.buffer.position ≤ buffer.limit
        ∧ ∃ more, t.events = events ++ more
            ∧ ∀ p ∈ dataPayloads more, p.length < buffer.limit - buffer.position
    | Step.stop r => ∃ more, r.2 = events ++ more ∧ dataPayloads more = [] := by
  have hseen : dataPayloads (firstDataSeen env conn).2 = [] :=
    dataPayloads_of_frameCalls_nil _ (firstDataSeen_frameCalls env conn)
  unfold parseStep
  dsimp only
  rw [readByte_of_lt hpos]
  dsimp only
  generalize firstDataSeen env conn = seen at hseen ⊢
  have hsp : ({ buffer with position := buffer.position + 1 } : NativeByteBuffer).setPosition
      buffer.position = buffer := by
    rw [setPosition_of_le (by dsimp only; omega)]
  rw [hsp]
  have hrem : buffer.remaining = buffer.limit - buffer.position := rfl
  by_cases hq : buffer.bytes buffer.position &&& (1 <<< 7) ≠ 0
  · rw [if_pos hq]
    by_cases h4 : buffer.remaining < 4
    · rw [if_pos h4]
      exact ⟨seen.2, rfl, hseen⟩
    · rw [if_neg h4, readBigInt32_of_le (by omega)]
      refine ⟨rfl, rfl, rfl, rfl, ?_, ?_, _, List.append_assoc _ _ _, ?_⟩
      · dsimp only
        omega
      · dsimp only
        omega
      · intro p hp
        rw [dataPayloads_append, hseen] at hp
        cases hp
  · rw [if_neg hq]
    by_cases hl : buffer.bytes buffer.position ≠ 127
    · rw [if_pos hl]
      have h := parseFrame_null env seen.1 { buffer with position := buffer.position + 1 }
        (events ++ seen.2) buffer.position (buffer.bytes buffer.position * 4) 1
        (by dsimp only; omega) hcap
      revert h
      generalize parseFrame env _ _ _ _ = st
      intro h
      cases st with
      | next t =>
        obtain ⟨ht, hle⟩ := h
        subst ht
        dsimp only at hle
        refine ⟨rfl, rfl, rfl, rfl, ?_, ?_, _, List.append_assoc _ _ _, ?_⟩
        · dsimp only
          omega
        · dsimp only
          omega
        · intro p hp
          rw [dataPayloads_append, hseen] at hp
          simp only [dataPayloads, List.nil_append, List.mem_singleton] at hp
          rw [hp, slice_length]
          omega
      | stop r =>
        obtain ⟨more, hm, hd⟩ := h
        refine ⟨seen.2 ++ more, ?_, ?_⟩
        · rw [hm, List.append_assoc]
        · rw [dataPayloads_append, hseen, hd]
          rfl
    · rw [if_neg hl]
      by_cases h4 : buffer.remaining < 4
      · rw [if_pos h4]
        exact ⟨seen.2, rfl, hseen⟩
      · rw [if_neg h4, readInt32_of_le (by omega)]
        dsimp only
        have h := parseFrame_null env seen.1 { buffer with position := buffer.position + 4 }
          (events ++ seen.2) buffer.position
          ((buffer.bytes buffer.position + buffer.bytes (buffer.position + 1) * 256
            + buffer.bytes (buffer.position + 2) * 65536
            + buffer.bytes (buffer.position + 3) * 16777216) >>> 8 * 4) 4
          (by dsimp only; omega) hcap
        revert h
        generalize parseFrame env _ _ _ _ = st
        intro h
        cases st with
        | next t =>
          obtain ⟨ht, hle⟩ := h
          subst ht
          dsimp only at hle
          refine ⟨rfl, rfl, rfl, rfl, ?_, ?_, _, List.append_assoc _ _ _, ?_⟩
          · dsimp only
            omega
          · dsimp only
            omega
          · intro p hp
            rw [dataPayloads_append, hseen] at hp
            simp only [dataPayloads, List.nil_append, List.mem_singleton] at hp
            rw [hp, slice_length]
            omega
        | stop r =>
          obtain ⟨more, hm, hd⟩ := h
          refine ⟨seen.2 ++ more, ?_, ?_⟩
          · rw [hm, List.append_assoc]
          · rw [dataPayloads_append, hseen, hd]
            rfl

/-- The frame loop on a chunk with no reassembly buffer returns when it has one
pass per unread byte, it only adds calls, and every payload it hands over is
shorter than the unread part of the chunk. -/
theorem parseLoop_null (env : Env) (fuel : Nat) :
    ∀ (conn : Connection) (buffer : NativeByteBuffer) (events : List Event),
      buffer.position ≤ buffer.limit → buffer.limit ≤ buffer.capacity →
      buffer.limit - buffer.position ≤ fuel →
      ∃ r more, parseLoop env fuel ⟨conn, buffer, RestRef.null, none, events⟩ = some r
        ∧ r.2 = events ++ more
        ∧ ∀ p ∈ dataPayloads more, p.length < buffer.limit - buffer.position := by
  induction fuel with
  | zero =>
    intro conn buffer events hpl hcap hf
    refine ⟨_, [], parseLoop_done env 0 _ (by dsimp only; omega), (List.append_nil _).symm, ?_⟩
    intro p hp
    cases hp
  | succ n ih =>
    intro conn buffer events hpl hcap hf
    by_cases hpos : buffer.position < buffer.limit
    · have h := parseStep_null env conn buffer events hpos hcap
      rw [parseLoop_step env n _ hpos]
      revert h
      generalize parseStep env _ = st
      intro h
      cases st with
      | next t =>
        obtain ⟨tc, tb, tr, tl, te⟩ := t
        obtain ⟨h1, h2, h3, h4, h5, h6, more, h7, h8⟩ := h
        dsimp only at h1 h2 h3 h4 h5 h6 h7
        subst h1 h2 h7
        obtain ⟨r, more2, e1, e2, e3⟩ := ih tc tb (events ++ more) (by omega) (by omega)
          (by omega)
        refine ⟨r, more ++ more2, e1, by rw [e2, List.append_assoc], ?_⟩
        intro p hp
        rw [dataPayloads_append, List.mem_append] at hp
        cases hp with
        | inl hp => exact h8 p hp
        | inr hp =>
          have := e3 p hp
          omega
      | stop r =>
        obtain ⟨more, hm, hd⟩ := h
        refine ⟨r, more, rfl, hm, ?_⟩
        intro p hp
        rw [hd] at hp
        cases hp
    · refine ⟨_, [], parseLoop_done env _ _ hpos, (List.append_nil _).symm, ?_⟩
      intro p hp
      cases hp

theorem parseStep_flagged_cut (env : Env) (s : ParseState)
    (h0 : s.buffer.bytes s.buffer.position &&& 0x80 ≠ 0)
    (hpos : s.buffer.position < s.buffer.limit) (h4 : s.buffer.limit < s.buffer.position + 4) :
    parseStep env s
      = Step.stop (stashHeader env
          { s with
            conn := (firstDataSeen env s.conn).1
            events := s.events ++ (firstDataSeen env s.conn).2 }).finish := by
  have hsp : ({ s.buffer with position := s.buffer.position + 1 } : NativeByteBuffer).setPosition
      s.buffer.position = s.buffer := by
    rw [setPosition_of_le (by dsimp only; omega)]
  have hrem : s.buffer.remaining = s.buffer.limit - s.buffer.position := rfl
  unfold parseStep
  dsimp only
  rw [readByte_of_lt hpos]
  dsimp only
  rw [hsp, if_pos (show s.buffer.bytes s.buffer.position &&& (1 <<< 7) ≠ 0 from h0),
    if_pos (show s.buffer.remaining < 4 by omega)]

/-- A decrypted chunk whose first byte has bit `0x80` set, received with no
reassembly buffer: the parser returns; with four bytes or more the first call
is the quick-ack made of the first four bytes, and every payload handed over
comes from the bytes after them; with fewer bytes nothing is called and the
bytes are stashed. -/
theorem receive_flagged (env : Env) (c : Connection) (hc : c.restOfTheData = none)
    (plain : List Nat) (cap : Nat) (hcap : plain.length ≤ cap)
    (h0 : plain.getD 0 0 &&& 0x80 ≠ 0) :
    ∃ d evs, onReceivedDataDecrypted env c (ofList plain cap) = some (d, evs)
      ∧ (∀ p ∈ dataPayloads evs, p.length + 4 < plain.length)
      ∧ (4 ≤ plain.length →
          ∃ rest, frameCalls evs
            = Event.onConnectionQuickAckReceived
                ((plain.getD 0 0 * 16777216 + plain.getD 1 0 * 65536 + plain.getD 2 0 * 256
                  + plain.getD 3 0) &&& 0x7fffffff) :: rest)
      ∧ (plain.length < 4 → frameCalls evs = [] ∧ d.restOfTheData.isSome = true) := by
  have hr0 : (countReceived env c (ofList plain cap).limit).restOfTheData = none := by
    rw [countReceived_rest]
    exact hc
  have hpos : 0 < plain.length := by
    rcases Nat.eq_zero_or_pos plain.length with h | h
    · rw [List.length_eq_zero] at h
      rw [h] at h0
      exact absurd rfl h0
    · exact h
  rw [onReceivedDataDecrypted_next env c _ _ (mergeRest_null env _ _ hr0)]
  dsimp only
  rw [parseLoop_step env _ _ (by show 0 < plain.length; exact hpos)]
  by_cases h4 : 4 ≤ plain.length
  · rw [parseStep_quickAck env _ (plain.getD 0 0) rfl h0 (by show 0 + 4 ≤ plain.length; omega)]
    dsimp only
    obtain ⟨r, more, e1, e2, e3⟩ := parseLoop_null env
      ((ofList plain cap).rewind.remaining + 0) (firstDataSeen env
        (countReceived env c (ofList plain cap).limit)).1
      { (ofList plain cap).rewind with position := (ofList plain cap).rewind.position + 4 }
      ([] ++ (firstDataSeen env (countReceived env c (ofList plain cap).limit)).2
        ++ [Event.onConnectionQuickAckReceived
              ((plain.getD 0 0 * 16777216 + plain.getD 1 0 * 65536 + plain.getD 2 0 * 256
                + plain.getD 3 0) &&& 0x7fffffff)])
      (by show 0 + 4 ≤ plain.length; omega) (by show plain.length ≤ cap; exact hcap)
      (by show plain.length - (0 + 4) ≤ plain.length - 0 + 0; omega)
    have hseen := firstDataSeen_frameCalls env (countReceived env c (ofList plain cap).limit)
    refine ⟨r.1, r.2, e1, ?_, ?_, ?_⟩
    · intro p hp
      rw [e2, dataPayloads_append, dataPayloads_append, dataPayloads_append,
        dataPayloads_of_frameCalls_nil _ hseen] at hp
      have := e3 p hp
      have e4 : ({ (ofList plain cap).rewind with
          position := (ofList plain cap).rewind.position + 4 } : NativeByteBuffer).limit
            - ({ (ofList plain cap).rewind with
          position := (ofList plain cap).rewind.position + 4 } : NativeByteBuffer).position
          = plain.length - (0 + 4) := rfl
      rw [e4] at this
      omega
    · intro _
      refine ⟨frameCalls more, ?_⟩
      rw [e2, frameCalls_append, frameCalls_append, frameCalls_append, hseen]
      rfl
    · intro h
      omega
  · rw [parseStep_flagged_cut env _ h0 (by show 0 < plain.length; exact hpos)
      (by show plain.length < 0 + 4; omega)]
    refine ⟨_, _, rfl, ?_, ?_, ?_⟩
    · intro p hp
      have e : dataPayloads ([] ++ (firstDataSeen env
          (countReceived env c (ofList plain cap).limit)).2) = [] :=
        dataPayloads_of_frameCalls_nil _ (by
          rw [frameCalls_append, firstDataSeen_frameCalls]
          rfl)
      have hp2 : p ∈ dataPayloads ([] ++ (firstDataSeen env
          (countReceived env c (ofList plain cap).limit)).2) := hp
      rw [e] at hp2
      cases hp2
    · intro h
      omega
    · intro _
      refine ⟨?_, rfl⟩
      show frameCalls ([] ++ (firstDataSeen env
          (countReceived env c (ofList plain cap).limit)).2) = []
      rw [frameCalls_append, firstDataSeen_frameCalls]
      rfl

theorem lengthBytes_flagged (n : Nat) (hmax : n ≤ 2 * 1024 * 1024) :
    (lengthBytes n true).getD 0 0 &&& 0x80 ≠ 0 := by
  have key : ∀ q, q < 127 → (q + 128) &&& 0x80 ≠ 0 := by decide
  by_cases h : n / 4 < 127
  · rw [lengthBytes_short n true h]
    exact key _ h
  · rw [lengthBytes_long n true (by omega) (by omega)]
    show 255 &&& 0x80 ≠ 0
    decide

/-- C11, the claim fails at a concrete input.  `sendData` with
`reportAck = true` puts the length byte `0x81` in front of the 4-byte payload
`0a 14 1e 28`.  The parser does not read `0x81` as a length with a flag: it
takes `81 0a 14 1e` as a quick-ack (id `0x010a141e`), hands over no payload, and
stashes the last byte as the start of a frame. -/
theorem ack_flagged_frame_read_as_quick_ack :
    lengthBytes 4 true = [0x81]
      ∧ (onReceivedData sampleEnv sampleConnection (ofList [0x81, 10, 20, 30, 40] 16)).map
          (fun r => (deliveries r.2, r.1.restOfTheData.isSome))
        = some ([Sum.inr 0x010a141e], true) := by
  decide!

/-- C11 (amended): the frame parser reads bit `0x80` of a first byte as the
quick-ack marker, not as an ack-request flag over a length.  Let `X` be a
payload with `|X| % 4 = 0` and `|X| <= 2 MiB`, and let a received chunk decrypt
to the length field `sendData` builds for `X` with `reportAck = true` followed
by `X`, with no reassembly buffer.  Then `onReceivedData` returns and `X` is
not handed to `onConnectionDataReceived`: every payload handed over is shorter
than `X`.  For `X` not empty the first call is `onConnectionQuickAckReceived`
with the big-endian word of the first four bytes of the chunk, top bit cleared;
for `X` empty nothing is called and the byte is stashed. -/
theorem ack_flagged_frame_not_delivered (env : Env) (c : Connection)
    (hc : c.restOfTheData = none) (X wire : List Nat) (cap : Nat)
    (h4 : X.length % 4 = 0) (hmax : X.length ≤ 2 * 1024 * 1024)
    (hcap : wire.length ≤ cap)
    (hd : (AES_ctr128_encrypt env.aes (decryptState c) wire).1 = lengthBytes X.length true ++ X) :
    ∃ d evs, onReceivedData env c (ofList wire cap) = some (d, evs)
      ∧ X ∉ dataPayloads evs
      ∧ (∀ p ∈ dataPayloads evs, p.length < X.length)
      ∧ (X ≠ [] →
          ∃ rest, frameCalls evs
            = Event.onConnectionQuickAckReceived
                (((lengthBytes X.length true ++ X).getD 0 0 * 16777216
                  + (lengthBytes X.length true ++ X).getD 1 0 * 65536
                  + (lengthBytes X.length true ++ X).getD 2 0 * 256
                  + (lengthBytes X.length true ++ X).getD 3 0) &&& 0x7fffffff) :: rest)
      ∧ (X = [] → frameCalls evs = [] ∧ d.restOfTheData.isSome = true) := by
  have hlen : (lengthBytes X.length true ++ X).length = wire.length := by
    rw [← hd, AES_ctr128_encrypt_length]
  have hsize : (lengthBytes X.length true ++ X).length = lengthSize X.length + X.length := by
    rw [List.length_append, lengthBytes_length]
  have hls : lengthSize X.length = 1 ∨ lengthSize X.length = 4 := by
    unfold lengthSize
    split_ifs
    · exact Or.inl rfl
    · exact Or.inr rfl
  have h0 : (lengthBytes X.length true ++ X).getD 0 0 &&& 0x80 ≠ 0 := by
    have hpos : 0 < (lengthBytes X.length true).length := by
      rw [lengthBytes_length]
      omega
    rw [List.getD_append _ _ _ _ hpos]
    exact lengthBytes_flagged X.length hmax
  rw [onReceivedData_ofList, hd]
  obtain ⟨d, evs, e1, e2, e3, e4⟩ := receive_flagged env
    { c with
      decryptIv := (AES_ctr128_encrypt env.aes (decryptState c) wire).2.iv
      decryptCount := (AES_ctr128_encrypt env.aes (decryptState c) wire).2.count
      decryptNum := (AES_ctr128_encrypt env.aes (decryptState c) wire).2.num }
    hc (lengthBytes X.length true ++ X) cap (by rw [hlen]; exact hcap) h0
  have hshort : ∀ p ∈ dataPayloads evs, p.length < X.length := by
    intro p hp
    have := e2 p hp
    omega
  refine ⟨d, evs, e1, ?_, hshort, ?_, ?_⟩
  · intro hX
    exact absurd (hshort X hX) (Nat.lt_irrefl _)
  · intro hX
    have : 0 < X.length := List.length_pos.mpr hX
    exact e3 (by omega)
  · intro hX
    have hz : X.length = 0 := by rw [hX]; rfl
    have h1 : lengthSize X.length = 1 := by rw [hz]; rfl
    exact e4 (by omega)

theorem ack_flagged_frame_not_delivered_witness :
    ∃ d evs, onReceivedData sampleEnv sampleConnection (ofList [0x81, 10, 20, 30, 40] 16)
        = some (d, evs)
      ∧ [10, 20, 30, 40] ∉ dataPayloads evs
      ∧ (∀ p ∈ dataPayloads evs, p.length < [10, 20, 30, 40].length)
      ∧ (([10, 20, 30, 40] : List Nat) ≠ [] →
          ∃ rest, frameCalls evs
            = Event.onConnectionQuickAckReceived
                (((lengthBytes [10, 20, 30, 40].length true ++ [10, 20, 30, 40]).getD 0 0
                    * 16777216
                  + (lengthBytes [10, 20, 30, 40].length true ++ [10, 20, 30, 40]).getD 1 0
                    * 65536
                  + (lengthBytes [10, 20, 30, 40].length true ++ [10, 20, 30, 40]).getD 2 0 * 256
                  + (lengthBytes [10, 20, 30, 40].length true ++ [10, 20, 30, 40]).getD 3 0)
                  &&& 0x7fffffff) :: rest)
      ∧ (([10, 20, 30, 40] : List Nat) = [] →
          frameCalls evs = [] ∧ d.restOfTheData.isSome = true) :=
  ack_flagged_frame_not_delivered sampleEnv sampleConnection rfl [10, 20, 30, 40]
    [0x81, 10, 20, 30, 40] 16 (by decide) (by decide) (by decide) (by decide!)

/-! ## C27: the adaptive timeout cap -/

theorem onDisconnectedReconnecting_currentTimeout (env : Env) (c : Connection) (sw : Bool)
    (error : Int) :
    (onDisconnectedReconnecting env c sw error).1.currentTimeout = c.currentTimeout := by
  unfold onDisconnectedReconnecting
  simp only [apply_ite Prod.fst, apply_ite Connection.currentTimeout, ite_self]

theorem onDisconnectedInternal_currentTimeout (env : Env) (c : Connection) (reason error : Int) :
    (onDisconnectedInternal env c reason error).1.currentTimeout
      = (if isAdaptiveType c.connectionType = true ∧ c.wasConnected = true ∧ reason = 2
            ∧ c.currentTimeout < 16 then c.currentTimeout + 2
          else c.currentTimeout) := by
  rw [onDisconnectedInternal_eq, ← disconnectReset_currentTimeout]
  by_cases hidle : (disconnectReset c reason).connectionState
      = TcpConnectionState.TcpConnectionStageIdle
  · rw [if_pos hidle]
    exact onDisconnectedReconnecting_currentTimeout env _ _ _
  · rw [if_neg hidle]

theorem isAdaptiveType_iff (type : ConnectionType) :
    isAdaptiveType type = true
      ↔ type = ConnectionType.ConnectionTypeGeneric ∨ type = ConnectionType.ConnectionTypeTemp
        ∨ type = ConnectionType.ConnectionTypeGenericMedia := by
  cases type <;> decide

/-- C27, counterexample.  A Generic connection that was connected, with
`currentTimeout = 15`, is disconnected with reason 2: 15 is below 16, so the
timeout is raised by 2 and ends at 17, above the cap. -/
theorem adaptive_timeout_passes_cap_from_15 :
    ({ sampleSession with currentTimeout := 15 } : Connection).currentTimeout ≤ 16
      ∧ (onDisconnected sampleEnv { sampleSession with currentTimeout := 15 } 2 0).1.currentTimeout
        = 17 := by
  decide

/-- C27 (amended): `onDisconnected(reason, error)` run directly (no `connect()`
in progress) leaves `currentTimeout + 2` when the type is Generic, Temp or
GenericMedia, `wasConnected` is true, `reason = 2` and `currentTimeout < 16`,
and leaves `currentTimeout` unchanged in every other case.  For an even prior
value of at most 16 the result is at most 16; for an odd prior value it can be
17 (from 15), and it is at most 17 for every prior value of at most 16. -/
theorem adaptive_timeout_cap (env : Env) (c : Connection) (reason error : Int)
    (hproc : c.connectionInProcess = false) :
    (((c.connectionType = ConnectionType.ConnectionTypeGeneric
            ∨ c.connectionType = ConnectionType.ConnectionTypeTemp
            ∨ c.connectionType = ConnectionType.ConnectionTypeGenericMedia)
          ∧ c.wasConnected = true ∧ reason = 2 ∧ c.currentTimeout < 16) →
        (onDisconnected env c reason error).1.currentTimeout = c.currentTimeout + 2)
      ∧ (¬ ((c.connectionType = ConnectionType.ConnectionTypeGeneric
            ∨ c.connectionType = ConnectionType.ConnectionTypeTemp
            ∨ c.connectionType = ConnectionType.ConnectionTypeGenericMedia)
          ∧ c.wasConnected = true ∧ reason = 2 ∧ c.currentTimeout < 16) →
        (onDisconnected env c reason error).1.currentTimeout = c.currentTimeout)
      ∧ (c.currentTimeout ≤ 16 → c.currentTimeout % 2 = 0 →
          (onDisconnected env c reason error).1.currentTimeout ≤ 16)
      ∧ (c.currentTimeout ≤ 16 → (onDisconnected env c reason error).1.currentTimeout ≤ 17) := by
  have e : (onDisconnected env c reason error).1.currentTimeout
      = (if isAdaptiveType c.connectionType = true ∧ c.wasConnected = true ∧ reason = 2
            ∧ c.currentTimeout < 16 then c.currentTimeout + 2
          else c.currentTimeout) := by
    unfold onDisconnected
    rw [hproc]
    simp only [Bool.false_eq_true, if_false]
    exact onDisconnectedInternal_currentTimeout env c reason error
  rw [e]
  have ha := isAdaptiveType_iff c.connectionType
  refine ⟨fun h => by rw [if_pos ⟨ha.mpr h.1, h.2⟩],
    fun h => by rw [if_neg (fun h2 => h ⟨ha.mp h2.1, h2.2⟩)], fun h1 h2 => ?_, fun h1 => ?_⟩
  · split_ifs with h
    · omega
    · exact h1
  · split_ifs with h
    · omega
    · omega

theorem adaptive_timeout_cap_witness :
    (((sampleSession.connectionType = ConnectionType.ConnectionTypeGeneric
            ∨ sampleSession.connectionType = ConnectionType.ConnectionTypeTemp
            ∨ sampleSession.connectionType = ConnectionType.ConnectionTypeGenericMedia)
          ∧ sampleSession.wasConnected = true ∧ (2 : Int) = 2
          ∧ sampleSession.currentTimeout < 16)
        ∧ (onDisconnected sampleEnv sampleSession 2 0).1.currentTimeout
          = sampleSession.currentTimeout + 2) :=
  ⟨by decide, (adaptive_timeout_cap sampleEnv sampleSession 2 0 rfl).1 (by decide)⟩

/-! ## C28: the 1000 ms re-arm condition -/

theorem rearmCondition_iff (env : Env) (c : Connection) :
    rearmCondition env c = true
      ↔ (c.connectionType = ConnectionType.ConnectionTypeGenericMedia
            ∧ env.isHandshaking true = true)
          ∨ (c.connectionType = ConnectionType.ConnectionTypeGeneric
            ∧ (env.isHandshaking false = true
                ∨ env.datacenterId = c.manager.currentDatacenterId
                ∨ env.datacenterId = c.manager.movingToDatacenterId)) := by
  unfold rearmCondition
  simp only [Bool.or_eq_true, Bool.and_eq_true, beq_iff_eq, decide_eq_true_eq, or_assoc]

/-- C28, counterexample.  A connection of type Download whose datacenter is
the current datacenter is disconnected with reason 1 and error 0: the reconnect
timer is not armed, because the re-arm block looks at the datacenter only for
type Generic. -/
theorem download_connection_not_rearmed :
    sampleEnv.datacenterId
        = ({ sampleSession with connectionType := ConnectionType.ConnectionTypeDownload }
            : Connection).manager.currentDatacenterId
      ∧ (onDisconnected sampleEnv
          { sampleSession with connectionType := ConnectionType.ConnectionTypeDownload }
          1 0).1.reconnectTimerStarted = false
      ∧ (onDisconnected sampleEnv
          { sampleSession with connectionType := ConnectionType.ConnectionTypeDownload }
          1 0).1.connectionState = TcpConnectionState.TcpConnectionStageReconnecting := by
  decide

/-- C28 (amended): in `onDisconnected(reason, error)` run directly on a
connection that is not Suspended, with `error` outside `{0x68, 0x71}`, the
reconnect timer is armed, for 1000 ms, if and only if the type is
GenericMedia and the datacenter is handshaking as media, or the type is Generic
and the datacenter is handshaking, is the current datacenter or is the
moving-to datacenter.  For every other type, and otherwise, the timer is not
armed; `waitForReconnectTimer` is cleared in both cases. -/
theorem rearm_condition (env : Env) (c : Connection) (reason error : Int)
    (hproc : c.connectionInProcess = false)
    (hstate : c.connectionState ≠ TcpConnectionState.TcpConnectionStageSuspended)
    (herr : ¬ (error = 0x68 ∨ error = 0x71)) :
    ((onDisconnected env c reason error).1.reconnectTimerStarted = true
        ↔ (c.connectionType = ConnectionType.ConnectionTypeGenericMedia
              ∧ env.isHandshaking true = true)
            ∨ (c.connectionType = ConnectionType.ConnectionTypeGeneric
              ∧ (env.isHandshaking false = true
                  ∨ env.datacenterId = c.manager.currentDatacenterId
                  ∨ env.datacenterId = c.manager.movingToDatacenterId)))
      ∧ ((onDisconnected env c reason error).1.reconnectTimerStarted = true →
          (onDisconnected env c reason error).1.reconnectTimerTimeout = 1000)
      ∧ (c.connectionType ≠ ConnectionType.ConnectionTypeGenericMedia →
          c.connectionType ≠ ConnectionType.ConnectionTypeGeneric →
          (onDisconnected env c reason error).1.reconnectTimerStarted = false)
      ∧ (onDisconnected env c reason error).1.waitForReconnectTimer = false := by
  obtain ⟨_, _, r3, r4, r5, _⟩ := onDisconnected_rearm env c reason error hproc hstate herr
  rw [r4]
  refine ⟨rearmCondition_iff env c, r5, fun h1 h2 => ?_, r3⟩
  cases hr : rearmCondition env c with
  | false => rfl
  | true =>
    rcases (rearmCondition_iff env c).mp hr with h | h
    · exact absurd h.1 h1
    · exact absurd h.1 h2

theorem rearm_condition_witness :
    (onDisconnected sampleEnv sampleSession 1 0).1.reconnectTimerStarted = true
      ∧ (onDisconnected sampleEnv sampleSession 1 0).1.reconnectTimerTimeout = 1000 :=
  have h := rearm_condition sampleEnv sampleSession 1 0 rfl (by decide) (by decide)
  ⟨h.1.mpr (Or.inr ⟨rfl, Or.inr (Or.inl rfl)⟩),
    h.2.1 (h.1.mpr (Or.inr ⟨rfl, Or.inr (Or.inl rfl)⟩))⟩

/-! ## C23: closing with reason 0 -/

/-- A `suspendConnection(idle)` that does not return early is `closeSocket(0, 0)`
on the connection with the timer stopped and the new state set, followed by the
reset of the session fields and the report `onConnectionClosed(0)`. -/
theorem suspendConnection_eq (env : Env) (c : Connection) (idle : Bool)
    (h : ¬ (c.connectionState = TcpConnectionState.TcpConnectionStageIdle
        ∨ c.connectionState = TcpConnectionState.TcpConnectionStageSuspended)) :
    ∃ k : Connection,
      k.connectionState
          = (if idle then TcpConnectionState.TcpConnectionStageIdle
              else TcpConnectionState.TcpConnectionStageSuspended)
        ∧ k.connectionInProcess = c.connectionInProcess
        ∧ k.connectionType = c.connectionType
        ∧ k.manager = c.manager
        ∧ k.waitForReconnectTimer = false
        ∧ k.reconnectTimerStarted = false
        ∧ k.currentTimeout = c.currentTimeout
        ∧ k.forceNextPort = c.forceNextPort
        ∧ k.currentAddressFlags = c.currentAddressFlags
        ∧ suspendConnection env c idle
          = ({ (onDisconnected env k 0 0).1 with
                firstPacketSent := false
                restOfTheData := none
                lastPacketLength := 0
                connectionToken := 0
                wasConnected := false },
              (Event.detachConnection :: (onDisconnected env k 0 0).2)
                ++ [Event.onConnectionClosed 0]) := by
  refine ⟨{ c with
      reconnectTimerStarted := false
      waitForReconnectTimer := false
      connectionState :=
        if idle then TcpConnectionState.TcpConnectionStageIdle
        else TcpConnectionState.TcpConnectionStageSuspended
      lastEventTime := env.now
      socketFd := if c.socketFd ≥ 0 then -1 else c.socketFd
      waitingForHostResolve := ""
      adjustWriteOpAfterResolve := false
      onConnectedSent := false
      outgoingByteStream := [] }, rfl, rfl, rfl, rfl, rfl, rfl, rfl, rfl, rfl, ?_⟩
  unfold suspendConnection dropConnection closeSocket
  dsimp only
  rw [if_neg h]

/-- After `onDisconnected(reason, 0)` on a Suspended connection the timer is
stopped and `waitForReconnectTimer` is as before. -/
theorem onDisconnected_suspended_timer (env : Env) (c : Connection) (reason error : Int)
    (hproc : c.connectionInProcess = false)
    (hstate : c.connectionState = TcpConnectionState.TcpConnectionStageSuspended) :
    (onDisconnected env c reason error).1.reconnectTimerStarted = false
      ∧ (onDisconnected env c reason error).1.waitForReconnectTimer = c.waitForReconnectTimer
      ∧ (onDisconnected env c reason error).1.connectionState
        = TcpConnectionState.TcpConnectionStageSuspended := by
  rw [onDisconnected_suspended env c reason error hproc hstate]
  obtain ⟨_, _, _, _, _, _, _, _, _, _, f11, _⟩ := disconnectReset_fields c reason
  refine ⟨f11, disconnectReset_wait c reason, ?_⟩
  show (disconnectReset c reason).connectionState = _
  rw [disconnectReset_state, if_pos hstate]

/-- C23, counterexample.  `dropConnection()` and `suspendConnection(true)` on
the sample session (a Generic connection in state Connected, on the current
datacenter): the socket is closed with reason 0 and `onDisconnected(0, 0)`
starts the reconnect timer for 1000 ms; the state ends as Reconnecting. -/
theorem intentional_drop_arms_timer :
    (dropConnection sampleEnv sampleSession).1.reconnectTimerStarted = true
      ∧ (dropConnection sampleEnv sampleSession).1.reconnectTimerTimeout = 1000
      ∧ (dropConnection sampleEnv sampleSession).2
        = [Event.detachConnection, Event.onConnectionClosed 0]
      ∧ (suspendConnection sampleEnv sampleSession true).1.reconnectTimerStarted = true
      ∧ (suspendConnection sampleEnv sampleSession true).1.reconnectTimerTimeout = 1000 := by
  decide

/-- C23 (amended): closing the socket with reason 0, with no `connect()` in
progress.  `waitForReconnectTimer` is never set: it ends false, or as it was
when `dropConnection()` finds the state Suspended.  `suspendConnection(false)`
never leaves the reconnect timer started, nor does `suspendConnection(true)`
from Idle or Suspended, nor `dropConnection()` on a Suspended connection.  But
`dropConnection()` on a connection that is not Suspended, and
`suspendConnection(true)` from Connecting, Connected or Reconnecting, leave the
reconnect timer started, for 1000 ms, exactly when `rearmCondition` holds (type
GenericMedia with the datacenter handshaking as media, or type Generic with the
datacenter handshaking, current or being moved to). -/
theorem intentional_drop_timer (env : Env) (c : Connection)
    (hproc : c.connectionInProcess = false) :
    (c.connectionState = TcpConnectionState.TcpConnectionStageSuspended →
        (dropConnection env c).1.reconnectTimerStarted = false
          ∧ (dropConnection env c).1.waitForReconnectTimer = c.waitForReconnectTimer)
      ∧ (c.connectionState ≠ TcpConnectionState.TcpConnectionStageSuspended →
          (dropConnection env c).1.reconnectTimerStarted = rearmCondition env c
            ∧ (rearmCondition env c = true →
                (dropConnection env c).1.reconnectTimerTimeout = 1000)
            ∧ (dropConnection env c).1.waitForReconnectTimer = false)
      ∧ ((suspendConnection env c false).1.reconnectTimerStarted = false
          ∧ (suspendConnection env c false).1.waitForReconnectTimer = false)
      ∧ ((c.connectionState = TcpConnectionState.TcpConnectionStageIdle
            ∨ c.connectionState = TcpConnectionState.TcpConnectionStageSuspended) →
          (suspendConnection env c true).1.reconnectTimerStarted = false
            ∧ (suspendConnection env c true).1.waitForReconnectTimer = false)
      ∧ (¬ (c.connectionState = TcpConnectionState.TcpConnectionStageIdle
            ∨ c.connectionState = TcpConnectionState.TcpConnectionStageSuspended) →
          (suspendConnection env c true).1.reconnectTimerStarted = rearmCondition env c
            ∧ (rearmCondition env c = true →
                (suspendConnection env c true).1.reconnectTimerTimeout = 1000)
            ∧ (suspendConnection env c true).1.waitForReconnectTimer = false) := by
  have early : ∀ idle, (c.connectionState = TcpConnectionState.TcpConnectionStageIdle
        ∨ c.connectionState = TcpConnectionState.TcpConnectionStageSuspended) →
      (suspendConnection env c idle).1.reconnectTimerStarted = false
        ∧ (suspendConnection env c idle).1.waitForReconnectTimer = false := by
    intro idle h
    unfold suspendConnection
    dsimp only
    rw [if_pos h]
    exact ⟨rfl, rfl⟩
  refine ⟨fun hs => ?_, fun hs => ?_, ?_, early true, fun h => ?_⟩
  · obtain ⟨k, k1, k2, _, _, _, _, _, k8, _, ke⟩ := closeSocket_eq env c 0 0
    obtain ⟨t1, t2, _⟩ := onDisconnected_suspended_timer env k 0 0 (k2.trans hproc)
      (k1.trans hs)
    unfold dropConnection
    rw [ke]
    exact ⟨t1, t2.trans k8⟩
  · obtain ⟨k, k1, k2, k3, k4, _, _, _, _, _, ke⟩ := closeSocket_eq env c 0 0
    obtain ⟨_, _, r3, r4, r5, _⟩ := onDisconnected_rearm env k 0 0 (k2.trans hproc)
      (by rw [k1]; exact hs) (by decide)
    rw [rearmCondition_congr env k c k3 k4] at r4 r5
    unfold dropConnection
    rw [ke]
    exact ⟨r4, r5, r3⟩
  · by_cases h : c.connectionState = TcpConnectionState.TcpConnectionStageIdle
        ∨ c.connectionState = TcpConnectionState.TcpConnectionStageSuspended
    · exact early false h
    · obtain ⟨k, k1, k2, _, _, k5, _, _, _, _, ke⟩ := suspendConnection_eq env c false h
      obtain ⟨t1, t2, _⟩ := onDisconnected_suspended_timer env k 0 0 (k2.trans hproc) k1
      rw [ke]
      exact ⟨t1, t2.trans k5⟩
  · obtain ⟨k, k1, k2, k3, k4, _, _, _, _, _, ke⟩ := suspendConnection_eq env c true h
    obtain ⟨_, _, r3, r4, r5, _⟩ := onDisconnected_rearm env k 0 0 (k2.trans hproc)
      (by rw [k1]; decide) (by decide)
    rw [rearmCondition_congr env k c k3 k4] at r4 r5
    rw [ke]
    exact ⟨r4, r5, r3⟩

theorem intentional_drop_timer_witness :
    (suspendConnection sampleEnv sampleSession false).1.reconnectTimerStarted = false
      ∧ (suspendConnection sampleEnv sampleSession false).1.waitForReconnectTimer = false
      ∧ (dropConnection sampleEnv sampleSession).1.reconnectTimerStarted
        = rearmCondition sampleEnv sampleSession :=
  have h := intentional_drop_timer sampleEnv sampleSession rfl
  ⟨h.2.2.1.1, h.2.2.1.2, (h.2.1 (by decide)).1⟩

/-! ## Properties kept by the frame loop -/

theorem afterDelivery_events (s : ParseState) : (afterDelivery s).events = s.events := by
  obtain ⟨conn, buffer, rest, later, events⟩ := s
  cases rest <;> cases later <;> unfold afterDelivery <;> dsimp only <;> (try split_ifs) <;> rfl

theorem stashFrame_events (env : Env) (s : ParseState) (mark len : Nat) :
    (stashFrame env s mark len).events = s.events := by
  unfold stashFrame
  cases s.rest with
  | null => rfl
  | same =>
    dsimp only
    split_ifs <;> rfl
  | other r =>
    dsimp only
    split_ifs <;> rfl

theorem finish_stable (env : Env) (Q : Connection → List Event → Prop) (hQ : LoopStable env Q)
    (s : ParseState) (h : Q s.conn s.events) : Q s.finish.1 s.finish.2 :=
  hQ.released _ _ _ h

theorem stashHeader_stable (env : Env) (Q : Connection → List Event → Prop)
    (hQ : LoopStable env Q) (s : ParseState) (h : Q s.conn s.events) :
    Q (stashHeader env s).finish.1 (stashHeader env s).finish.2 :=
  hQ.released _ _ _ (hQ.stored _ _ 0 h)

theorem stashFrame_stable (env : Env) (Q : Connection → List Event → Prop)
    (hQ : LoopStable env Q) (s : ParseState) (mark len : Nat) (h : Q s.conn s.events) :
    Q (stashFrame env s mark len).finish.1 (stashFrame env s mark len).finish.2 := by
  refine finish_stable env Q hQ _ ?_
  rw [stashFrame_conn, stashFrame_events]
  exact hQ.stored _ _ len h

theorem parseFrame_stable (env : Env) (Q : Connection → List Event → Prop)
    (hQ : LoopStable env Q) (s : ParseState) (mark len header : Nat) (h : Q s.conn s.events) :
    match parseFrame env s mark len header with
    | Step.next t => Q t.conn t.events
    | Step.stop r => Q r.1 r.2 := by
  unfold parseFrame
  dsimp only
  by_cases h1 : len % 4 ≠ 0 ∨ len > 2 * 1024 * 1024
  · rw [if_pos h1]
    exact hQ.reconnected _ _ (finish_stable env Q hQ s h)
  · rw [if_neg h1]
    by_cases h2 : len < s.buffer.remaining ∨ len = s.buffer.remaining
    · rw [if_pos h2]
      show Q (afterDelivery _).conn (afterDelivery _).events
      rw [afterDelivery_conn, afterDelivery_events]
      exact hQ.delivered _ _ _ _ h
    · rw [if_neg h2]
      exact stashFrame_stable env Q hQ s mark (len + header) h

theorem parseStep_stable (env : Env) (Q : Connection → List Event → Prop)
    (hQ : LoopStable env Q) (s : ParseState) (h : Q s.conn s.events) :
    match parseStep env s with
    | Step.next t => Q t.conn t.events
    | Step.stop r => Q r.1 r.2 := by
  have hs := hQ.seen s.conn s.events h
  unfold parseStep
  dsimp only
  generalize firstDataSeen env s.conn = seen at hs ⊢
  by_cases hq : s.buffer.readByte.1 &&& (1 <<< 7) ≠ 0
  · rw [if_pos hq]
    by_cases hr : (s.buffer.readByte.2.setPosition s.buffer.position).remaining < 4
    · rw [if_pos hr]
      exact stashHeader_stable env Q hQ _ hs
    · rw [if_neg hr]
      exact hQ.acked _ _ _ hs
  · rw [if_neg hq]
    by_cases hl : s.buffer.readByte.1 ≠ 0x7f
    · rw [if_pos hl]
      exact parseFrame_stable env Q hQ _ _ _ _ hs
    · rw [if_neg hl]
      by_cases hr : (s.buffer.readByte.2.setPosition s.buffer.position).remaining < 4
      · rw [if_pos hr]
        cases s.rest with
        | null => exact stashHeader_stable env Q hQ _ hs
        | same =>
          dsimp only
          by_cases hp : (s.buffer.readByte.2.setPosition s.buffer.position).position ≠ 0
          · rw [if_pos hp]
            exact stashHeader_stable env Q hQ _ hs
          · rw [if_neg hp]
            exact finish_stable env Q hQ _ hs
        | other r =>
          dsimp only
          by_cases hp : r.position ≠ 0
          · rw [if_pos hp]
            exact stashHeader_stable env Q hQ _ hs
          · rw [if_neg hp]
            exact finish_stable env Q hQ _ hs
      · rw [if_neg hr]
        exact parseFrame_stable env Q hQ _ _ _ _ hs

theorem parseLoop_stable (env : Env) (Q : Connection → List Event → Prop)
    (hQ : LoopStable env Q) (fuel : Nat) :
    ∀ (s : ParseState), Q s.conn s.events → ∀ r, parseLoop env fuel s = some r → Q r.1 r.2 := by
  induction fuel with
  | zero =>
    intro s h r hr
    by_cases hrem : s.buffer.position < s.buffer.limit
    · unfold parseLoop at hr
      have : s.buffer.hasRemaining = true := by
        unfold hasRemaining
        exact decide_eq_true hrem
      rw [this] at hr
      simp only [Bool.not_true, Bool.false_eq_true, if_false] at hr
      cases hr
    · rw [parseLoop_done env _ s hrem] at hr
      cases hr
      exact finish_stable env Q hQ s h
  | succ n ih =>
    intro s h r hr
    by_cases hrem : s.buffer.position < s.buffer.limit
    · rw [parseLoop_step env n s hrem] at hr
      have hp := parseStep_stable env Q hQ s h
      cases hstep : parseStep env s with
      | next t =>
        rw [hstep] at hr hp
        exact ih t hp r hr
      | stop q =>
        rw [hstep] at hr hp
        cases hr
        exact hp
    · rw [parseLoop_done env _ s hrem] at hr
      cases hr
      exact finish_stable env Q hQ s h

theorem mergeRest_stable (env : Env) (Q : Connection → List Event → Prop)
    (hQ : LoopStable env Q) (c : Connection) (buffer : NativeByteBuffer) (h : Q c []) :
    match mergeRest env c buffer with
    | Step.next s => Q s.conn s.events
    | Step.stop r => Q r.1 r.2 := by
  unfold mergeRest
  cases c.restOfTheData with
  | none => exact h
  | some rest =>
    dsimp only
    split_ifs <;> first | exact h | exact hQ.released _ _ _ h

/-- A property the frame loop keeps holds after `onReceivedData` (from its
second statement on) once it holds after the adaptive-timeout block. -/
theorem onReceivedDataDecrypted_stable (env : Env) (Q : Connection → List Event → Prop)
    (hQ : LoopStable env Q) (c : Connection) (buffer : NativeByteBuffer)
    (h : Q (countReceived env c buffer.limit) []) (r : Connection × List Event)
    (hr : onReceivedDataDecrypted env c buffer = some r) : Q r.1 r.2 := by
  have hm := mergeRest_stable env Q hQ _ buffer h
  unfold onReceivedDataDecrypted at hr
  cases hstep : mergeRest env (countReceived env c buffer.limit) buffer with
  | stop q =>
    rw [hstep] at hr hm
    cases hr
    exact hm
  | next s =>
    rw [hstep] at hr hm
    dsimp only at hr hm
    refine parseLoop_stable env Q hQ _ _ ?_ r hr
    exact hm

/-! ## Fields kept by the operations -/

theorem kept_refl (t : Bool) (c : Connection) : Kept t c c :=
  ⟨fun h => h, rfl, Or.inl rfl, fun _ => rfl⟩

theorem kept_trans {t : Bool} {a b c : Connection} (h1 : Kept t a b) (h2 : Kept t b c) :
    Kept t a c := by
  obtain ⟨a1, a2, a3, a4⟩ := h1
  obtain ⟨b1, b2, b3, b4⟩ := h2
  refine ⟨fun h => b1 (a1 h), b2.trans a2, ?_, fun h => (b4 h).trans (a4 h)⟩
  rcases b3 with h | h
  · rcases a3 with g | g
    · exact Or.inl (h.trans g)
    · exact Or.inr (h.trans g)
  · exact Or.inr h

theorem kept_weaken {t : Bool} {a b : Connection} (h : Kept true a b) : Kept t a b :=
  ⟨h.1, h.2.1, h.2.2.1, fun _ => h.2.2.2 rfl⟩

theorem onDisconnectedReconnecting_forceNextPort (env : Env) (c : Connection) (sw : Bool)
    (error : Int) :
    (onDisconnectedReconnecting env c sw error).1.forceNextPort = c.forceNextPort := by
  unfold onDisconnectedReconnecting
  simp only [apply_ite Prod.fst, apply_ite Connection.forceNextPort, ite_self]

theorem disconnectReset_forceNextPort (c : Connection) (reason : Int) :
    (disconnectReset c reason).forceNextPort = c.forceNextPort := by
  unfold disconnectReset
  simp only [apply_ite Connection.forceNextPort, ite_self]

theorem onDisconnectedInternal_kept (env : Env) (t : Bool) (b c : Connection)
    (reason error : Int) (hb : Kept t b c) (ht : t = true → reason ≠ 2) :
    Kept t b (onDisconnectedInternal env c reason error).1 := by
  obtain ⟨f1, _, f3, _⟩ := disconnectReset_fields c reason
  have f0 := disconnectReset_forceNextPort c reason
  have e1 : (onDisconnectedInternal env c reason error).1.forceNextPort = c.forceNextPort := by
    rw [onDisconnectedInternal_eq]
    by_cases hidle : (disconnectReset c reason).connectionState
        = TcpConnectionState.TcpConnectionStageIdle
    · rw [if_pos hidle]
      exact (onDisconnectedReconnecting_forceNextPort env _ _ _).trans f0
    · rw [if_neg hidle]
      exact f0
  have e2 : (onDisconnectedInternal env c reason error).1.connectionType = c.connectionType := by
    rw [onDisconnectedInternal_eq]
    by_cases hidle : (disconnectReset c reason).connectionState
        = TcpConnectionState.TcpConnectionStageIdle
    · rw [if_pos hidle]
      exact (onDisconnectedReconnecting_type env _ _ _).trans f1
    · rw [if_neg hidle]
      exact f1
  have e3 : (onDisconnectedInternal env c reason error).1.connectionInProcess
      = c.connectionInProcess := by
    rw [onDisconnectedInternal_eq]
    by_cases hidle : (disconnectReset c reason).connectionState
        = TcpConnectionState.TcpConnectionStageIdle
    · rw [if_pos hidle]
      exact (onDisconnectedReconnecting_inProcess env _ _ _).trans f3
    · rw [if_neg hidle]
      exact f3
  have e4 : t = true → (onDisconnectedInternal env c reason error).1.currentTimeout
      = c.currentTimeout := by
    intro h
    rw [onDisconnectedInternal_currentTimeout, if_neg (fun g => ht h g.2.2.1)]
  refine kept_trans hb ⟨fun h => e1.trans h, e2, Or.inl e3, e4⟩

theorem onDisconnected_kept (env : Env) (t : Bool) (b c : Connection) (reason error : Int)
    (hb : Kept t b c) (ht : t = true → reason ≠ 2) :
    Kept t b (onDisconnected env c reason error).1 := by
  unfold onDisconnected
  split_ifs
  · exact hb
  · exact onDisconnectedInternal_kept env t b c reason error hb ht

theorem closeSocket_kept (env : Env) (t : Bool) (b c : Connection) (reason error : Int)
    (hb : Kept t b c) (ht : t = true → reason ≠ 2) :
    Kept t b (closeSocket env c reason error).1 := by
  unfold closeSocket
  dsimp only
  exact onDisconnected_kept env t b _ reason error hb ht

theorem adjustWriteOp_kept (env : Env) (t : Bool) (b c : Connection) (hb : Kept t b c) :
    Kept t b (adjustWriteOp env c).1 := by
  unfold adjustWriteOp
  dsimp only
  split_ifs <;>
    first
    | exact closeSocket_kept env t b _ 1 (-1) hb (fun _ => by decide)
    | exact hb

theorem openConnectionInternal_kept (env : Env) (t : Bool) (b c : Connection)
    (hb : Kept t b c) : Kept t b (openConnectionInternal env c).1 := by
  have key : ∀ r : Connection × List Event, Kept t b r.1 →
      Kept t b (if r.1.adjustWriteOpAfterResolve then
          ((adjustWriteOp env r.1).1, r.2 ++ (adjustWriteOp env r.1).2) else r).1 := by
    intro r hr
    split_ifs
    · exact adjustWriteOp_kept env t b r.1 hr
    · exact hr
  unfold openConnectionInternal
  dsimp only
  cases hfc : env.fcntlOk
  · simp only [Bool.not_false, if_true]
    exact closeSocket_kept env t b _ 1 (-1) hb (fun _ => by decide)
  · simp only [Bool.not_true, Bool.false_eq_true, if_false]
    apply key
    cases hco : env.connectOk
    · simp only [Bool.not_false, if_true]
      exact closeSocket_kept env t b _ 1 (-1) hb (fun _ => by decide)
    · simp only [Bool.not_true, Bool.false_eq_true, if_false]
      by_cases h3 : env.epollCtlAdd c.socketFd = true
      · rw [if_pos h3]
        exact hb
      · rw [if_neg h3]
        exact closeSocket_kept env t b _ 1 (-1) hb (fun _ => by decide)

theorem openConnection_kept (env : Env) (t : Bool) (b c : Connection) (address : String)
    (port : Nat) (ipv6 : Bool) (networkType : Int) (hb : Kept t b c) :
    Kept t b (openConnection env c address port ipv6 networkType).1 := by
  unfold openConnection
  dsimp only
  split_ifs
  · exact closeSocket_kept env t b _ 1 (-1) hb (fun _ => by decide)
  · exact closeSocket_kept env t b _ 1 (-1) hb (fun _ => by decide)
  · exact openConnectionInternal_kept env t b _ hb

theorem connectWith_kept (env : Env) (t : Bool) (b c : Connection)
    (choice : Nat × Option TcpAddress × Nat × Bool)
    (h1 : b.forceNextPort = true → c.forceNextPort = true)
    (h2 : c.connectionType = b.connectionType)
    (h4 : t = true → c.currentTimeout = b.currentTimeout) :
    Kept t b (connectWith env c choice).1 := by
  have key : ∀ (k : Connection) (address : String) (port : Nat) (v6 : Bool) (nt : Int),
      (b.forceNextPort = true → k.forceNextPort = true) →
      k.connectionType = b.connectionType →
      (t = true → k.currentTimeout = b.currentTimeout) →
      Kept t b { setTimeout env (openConnection env k address port v6 nt).1
          (connectTimeout (openConnection env k address port v6 nt).1) with
          connectionInProcess := false } := by
    intro k address port v6 nt g1 g2 g4
    obtain ⟨o1, o2, _, o4⟩ := openConnection_kept env t k k address port v6 nt (kept_refl t k)
    exact ⟨fun h => o1 (g1 h), o2.trans g2, Or.inr rfl, fun h => (o4 h).trans (g4 h)⟩
  obtain ⟨f, o, v6, m⟩ := choice
  cases o with
  | none => exact key _ _ _ _ _ h1 h2 h4
  | some a =>
    unfold connectWith
    dsimp only
    split_ifs
    · exact key _ _ _ _ _ h1 h2 h4
    · exact key _ _ _ _ _ h1 h2 h4

theorem connect_kept (env : Env) (t : Bool) (b c : Connection) (hb : Kept t b c) :
    Kept t b (connect env c).1 := by
  cases h1 : c.waitForReconnectTimer
  · cases h2 : env.isNetworkAvailable
    · unfold connect
      rw [h1, h2]
      exact hb
    · by_cases h3 : c.connectionState = TcpConnectionState.TcpConnectionStageConnected
          ∨ c.connectionState = TcpConnectionState.TcpConnectionStageConnecting
      · unfold connect
        rw [h1, h2, if_pos h3]
        exact hb
      · rw [connect_eq env c h1 h2 h3]
        exact connectWith_kept env t b _ _ hb.1 hb.2.1 hb.2.2.2
  · unfold connect
    rw [h1]
    exact hb

theorem suspendConnection_kept (env : Env) (t : Bool) (b c : Connection) (idle : Bool)
    (hb : Kept t b c) : Kept t b (suspendConnection env c idle).1 := by
  unfold suspendConnection dropConnection
  dsimp only
  by_cases hg : c.connectionState = TcpConnectionState.TcpConnectionStageIdle
      ∨ c.connectionState = TcpConnectionState.TcpConnectionStageSuspended
  · rw [if_pos hg]
    exact hb
  · rw [if_neg hg]
    refine closeSocket_kept env t b _ 0 0 ?_ (fun _ => by decide)
    exact hb

theorem reconnect_kept (env : Env) (t : Bool) (b c : Connection) (hb : Kept t b c) :
    Kept t b (reconnect env c).1 := by
  unfold reconnect
  split_ifs
  · exact suspendConnection_kept env t b c false hb
  · refine connect_kept env t b _ (suspendConnection_kept env t b _ true ?_)
    exact ⟨fun _ => rfl, hb.2.1, hb.2.2.1, hb.2.2.2⟩

theorem reconnect_forceNextPort (env : Env) (c : Connection)
    (h : c.connectionType ≠ ConnectionType.ConnectionTypeProxy) :
    (reconnect env c).1.forceNextPort = true := by
  have hk : Kept true { c with forceNextPort := true }
      (connect env (suspendConnection env { c with forceNextPort := true } true).1).1 :=
    connect_kept env true _ _ (suspendConnection_kept env true _ _ true (kept_refl _ _))
  unfold reconnect
  rw [if_neg h]
  exact hk.1 rfl

theorem onConnected_kept (t : Bool) (b c : Connection) (hb : Kept t b c) :
    Kept t b (onConnected c).1 := hb

theorem writeBuffer_kept (env : Env) (t : Bool) (b c : Connection) (buffer : NativeByteBuffer)
    (hb : Kept t b c) : Kept t b (writeBuffer env c buffer).1 :=
  adjustWriteOp_kept env t b _ hb

theorem writeLength_kept (env : Env) (t : Bool) (b c : Connection) (buffer : NativeByteBuffer)
    (limit : Nat) (reportAck : Bool) (hb : Kept t b c) :
    Kept t b (writeLength env c buffer limit reportAck).1 := by
  unfold writeLength
  dsimp only
  split_ifs <;> exact hb

theorem sendFrame_kept (env : Env) (t : Bool) (b c : Connection) (buffer buff : NativeByteBuffer)
    (reportAck : Bool) (hb : Kept t b c) :
    Kept t b (sendFrame env c buffer buff reportAck).1 := by
  unfold sendFrame
  dsimp only
  refine writeBuffer_kept env t b _ _ ?_
  show Kept t b (writeBuffer env (writeLength env c buffer buff.limit reportAck).1 _).1
  exact writeBuffer_kept env t b _ _ (writeLength_kept env t b c buffer _ reportAck hb)

theorem writePrelude_kept (env : Env) (t : Bool) (b c : Connection) (buffer : NativeByteBuffer)
    (block : List Nat) (hb : Kept t b c) : Kept t b (writePrelude env c buffer block).1 := hb

theorem sendData_kept (env : Env) (t : Bool) (b c : Connection)
    (buff : Option NativeByteBuffer) (reportAck encrypted : Bool) (hb : Kept t b c)
    (r : Connection × List Event)
    (hr : sendData env c buff reportAck encrypted = some r) : Kept t b r.1 := by
  cases buff with
  | none =>
    have e : sendData env c none reportAck encrypted = some (c, []) := rfl
    rw [e] at hr
    cases hr
    exact hb
  | some bf =>
    have h0 : Kept t b
        (if c.connectionState = TcpConnectionState.TcpConnectionStageIdle
            ∨ c.connectionState = TcpConnectionState.TcpConnectionStageReconnecting
            ∨ c.connectionState = TcpConnectionState.TcpConnectionStageSuspended
          then connect env c else (c, [])).1 := by
      split_ifs
      · exact connect_kept env t b c hb
      · exact hb
    unfold sendData at hr
    dsimp only at hr
    generalize (if c.connectionState = TcpConnectionState.TcpConnectionStageIdle
            ∨ c.connectionState = TcpConnectionState.TcpConnectionStageReconnecting
            ∨ c.connectionState = TcpConnectionState.TcpConnectionStageSuspended
          then connect env c else (c, [])) = r0 at h0 hr
    obtain ⟨k, ev⟩ := r0
    dsimp only at h0 hr
    by_cases hd : isDisconnected k = true
    · rw [if_pos hd] at hr
      cases hr
      exact h0
    · rw [if_neg hd] at hr
      cases hfp : k.firstPacketSent
      · rw [hfp] at hr
        simp only [Bool.not_false, if_true] at hr
        cases hbk : firstAccepted env.randBlocks with
        | none =>
          rw [hbk] at hr
          cases hr
        | some block =>
          rw [hbk] at hr
          simp only [Option.map_some'] at hr
          cases hr
          exact sendFrame_kept env t b _ _ _ _ (writePrelude_kept env t b k _ block h0)
      · rw [hfp] at hr
        simp only [Bool.not_true, Bool.false_eq_true, if_false] at hr
        cases hr
        exact sendFrame_kept env t b _ _ _ _ h0

theorem firstDataSeen_kept (env : Env) (t : Bool) (b c : Connection) (hb : Kept t b c) :
    Kept t b (firstDataSeen env c).1 := by
  unfold firstDataSeen
  dsimp only
  split_ifs <;> exact hb

/-- The frame loop keeps `Kept t b`. -/
theorem kept_loopStable (env : Env) (t : Bool) (b : Connection) :
    LoopStable env (fun c _ => Kept t b c) :=
  { seen := fun c _ h => firstDataSeen_kept env t b c h
    stored := fun _ _ _ h => h
    released := fun _ _ _ h => h
    delivered := fun _ _ _ _ h => h
    acked := fun _ _ _ h => h
    reconnected := fun c _ h => reconnect_kept env t b c h }

/-- The adaptive-timeout block of `onReceivedData`: the decrement is applied
exactly when the type is adaptive, the byte counter reaches 512 KiB and
`currentTimeout > 4`. -/
theorem countReceived_currentTimeout (env : Env) (c : Connection) (limit : Nat) :
    (countReceived env c limit).currentTimeout
      = (if isAdaptiveType c.connectionType = true
            ∧ (c.receivedDataAmount + limit) % 4294967296 ≥ 512 * 1024
            ∧ c.currentTimeout > 4 then c.currentTimeout - 2
          else c.currentTimeout) := by
  unfold countReceived setTimeout
  dsimp only
  by_cases h1 : isAdaptiveType c.connectionType = true
  · rw [if_pos h1]
    by_cases h2 : (c.receivedDataAmount + limit) % 4294967296 ≥ 512 * 1024
    · rw [if_pos h2]
      by_cases h3 : c.currentTimeout > 4
      · rw [if_pos h3, if_pos ⟨h1, h2, h3⟩]
      · rw [if_neg h3, if_neg (fun g => h3 g.2.2)]
    · rw [if_neg h2, if_neg (fun g => h2 g.2.1)]
  · rw [if_neg h1, if_neg (fun g => h1 g.1)]

theorem countReceived_kept (env : Env) (b c : Connection) (limit : Nat)
    (hb : Kept false b c) : Kept false b (countReceived env c limit) := by
  unfold countReceived setTimeout
  dsimp only
  split_ifs <;> exact ⟨hb.1, hb.2.1, hb.2.2.1, fun h => Bool.noConfusion h⟩

/-- `onReceivedData` from its second statement on: apart from the
adaptive-timeout block at its head it keeps `currentTimeout`, and it keeps the
other fields of `Kept`. -/
theorem onReceivedDataDecrypted_kept (env : Env) (c : Connection) (buffer : NativeByteBuffer)
    (r : Connection × List Event) (hr : onReceivedDataDecrypted env c buffer = some r) :
    Kept true (countReceived env c buffer.limit) r.1 ∧ Kept false c r.1 := by
  have h1 : Kept true (countReceived env c buffer.limit) r.1 :=
    onReceivedDataDecrypted_stable env _ (kept_loopStable env true _) c buffer
      (kept_refl _ _) r hr
  exact ⟨h1, kept_trans (countReceived_kept env c c buffer.limit (kept_refl _ _))
    (kept_weaken h1)⟩

theorem onReceivedData_kept (env : Env) (c : Connection) (buffer : NativeByteBuffer)
    (r : Connection × List Event) (hr : onReceivedData env c buffer = some r) :
    Kept false c r.1
      ∧ r.1.currentTimeout
        = (if isAdaptiveType c.connectionType = true
              ∧ (c.receivedDataAmount + buffer.limit) % 4294967296 ≥ 512 * 1024
              ∧ c.currentTimeout > 4 then c.currentTimeout - 2
            else c.currentTimeout) := by
  unfold onReceivedData at hr
  obtain ⟨h1, h2⟩ := onReceivedDataDecrypted_kept env _ _ r hr
  refine ⟨h2, ?_⟩
  rw [h1.2.2.2 rfl, countReceived_currentTimeout]
  rfl

/-- Every operation keeps the type, a set `forceNextPort` and a clear
`connectionInProcess`. -/
theorem apply_kept (env : Env) (c : Connection) (op : Op) (d : Connection)
    (hd : op.apply env c = some d) : Kept false c d := by
  cases op with
  | connect =>
    cases hd
    exact connect_kept env false c c (kept_refl _ _)
  | onConnected =>
    cases hd
    exact kept_refl _ _
  | onDisconnected reason error =>
    cases hd
    exact onDisconnected_kept env false c c reason error (kept_refl _ _)
      (fun h => Bool.noConfusion h)
  | suspendConnection idle =>
    cases hd
    exact suspendConnection_kept env false c c idle (kept_refl _ _)
  | reconnect =>
    cases hd
    exact reconnect_kept env false c c (kept_refl _ _)
  | sendData buff reportAck encrypted =>
    have e : (Op.sendData buff reportAck encrypted).apply env c
        = (sendData env c buff reportAck encrypted).map Prod.fst := rfl
    cases hs : sendData env c buff reportAck encrypted with
    | none =>
      rw [e, hs] at hd
      cases hd
    | some r =>
      rw [e, hs] at hd
      cases hd
      exact sendData_kept env false c c buff reportAck encrypted (kept_refl _ _) r hs
  | onReceivedData buffer =>
    have e : (Op.onReceivedData buffer).apply env c
        = (onReceivedData env c buffer).map Prod.fst := rfl
    cases hs : onReceivedData env c buffer with
    | none =>
      rw [e, hs] at hd
      cases hd
    | some r =>
      rw [e, hs] at hd
      cases hd
      exact (onReceivedData_kept env c buffer r hs).1
  | scheduledTask reason error =>
    cases hd
    exact onDisconnectedInternal_kept env false c c reason error (kept_refl _ _)
      (fun h => Bool.noConfusion h)

theorem runOps_kept (ops : List (Env × Op)) :
    ∀ (c d : Connection), runOps c ops = some d → Kept false c d := by
  induction ops with
  | nil =>
    intro c d hd
    cases hd
    exact kept_refl _ _
  | cons step steps ih =>
    intro c d hd
    unfold runOps at hd
    cases hs : step.2.apply step.1 c with
    | none =>
      rw [hs] at hd
      cases hd
    | some k =>
      rw [hs] at hd
      exact kept_trans (apply_kept step.1 c step.2 k hs) (ih k d hd)

/-! ## C29: `forceNextPort` is sticky -/

theorem switchToNextPort_of_force (env : Env) (c : Connection) (reason : Int)
    (h : c.forceNextPort = true) : switchToNextPort env c reason = true := by
  unfold switchToNextPort
  rw [h, Bool.or_true]

/-- With `forceNextPort` set, a direct `onDisconnected` on a connection that is
not Suspended and not of type Proxy, with the network available, rotates. -/
theorem onDisconnected_forced (env : Env) (c : Connection) (reason error : Int)
    (hforce : c.forceNextPort = true) (hproc : c.connectionInProcess = false)
    (hstate : c.connectionState ≠ TcpConnectionState.TcpConnectionStageSuspended)
    (hnet : env.isNetworkAvailable = true)
    (htype : c.connectionType ≠ ConnectionType.ConnectionTypeProxy) :
    (onDisconnected env c reason error).2
        = [Event.onConnectionClosed reason, Event.nextAddressOrPort c.currentAddressFlags]
      ∧ (onDisconnected env c reason error).1.failedConnectionCount = 0 := by
  obtain ⟨f1, _, _, _, _, f6, _⟩ := disconnectReset_fields c reason
  have hidle : (disconnectReset c reason).connectionState
      = TcpConnectionState.TcpConnectionStageIdle := by
    rw [disconnectReset_state, if_neg hstate]
  obtain ⟨r1, r2⟩ := onDisconnectedReconnecting_rotation env (disconnectReset c reason)
    (switchToNextPort env c reason) error hnet (by rw [f1]; exact htype)
  rw [if_pos (Or.inr (switchToNextPort_of_force env c reason hforce)), f6] at r1
  rw [if_pos (Or.inr (switchToNextPort_of_force env c reason hforce))] at r2
  unfold onDisconnected
  rw [hproc]
  simp only [Bool.false_eq_true, if_false]
  rw [onDisconnectedInternal_eq, if_pos hidle]
  refine ⟨?_, r2⟩
  show Event.onConnectionClosed reason
      :: (onDisconnectedReconnecting env (disconnectReset c reason)
          (switchToNextPort env c reason) error).2 = _
  rw [r1]

/-- C29. `forceNextPort` is sticky.  No operation clears it: whenever it is set
before a sequence of operations, it is set after it.  `reconnect()` on a
connection of a type other than Proxy sets it; so after `reconnect()` and any
further operations, every `onDisconnected(reason, error)` on that connection
(not Suspended, network available) has `switchToNextPort` true, calls
`nextAddressOrPort(currentAddressFlags)` and leaves `failedConnectionCount = 0`,
whatever the reason, the error and the counters are, and the flag is still
set afterwards. -/
theorem forceNextPort_sticky (c1 : Connection) (ops1 : List (Env × Op)) (d1 : Connection)
    (hrun1 : runOps c1 ops1 = some d1) (hset : c1.forceNextPort = true)
    (env0 : Env) (c0 : Connection)
    (htype : c0.connectionType ≠ ConnectionType.ConnectionTypeProxy)
    (hproc : c0.connectionInProcess = false)
    (ops : List (Env × Op)) (d : Connection)
    (hrun : runOps (reconnect env0 c0).1 ops = some d)
    (env : Env) (reason error : Int)
    (hstate : d.connectionState ≠ TcpConnectionState.TcpConnectionStageSuspended)
    (hnet : env.isNetworkAvailable = true) :
    d1.forceNextPort = true
      ∧ (reconnect env0 c0).1.forceNextPort = true
      ∧ d.forceNextPort = true
      ∧ switchToNextPort env d reason = true
      ∧ (onDisconnected env d reason error).2
        = [Event.onConnectionClosed reason, Event.nextAddressOrPort d.currentAddressFlags]
      ∧ (onDisconnected env d reason error).1.failedConnectionCount = 0
      ∧ (onDisconnected env d reason error).1.forceNextPort = true := by
  have hr := reconnect_forceNextPort env0 c0 htype
  have k0 := reconnect_kept env0 false c0 c0 (kept_refl _ _)
  have k1 := kept_trans k0 (runOps_kept ops _ d hrun)
  have hd : d.forceNextPort = true := (runOps_kept ops _ d hrun).1 hr
  have hdp : d.connectionInProcess = false := by
    rcases k1.2.2.1 with h | h
    · exact h.trans hproc
    · exact h
  have hdt : d.connectionType ≠ ConnectionType.ConnectionTypeProxy := by
    rw [k1.2.1]
    exact htype
  obtain ⟨e1, e2⟩ := onDisconnected_forced env d reason error hd hdp hstate hnet hdt
  exact ⟨(runOps_kept ops1 c1 d1 hrun1).1 hset, hr, hd, switchToNextPort_of_force env d reason hd,
    e1, e2, (onDisconnected_kept env false d d reason error (kept_refl _ _)
      (fun h => Bool.noConfusion h)).1 hd⟩

theorem forceNextPort_sticky_witness :
    (onConnected (reconnect sampleEnv sampleSession).1).1.forceNextPort = true
      ∧ (onDisconnected sampleEnv (onConnected (reconnect sampleEnv sampleSession).1).1 1 0).2
        = [Event.onConnectionClosed 1,
            Event.nextAddressOrPort
              (onConnected (reconnect sampleEnv sampleSession).1).1.currentAddressFlags]
      ∧ (onDisconnected sampleEnv
          (onConnected (reconnect sampleEnv sampleSession).1).1 1 0).1.failedConnectionCount
        = 0 :=
  have h := forceNextPort_sticky (reconnect sampleEnv sampleSession).1
    [(sampleEnv, Op.onConnected)] (onConnected (reconnect sampleEnv sampleSession).1).1 rfl
    (by decide) sampleEnv sampleSession (by decide) rfl [(sampleEnv, Op.onConnected)]
    (onConnected (reconnect sampleEnv sampleSession).1).1 rfl sampleEnv 1 0 (by decide) rfl
  ⟨h.2.2.1, h.2.2.2.2.1, h.2.2.2.2.2.1⟩

/-! ## C26: the adaptive timeout floor -/

/-- C26, counterexample.  A Generic connection with `currentTimeout = 6` that
has received 524284 bytes since the counter was reset receives four more bytes
(a quick-ack): the counter reaches 512 KiB, `currentTimeout > 4` holds, and the
timeout is lowered to 4, below 6. -/
theorem adaptive_timeout_falls_to_four :
    (onReceivedData sampleEnv
        { sampleSession with currentTimeout := 6, receivedDataAmount := 524284 }
        (ofList [0x80, 0, 0, 1] 16)).map (fun r => (r.1.currentTimeout, r.1.receivedDataAmount))
      = some (4, 0) := by
  decide!

/-- C26 (amended): the decrement of the adaptive timeout has the floor 4, not
6.  One `onReceivedData` lowers `currentTimeout` by 2 exactly when the type is
Generic, Temp or GenericMedia, the byte counter reaches 512 KiB with this chunk
and `currentTimeout > 4`; otherwise it leaves it.  So after every sequence of
`onReceivedData` calls `currentTimeout` is at most what it was, it is at least
4 and even when it started at least 4 and even (6 falls to 4), and at least 3
when it started at least 3. -/
theorem adaptive_timeout_floor (c : Connection) (ops : List (Env × Op)) (d : Connection)
    (hops : ∀ step ∈ ops, ∃ buffer, step.2 = Op.onReceivedData buffer)
    (hrun : runOps c ops = some d) :
    d.currentTimeout ≤ c.currentTimeout
      ∧ (4 ≤ c.currentTimeout → c.currentTimeout % 2 = 0 →
          4 ≤ d.currentTimeout ∧ d.currentTimeout % 2 = 0)
      ∧ (3 ≤ c.currentTimeout → 3 ≤ d.currentTimeout)
      ∧ (∀ (env : Env) (buffer : NativeByteBuffer) (r : Connection × List Event),
          onReceivedData env c buffer = some r →
          r.1.currentTimeout
            = (if (c.connectionType = ConnectionType.ConnectionTypeGeneric
                    ∨ c.connectionType = ConnectionType.ConnectionTypeTemp
                    ∨ c.connectionType = ConnectionType.ConnectionTypeGenericMedia)
                  ∧ (c.receivedDataAmount + buffer.limit) % 4294967296 ≥ 512 * 1024
                  ∧ c.currentTimeout > 4 then c.currentTimeout - 2
                else c.currentTimeout)) := by
  have step : ∀ (env : Env) (k : Connection) (buffer : NativeByteBuffer)
      (r : Connection × List Event), onReceivedData env k buffer = some r →
      r.1.currentTimeout ≤ k.currentTimeout
        ∧ (4 ≤ k.currentTimeout → k.currentTimeout % 2 = 0 →
            4 ≤ r.1.currentTimeout ∧ r.1.currentTimeout % 2 = 0)
        ∧ (3 ≤ k.currentTimeout → 3 ≤ r.1.currentTimeout) := by
    intro env k buffer r hr
    rw [(onReceivedData_kept env k buffer r hr).2]
    split_ifs with h
    · refine ⟨by omega, fun _ _ => by omega, fun _ => by omega⟩
    · exact ⟨Nat.le_refl _, fun a b => ⟨a, b⟩, fun a => a⟩
  have run : ∀ (ops : List (Env × Op)),
      (∀ st ∈ ops, ∃ buffer, st.2 = Op.onReceivedData buffer) →
      ∀ (k e : Connection), runOps k ops = some e →
      e.currentTimeout ≤ k.currentTimeout
        ∧ (4 ≤ k.currentTimeout → k.currentTimeout % 2 = 0 →
            4 ≤ e.currentTimeout ∧ e.currentTimeout % 2 = 0)
        ∧ (3 ≤ k.currentTimeout → 3 ≤ e.currentTimeout) := by
    intro ops
    induction ops with
    | nil =>
      intro _ k e he
      cases he
      exact ⟨Nat.le_refl _, fun a b => ⟨a, b⟩, fun a => a⟩
    | cons st sts ih =>
      intro hst k e he
      obtain ⟨buffer, hb⟩ := hst st (List.mem_cons_self _ _)
      unfold runOps at he
      rw [hb] at he
      have e0 : (Op.onReceivedData buffer).apply st.1 k
          = (onReceivedData st.1 k buffer).map Prod.fst := rfl
      rw [e0] at he
      cases hs : onReceivedData st.1 k buffer with
      | none =>
        rw [hs] at he
        cases he
      | some r =>
        rw [hs] at he
        obtain ⟨a1, a2, a3⟩ := step st.1 k buffer r hs
        obtain ⟨b1, b2, b3⟩ := ih (fun x hx => hst x (List.mem_cons_of_mem _ hx)) r.1 e he
        refine ⟨Nat.le_trans b1 a1, fun h4 h2 => ?_, fun h3 => b3 (a3 h3)⟩
        obtain ⟨c1, c2⟩ := a2 h4 h2
        exact b2 c1 c2
  obtain ⟨r1, r2, r3⟩ := run ops hops c d hrun
  refine ⟨r1, r2, r3, fun env buffer r hr => ?_⟩
  rw [(onReceivedData_kept env c buffer r hr).2]
  have ha := isAdaptiveType_iff c.connectionType
  by_cases h : isAdaptiveType c.connectionType = true
      ∧ (c.receivedDataAmount + buffer.limit) % 4294967296 ≥ 512 * 1024 ∧ c.currentTimeout > 4
  · rw [if_pos h, if_pos ⟨ha.mp h.1, h.2⟩]
  · rw [if_neg h, if_neg (fun g => h ⟨ha.mpr g.1, g.2⟩)]

theorem adaptive_timeout_floor_witness :
    ∃ d, runOps { sampleSession with currentTimeout := 6, receivedDataAmount := 524284 }
        [(sampleEnv, Op.onReceivedData (ofList [0x80, 0, 0, 1] 16))] = some d
      ∧ 4 ≤ d.currentTimeout ∧ d.currentTimeout ≤ 6 := by
  have hs : (runOps { sampleSession with currentTimeout := 6, receivedDataAmount := 524284 }
      [(sampleEnv, Op.onReceivedData (ofList [0x80, 0, 0, 1] 16))]).isSome = true := by
    decide!
  obtain ⟨d, hd⟩ := Option.isSome_iff_exists.mp hs
  have h := adaptive_timeout_floor _ [(sampleEnv, Op.onReceivedData (ofList [0x80, 0, 0, 1] 16))]
    d (fun st hst => ⟨ofList [0x80, 0, 0, 1] 16, by
      have := List.mem_singleton.mp hst
      subst this
      rfl⟩) hd
  exact ⟨d, hd, (h.2.1 (by decide) (by decide)).1, h.1⟩

/-! ## C25: zero-length frames -/

/-- C25, counterexample.  The chunk `00` (a short length field announcing 0
payload bytes) and the chunk `7f 00 00 00` (the long form of the same) each
give one call `onConnectionDataReceived` with an empty payload and length 0;
`reconnect()` is not called and nothing stays buffered. -/
theorem zero_length_frame_is_delivered :
    (onReceivedData sampleEnv sampleSession (ofList [0] 16)).map
        (fun r => (frameCalls r.2, r.1.restOfTheData.isSome))
      = some ([Event.onConnectionDataReceived [] 0], false)
    ∧ (onReceivedData sampleEnv sampleSession (ofList [0x7f, 0, 0, 0] 16)).map
        (fun r => (frameCalls r.2, r.1.restOfTheData.isSome))
      = some ([Event.onConnectionDataReceived [] 0], false) := by
  decide!

/-- C25 (amended): a length field that decodes to 0 (the byte `00`, or the long
form `7f 00 00 00`) passes the validation, which only asks for a multiple of 4
of at most 2 MiB.  When a chunk decrypts to valid frames `before`, such a
zero-length frame and valid frames `after`, with no reassembly buffer,
`onReceivedData` returns, hands over every frame in order, the zero-length one
as `onConnectionDataReceived` with an empty payload and length 0, does not
call `reconnect()` and does not abandon the read: the frames after it are
handed over too. -/
theorem zero_length_frames_delivered (env : Env) (hpool : ∀ n, n ≤ env.poolCapacity n)
    (c : Connection) (hc : c.restOfTheData = none) (before after : List DataFrame)
    (hb : ∀ f ∈ before, f.Valid) (ha : ∀ f ∈ after, f.Valid) (header wire : List Nat)
    (cap : Nat) (hz : header = [0] ∨ header = [0x7f, 0, 0, 0]) (hcap : wire.length ≤ cap)
    (hd : (AES_ctr128_encrypt env.aes (decryptState c) wire).1
        = wireOf before ++ header ++ wireOf after) :
    ∃ d evs, onReceivedData env c (ofList wire cap) = some (d, evs)
      ∧ frameCalls evs
        = before.map DataFrame.call ++ [Event.onConnectionDataReceived [] 0]
          ++ after.map DataFrame.call
      ∧ reconnectCount evs = 0
      ∧ d.restOfTheData = none := by
  have hzv : (⟨header, []⟩ : DataFrame).Valid := by
    rcases hz with h | h
    · exact Or.inl ⟨0, h, by omega, rfl⟩
    · exact Or.inr ⟨0, 0, 0, h, by omega, by omega, by omega, rfl, Nat.zero_le _⟩
  have hv : ∀ f ∈ before ++ [(⟨header, []⟩ : DataFrame)] ++ after, f.Valid := by
    intro f hf
    rw [List.mem_append, List.mem_append, List.mem_singleton] at hf
    rcases hf with (h | h) | h
    · exact hb f h
    · rw [h]
      exact hzv
    · exact ha f h
  have hw : wireOf (before ++ [(⟨header, []⟩ : DataFrame)] ++ after)
      = wireOf before ++ header ++ wireOf after := by
    rw [wireOf_append, wireOf_append]
    congr 2
    simp [wireOf, DataFrame.wire]
  have hlen : (wireOf before ++ header ++ wireOf after).length = wire.length := by
    rw [← hd, AES_ctr128_encrypt_length]
  have hne : wireOf before ++ header ++ wireOf after ≠ [] := by
    intro h0
    have h1 := congrArg List.length h0
    rw [List.length_append, List.length_append] at h1
    have : 0 < header.length := by
      rcases hz with h | h <;> rw [h] <;> decide
    simp only [List.length_nil] at h1
    omega
  rw [onReceivedData_ofList, hd, ← hw]
  obtain ⟨d, evs, e, h1, h2⟩ := receive_whole env hpool
    { c with
      decryptIv := (AES_ctr128_encrypt env.aes (decryptState c) wire).2.iv
      decryptCount := (AES_ctr128_encrypt env.aes (decryptState c) wire).2.count
      decryptNum := (AES_ctr128_encrypt env.aes (decryptState c) wire).2.num }
    hc (before ++ [(⟨header, []⟩ : DataFrame)] ++ after) hv cap
    (by rw [hw]; exact hne) (by rw [hw, hlen]; exact hcap)
  have hcalls : frameCalls evs
      = before.map DataFrame.call ++ [Event.onConnectionDataReceived [] 0]
        ++ after.map DataFrame.call := by
    rw [h1, List.map_append, List.map_append]
    rfl
  refine ⟨d, evs, e, hcalls, ?_, h2⟩
  have key : ∀ (l : List Event), reconnectCount l = reconnectCount (frameCalls l) := by
    intro l
    induction l with
    | nil => rfl
    | cons x xs ih =>
      cases x <;> simp [frameCalls, List.filter, Event.isFrameCall, reconnectCount] <;>
        simpa [frameCalls] using ih
  have calls : ∀ (fs : List DataFrame), reconnectCount (fs.map DataFrame.call) = 0 := by
    intro fs
    induction fs with
    | nil => rfl
    | cons f fs ih => exact ih
  have app : ∀ (a b : List Event), reconnectCount (a ++ b) = reconnectCount a + reconnectCount b := by
    intro a b
    induction a with
    | nil => simp [reconnectCount]
    | cons x xs ih =>
      cases x <;> simp [reconnectCount, ih]
      omega
  rw [key, hcalls, app, app, calls, calls]
  rfl

theorem zero_length_frames_delivered_witness :
    ∃ d evs, onReceivedData sampleEnv sampleSession (ofList [1, 10, 20, 30, 40, 0, 0] 16)
        = some (d, evs)
      ∧ frameCalls evs
        = [(⟨[1], [10, 20, 30, 40]⟩ : DataFrame)].map DataFrame.call
          ++ [Event.onConnectionDataReceived [] 0]
          ++ [(⟨[0], []⟩ : DataFrame)].map DataFrame.call
      ∧ reconnectCount evs = 0
      ∧ d.restOfTheData = none :=
  zero_length_frames_delivered sampleEnv (fun n => Nat.le_refl n) sampleSession rfl
    [⟨[1], [10, 20, 30, 40]⟩] [⟨[0], []⟩]
    (fun f hf => by
      rw [List.mem_singleton.mp hf]
      exact Or.inl ⟨1, rfl, by decide, rfl⟩)
    (fun f hf => by
      rw [List.mem_singleton.mp hf]
      exact Or.inl ⟨0, rfl, by decide, rfl⟩)
    [0] [1, 10, 20, 30, 40, 0, 0] 16 (Or.inl rfl) (by decide) (by decide!)

/-! ## C24: the reason reported after an invalid length -/

theorem closedReasons_append (a b : List Event) :
    closedReasons (a ++ b) = closedReasons a ++ closedReasons b := by
  induction a with
  | nil => rfl
  | cons e a ih => cases e <;> simp [closedReasons, ih]

theorem reconnectCount_append (a b : List Event) :
    reconnectCount (a ++ b) = reconnectCount a + reconnectCount b := by
  induction a with
  | nil => simp [reconnectCount]
  | cons x xs ih =>
    cases x <;> simp [reconnectCount, ih]
    omega

theorem reconnectCount_frameCalls (l : List Event) :
    reconnectCount (frameCalls l) = reconnectCount l := by
  induction l with
  | nil => rfl
  | cons x xs ih =>
    cases x <;> simp [frameCalls, List.filter, Event.isFrameCall, reconnectCount] <;>
      simpa [frameCalls] using ih

theorem onDisconnectedReconnecting_closedReasons (env : Env) (c : Connection) (sw : Bool)
    (error : Int) : closedReasons (onDisconnectedReconnecting env c sw error).2 = [] := by
  unfold onDisconnectedReconnecting
  simp only [apply_ite Prod.snd, apply_ite closedReasons, ite_self]
  split_ifs <;> rfl

theorem onDisconnectedInternal_closedReasons (env : Env) (c : Connection) (reason error : Int) :
    closedReasons (onDisconnectedInternal env c reason error).2 = [reason] := by
  rw [onDisconnectedInternal_eq]
  show reason :: closedReasons _ = [reason]
  split_ifs
  · rw [onDisconnectedReconnecting_closedReasons]
  · rfl

theorem closeSocket_closedReasons (env : Env) (c : Connection) (reason error : Int) :
    closedReasons (closeSocket env c reason error).2
      = (if c.connectionInProcess = true then [] else [reason]) := by
  obtain ⟨k, _, k2, _, _, _, _, _, _, _, ke⟩ := closeSocket_eq env c reason error
  rw [ke]
  show closedReasons (onDisconnected env k reason error).2 = _
  unfold onDisconnected
  by_cases h : c.connectionInProcess = true
  · rw [if_pos (k2.trans h), if_pos h]
    rfl
  · rw [if_neg (fun g => h (k2.symm.trans g)), if_neg h]
    exact onDisconnectedInternal_closedReasons env k reason error

theorem adjustWriteOp_closedReasons (env : Env) (c : Connection)
    (h : c.connectionInProcess = true) : closedReasons (adjustWriteOp env c).2 = [] := by
  unfold adjustWriteOp
  dsimp only
  split_ifs <;>
    first
    | rfl
    | exact (closeSocket_closedReasons env _ 1 (-1)).trans (if_pos h)

theorem openConnectionInternal_closedReasons (env : Env) (c : Connection)
    (h : c.connectionInProcess = true) :
    closedReasons (openConnectionInternal env c).2 = [] := by
  have key : ∀ r : Connection × List Event,
      r.1.connectionInProcess = true → closedReasons r.2 = [] →
      closedReasons (if r.1.adjustWriteOpAfterResolve then
          ((adjustWriteOp env r.1).1, r.2 ++ (adjustWriteOp env r.1).2) else r).2 = [] := by
    intro r hp hr
    split_ifs
    · show closedReasons (r.2 ++ (adjustWriteOp env r.1).2) = []
      rw [closedReasons_append, hr, adjustWriteOp_closedReasons env r.1 hp]
      rfl
    · exact hr
  have hclose : ∀ k : Connection, k.connectionInProcess = true →
      (closeSocket env k 1 (-1)).1.connectionInProcess = true
        ∧ closedReasons (closeSocket env k 1 (-1)).2 = [] :=
    fun k hk => ⟨(closeSocket_inProcess env k 1 (-1) hk).2,
      (closeSocket_closedReasons env k 1 (-1)).trans (if_pos hk)⟩
  unfold openConnectionInternal
  dsimp only
  cases hfc : env.fcntlOk
  · simp only [Bool.not_false, if_true]
    exact (hclose c h).2
  · simp only [Bool.not_true, Bool.false_eq_true, if_false]
    cases hco : env.connectOk
    · simp only [Bool.not_false, if_true]
      exact key _ (hclose c h).1 (hclose c h).2
    · simp only [Bool.not_true, Bool.false_eq_true, if_false]
      by_cases h3 : env.epollCtlAdd c.socketFd = true
      · rw [if_pos h3]
        exact key _ h rfl
      · rw [if_neg h3]
        have hc2 := hclose
          { c with eventMaskEvents := EPOLLOUT ||| EPOLLIN ||| EPOLLRDHUP ||| EPOLLERR ||| EPOLLET }
          h
        exact key _ hc2.1 hc2.2

theorem openConnection_closedReasons (env : Env) (c : Connection) (address : String)
    (port : Nat) (ipv6 : Bool) (networkType : Int) (h : c.connectionInProcess = true) :
    closedReasons (openConnection env c address port ipv6 networkType).2 = [] := by
  unfold openConnection
  dsimp only
  show closedReasons _ = []
  split_ifs
  · exact (closeSocket_closedReasons env _ 1 (-1)).trans (if_pos h)
  · exact (closeSocket_closedReasons env _ 1 (-1)).trans (if_pos h)
  · exact openConnectionInternal_closedReasons env _ h

/-- The only `onConnectionClosed` that `connect()` reports itself is the one
with reason 0 for a missing network; a failure to open the socket is posted to
the task queue. -/
theorem connect_closedReasons (env : Env) (c : Connection) :
    closedReasons (connect env c).2
      = (if c.waitForReconnectTimer = false ∧ env.isNetworkAvailable = false then [0]
          else []) := by
  cases h1 : c.waitForReconnectTimer
  · cases h2 : env.isNetworkAvailable
    · unfold connect
      rw [h1, h2]
      rfl
    · rw [if_neg (by simp)]
      by_cases h3 : c.connectionState = TcpConnectionState.TcpConnectionStageConnected
          ∨ c.connectionState = TcpConnectionState.TcpConnectionStageConnecting
      · unfold connect
        rw [h1, h2, if_pos h3]
        rfl
      · rw [connect_eq env c h1 h2 h3]
        refine connectWith_cases env _ _ (fun r => closedReasons r.2 = []) ?_
        intro k address port v6 nt _ _ _ k4 _ _ _ _ _
        exact openConnection_closedReasons env k address port v6 nt k4
  · rw [if_neg (by simp)]
    unfold connect
    rw [h1]
    rfl

/-- What `suspendConnection` reports: nothing when it returns early; otherwise
reason 0, twice when the disconnect runs at once. -/
theorem suspendConnection_closedReasons (env : Env) (c : Connection) (idle : Bool) :
    closedReasons (suspendConnection env c idle).2
      = (if c.connectionState = TcpConnectionState.TcpConnectionStageIdle
            ∨ c.connectionState = TcpConnectionState.TcpConnectionStageSuspended then []
          else if c.connectionInProcess = true then [0] else [0, 0]) := by
  unfold suspendConnection dropConnection
  dsimp only
  by_cases hg : c.connectionState = TcpConnectionState.TcpConnectionStageIdle
      ∨ c.connectionState = TcpConnectionState.TcpConnectionStageSuspended
  · rw [if_pos hg, if_pos hg]
    rfl
  · rw [if_neg hg, if_neg hg]
    show closedReasons (_ ++ [Event.onConnectionClosed 0]) = _
    rw [closedReasons_append, closeSocket_closedReasons]
    dsimp only
    split_ifs <;> rfl

/-- Every reason `reconnect()` reports is 0; from a Connected connection on
which no `connect()` is running it reports it at least twice. -/
theorem reconnect_closedReasons (env : Env) (c : Connection) :
    (∀ r ∈ closedReasons (reconnect env c).2, r = 0)
      ∧ (c.connectionState = TcpConnectionState.TcpConnectionStageConnected →
          c.connectionInProcess = false → 2 ≤ (closedReasons (reconnect env c).2).length) := by
  have zs : ∀ (k : Connection) (idle : Bool),
      ∀ r ∈ closedReasons (suspendConnection env k idle).2, r = 0 := by
    intro k idle r hr
    rw [suspendConnection_closedReasons] at hr
    by_cases h1 : k.connectionState = TcpConnectionState.TcpConnectionStageIdle
        ∨ k.connectionState = TcpConnectionState.TcpConnectionStageSuspended
    · rw [if_pos h1] at hr
      cases hr
    · rw [if_neg h1] at hr
      by_cases h2 : k.connectionInProcess = true
      · rw [if_pos h2, List.mem_singleton] at hr
        exact hr
      · rw [if_neg h2] at hr
        simp only [List.mem_cons, List.mem_singleton, List.mem_nil_iff, or_false, or_self] at hr
        exact hr
  have zc : ∀ (k : Connection), ∀ r ∈ closedReasons (connect env k).2, r = 0 := by
    intro k r hr
    rw [connect_closedReasons] at hr
    by_cases h1 : k.waitForReconnectTimer = false ∧ env.isNetworkAvailable = false
    · rw [if_pos h1, List.mem_singleton] at hr
      exact hr
    · rw [if_neg h1] at hr
      cases hr
  have two : ∀ (k : Connection) (idle : Bool),
      k.connectionState = TcpConnectionState.TcpConnectionStageConnected →
      k.connectionInProcess = false →
      closedReasons (suspendConnection env k idle).2 = [0, 0] := by
    intro k idle hs hi
    rw [suspendConnection_closedReasons, if_neg (by rw [hs]; decide), if_neg (by rw [hi]; decide)]
  unfold reconnect
  by_cases hp : c.connectionType = ConnectionType.ConnectionTypeProxy
  · rw [if_pos hp]
    refine ⟨zs c false, fun hs hi => ?_⟩
    rw [two c false hs hi]
    decide
  · rw [if_neg hp]
    show (∀ r ∈ closedReasons (_ ++ _), r = 0) ∧ (_ → _ → 2 ≤ (closedReasons (_ ++ _)).length)
    rw [closedReasons_append]
    refine ⟨fun r hr => ?_, fun hs hi => ?_⟩
    · rw [List.mem_append] at hr
      rcases hr with hr | hr
      · exact zs _ true r hr
      · exact zc _ r hr
    · rw [two { c with forceNextPort := true } true hs hi, List.length_append]
      show 2 ≤ 2 + _
      omega

theorem firstDataSeen_closedReasons (env : Env) (c : Connection) :
    closedReasons (firstDataSeen env c).2 = []
      ∧ reconnectCount (firstDataSeen env c).2 = 0
      ∧ (firstDataSeen env c).1.connectionState = c.connectionState
      ∧ (firstDataSeen env c).1.connectionInProcess = c.connectionInProcess := by
  unfold firstDataSeen
  dsimp only
  split_ifs <;> exact ⟨rfl, rfl, rfl, rfl⟩

theorem countReceived_state (env : Env) (c : Connection) (limit : Nat) :
    (countReceived env c limit).connectionState = c.connectionState
      ∧ (countReceived env c limit).connectionInProcess = c.connectionInProcess := by
  unfold countReceived setTimeout
  dsimp only
  split_ifs <;> exact ⟨rfl, rfl⟩

/-- The frame loop keeps: every reason reported so far is 0, and either the
connection is still Connected with nothing reported and no `reconnect()`, or
`reconnect()` was called and reason 0 was reported at least twice. -/
theorem closed_loopStable (env : Env) :
    LoopStable env (fun c evs =>
      (∀ r ∈ closedReasons evs, r = 0)
        ∧ ((c.connectionState = TcpConnectionState.TcpConnectionStageConnected
              ∧ c.connectionInProcess = false ∧ closedReasons evs = []
              ∧ reconnectCount evs = 0)
          ∨ (1 ≤ reconnectCount evs ∧ 2 ≤ (closedReasons evs).length))) := by
  refine ⟨?_, ?_, ?_, ?_, ?_, ?_⟩
  · intro c evs h
    obtain ⟨s1, s2, s3, s4⟩ := firstDataSeen_closedReasons env c
    rw [closedReasons_append, reconnectCount_append, s1, s2, s3, s4, List.append_nil,
      Nat.add_zero]
    exact h
  · intro c evs n h
    exact h
  · intro c evs r h
    exact h
  · intro c evs payload n h
    have e1 : closedReasons (evs ++ [Event.onConnectionDataReceived payload n])
        = closedReasons evs := by
      rw [closedReasons_append]
      exact List.append_nil _
    have e2 : reconnectCount (evs ++ [Event.onConnectionDataReceived payload n])
        = reconnectCount evs := by
      rw [reconnectCount_append]
      rfl
    rw [e1, e2]
    exact h
  · intro c evs ackId h
    have e1 : closedReasons (evs ++ [Event.onConnectionQuickAckReceived ackId])
        = closedReasons evs := by
      rw [closedReasons_append]
      exact List.append_nil _
    have e2 : reconnectCount (evs ++ [Event.onConnectionQuickAckReceived ackId])
        = reconnectCount evs := by
      rw [reconnectCount_append]
      rfl
    rw [e1, e2]
    exact h
  · intro c evs h
    obtain ⟨z, two⟩ := reconnect_closedReasons env c
    have e1 : closedReasons (evs ++ Event.reconnect :: (reconnect env c).2)
        = closedReasons evs ++ closedReasons (reconnect env c).2 := by
      rw [closedReasons_append]
      rfl
    have e2 : reconnectCount (evs ++ Event.reconnect :: (reconnect env c).2)
        = reconnectCount evs + (reconnectCount (reconnect env c).2 + 1) := by
      rw [reconnectCount_append]
      rfl
    rw [e1, e2]
    refine ⟨fun r hr => ?_, Or.inr ⟨by omega, ?_⟩⟩
    · rw [List.mem_append] at hr
      rcases hr with hr | hr
      · exact h.1 r hr
      · exact z r hr
    · rw [List.length_append]
      rcases h.2 with ⟨hs, hi, _, _⟩ | ⟨_, h2⟩
      · have := two hs hi
        omega
      · omega

/-- C24, counterexample.  A Generic connection in state Connected receives the
long-form length field `7f 01 00 08`, which announces 2 MiB + 4 bytes.
`reconnect()` is called, and the layer above is told `onConnectionClosed` with
reason 0, twice (once by the disconnect that `dropConnection` runs, once by
`suspendConnection` itself); reason 1 is not reported. -/
theorem invalid_length_reports_reason_zero :
    (onReceivedData sampleEnv sampleSession (ofList [0x7f, 1, 0, 8] 16)).map
        (fun r => (frameCalls r.2, closedReasons r.2))
      = some ([Event.reconnect], [0, 0]) := by
  decide!

/-- C24 (amended): an invalid frame length is reported with reason 0, not 1.
When a chunk received by a Connected connection (any type, no `connect()` in
progress, no reassembly buffer) decrypts to valid frames followed by a length
field that announces more than 2 MiB, `onReceivedData` returns after handing
over the frames and calling `reconnect()`; every `onConnectionClosed` it makes
has reason 0, there are at least two of them, and none has reason 1. -/
theorem invalid_length_reason (env : Env) (c : Connection) (hc : c.restOfTheData = none)
    (hstate : c.connectionState = TcpConnectionState.TcpConnectionStageConnected)
    (hproc : c.connectionInProcess = false)
    (fs : List DataFrame) (hv : ∀ f ∈ fs, f.Valid) (b1 b2 b3 : Nat) (tail wire : List Nat)
    (cap : Nat) (hmax : 2 * 1024 * 1024 < (b1 + b2 * 256 + b3 * 65536) * 4)
    (hcap : wire.length ≤ cap)
    (hd : (AES_ctr128_encrypt env.aes (decryptState c) wire).1
        = wireOf fs ++ ([0x7f, b1, b2, b3] ++ tail)) :
    ∃ d evs, onReceivedData env c (ofList wire cap) = some (d, evs)
      ∧ frameCalls evs = fs.map DataFrame.call ++ [Event.reconnect]
      ∧ (∀ r ∈ closedReasons evs, r = 0)
      ∧ 2 ≤ (closedReasons evs).length
      ∧ 1 ∉ closedReasons evs := by
  have hlen : (wireOf fs ++ ([0x7f, b1, b2, b3] ++ tail)).length = wire.length := by
    rw [← hd, AES_ctr128_encrypt_length]
  rw [onReceivedData_ofList, hd]
  obtain ⟨d, evs, e, h1⟩ := receive_invalid env
    { c with
      decryptIv := (AES_ctr128_encrypt env.aes (decryptState c) wire).2.iv
      decryptCount := (AES_ctr128_encrypt env.aes (decryptState c) wire).2.count
      decryptNum := (AES_ctr128_encrypt env.aes (decryptState c) wire).2.num }
    hc fs hv b1 b2 b3 tail cap hmax (by rw [hlen]; exact hcap)
  obtain ⟨s1, s2⟩ := countReceived_state env
    { c with
      decryptIv := (AES_ctr128_encrypt env.aes (decryptState c) wire).2.iv
      decryptCount := (AES_ctr128_encrypt env.aes (decryptState c) wire).2.count
      decryptNum := (AES_ctr128_encrypt env.aes (decryptState c) wire).2.num }
    (ofList (wireOf fs ++ ([0x7f, b1, b2, b3] ++ tail)) cap).limit
  have hq := onReceivedDataDecrypted_stable env _ (closed_loopStable env) _ _
    ⟨fun r hr => (by cases hr), Or.inl ⟨s1.trans hstate, s2.trans hproc, rfl, rfl⟩⟩ (d, evs) e
  obtain ⟨z, hq2⟩ := hq
  have hcount : reconnectCount evs = 1 := by
    rw [← reconnectCount_frameCalls, h1, reconnectCount_append]
    have calls : ∀ (l : List DataFrame), reconnectCount (l.map DataFrame.call) = 0 := by
      intro l
      induction l with
      | nil => rfl
      | cons f l ih => exact ih
    rw [calls]
    rfl
  have two : 2 ≤ (closedReasons evs).length := by
    rcases hq2 with ⟨_, _, _, h0⟩ | ⟨_, h2⟩
    · rw [hcount] at h0
      exact absurd h0 (by decide)
    · exact h2
  exact ⟨d, evs, e, h1, z, two, fun h => absurd (z 1 h) (by decide)⟩

theorem invalid_length_reason_witness :
    ∃ d evs, onReceivedData sampleEnv sampleSession (ofList [0x7f, 1, 0, 8] 16) = some (d, evs)
      ∧ frameCalls evs = ([] : List DataFrame).map DataFrame.call ++ [Event.reconnect]
      ∧ (∀ r ∈ closedReasons evs, r = 0)
      ∧ 2 ≤ (closedReasons evs).length
      ∧ 1 ∉ closedReasons evs :=
  invalid_length_reason sampleEnv sampleSession rfl rfl rfl [] (fun f hf => by cases hf)
    1 0 8 [] [0x7f, 1, 0, 8] 16 (by decide) (by decide) (by decide!)

theorem disconnectedCalls_append (a b : List Event) :
    disconnectedCalls (a ++ b) = disconnectedCalls a + disconnectedCalls b := by
  induction a with
  | nil => simp [disconnectedCalls]
  | cons e a ih =>
    cases e
    all_goals first
      | exact ih
      | (show disconnectedCalls (a ++ b) + 1 = disconnectedCalls a + 1 + disconnectedCalls b
         omega)

theorem openedCalls_append (a b : List Event) :
    openedCalls (a ++ b) = openedCalls a + openedCalls b := by
  induction a with
  | nil => simp [openedCalls]
  | cons e a ih =>
    cases e
    all_goals first
      | exact ih
      | (show openedCalls (a ++ b) + 1 = openedCalls a + 1 + openedCalls b
         omega)

theorem receivedCalls_append (a b : List Event) :
    receivedCalls (a ++ b) = receivedCalls a + receivedCalls b := by
  induction a with
  | nil => simp [receivedCalls]
  | cons e a ih =>
    cases e
    all_goals first
      | exact ih
      | (show receivedCalls (a ++ b) + 1 = receivedCalls a + 1 + receivedCalls b
         omega)

/-- The calls of the three kinds counted in a list of calls. -/
theorem onDisconnectedReconnecting_calls (env : Env) (c : Connection) (sw : Bool)
    (error : Int) :
    disconnectedCalls (onDisconnectedReconnecting env c sw error).2 = 0
      ∧ openedCalls (onDisconnectedReconnecting env c sw error).2 = 0
      ∧ receivedCalls (onDisconnectedReconnecting env c sw error).2 = 0 := by
  unfold onDisconnectedReconnecting
  dsimp only
  split_ifs <;> exact ⟨rfl, rfl, rfl⟩

theorem onDisconnectedInternal_calls (env : Env) (c : Connection) (reason error : Int) :
    disconnectedCalls (onDisconnectedInternal env c reason error).2 = 0
      ∧ openedCalls (onDisconnectedInternal env c reason error).2 = 0
      ∧ receivedCalls (onDisconnectedInternal env c reason error).2 = 0 := by
  rw [onDisconnectedInternal_eq]
  dsimp only
  by_cases h : (disconnectReset c reason).connectionState
      = TcpConnectionState.TcpConnectionStageIdle
  · rw [if_pos h]
    exact onDisconnectedReconnecting_calls env _ _ _
  · rw [if_neg h]
    exact ⟨rfl, rfl, rfl⟩

theorem onDisconnected_calls (env : Env) (c : Connection) (reason error : Int) :
    disconnectedCalls (onDisconnected env c reason error).2 = 0
      ∧ openedCalls (onDisconnected env c reason error).2 = 0
      ∧ receivedCalls (onDisconnected env c reason error).2 = 0 := by
  unfold onDisconnected
  split_ifs
  · exact ⟨rfl, rfl, rfl⟩
  · exact onDisconnectedInternal_calls _ _ _ _

/-- Every `closeSocket` invokes the `onDisconnected` hook once, opens nothing
and hands over no data. -/
theorem closeSocket_calls (env : Env) (c : Connection) (reason error : Int) :
    disconnectedCalls (closeSocket env c reason error).2 = 1
      ∧ openedCalls (closeSocket env c reason error).2 = 0
      ∧ receivedCalls (closeSocket env c reason error).2 = 0 := by
  obtain ⟨k, _, _, _, _, _, _, _, _, _, e⟩ := closeSocket_eq env c reason error
  rw [e]
  obtain ⟨h1, h2, h3⟩ := onDisconnected_calls env k reason error
  refine ⟨?_, h2, h3⟩
  show disconnectedCalls (onDisconnected env k reason error).2 + 1 = 1
  rw [h1]

theorem onDisconnectedReconnecting_resolveFlag (env : Env) (c : Connection) (sw : Bool)
    (error : Int) :
    (onDisconnectedReconnecting env c sw error).1.adjustWriteOpAfterResolve
      = c.adjustWriteOpAfterResolve := by
  unfold onDisconnectedReconnecting
  simp only [apply_ite Prod.fst, apply_ite Connection.adjustWriteOpAfterResolve, ite_self]

theorem onDisconnectedInternal_resolveFlag (env : Env) (c : Connection) (reason error : Int) :
    (onDisconnectedInternal env c reason error).1.adjustWriteOpAfterResolve
      = c.adjustWriteOpAfterResolve := by
  unfold onDisconnectedInternal
  simp only [apply_ite Prod.fst, apply_ite Connection.adjustWriteOpAfterResolve,
    onDisconnectedReconnecting_resolveFlag, ite_self]

theorem closeSocket_resolveFlag (env : Env) (c : Connection) (reason error : Int) :
    (closeSocket env c reason error).1.adjustWriteOpAfterResolve = false := by
  unfold closeSocket onDisconnected
  dsimp only
  by_cases h : c.connectionInProcess = true
  · rw [if_pos h]
  · rw [if_neg h]
    exact onDisconnectedInternal_resolveFlag env _ _ _

theorem adjustWriteOp_calls (env : Env) (c : Connection) :
    disconnectedCalls (adjustWriteOp env c).2 ≤ 1
      ∧ openedCalls (adjustWriteOp env c).2 = 0
      ∧ receivedCalls (adjustWriteOp env c).2 = 0 := by
  unfold adjustWriteOp
  dsimp only
  split_ifs
  all_goals first
    | exact ⟨(closeSocket_calls env _ 1 (-1)).1.le, (closeSocket_calls env _ 1 (-1)).2⟩
    | exact ⟨Nat.zero_le _, rfl, rfl⟩

/-- With the resolve flag clear, `openConnectionInternal` invokes the
`onDisconnected` hook at most once. -/
theorem openConnectionInternal_calls (env : Env) (c : Connection)
    (h : c.adjustWriteOpAfterResolve = false) :
    disconnectedCalls (openConnectionInternal env c).2 ≤ 1
      ∧ openedCalls (openConnectionInternal env c).2 = 0
      ∧ receivedCalls (openConnectionInternal env c).2 = 0 := by
  have key : ∀ r : Connection × List Event,
      r.1.adjustWriteOpAfterResolve = false →
      (if r.1.adjustWriteOpAfterResolve then
          ((adjustWriteOp env r.1).1, r.2 ++ (adjustWriteOp env r.1).2) else r) = r := by
    intro r hr
    rw [hr]
    rfl
  have hclose : ∀ k : Connection,
      disconnectedCalls (closeSocket env k 1 (-1)).2 ≤ 1
        ∧ openedCalls (closeSocket env k 1 (-1)).2 = 0
        ∧ receivedCalls (closeSocket env k 1 (-1)).2 = 0 :=
    fun k => ⟨(closeSocket_calls env k 1 (-1)).1.le, (closeSocket_calls env k 1 (-1)).2⟩
  unfold openConnectionInternal
  dsimp only
  cases hfc : env.fcntlOk
  · simp only [Bool.not_false, if_true]
    exact hclose c
  · simp only [Bool.not_true, Bool.false_eq_true, if_false]
    cases hco : env.connectOk
    · simp only [Bool.not_false, if_true]
      rw [key _ (closeSocket_resolveFlag env c 1 (-1))]
      exact hclose c
    · simp only [Bool.not_true, Bool.false_eq_true, if_false]
      by_cases h3 : env.epollCtlAdd c.socketFd = true
      · rw [if_pos h3, key _ h]
        exact ⟨Nat.zero_le _, rfl, rfl⟩
      · rw [if_neg h3, key _ (closeSocket_resolveFlag env _ 1 (-1))]
        exact hclose _

/-- One `openConnection` is one attempt, and invokes the `onDisconnected` hook
at most once. -/
theorem openConnection_calls (env : Env) (c : Connection) (address : String) (port : Nat)
    (ipv6 : Bool) (networkType : Int) :
    disconnectedCalls (openConnection env c address port ipv6 networkType).2 ≤ 1
      ∧ openedCalls (openConnection env c address port ipv6 networkType).2 = 1
      ∧ receivedCalls (openConnection env c address port ipv6 networkType).2 = 0 := by
  have key : ∀ r : Connection × List Event,
      disconnectedCalls r.2 ≤ 1 ∧ openedCalls r.2 = 0 ∧ receivedCalls r.2 = 0 →
      disconnectedCalls (Event.attachConnection :: r.2) ≤ 1
        ∧ openedCalls (Event.attachConnection :: r.2) = 1
        ∧ receivedCalls (Event.attachConnection :: r.2) = 0 := by
    intro r hr
    refine ⟨hr.1, ?_, hr.2.2⟩
    show openedCalls r.2 + 1 = 1
    rw [hr.2.1]
  unfold openConnection
  dsimp only
  refine key _ ?_
  split_ifs
  · exact ⟨(closeSocket_calls env _ 1 (-1)).1.le, (closeSocket_calls env _ 1 (-1)).2⟩
  · exact ⟨(closeSocket_calls env _ 1 (-1)).1.le, (closeSocket_calls env _ 1 (-1)).2⟩
  · exact openConnectionInternal_calls env _ rfl

theorem suspendConnection_calls (env : Env) (c : Connection) (idle : Bool) :
    disconnectedCalls (suspendConnection env c idle).2
        = (if c.connectionState = TcpConnectionState.TcpConnectionStageIdle
              ∨ c.connectionState = TcpConnectionState.TcpConnectionStageSuspended then 0
            else 1)
      ∧ openedCalls (suspendConnection env c idle).2 = 0
      ∧ receivedCalls (suspendConnection env c idle).2 = 0 := by
  unfold suspendConnection dropConnection
  dsimp only
  by_cases h : c.connectionState = TcpConnectionState.TcpConnectionStageIdle
      ∨ c.connectionState = TcpConnectionState.TcpConnectionStageSuspended
  · rw [if_pos h, if_pos h]
    exact ⟨rfl, rfl, rfl⟩
  · rw [if_neg h, if_neg h]
    dsimp only
    rw [disconnectedCalls_append, openedCalls_append, receivedCalls_append]
    obtain ⟨h1, h2, h3⟩ := closeSocket_calls env
      { c with
        reconnectTimerStarted := false
        waitForReconnectTimer := false
        connectionState :=
          if idle then TcpConnectionState.TcpConnectionStageIdle
          else TcpConnectionState.TcpConnectionStageSuspended } 0 0
    rw [h1, h2, h3]
    exact ⟨rfl, rfl, rfl⟩

theorem connectWith_calls (env : Env) (c : Connection)
    (choice : Nat × Option TcpAddress × Nat × Bool) :
    disconnectedCalls (connectWith env c choice).2 ≤ 1
      ∧ openedCalls (connectWith env c choice).2 = 1
      ∧ receivedCalls (connectWith env c choice).2 = 0 := by
  obtain ⟨f, o, v6, m⟩ := choice
  cases o <;> exact openConnection_calls env _ _ _ _ _

theorem connect_calls (env : Env) (c : Connection) :
    openedCalls (connect env c).2 ≤ 1
      ∧ disconnectedCalls (connect env c).2 ≤ openedCalls (connect env c).2
      ∧ receivedCalls (connect env c).2 = 0 := by
  cases h1 : c.waitForReconnectTimer
  · cases h2 : env.isNetworkAvailable
    · unfold connect
      rw [h1, h2]
      exact ⟨Nat.zero_le _, Nat.le_refl _, rfl⟩
    · by_cases h3 : c.connectionState = TcpConnectionState.TcpConnectionStageConnected
          ∨ c.connectionState = TcpConnectionState.TcpConnectionStageConnecting
      · unfold connect
        rw [h1, h2, if_pos h3]
        exact ⟨Nat.zero_le _, Nat.le_refl _, rfl⟩
      · rw [connect_eq env c h1 h2 h3]
        obtain ⟨k1, k2, k3⟩ := connectWith_calls env
          { c with
            connectionInProcess := true
            connectionState := TcpConnectionState.TcpConnectionStageConnecting
            isMediaConnection := false
            manager :=
              (chooseIpv6 env
                { c with
                  connectionInProcess := true
                  connectionState := TcpConnectionState.TcpConnectionStageConnecting
                  isMediaConnection := false }).2 }
          (chooseAddress env c.connectionType
            (chooseIpv6 env
              { c with
                connectionInProcess := true
                connectionState := TcpConnectionState.TcpConnectionStageConnecting
                isMediaConnection := false }).1)
        rw [k2]
        exact ⟨Nat.le_refl _, k1, k3⟩
  · unfold connect
    rw [h1]
    exact ⟨Nat.zero_le _, Nat.le_refl _, rfl⟩

theorem reconnect_calls (env : Env) (c : Connection) :
    openedCalls (reconnect env c).2 ≤ 1
      ∧ disconnectedCalls (reconnect env c).2 ≤ openedCalls (reconnect env c).2 + 1
      ∧ receivedCalls (reconnect env c).2 = 0 := by
  unfold reconnect
  by_cases hp : c.connectionType = ConnectionType.ConnectionTypeProxy
  · rw [if_pos hp]
    obtain ⟨s1, s2, s3⟩ := suspendConnection_calls env c false
    rw [s1, s2, s3]
    refine ⟨Nat.zero_le _, ?_, rfl⟩
    split_ifs
    · exact Nat.zero_le _
    · exact Nat.le_refl _
  · rw [if_neg hp]
    show openedCalls (_ ++ _) ≤ 1 ∧ disconnectedCalls (_ ++ _) ≤ openedCalls (_ ++ _) + 1
      ∧ receivedCalls (_ ++ _) = 0
    rw [openedCalls_append, disconnectedCalls_append, receivedCalls_append]
    obtain ⟨s1, s2, s3⟩ := suspendConnection_calls env { c with forceNextPort := true } true
    obtain ⟨k1, k2, k3⟩ := connect_calls env
      (suspendConnection env { c with forceNextPort := true } true).1
    rw [s2, s3, k3]
    have hs : disconnectedCalls (suspendConnection env { c with forceNextPort := true } true).2
        ≤ 1 := by
      rw [s1]
      split_ifs
      · exact Nat.zero_le _
      · exact Nat.le_refl _
    refine ⟨?_, ?_, rfl⟩
    · omega
    · omega

/-- C21, counterexample.  One connect attempt, two `onDisconnected` calls: the
sample connection connects (one `openConnection`), the connect times out
(`checkTimeout` returns true and closes the socket, first call), and the
connection, now Reconnecting with no socket, is suspended:
`suspendConnection` calls `dropConnection`, whose `closeSocket` invokes the
hook a second time although no socket was opened since the first call. -/
theorem onDisconnected_twice_for_one_attempt :
    (checkTimeout sampleEnv (connect sampleEnv sampleConnection).1 12001).1 = true
      ∧ (checkTimeout sampleEnv (connect sampleEnv sampleConnection).1 12001).2.1.socketFd = -1
      ∧ openedCalls
          ((connect sampleEnv sampleConnection).2
            ++ (checkTimeout sampleEnv (connect sampleEnv sampleConnection).1 12001).2.2
            ++ (suspendConnection sampleEnv
                (checkTimeout sampleEnv (connect sampleEnv sampleConnection).1 12001).2.1
                false).2) = 1
      ∧ disconnectedCalls
          ((connect sampleEnv sampleConnection).2
            ++ (checkTimeout sampleEnv (connect sampleEnv sampleConnection).1 12001).2.2
            ++ (suspendConnection sampleEnv
                (checkTimeout sampleEnv (connect sampleEnv sampleConnection).1 12001).2.1
                false).2) = 2 := by
  decide!

/-- C21 (amended): the `onDisconnected` hook is invoked once per `closeSocket`
call, whether or not a socket is open, and not once per connect attempt.  In
every state of the connection: `closeSocket` and `dropConnection` invoke it
exactly once; `checkTimeout` invokes it once when it returns true and not at
all otherwise; `openConnection` is one attempt and invokes it at most once;
`suspendConnection` does not invoke it from Idle or Suspended and invokes it
exactly once from every other state; `connect` opens at most one attempt and
invokes the hook at most as often as it opens; `reconnect` opens at most one
attempt and invokes the hook at most once more than it opens. -/
theorem onDisconnected_once_per_closeSocket (env : Env) (c : Connection) :
    (∀ reason error, disconnectedCalls (closeSocket env c reason error).2 = 1)
      ∧ disconnectedCalls (dropConnection env c).2 = 1
      ∧ (∀ now, disconnectedCalls (checkTimeout env c now).2.2
          = if (checkTimeout env c now).1 = true then 1 else 0)
      ∧ (∀ address port ipv6 networkType,
          openedCalls (openConnection env c address port ipv6 networkType).2 = 1
            ∧ disconnectedCalls (openConnection env c address port ipv6 networkType).2 ≤ 1)
      ∧ (∀ idle, disconnectedCalls (suspendConnection env c idle).2
          = if c.connectionState = TcpConnectionState.TcpConnectionStageIdle
                ∨ c.connectionState = TcpConnectionState.TcpConnectionStageSuspended then 0
            else 1)
      ∧ (openedCalls (connect env c).2 ≤ 1
          ∧ disconnectedCalls (connect env c).2 ≤ openedCalls (connect env c).2)
      ∧ (openedCalls (reconnect env c).2 ≤ 1
          ∧ disconnectedCalls (reconnect env c).2 ≤ openedCalls (reconnect env c).2 + 1) := by
  refine ⟨fun reason error => (closeSocket_calls env c reason error).1,
    (closeSocket_calls env c 0 0).1, fun now => ?_,
    fun address port ipv6 networkType =>
      ⟨(openConnection_calls env c address port ipv6 networkType).2.1,
        (openConnection_calls env c address port ipv6 networkType).1⟩,
    fun idle => (suspendConnection_calls env c idle).1,
    ⟨(connect_calls env c).1, (connect_calls env c).2.1⟩,
    ⟨(reconnect_calls env c).1, (reconnect_calls env c).2.1⟩⟩
  unfold checkTimeout
  by_cases h1 : c.timeout ≠ 0 ∧ now - c.lastEventTime > (c.timeout : Int) * 1000
  · rw [if_pos h1]
    by_cases h2 : (!c.onConnectedSent || env.hasPendingRequests) = true
    · rw [if_pos h2]
      exact (closeSocket_calls env c 2 0).1
    · rw [if_neg h2]
      rfl
  · rw [if_neg h1]
    rfl

theorem onEventWritable_received (env : Env) (c : Connection) :
    receivedCalls (onEventWritable env c).2.2 = 0 := by
  unfold onEventWritable
  dsimp only
  split_ifs
  all_goals first
    | exact (closeSocket_calls env _ 1 _).2.2
    | rfl
    | (show receivedCalls (_ ++ _) = 0
       rw [receivedCalls_append, (closeSocket_calls env _ 1 _).2.2])
    | (show receivedCalls (_ ++ _) = 0
       rw [receivedCalls_append, (adjustWriteOp_calls env _).2.2]
       rfl)

/-- On an open socket without a pending error, the writable part of `onEvent`
starts with `onConnected` when it has not been sent yet. -/
theorem onEventWritable_head (env : Env) (c : Connection) (hfd : 0 ≤ c.socketFd)
    (hsent : c.onConnectedSent = false) (hok : env.getsockoptWritable c.socketFd = (0, 0)) :
    ∃ tail, (onEventWritable env c).2.2 = Event.onConnectionConnected :: tail := by
  have h1 : decide ((0 : Int) ≠ 0 ∨ (0 : Int) ≠ 0) = false := by decide
  unfold onEventWritable checkSocketError
  rw [if_neg (not_lt.mpr hfd), hok]
  dsimp only
  rw [h1, hsent]
  simp only [Bool.false_eq_true, if_false, Bool.not_false, if_true]
  split_ifs
  all_goals exact ⟨_, rfl⟩

/-- The first result of `recv` being a non-empty chunk, the loop starts with the
`onReceivedData` hook. -/
theorem recvLoop_head (env : Env) (c : Connection) (bytes : List Nat)
    (rest : List (Option (List Nat))) (hne : bytes ≠ [])
    (t : Bool × Connection × List Event) (ht : recvLoop env c (some bytes :: rest) = some t) :
    ∃ tail, t.2.2 = Event.onReceivedData (bytes.take READ_BUFFER_SIZE).length :: tail := by
  have hpos : (bytes.take READ_BUFFER_SIZE).length > 0 := by
    cases bytes with
    | nil => exact absurd rfl hne
    | cons b l =>
      have : READ_BUFFER_SIZE = (READ_BUFFER_SIZE - 1) + 1 := by decide
      rw [this, List.take_succ_cons]
      exact Nat.succ_pos _
  unfold recvLoop at ht
  dsimp only at ht
  rw [if_pos hpos] at ht
  revert ht
  generalize onReceivedData env _ _ = q
  intro ht
  cases q with
  | none => cases ht
  | some q =>
    dsimp only [Option.map] at ht
    by_cases hlen : (bytes.take READ_BUFFER_SIZE).length ≠ READ_BUFFER_SIZE
    · rw [if_pos hlen] at ht
      cases ht
      exact ⟨_, rfl⟩
    · rw [if_neg hlen] at ht
      revert ht
      generalize recvLoop env q.1 rest = l
      intro ht
      cases l with
      | none => cases ht
      | some l =>
        cases ht
        exact ⟨_, rfl⟩

/-- The part of `onEvent` after the readable part went through: the calls made
before are followed by those of the writable part and of the hang-up test. -/
theorem onEvent_continue (env : Env) (events : Nat) (evs : List Event)
    (w : Bool × Connection × List Event) :
    ∃ d tail,
      (if !w.1 then some (w.2.1, evs ++ w.2.2)
        else if events &&& EPOLLHUP ≠ 0 ∨ events &&& EPOLLRDHUP ≠ 0 then
          some ((closeSocket env w.2.1 1 (-1)).1, evs ++ w.2.2 ++ (closeSocket env w.2.1 1 (-1)).2)
        else some (w.2.1, evs ++ w.2.2))
        = some (d, evs ++ (w.2.2 ++ tail)) ∧ receivedCalls tail = 0 := by
  cases hw : w.1
  · refine ⟨w.2.1, [], ?_, rfl⟩
    rw [List.append_nil]
    rfl
  · by_cases hup : events &&& EPOLLHUP ≠ 0 ∨ events &&& EPOLLRDHUP ≠ 0
    · refine ⟨(closeSocket env w.2.1 1 (-1)).1, (closeSocket env w.2.1 1 (-1)).2, ?_, (closeSocket_calls env _ 1 (-1)).2.2⟩
      rw [if_pos hup, List.append_assoc]
      rfl
    · refine ⟨w.2.1, [], ?_, rfl⟩
      rw [if_neg hup, List.append_nil]
      rfl

/-- C22, counterexample.  The sample connection has just connected (state
Connecting, `onConnected` not sent) and its first event has both the readable
and the writable bit; `recv` returns the five bytes `01 aa bb cc dd`.  The
readable part runs first: the `onReceivedData` hook is invoked, and the parser
even hands a payload to the layer above, before `onConnected` is invoked by the
writable part. -/
theorem data_received_before_onConnected :
    (connect sampleEnv sampleConnection).1.onConnectedSent = false
      ∧ (onEvent { sampleEnv with recv := [some [1, 0xaa, 0xbb, 0xcc, 0xdd]] }
          (connect sampleEnv sampleConnection).1 (EPOLLIN ||| EPOLLOUT)).map Prod.snd
        = some [Event.onReceivedData 5, Event.storeCurrentAddressAndPortNum,
            Event.onConnectionDataReceived [0xaa, 0xbb, 0xcc, 0xdd] 4,
            Event.onConnectionConnected] := by
  decide!

/-- C22 (amended): `onEvent` runs the readable part before the writable part,
so `onConnected` precedes the data only when a writable event comes before the
first readable one.  On an open socket: (1) an event without the readable bit
returns and never invokes the `onReceivedData` hook, and if it has the writable
bit, no socket error is pending and `onConnected` was not sent yet, the first
call it makes is `onConnected`; (2) an event with the readable bit, no socket
error pending and a first `recv` that returns a non-empty chunk invokes the
`onReceivedData` hook with that chunk as its first call, whether or not
`onConnected` was sent, so any `onConnected` of the same event comes after
it. -/
theorem onConnected_after_readable_part (env : Env) (c : Connection) (events : Nat)
    (hfd : 0 ≤ c.socketFd) :
    (events &&& EPOLLIN = 0 →
        ∃ r, onEvent env c events = some r ∧ receivedCalls r.2 = 0
          ∧ (events &&& EPOLLOUT ≠ 0 → c.onConnectedSent = false →
              env.getsockoptWritable c.socketFd = (0, 0) →
              ∃ tail, r.2 = Event.onConnectionConnected :: tail))
      ∧ (events &&& EPOLLIN ≠ 0 → env.getsockoptReadable c.socketFd = (0, 0) →
          ∀ bytes rest, env.recv = some bytes :: rest → bytes ≠ [] →
          ∀ r, onEvent env c events = some r →
            ∃ tail, r.2
              = Event.onReceivedData (bytes.take READ_BUFFER_SIZE).length :: tail) := by
  refine ⟨fun hin => ?_, fun hin hok bytes rest hrecv hne r hr => ?_⟩
  · unfold onEvent
    rw [if_neg (not_not.mpr hin)]
    dsimp only
    by_cases hout : events &&& EPOLLOUT ≠ 0
    · rw [if_pos hout]
      obtain ⟨d, tail, e, ht⟩ := onEvent_continue env events [] (onEventWritable env c)
      rw [e]
      refine ⟨_, rfl, ?_, fun _ hsent hok => ?_⟩
      · show receivedCalls ([] ++ (_ ++ tail)) = 0
        rw [List.nil_append, receivedCalls_append, onEventWritable_received, ht]
      · obtain ⟨t, hhead⟩ := onEventWritable_head env c hfd hsent hok
        exact ⟨t ++ tail, by rw [hhead]; rfl⟩
    · rw [if_neg hout]
      obtain ⟨d, tail, e, ht⟩ := onEvent_continue env events [] (true, c, [])
      rw [e]
      refine ⟨_, rfl, ?_, fun h => absurd h hout⟩
      show receivedCalls tail = 0
      exact ht
  · have h1 : decide ((0 : Int) ≠ 0 ∨ (0 : Int) ≠ 0) = false := by decide
    unfold onEvent checkSocketError at hr
    rw [if_pos hin, if_neg (not_lt.mpr hfd), hok] at hr
    dsimp only at hr
    rw [h1, hrecv] at hr
    simp only [Bool.false_eq_true, if_false] at hr
    have hloop := recvLoop_head env c bytes rest hne
    revert hr hloop
    generalize recvLoop env c (some bytes :: rest) = l
    intro hr hloop
    cases l with
    | none => cases hr
    | some t =>
      obtain ⟨b, k, evs⟩ := t
      obtain ⟨t0, ht0⟩ := hloop (b, k, evs) rfl
      dsimp only at ht0
      subst ht0
      cases b
      · dsimp only at hr
        cases hr
        exact ⟨_, rfl⟩
      · dsimp only at hr
        obtain ⟨d, tail, e, _⟩ := onEvent_continue env events
          (Event.onReceivedData (bytes.take READ_BUFFER_SIZE).length :: t0)
          (if events &&& EPOLLOUT ≠ 0 then onEventWritable env k else (true, k, []))
        rw [e] at hr
        cases hr
        exact ⟨_, rfl⟩

theorem onConnected_after_readable_part_witness :
    (∃ r tail, onEvent sampleEnv (connect sampleEnv sampleConnection).1 EPOLLOUT = some r
        ∧ receivedCalls r.2 = 0 ∧ r.2 = Event.onConnectionConnected :: tail)
      ∧ (∃ r tail,
          onEvent { sampleEnv with recv := [some [1, 0xaa, 0xbb, 0xcc, 0xdd]] }
              (connect sampleEnv sampleConnection).1 (EPOLLIN ||| EPOLLOUT) = some r
            ∧ r.2 = Event.onReceivedData
                (List.take READ_BUFFER_SIZE [1, 0xaa, 0xbb, 0xcc, 0xdd]).length :: tail) := by
  refine ⟨?_, ?_⟩
  · obtain ⟨r, hr, h0, hc⟩ :=
      (onConnected_after_readable_part sampleEnv (connect sampleEnv sampleConnection).1
        EPOLLOUT (by decide!)).1 (by decide)
    obtain ⟨tail, ht⟩ := hc (by decide) (by decide!) rfl
    exact ⟨r, tail, hr, h0, ht⟩
  · obtain ⟨r, hr⟩ := Option.isSome_iff_exists.mp
      (by decide! :
        (onEvent { sampleEnv with recv := [some [1, 0xaa, 0xbb, 0xcc, 0xdd]] }
          (connect sampleEnv sampleConnection).1 (EPOLLIN ||| EPOLLOUT)).isSome = true)
    obtain ⟨tail, ht⟩ :=
      (onConnected_after_readable_part { sampleEnv with recv := [some [1, 0xaa, 0xbb, 0xcc, 0xdd]] }
        (connect sampleEnv sampleConnection).1 (EPOLLIN ||| EPOLLOUT) (by decide!)).2
        (by decide) rfl [1, 0xaa, 0xbb, 0xcc, 0xdd] [] rfl (by decide) r hr
    exact ⟨r, tail, hr, ht⟩

/-! ## The reassembly state under the operations other than `onReceivedData` -/

theorem restKept_refl (c : Connection) : RestKept c c := Or.inl ⟨rfl, rfl⟩

theorem restKept_trans {a b c : Connection} (h1 : RestKept a b) (h2 : RestKept b c) :
    RestKept a c := by
  rcases h2 with ⟨e1, e2⟩ | e
  · rcases h1 with ⟨g1, g2⟩ | g
    · exact Or.inl ⟨e1.trans g1, e2.trans g2⟩
    · exact Or.inr (e1.trans g)
  · exact Or.inr e

theorem restInv_of_kept {c d : Connection} (h : RestKept c d) (hc : RestInv c) : RestInv d := by
  rcases h with ⟨e1, e2⟩ | e
  · unfold RestInv at hc ⊢
    rw [e1, e2]
    exact hc
  · unfold RestInv
    rw [e]
    trivial

theorem restInv_of_none {c : Connection} (h : c.restOfTheData = none) : RestInv c := by
  unfold RestInv
  rw [h]
  trivial

theorem onDisconnectedReconnecting_rest (env : Env) (c : Connection) (sw : Bool)
    (error : Int) :
    (onDisconnectedReconnecting env c sw error).1.restOfTheData = c.restOfTheData := by
  unfold onDisconnectedReconnecting
  simp only [apply_ite Prod.fst, apply_ite Connection.restOfTheData, ite_self]

theorem onDisconnectedInternal_rest (env : Env) (c : Connection) (reason error : Int) :
    (onDisconnectedInternal env c reason error).1.restOfTheData = none := by
  have f := (disconnectReset_fields c reason).2.2.2.2.2.2.2.2.2.2.2.2.2.1
  rw [onDisconnectedInternal_eq]
  by_cases hidle : (disconnectReset c reason).connectionState
      = TcpConnectionState.TcpConnectionStageIdle
  · rw [if_pos hidle]
    exact (onDisconnectedReconnecting_rest env _ _ _).trans f
  · rw [if_neg hidle]
    exact f

theorem onDisconnected_restKept (env : Env) (b c : Connection) (reason error : Int)
    (hb : RestKept b c) : RestKept b (onDisconnected env c reason error).1 := by
  unfold onDisconnected
  split_ifs
  · exact hb
  · exact Or.inr (onDisconnectedInternal_rest env c reason error)

theorem closeSocket_restKept (env : Env) (b c : Connection) (reason error : Int)
    (hb : RestKept b c) : RestKept b (closeSocket env c reason error).1 := by
  unfold closeSocket
  dsimp only
  exact onDisconnected_restKept env b _ reason error hb

theorem adjustWriteOp_restKept (env : Env) (b c : Connection) (hb : RestKept b c) :
    RestKept b (adjustWriteOp env c).1 := by
  unfold adjustWriteOp
  dsimp only
  split_ifs
  all_goals first
    | exact closeSocket_restKept env b _ 1 (-1) hb
    | exact hb

theorem openConnectionInternal_restKept (env : Env) (b c : Connection)
    (hb : RestKept b c) : RestKept b (openConnectionInternal env c).1 := by
  have key : ∀ r : Connection × List Event, RestKept b r.1 →
      RestKept b (if r.1.adjustWriteOpAfterResolve then
          ((adjustWriteOp env r.1).1, r.2 ++ (adjustWriteOp env r.1).2) else r).1 := by
    intro r hr
    split_ifs
    · exact adjustWriteOp_restKept env b r.1 hr
    · exact hr
  unfold openConnectionInternal
  dsimp only
  cases hfc : env.fcntlOk
  · simp only [Bool.not_false, if_true]
    exact closeSocket_restKept env b _ 1 (-1) hb
  · simp only [Bool.not_true, Bool.false_eq_true, if_false]
    apply key
    cases hco : env.connectOk
    · simp only [Bool.not_false, if_true]
      exact closeSocket_restKept env b _ 1 (-1) hb
    · simp only [Bool.not_true, Bool.false_eq_true, if_false]
      by_cases h3 : env.epollCtlAdd c.socketFd = true
      · rw [if_pos h3]
        exact hb
      · rw [if_neg h3]
        exact closeSocket_restKept env b _ 1 (-1) hb

theorem openConnection_restKept (env : Env) (b c : Connection) (address : String)
    (port : Nat) (ipv6 : Bool) (networkType : Int) (hb : RestKept b c) :
    RestKept b (openConnection env c address port ipv6 networkType).1 := by
  unfold openConnection
  dsimp only
  split_ifs
  · exact closeSocket_restKept env b _ 1 (-1) hb
  · exact closeSocket_restKept env b _ 1 (-1) hb
  · exact openConnectionInternal_restKept env b _ hb

theorem connectWith_rest (env : Env) (c : Connection)
    (choice : Nat × Option TcpAddress × Nat × Bool) :
    (connectWith env c choice).1.restOfTheData = none := by
  have key : ∀ (k : Connection) (address : String) (port : Nat) (v6 : Bool) (nt : Int),
      k.restOfTheData = none →
      ({ setTimeout env (openConnection env k address port v6 nt).1
          (connectTimeout (openConnection env k address port v6 nt).1) with
          connectionInProcess := false } : Connection).restOfTheData = none := by
    intro k address port v6 nt g
    rcases openConnection_restKept env k k address port v6 nt (restKept_refl k) with ⟨e, _⟩ | e
    · exact e.trans g
    · exact e
  obtain ⟨f, o, v6, m⟩ := choice
  cases o with
  | none => exact key _ _ _ _ _ rfl
  | some a =>
    unfold connectWith
    dsimp only
    split_ifs
    · exact key _ _ _ _ _ rfl
    · exact key _ _ _ _ _ rfl

theorem connect_restKept (env : Env) (b c : Connection) (hb : RestKept b c) :
    RestKept b (connect env c).1 := by
  cases h1 : c.waitForReconnectTimer
  · cases h2 : env.isNetworkAvailable
    · unfold connect
      rw [h1, h2]
      exact hb
    · by_cases h3 : c.connectionState = TcpConnectionState.TcpConnectionStageConnected
          ∨ c.connectionState = TcpConnectionState.TcpConnectionStageConnecting
      · unfold connect
        rw [h1, h2, if_pos h3]
        exact hb
      · rw [connect_eq env c h1 h2 h3]
        exact Or.inr (connectWith_rest env _ _)
  · unfold connect
    rw [h1]
    exact hb

theorem suspendConnection_restKept (env : Env) (b c : Connection) (idle : Bool)
    (hb : RestKept b c) : RestKept b (suspendConnection env c idle).1 := by
  unfold suspendConnection
  dsimp only
  by_cases hg : c.connectionState = TcpConnectionState.TcpConnectionStageIdle
      ∨ c.connectionState = TcpConnectionState.TcpConnectionStageSuspended
  · rw [if_pos hg]
    exact hb
  · rw [if_neg hg]
    exact Or.inr rfl

theorem reconnect_restKept (env : Env) (b c : Connection) (hb : RestKept b c) :
    RestKept b (reconnect env c).1 := by
  unfold reconnect
  split_ifs
  · exact suspendConnection_restKept env b c false hb
  · refine connect_restKept env b _ (suspendConnection_restKept env b _ true ?_)
    exact hb

theorem writeBuffer_restKept (env : Env) (b c : Connection) (buffer : NativeByteBuffer)
    (hb : RestKept b c) : RestKept b (writeBuffer env c buffer).1 :=
  adjustWriteOp_restKept env b _ hb

theorem writeLength_restKept (env : Env) (b c : Connection) (buffer : NativeByteBuffer)
    (limit : Nat) (reportAck : Bool) (hb : RestKept b c) :
    RestKept b (writeLength env c buffer limit reportAck).1 := by
  unfold writeLength
  dsimp only
  split_ifs <;> exact hb

theorem sendFrame_restKept (env : Env) (b c : Connection) (buffer buff : NativeByteBuffer)
    (reportAck : Bool) (hb : RestKept b c) :
    RestKept b (sendFrame env c buffer buff reportAck).1 := by
  unfold sendFrame
  dsimp only
  refine writeBuffer_restKept env b _ _ ?_
  show RestKept b (writeBuffer env (writeLength env c buffer buff.limit reportAck).1 _).1
  exact writeBuffer_restKept env b _ _ (writeLength_restKept env b c buffer _ reportAck hb)

theorem writePrelude_restKept (env : Env) (b c : Connection) (buffer : NativeByteBuffer)
    (block : List Nat) (hb : RestKept b c) : RestKept b (writePrelude env c buffer block).1 := hb

theorem sendData_restKept (env : Env) (b c : Connection)
    (buff : Option NativeByteBuffer) (reportAck encrypted : Bool) (hb : RestKept b c)
    (r : Connection × List Event)
    (hr : sendData env c buff reportAck encrypted = some r) : RestKept b r.1 := by
  cases buff with
  | none =>
    have e : sendData env c none reportAck encrypted = some (c, []) := rfl
    rw [e] at hr
    cases hr
    exact hb
  | some bf =>
    have h0 : RestKept b
        (if c.connectionState = TcpConnectionState.TcpConnectionStageIdle
            ∨ c.connectionState = TcpConnectionState.TcpConnectionStageReconnecting
            ∨ c.connectionState = TcpConnectionState.TcpConnectionStageSuspended
          then connect env c else (c, [])).1 := by
      split_ifs
      · exact connect_restKept env b c hb
      · exact hb
    unfold sendData at hr
    dsimp only at hr
    generalize (if c.connectionState = TcpConnectionState.TcpConnectionStageIdle
            ∨ c.connectionState = TcpConnectionState.TcpConnectionStageReconnecting
            ∨ c.connectionState = TcpConnectionState.TcpConnectionStageSuspended
          then connect env c else (c, [])) = r0 at h0 hr
    obtain ⟨k, ev⟩ := r0
    dsimp only at h0 hr
    by_cases hd : isDisconnected k = true
    · rw [if_pos hd] at hr
      cases hr
      exact h0
    · rw [if_neg hd] at hr
      cases hfp : k.firstPacketSent
      · rw [hfp] at hr
        simp only [Bool.not_false, if_true] at hr
        cases hbk : firstAccepted env.randBlocks with
        | none =>
          rw [hbk] at hr
          cases hr
        | some block =>
          rw [hbk] at hr
          simp only [Option.map_some'] at hr
          cases hr
          exact sendFrame_restKept env b _ _ _ _ (writePrelude_restKept env b k _ block h0)
      · rw [hfp] at hr
        simp only [Bool.not_true, Bool.false_eq_true, if_false] at hr
        cases hr
        exact sendFrame_restKept env b _ _ _ _ h0

/-! ## The frame loop terminates -/

theorem announcedLength_congr (b1 b2 : Nat → Nat) (m : Nat) (h0 : b2 m = b1 m)
    (h : b1 m = 0x7f → b2 (m + 1) = b1 (m + 1) ∧ b2 (m + 2) = b1 (m + 2)
      ∧ b2 (m + 3) = b1 (m + 3)) :
    announcedLength b2 m = announcedLength b1 m := by
  unfold announcedLength
  rw [h0]
  by_cases hl : b1 m ≠ 0x7f
  · rw [if_pos hl, if_pos hl]
  · rw [if_neg hl, if_neg hl]
    obtain ⟨h1, h2, h3⟩ := h (not_not.mp hl)
    rw [h1, h2, h3]

/-- Being framed depends on the bytes below `total` only. -/
theorem framed_congr (b1 b2 : Nat → Nat) (total : Nat) (h : ∀ i, i < total → b2 i = b1 i)
    (hf : Framed b1 total) : Framed b2 total := by
  obtain ⟨k, hacks, hhead⟩ := hf
  refine ⟨k, fun i hi => ?_, fun hk => ?_⟩
  · obtain ⟨h1, h2⟩ := hacks i hi
    refine ⟨h1, ?_⟩
    rw [h _ h1]
    exact h2
  · obtain ⟨h1, h2⟩ := hhead hk
    have e0 := h _ hk
    refine ⟨by rw [e0]; exact h1, fun hc => ?_⟩
    rw [e0] at hc
    rw [← h2 hc]
    apply announcedLength_congr _ _ _ e0
    intro h7f
    rcases hc with hc | hc
    · exact absurd h7f hc
    · exact ⟨h _ (by omega), h _ (by omega), h _ (by omega)⟩

/-- In a framed buffer, the first byte after the quick-acks that is not a
quick-ack is the length field of the awaited frame. -/
theorem framed_head (bytes : Nat → Nat) (total j : Nat) (hf : Framed bytes total)
    (hj : 4 * j < total) (hacks : ∀ i, i < j → bytes (4 * i) &&& (1 <<< 7) ≠ 0)
    (hna : bytes (4 * j) &&& (1 <<< 7) = 0) :
    bytes (4 * j) ≠ 0x7f ∨ 4 * j + 4 ≤ total → announcedLength bytes (4 * j) = total := by
  obtain ⟨k, kacks, khead⟩ := hf
  rcases Nat.lt_trichotomy k j with h | h | h
  · exact absurd (khead (by omega)).1 (hacks k h)
  · subst h
    exact (khead hj).2
  · exact absurd hna (kacks j h).2

/-- Quick-acks followed by the length field of the awaited frame are framed,
also when the frame length cuts them short. -/
theorem framed_of_head (bytes : Nat → Nat) (total j : Nat)
    (hacks : ∀ i, i < j → 4 * i < total → bytes (4 * i) &&& (1 <<< 7) ≠ 0)
    (hhead : 4 * j < total → bytes (4 * j) &&& (1 <<< 7) = 0
      ∧ (bytes (4 * j) ≠ 0x7f ∨ 4 * j + 4 ≤ total → announcedLength bytes (4 * j) = total)) :
    Framed bytes total := by
  by_cases h : 4 * j < total
  · exact ⟨j, fun i hi => ⟨by omega, hacks i hi (by omega)⟩, hhead⟩
  · refine ⟨(total + 3) / 4, fun i hi => ?_, fun hk => ?_⟩
    · have h1 : 4 * i < total := by omega
      exact ⟨h1, hacks i (by omega) h1⟩
    · omega

theorem writeBytes_dst (dst src : NativeByteBuffer) (h : dst.WF) :
    (dst.writeBytes src).1.WF ∧ (dst.writeBytes src).1.limit = dst.limit
      ∧ (dst.writeBytes src).1.capacity = dst.capacity
      ∧ dst.position ≤ (dst.writeBytes src).1.position
      ∧ ∀ i, i < dst.position → (dst.writeBytes src).1.bytes i = dst.bytes i := by
  obtain ⟨h1, h2⟩ := h
  unfold writeBytes
  dsimp only
  by_cases h3 : src.limit - src.position = 0
  · rw [if_pos h3]
    exact ⟨⟨h1, h2⟩, rfl, rfl, Nat.le_refl _, fun _ _ => rfl⟩
  · rw [if_neg h3]
    by_cases h4 : dst.position + (src.limit - src.position) > dst.limit
    · rw [if_pos h4]
      exact ⟨⟨h1, h2⟩, rfl, rfl, Nat.le_refl _, fun _ _ => rfl⟩
    · rw [if_neg h4]
      refine ⟨⟨?_, h2⟩, rfl, rfl, ?_, fun i hi => ?_⟩
      · dsimp only
        omega
      · dsimp only
        omega
      · dsimp only
        rw [if_neg (by omega)]

theorem writeBytes_src (dst src : NativeByteBuffer) (h : src.WF) :
    (dst.writeBytes src).2.WF ∧ (dst.writeBytes src).2.limit = src.limit
      ∧ (dst.writeBytes src).2.capacity = src.capacity := by
  obtain ⟨h1, h2⟩ := h
  unfold writeBytes
  dsimp only
  by_cases h3 : src.limit - src.position = 0
  · rw [if_pos h3]
    exact ⟨⟨h1, h2⟩, rfl, rfl⟩
  · rw [if_neg h3]
    by_cases h4 : dst.position + (src.limit - src.position) > dst.limit
    · rw [if_pos h4]
      exact ⟨⟨h1, h2⟩, rfl, rfl⟩
    · rw [if_neg h4, setPosition_of_le (Nat.le_refl _)]
      exact ⟨⟨Nat.le_refl _, h2⟩, rfl, rfl⟩

/-- The bytes a fresh pool buffer holds after it took the unread bytes of
`src`. -/
theorem fresh_copy_bytes (env : Env) (size : Nat) (h : size ≤ env.poolCapacity size)
    (src : NativeByteBuffer) (h1 : src.position < src.limit)
    (h2 : src.limit - src.position ≤ size) :
    ((getFreeBuffer env size).writeBytes src).1.WF
      ∧ ((getFreeBuffer env size).writeBytes src).1.position = src.limit - src.position
      ∧ ((getFreeBuffer env size).writeBytes src).1.limit = size
      ∧ ∀ i, i < src.limit - src.position →
          ((getFreeBuffer env size).writeBytes src).1.bytes i = src.bytes (src.position + i) := by
  rw [getFreeBuffer_eq env size h]
  unfold writeBytes
  dsimp only
  rw [if_neg (by omega), if_neg (by omega)]
  refine ⟨⟨?_, h⟩, ?_, rfl, fun i hi => ?_⟩
  · dsimp only
    omega
  · dsimp only
    omega
  · dsimp only
    rw [if_pos ⟨Nat.zero_le _, by omega⟩, Nat.sub_zero]

theorem restInv_some (conn : Connection) (r : NativeByteBuffer) (hwf : r.WF)
    (h : conn.lastPacketLength ≠ 0 →
      r.limit = conn.lastPacketLength ∧ conn.lastPacketLength < 4294967296
        ∧ ∀ bytes : Nat → Nat, (∀ i, i < r.position → bytes i = r.bytes i) →
            Framed bytes conn.lastPacketLength) :
    RestInv { conn with restOfTheData := some r } :=
  ⟨hwf, h⟩

/-- The loop invariant does not depend on the calls made nor on the fields of
the connection other than `lastPacketLength`. -/
theorem loopInv_conn (c1 c2 : Connection) (buffer : NativeByteBuffer) (rest : RestRef)
    (later : Option NativeByteBuffer) (e1 e2 : List Event)
    (hL : c2.lastPacketLength = c1.lastPacketLength)
    (h : LoopInv ⟨c1, buffer, rest, later, e1⟩) : LoopInv ⟨c2, buffer, rest, later, e2⟩ := by
  unfold LoopInv at h ⊢
  dsimp only at h ⊢
  rw [hL]
  exact h

/-- When the loop ends because the active buffer is used up, the reassembly
state it leaves is in order. -/
theorem finish_restInv (s : ParseState) (h : LoopInv s)
    (hrem : s.buffer.hasRemaining = false) : RestInv s.finish.1 := by
  obtain ⟨conn, buffer, rest, later, events⟩ := s
  obtain ⟨hwf, _, hrest⟩ := h
  dsimp only at hwf hrest hrem
  have hpos : buffer.position = buffer.limit := by
    have : ¬ buffer.position < buffer.limit := by
      intro hlt
      have : buffer.hasRemaining = true := decide_eq_true hlt
      rw [hrem] at this
      cases this
    have := hwf.1
    omega
  rcases hrest with hnull | ⟨hsame, _, hstate⟩
  · subst hnull
    exact restInv_of_none rfl
  · subst hsame
    refine restInv_some conn buffer hwf (fun hL => ?_)
    rcases hstate with ⟨h0, _⟩ | ⟨_, hlim, hlt, hfr⟩
    · exact absurd h0 hL
    · refine ⟨hlim, hlt, fun bytes hb => framed_congr _ _ _ (fun i hi => hb i ?_) hfr⟩
      omega

/-- The stash of an incomplete length field leaves the reassembly state in
order. -/
theorem stashHeader_restInv (env : Env) (hpool : ∀ n, n ≤ env.poolCapacity n)
    (s : ParseState) : RestInv (stashHeader env s).finish.1 := by
  have hfresh : (getFreeBuffer env 16384).WF := by
    rw [getFreeBuffer_eq env 16384 (hpool _)]
    exact ⟨Nat.zero_le _, hpool _⟩
  obtain ⟨w1, w2, w3, _, _⟩ := writeBytes_dst (getFreeBuffer env 16384) s.buffer hfresh
  unfold stashHeader ParseState.finish
  dsimp only
  refine restInv_some { s.conn with lastPacketLength := 0 } _ ?_ (fun hL => absurd rfl hL)
  rw [setLimit_of_le (by have := w1.1; have := w1.2; omega) (Nat.le_refl _)]
  exact ⟨Nat.le_refl _, by have := w1.1; have := w1.2; dsimp only; omega⟩

/-- The reassembly state is in order when the function returns right after a
length field was read. -/
theorem afterHeader_restInv (conn : Connection) (b0 : NativeByteBuffer) (rest : RestRef)
    (later : Option NativeByteBuffer) (events : List Event) (hdr : Nat)
    (hinv : LoopInv ⟨conn, b0, rest, later, events⟩)
    (hhdr : b0.position + hdr ≤ b0.limit)
    (hna : b0.bytes b0.position &&& (1 <<< 7) = 0)
    (hh : (b0.bytes b0.position ≠ 0x7f ∧ hdr = 1) ∨ (b0.bytes b0.position = 0x7f ∧ hdr = 4)) :
    RestInv (⟨conn, { b0 with position := b0.position + hdr }, rest, later, events⟩ :
      ParseState).finish.1 := by
  obtain ⟨hwf, _, hrest⟩ := hinv
  dsimp only at hwf hrest
  rcases hrest with hnull | ⟨hsame, ⟨j, hj, hacks⟩, hstate⟩
  · subst hnull
    exact restInv_of_none rfl
  · subst hsame
    refine restInv_some conn _ ⟨hhdr, hwf.2⟩ (fun hL => ?_)
    rcases hstate with ⟨h0, _⟩ | ⟨_, hlim, hlt, hfr⟩
    · exact absurd h0 hL
    · refine ⟨hlim, hlt, fun bytes hb => ?_⟩
      dsimp only at hb
      rw [hj] at hb hna hh hhdr
      have hhdr1 : 0 < hdr := by
        rcases hh with h | h
        · omega
        · omega
      refine framed_of_head bytes _ j (fun i hi _ => ?_) (fun hjt => ?_)
      · rw [hb _ (by omega)]
        exact hacks i hi
      · have e0 := hb (4 * j) (by omega)
        refine ⟨by rw [e0]; exact hna, fun hc => ?_⟩
        rw [e0] at hc
        rw [← framed_head b0.bytes _ j hfr hjt hacks hna hc]
        apply announcedLength_congr _ _ _ e0
        intro h7f
        rcases hh with h | h
        · exact absurd h7f h.1
        · exact ⟨hb _ (by omega), hb _ (by omega), hb _ (by omega)⟩

/-- The stash of an incomplete frame leaves the reassembly state in order. -/
theorem stashFrame_restInv (env : Env) (hpool : ∀ n, n ≤ env.poolCapacity n)
    (conn : Connection) (b0 : NativeByteBuffer) (rest : RestRef)
    (later : Option NativeByteBuffer) (events : List Event) (hdr len : Nat)
    (hinv : LoopInv ⟨conn, b0, rest, later, events⟩)
    (hhdr : b0.position + hdr ≤ b0.limit)
    (hna : b0.bytes b0.position &&& (1 <<< 7) = 0)
    (hh : (b0.bytes b0.position ≠ 0x7f ∧ hdr = 1) ∨ (b0.bytes b0.position = 0x7f ∧ hdr = 4))
    (hann : announcedLength b0.bytes b0.position = len)
    (hinc : b0.limit - b0.position < len) (hlt : len < 4294967296) :
    RestInv (stashFrame env ⟨conn, { b0 with position := b0.position + hdr }, rest, later, events⟩
      b0.position len).finish.1 := by
  have hhdr1 : 0 < hdr := by
    rcases hh with h | h
    · omega
    · omega
  have hsp : ({ b0 with position := b0.position + hdr } : NativeByteBuffer).setPosition
      b0.position = b0 := by
    rw [setPosition_of_le (by dsimp only; omega)]
  obtain ⟨f1, f2, f3, f4⟩ := fresh_copy_bytes env len (hpool len) b0 (by omega) (by omega)
  have fresh : RestInv
      { ({ conn with lastPacketLength := len } : Connection) with
        restOfTheData := some ((getFreeBuffer env len).writeBytes b0).1 } := by
    refine restInv_some { conn with lastPacketLength := len } _ f1 (fun _ => ⟨f3, hlt, ?_⟩)
    intro bytes hb
    rw [f2] at hb
    refine framed_of_head bytes len 0 (fun i hi _ => absurd hi (Nat.not_lt_zero _))
      (fun _ => ?_)
    have e0 : bytes 0 = b0.bytes b0.position := by
      rw [hb 0 (by omega), f4 0 (by omega)]
      rfl
    refine ⟨by rw [e0]; exact hna, fun _ => ?_⟩
    rw [← hann]
    unfold announcedLength
    rw [e0]
    by_cases hl : b0.bytes b0.position ≠ 0x7f
    · rw [if_pos hl, if_pos hl]
    · rw [if_neg hl, if_neg hl]
      have h4 : hdr = 4 := by
        rcases hh with h | h
        · exact absurd h.1 hl
        · exact h.2
      rw [hb 1 (by omega), hb 2 (by omega), hb 3 (by omega), f4 1 (by omega), f4 2 (by omega),
        f4 3 (by omega)]
  obtain ⟨hwf, _, hrest⟩ := hinv
  dsimp only at hwf hrest
  rcases hrest with hnull | ⟨hsame, ⟨j, hj, hacks⟩, _⟩
  · subst hnull
    unfold stashFrame ParseState.finish
    dsimp only
    rw [hsp]
    exact fresh
  · subst hsame
    unfold stashFrame ParseState.finish
    dsimp only
    by_cases hcap : b0.capacity < len
    · rw [if_pos hcap]
      dsimp only
      rw [hsp]
      exact fresh
    · rw [if_neg hcap, setPosition_of_le (Nat.le_refl _)]
      unfold setLimit
      rw [if_neg (by dsimp only; omega)]
      dsimp only
      refine restInv_some { conn with lastPacketLength := len } _ ⟨?_, ?_⟩
        (fun _ => ⟨rfl, hlt, ?_⟩)
      · dsimp only
        split_ifs
        · exact Nat.le_refl _
        · omega
      · dsimp only
        omega
      · intro bytes hb
        dsimp only at hb
        have hb2 : ∀ i, i < b0.limit → i < len → bytes i = b0.bytes i := by
          intro i h1 h2
          apply hb
          split_ifs
          · exact h2
          · exact h1
        rw [hj] at hna hh hhdr hann
        refine framed_of_head bytes len j (fun i hi hil => ?_) (fun hjl => ?_)
        · rw [hb2 _ (by omega) hil]
          exact hacks i hi
        · have e0 := hb2 (4 * j) (by omega) hjl
          refine ⟨by rw [e0]; exact hna, fun hc => ?_⟩
          rw [e0] at hc
          rw [← hann]
          apply announcedLength_congr _ _ _ e0
          intro h7f
          rcases hh with h | h
          · exact absurd h7f h.1
          · rcases hc with hc | hc
            · exact absurd h7f hc
            · exact ⟨hb2 _ (by omega) (by omega), hb2 _ (by omega) (by omega),
                hb2 _ (by omega) (by omega)⟩

theorem afterDelivery_null_later (conn : Connection) (buffer : NativeByteBuffer)
    (later : Option NativeByteBuffer) (events : List Event) :
    afterDelivery ⟨conn, buffer, RestRef.null, later, events⟩
      = ⟨conn, later.getD buffer, RestRef.null, none, events⟩ := by
  cases later <;> rfl

theorem pending_mk (conn : Connection) (buffer : NativeByteBuffer) (rest : RestRef)
    (later : Option NativeByteBuffer) (events : List Event) :
    (⟨conn, buffer, rest, later, events⟩ : ParseState).pending
      = buffer.limit - buffer.position
        + (match later with
          | none => 0
          | some b => b.limit - b.position) := by
  cases later <;> rfl

/-- After a frame was handed over with `restOfTheData` null or released, the
loop goes on with the parse-later buffer or with the rest of the active
buffer, and less is pending. -/
theorem switched_inv (conn : Connection) (b0 b1 : NativeByteBuffer) (rest : RestRef)
    (later : Option NativeByteBuffer) (events events1 : List Event)
    (hwf : b1.WF) (hlater : ∀ b, later = some b → b.WF)
    (hlim : b1.limit = b0.limit) (hlt : b0.position < b1.position) :
    LoopInv ⟨conn, later.getD b1, RestRef.null, none, events1⟩
      ∧ (⟨conn, later.getD b1, RestRef.null, none, events1⟩ : ParseState).pending
        < (⟨conn, b0, rest, later, events⟩ : ParseState).pending := by
  rw [pending_mk, pending_mk]
  have h1 := hwf.1
  cases later with
  | none =>
    refine ⟨⟨hwf, fun b hb => (by cases hb), Or.inl rfl⟩, ?_⟩
    dsimp only [Option.getD]
    omega
  | some l =>
    have hl := hlater l rfl
    refine ⟨⟨hl, fun b hb => (by cases hb), Or.inl rfl⟩, ?_⟩
    dsimp only [Option.getD]
    have := hl.1
    omega

/-- The part of the loop body after the length field keeps the loop invariant
and lowers the number of pending bytes, or it returns with the reassembly
state in order. -/
theorem parseFrame_inv (env : Env) (hpool : ∀ n, n ≤ env.poolCapacity n)
    (conn : Connection) (b0 : NativeByteBuffer) (rest : RestRef)
    (later : Option NativeByteBuffer) (events : List Event) (hdr cpl : Nat)
    (hinv : LoopInv ⟨conn, b0, rest, later, events⟩)
    (hhdr : b0.position + hdr ≤ b0.limit)
    (hna : b0.bytes b0.position &&& (1 <<< 7) = 0)
    (hh : (b0.bytes b0.position ≠ 0x7f ∧ hdr = 1) ∨ (b0.bytes b0.position = 0x7f ∧ hdr = 4))
    (hann : announcedLength b0.bytes b0.position = cpl + hdr) :
    match parseFrame env ⟨conn, { b0 with position := b0.position + hdr }, rest, later, events⟩
        b0.position cpl hdr with
    | Step.stop r => RestInv r.1
    | Step.next t => LoopInv t ∧ t.pending < (⟨conn, b0, rest, later, events⟩ : ParseState).pending := by
  have hhdr1 : 0 < hdr ∧ hdr ≤ 4 := by
    rcases hh with h | h
    · omega
    · omega
  by_cases h1 : cpl % 4 ≠ 0 ∨ cpl > 2 * 1024 * 1024
  · unfold parseFrame
    dsimp only
    rw [if_pos h1]
    exact restInv_of_kept (reconnect_restKept env _ _ (restKept_refl _))
      (afterHeader_restInv conn b0 rest later events hdr hinv hhdr hna hh)
  · by_cases h2 : b0.position + hdr + cpl ≤ b0.limit
    · rw [parseFrame_deliver env ⟨conn, { b0 with position := b0.position + hdr }, rest, later,
        events⟩ b0.position cpl hdr (by omega) (by omega) h2 hinv.1.2]
      dsimp only
      obtain ⟨hwf, hlater, hrest⟩ := hinv
      dsimp only at hwf hrest hlater
      have hwf1 : ({ b0 with position := b0.position + hdr + cpl } : NativeByteBuffer).WF :=
        ⟨h2, hwf.2⟩
      rcases hrest with hnull | ⟨hsame, ⟨j, hj, hacks⟩, hstate⟩
      · subst hnull
        rw [afterDelivery_null_later]
        exact switched_inv conn b0 _ _ later events _ hwf1 hlater rfl (by dsimp only; omega)
      · subst hsame
        rcases hstate with ⟨h0, hnone⟩ | ⟨hL, hlim, hlt, hfr⟩
        · subst hnone
          by_cases hrem : b0.position + hdr + cpl < b0.limit
          · rw [afterDelivery_same_squeeze conn { b0 with position := b0.position + hdr + cpl } _ h0 hrem hwf.2, pending_mk, pending_mk]
            refine ⟨⟨⟨Nat.zero_le _, ?_⟩, fun b hb => (by cases hb), Or.inr ⟨rfl,
              ⟨0, rfl, fun i hi => absurd hi (Nat.not_lt_zero _)⟩, Or.inl ⟨h0, rfl⟩⟩⟩, ?_⟩
            · dsimp only
              have := hwf.2
              omega
            · dsimp only
              omega
          · rw [afterDelivery_same_used conn { b0 with position := b0.position + hdr + cpl } _ h0 hrem]
            exact switched_inv conn b0 _ RestRef.same none events _ hwf1
              (fun b hb => by cases hb) rfl (by dsimp only; omega)
        · have hjl : 4 * j < conn.lastPacketLength := by omega
          rw [hj] at hna hh hann
          have hc : b0.bytes (4 * j) ≠ 0x7f ∨ 4 * j + 4 ≤ conn.lastPacketLength := by
            rcases hh with h | h
            · exact Or.inl h.1
            · exact Or.inr (by omega)
          have htotal := framed_head b0.bytes _ j hfr hjl hacks hna hc
          rw [hann] at htotal
          rw [afterDelivery_same_complete conn { b0 with position := b0.position + hdr + cpl } later _ hL (by dsimp only; omega)]
          exact switched_inv conn b0 _ RestRef.same later events _ hwf1 hlater rfl
            (by dsimp only; omega)
    · have hstep : parseFrame env ⟨conn, { b0 with position := b0.position + hdr }, rest, later,
          events⟩ b0.position cpl hdr
          = Step.stop (stashFrame env ⟨conn, { b0 with position := b0.position + hdr }, rest,
              later, events⟩ b0.position (cpl + hdr)).finish := by
        unfold parseFrame
        dsimp only
        rw [if_neg h1, if_neg (show ¬ (cpl < ({ b0 with position := b0.position + hdr } :
          NativeByteBuffer).remaining ∨ cpl = ({ b0 with position := b0.position + hdr } :
          NativeByteBuffer).remaining) by unfold remaining; dsimp only; omega)]
      rw [hstep]
      exact stashFrame_restInv env hpool conn b0 rest later events hdr (cpl + hdr) hinv hhdr hna
        hh hann (by omega) (by omega)

/-- A reassembly buffer that is full is in order when its bytes are framed. -/
theorem full_restInv (conn : Connection) (r : NativeByteBuffer) (hwf : r.WF)
    (hpos : r.position = r.limit)
    (h : conn.lastPacketLength ≠ 0 →
      r.limit = conn.lastPacketLength ∧ conn.lastPacketLength < 4294967296
        ∧ Framed r.bytes conn.lastPacketLength) :
    RestInv { conn with restOfTheData := some r } := by
  refine restInv_some conn r hwf (fun hL => ?_)
  obtain ⟨h1, h2, h3⟩ := h hL
  refine ⟨h1, h2, fun bytes hb => framed_congr _ _ _ (fun i hi => hb i ?_) h3⟩
  omega

/-- One pass of the frame loop keeps the loop invariant and lowers the number
of pending bytes, or it returns with the reassembly state in order. -/
theorem parseStep_inv (env : Env) (hpool : ∀ n, n ≤ env.poolCapacity n) (s : ParseState)
    (hinv : LoopInv s) (hrem : s.buffer.position < s.buffer.limit) :
    match parseStep env s with
    | Step.stop r => RestInv r.1
    | Step.next t => LoopInv t ∧ t.pending < s.pending := by
  obtain ⟨conn, buffer, rest, later, events⟩ := s
  dsimp only at hrem
  have hinv1 : LoopInv ⟨(firstDataSeen env conn).1, buffer, rest, later,
      events ++ (firstDataSeen env conn).2⟩ :=
    loopInv_conn conn _ buffer rest later events _ (firstDataSeen_lastPacketLength env conn) hinv
  have hp : (⟨conn, buffer, rest, later, events⟩ : ParseState).pending
      = (⟨(firstDataSeen env conn).1, buffer, rest, later,
          events ++ (firstDataSeen env conn).2⟩ : ParseState).pending := rfl
  rw [hp]
  unfold parseStep
  dsimp only
  rw [readByte_of_lt hrem]
  dsimp only
  generalize firstDataSeen env conn = seen at hinv1 ⊢
  have hsp : ({ buffer with position := buffer.position + 1 } : NativeByteBuffer).setPosition
      buffer.position = buffer := by
    rw [setPosition_of_le (by dsimp only; omega)]
  rw [hsp]
  have hremdef : buffer.remaining = buffer.limit - buffer.position := rfl
  by_cases hq : buffer.bytes buffer.position &&& (1 <<< 7) ≠ 0
  · rw [if_pos hq]
    by_cases h4 : buffer.remaining < 4
    · rw [if_pos h4]
      exact stashHeader_restInv env hpool _
    · rw [if_neg h4, readBigInt32_of_le (by omega)]
      dsimp only
      rw [pending_mk, pending_mk]
      obtain ⟨hwf, hlater, hrest⟩ := hinv1
      dsimp only at hwf hlater hrest
      refine ⟨⟨⟨?_, hwf.2⟩, hlater, ?_⟩, ?_⟩
      · dsimp only
        omega
      · rcases hrest with hnull | ⟨hsame, ⟨j, hj, hacks⟩, hstate⟩
        · exact Or.inl hnull
        · refine Or.inr ⟨hsame, ⟨j + 1, ?_, fun i hi => ?_⟩, hstate⟩
          · dsimp only
            omega
          · rcases Nat.lt_succ_iff_lt_or_eq.mp hi with h | h
            · exact hacks i h
            · rw [h, ← hj]
              exact hq
      · dsimp only
        omega
  · rw [if_neg hq]
    by_cases hl : buffer.bytes buffer.position ≠ 127
    · rw [if_pos hl]
      exact parseFrame_inv env hpool seen.1 buffer rest later (events ++ seen.2) 1
        (buffer.bytes buffer.position * 4) hinv1 (by omega) (not_not.mp hq) (Or.inl ⟨hl, rfl⟩)
        (by unfold announcedLength; rw [if_pos hl])
    · rw [if_neg hl]
      by_cases h4 : buffer.remaining < 4
      · rw [if_pos h4]
        obtain ⟨hwf, hlater, hrest⟩ := hinv1
        dsimp only at hwf hlater hrest
        rcases hrest with hnull | ⟨hsame, _, hstate⟩
        · subst hnull
          exact stashHeader_restInv env hpool _
        · subst hsame
          dsimp only
          by_cases hp0 : buffer.position ≠ 0
          · rw [if_pos hp0]
            exact stashHeader_restInv env hpool _
          · rw [if_neg hp0, setPosition_of_le (Nat.le_refl _)]
            refine full_restInv seen.1 _ ⟨Nat.le_refl _, hwf.2⟩ rfl (fun hL => ?_)
            rcases hstate with ⟨h0, _⟩ | ⟨_, hlim, hlt, hfr⟩
            · exact absurd h0 hL
            · exact ⟨hlim, hlt, hfr⟩
      · rw [if_neg h4, readInt32_of_le (by omega)]
        dsimp only
        exact parseFrame_inv env hpool seen.1 buffer rest later (events ++ seen.2) 4
          ((buffer.bytes buffer.position + buffer.bytes (buffer.position + 1) * 256
            + buffer.bytes (buffer.position + 2) * 65536
            + buffer.bytes (buffer.position + 3) * 16777216) >>> 8 * 4) hinv1 (by omega)
          (not_not.mp hq) (Or.inr ⟨not_not.mp hl, rfl⟩)
          (by unfold announcedLength; rw [if_neg hl])

/-- The frame loop returns when it starts from a state that satisfies the loop
invariant with more passes than bytes pending, and it leaves the reassembly
state in order. -/
theorem parseLoop_total (env : Env) (hpool : ∀ n, n ≤ env.poolCapacity n) (fuel : Nat) :
    ∀ s : ParseState, LoopInv s → s.pending < fuel →
      ∃ r, parseLoop env fuel s = some r ∧ RestInv r.1 := by
  induction fuel with
  | zero =>
    intro s _ h
    exact absurd h (Nat.not_lt_zero _)
  | succ fuel ih =>
    intro s hinv hfuel
    unfold parseLoop
    by_cases hrem : s.buffer.position < s.buffer.limit
    · have hhas : s.buffer.hasRemaining = true := decide_eq_true hrem
      rw [hhas]
      simp only [Bool.not_true, Bool.false_eq_true, if_false]
      have hstep := parseStep_inv env hpool s hinv hrem
      revert hstep
      generalize parseStep env s = st
      intro hstep
      cases st with
      | next t => exact ih t hstep.1 (by have := hstep.2; omega)
      | stop r => exact ⟨r, rfl, hstep⟩
    · have hhas : s.buffer.hasRemaining = false := decide_eq_false hrem
      rw [hhas]
      simp only [Bool.not_false, if_true]
      exact ⟨_, rfl, finish_restInv s hinv hhas⟩

theorem setLimit_WF (b : NativeByteBuffer) (l : Nat) (h : b.WF) : (b.setLimit l).WF := by
  obtain ⟨h1, h2⟩ := h
  unfold setLimit
  by_cases hl : l > b.capacity
  · rw [if_pos hl]
    exact ⟨h1, h2⟩
  · rw [if_neg hl]
    refine ⟨?_, by dsimp only; omega⟩
    dsimp only
    split_ifs
    · exact Nat.le_refl _
    · omega

/-- The merge of a chunk with the reassembly buffer starts the loop in a state
that satisfies the loop invariant, or returns with the reassembly state in
order. -/
theorem mergeRest_inv (env : Env) (hpool : ∀ n, n ≤ env.poolCapacity n) (c : Connection)
    (buffer : NativeByteBuffer) (hc : RestInv c) (hb : buffer.WF) :
    match mergeRest env c buffer with
    | Step.stop r => RestInv r.1
    | Step.next s => LoopInv { s with buffer := s.buffer.rewind } := by
  have hrew : ∀ b : NativeByteBuffer, b.WF → b.rewind.WF :=
    fun b h => ⟨Nat.zero_le _, h.2⟩
  unfold mergeRest
  unfold RestInv at hc
  cases hrest : c.restOfTheData with
  | none =>
    exact ⟨hrew _ hb, fun b h => (by cases h), Or.inl rfl⟩
  | some rest =>
    rw [hrest] at hc
    obtain ⟨hwf, hL⟩ := hc
    dsimp only at hwf hL ⊢
    by_cases h0 : c.lastPacketLength = 0
    · rw [if_pos h0]
      have hsame : ∀ w : NativeByteBuffer, w.WF →
          LoopInv ⟨c, w.rewind, RestRef.same, none, []⟩ :=
        fun w hw => ⟨hrew _ hw, fun b h => (by cases h),
          Or.inr ⟨rfl, ⟨0, rfl, fun i hi => absurd hi (Nat.not_lt_zero _)⟩, Or.inl ⟨h0, rfl⟩⟩⟩
      by_cases hfit : rest.capacity - rest.position ≥ buffer.limit
      · rw [if_pos hfit]
        exact hsame _ (writeBytes_dst _ _ (setLimit_WF _ _ hwf)).1
      · rw [if_neg hfit]
        refine hsame _ (writeBytes_dst _ _ (writeBytes_dst _ _ ?_).1).1
        rw [getFreeBuffer_eq env _ (hpool _)]
        exact ⟨Nat.zero_le _, hpool _⟩
    · rw [if_neg h0]
      obtain ⟨hlim, hlt, hfr⟩ := hL h0
      generalize (if (c.lastPacketLength + 4294967296 - rest.position) % 4294967296
            ≤ buffer.limit then (c.lastPacketLength + 4294967296 - rest.position) % 4294967296
          else buffer.limit) = len
      obtain ⟨w1, w2, _, w4, w5⟩ := writeBytes_dst rest (buffer.setLimit len) hwf
      obtain ⟨s1, _, _⟩ := writeBytes_src rest (buffer.setLimit len) (setLimit_WF _ _ hb)
      by_cases hfull : (rest.writeBytes (buffer.setLimit len)).1.position = c.lastPacketLength
      · rw [if_pos hfull]
        refine ⟨hrew _ w1, fun b h => ?_, Or.inr ⟨rfl,
          ⟨0, rfl, fun i hi => absurd hi (Nat.not_lt_zero _)⟩,
          Or.inr ⟨h0, w2.trans hlim, hlt, hfr _ (fun i hi => w5 i hi)⟩⟩⟩
        dsimp only at h
        by_cases hh : (((rest.writeBytes (buffer.setLimit len)).2.setLimit
            buffer.limit).hasRemaining) = true
        · rw [if_pos hh] at h
          cases h
          exact setLimit_WF _ _ s1
        · rw [if_neg hh] at h
          cases h
      · rw [if_neg hfull]
        refine restInv_some c _ w1 (fun _ => ⟨w2.trans hlim, hlt, fun bytes hbytes => ?_⟩)
        exact hfr bytes (fun i hi => (hbytes i (by omega)).trans (w5 i hi))

/-- `onReceivedData` from its second statement on returns, and leaves the
reassembly state in order. -/
theorem onReceivedDataDecrypted_total (env : Env) (hpool : ∀ n, n ≤ env.poolCapacity n)
    (c : Connection) (buffer : NativeByteBuffer) (hc : RestInv c) (hb : buffer.WF) :
    ∃ r, onReceivedDataDecrypted env c buffer = some r ∧ RestInv r.1 := by
  have hk : RestInv (countReceived env c buffer.limit) :=
    restInv_of_kept (Or.inl ⟨countReceived_rest env c _, countReceived_lastPacketLength env c _⟩)
      hc
  have hm := mergeRest_inv env hpool _ buffer hk hb
  unfold onReceivedDataDecrypted
  revert hm
  generalize mergeRest env (countReceived env c buffer.limit) buffer = st
  intro hm
  cases st with
  | stop r => exact ⟨r, rfl, hm⟩
  | next s =>
    dsimp only
    refine parseLoop_total env hpool _ _ hm ?_
    unfold ParseState.pending
    dsimp only
    omega

/-- `onReceivedData` returns for every chunk when the reassembly state is in
order, and leaves it in order. -/
theorem onReceivedData_total (env : Env) (hpool : ∀ n, n ≤ env.poolCapacity n)
    (c : Connection) (buffer : NativeByteBuffer) (hc : RestInv c) (hb : buffer.WF) :
    ∃ r, onReceivedData env c buffer = some r ∧ RestInv r.1 := by
  unfold onReceivedData
  dsimp only
  refine onReceivedDataDecrypted_total env hpool _ _ ?_ hb
  exact restInv_of_kept (Or.inl ⟨rfl, rfl⟩) hc

/-- Every operation keeps the reassembly state in order. -/
theorem apply_restInv (env : Env) (hpool : ∀ n, n ≤ env.poolCapacity n) (c d : Connection)
    (op : Op) (hop : ∀ buffer, op = Op.onReceivedData buffer → buffer.WF) (hc : RestInv c)
    (hd : op.apply env c = some d) : RestInv d := by
  cases op with
  | connect =>
    cases hd
    exact restInv_of_kept (connect_restKept env c c (restKept_refl c)) hc
  | onConnected =>
    cases hd
    exact restInv_of_kept (Or.inl ⟨rfl, rfl⟩) hc
  | onDisconnected reason error =>
    cases hd
    exact restInv_of_kept (onDisconnected_restKept env c c reason error (restKept_refl c)) hc
  | suspendConnection idle =>
    cases hd
    exact restInv_of_kept (suspendConnection_restKept env c c idle (restKept_refl c)) hc
  | reconnect =>
    cases hd
    exact restInv_of_kept (reconnect_restKept env c c (restKept_refl c)) hc
  | sendData buff reportAck encrypted =>
    have hd1 : (sendData env c buff reportAck encrypted).map Prod.fst = some d := hd
    cases hs : sendData env c buff reportAck encrypted with
    | none =>
      rw [hs] at hd1
      cases hd1
    | some r =>
      rw [hs] at hd1
      cases hd1
      exact restInv_of_kept
        (sendData_restKept env c c buff reportAck encrypted (restKept_refl c) r hs) hc
  | onReceivedData buffer =>
    have hd1 : (onReceivedData env c buffer).map Prod.fst = some d := hd
    obtain ⟨r, hr, hinv⟩ := onReceivedData_total env hpool c buffer hc (hop buffer rfl)
    rw [hr] at hd1
    cases hd1
    exact hinv
  | scheduledTask reason error =>
    cases hd
    exact restInv_of_none (onDisconnectedInternal_rest env c reason error)

/-- The reassembly state is in order after every run of operations that starts
with the invariant. -/
theorem runOps_restInv (ops : List (Env × Op)) :
    ∀ c d : Connection,
      (∀ step ∈ ops, (∀ n, n ≤ step.1.poolCapacity n)
        ∧ ∀ buffer, step.2 = Op.onReceivedData buffer → buffer.WF) →
      RestInv c → runOps c ops = some d → RestInv d := by
  induction ops with
  | nil =>
    intro c d _ hc hd
    cases hd
    exact hc
  | cons step ops ih =>
    intro c d hops hc hd
    unfold runOps at hd
    cases hs : step.2.apply step.1 c with
    | none =>
      rw [hs] at hd
      cases hd
    | some k =>
      rw [hs] at hd
      obtain ⟨hp, hw⟩ := hops step (List.mem_cons_self _ _)
      exact ih k d (fun st hst => hops st (List.mem_cons_of_mem _ hst))
        (apply_restInv step.1 hp c k step.2 hw hc hs) hd

/-- C30: the frame parser terminates in every reachable reassembly state.
Start from a connection without reassembly buffer and run any sequence of
operations (`connect`, `onConnected`, `onDisconnected`, `suspendConnection`,
`reconnect`, `sendData`, `onReceivedData`, the deferred disconnect), each with
arbitrary answers of the collaborators, a buffer pool that hands out buffers
of at least the size asked for, and received chunks whose cursors are in order.
In the state reached, `onReceivedData` returns for every such chunk: its frame
loop ends within one pass per byte that is pending in the active buffer and
the parse-later buffer. -/
theorem frame_parser_terminates (c0 : Connection) (h0 : c0.restOfTheData = none)
    (ops : List (Env × Op))
    (hops : ∀ step ∈ ops, (∀ n, n ≤ step.1.poolCapacity n)
      ∧ ∀ buffer, step.2 = Op.onReceivedData buffer → buffer.WF)
    (c : Connection) (hrun : runOps c0 ops = some c)
    (env : Env) (hpool : ∀ n, n ≤ env.poolCapacity n)
    (buffer : NativeByteBuffer) (hb : buffer.WF) :
    ∃ r, onReceivedData env c buffer = some r := by
  obtain ⟨r, hr, _⟩ := onReceivedData_total env hpool c buffer
    (runOps_restInv ops c0 c hops (restInv_of_none h0) hrun) hb
  exact ⟨r, hr⟩

theorem frame_parser_terminates_witness :
    ∃ c r,
      runOps sampleSession
          [(sampleEnv, Op.onReceivedData (ofList [0xfe, 0xfe, 0xfe, 0xfe, 0xfb, 0xfe] 16)),
            (sampleEnv, Op.onReceivedData (ofList [0xfe, 0xfe] 16))] = some c
        ∧ onReceivedData sampleEnv c (ofList [0xfe, 0xfe, 0xfe, 0xfe, 0xfe] 16) = some r := by
  obtain ⟨c, hc⟩ := Option.isSome_iff_exists.mp
    (by decide! :
      (runOps sampleSession
        [(sampleEnv, Op.onReceivedData (ofList [0xfe, 0xfe, 0xfe, 0xfe, 0xfb, 0xfe] 16)),
          (sampleEnv, Op.onReceivedData (ofList [0xfe, 0xfe] 16))]).isSome = true)
  obtain ⟨r, hr⟩ := frame_parser_terminates sampleSession rfl _
    (fun step hs => by
      have hpool : ∀ n, n ≤ step.1.poolCapacity n := by
        simp only [List.mem_cons, List.mem_singleton, List.mem_nil_iff, or_false] at hs
        rcases hs with h | h
        · rw [h]
          exact fun n => Nat.le_refl n
        · rw [h]
          exact fun n => Nat.le_refl n
      refine ⟨hpool, fun buffer hbuf => ?_⟩
      simp only [List.mem_cons, List.mem_singleton, List.mem_nil_iff, or_false] at hs
      rcases hs with h | h
      · rw [h] at hbuf
        cases hbuf
        exact ⟨by decide, by decide⟩
      · rw [h] at hbuf
        cases hbuf
        exact ⟨by decide, by decide⟩)
    c hc sampleEnv (fun n => Nat.le_refl n) (ofList [0xfe, 0xfe, 0xfe, 0xfe, 0xfe] 16)
    ⟨by decide, by decide⟩
  exact ⟨c, r, hc, hr⟩

/-- For a length that is a multiple of 4, the part of the loop body after the
length field takes the `reconnect()` exit exactly when the length exceeds
2 MiB. -/
theorem parseFrame_rejects_iff (env : Env) (s : ParseState) (mark cpl header : Nat)
    (h4 : cpl % 4 = 0) :
    (∃ d evs, parseFrame env s mark cpl header = Step.stop (d, s.events ++ Event.reconnect :: evs))
      ↔ cpl > 2 * 1024 * 1024 := by
  constructor
  · rintro ⟨d, evs, h⟩
    by_contra hle
    have h1 : ¬ (cpl % 4 ≠ 0 ∨ cpl > 2 * 1024 * 1024) := by omega
    unfold parseFrame at h
    dsimp only at h
    rw [if_neg h1] at h
    by_cases h2 : cpl < s.buffer.remaining ∨ cpl = s.buffer.remaining
    · rw [if_pos h2] at h
      cases h
    · rw [if_neg h2] at h
      have h3 : (stashFrame env s mark (cpl + header)).finish.2
          = s.events ++ Event.reconnect :: evs := by
        injection h with h
        rw [h]
      have h5 : (stashFrame env s mark (cpl + header)).finish.2 = s.events :=
        stashFrame_events env s mark (cpl + header)
      rw [h5] at h3
      have := congrArg List.length h3
      rw [List.length_append, List.length_cons] at this
      omega
  · intro h
    exact ⟨_, _, parseFrame_invalid env s mark cpl header h⟩

/-- The frame loop computes the length as `currentPacketLength` says: for a
first byte below `0x80` at the head of the active buffer (and, in the long
form, four bytes to read), one pass of the loop is the part after the length
field, run with `currentPacketLength fByte v`. -/
theorem parseStep_decodes (env : Env) (s : ParseState) (fByte v : Nat) (hf : fByte < 0x80)
    (hv : v < 4294967296) (hrem : s.buffer.position < s.buffer.limit)
    (hbyte : s.buffer.bytes s.buffer.position = fByte)
    (hlong : fByte = 0x7f → s.buffer.position + 4 ≤ s.buffer.limit ∧ s.buffer.readInt32.1 = v) :
    parseStep env s
      = parseFrame env
          { conn := (firstDataSeen env s.conn).1
            buffer :=
              { s.buffer with position := s.buffer.position + (if fByte ≠ 0x7f then 1 else 4) }
            rest := s.rest
            parseLaterBuffer := s.parseLaterBuffer
            events := s.events ++ (firstDataSeen env s.conn).2 }
          s.buffer.position (currentPacketLength fByte v) (if fByte ≠ 0x7f then 1 else 4) := by
  have hsp : ({ s.buffer with position := s.buffer.position + 1 } : NativeByteBuffer).setPosition
      s.buffer.position = s.buffer := by
    rw [setPosition_of_le (by dsimp only; omega)]
  unfold parseStep currentPacketLength
  dsimp only
  rw [readByte_of_lt hrem]
  dsimp only
  rw [hbyte, shl_1_7, and_128_of_lt hf, if_neg (fun h => h rfl), hsp]
  by_cases hl : fByte ≠ 0x7f
  · simp only [if_pos hl]
    rw [Nat.mod_eq_of_lt (by omega)]
  · simp only [if_neg hl]
    obtain ⟨h4, hval⟩ := hlong (not_not.mp hl)
    have hr : ¬ s.buffer.remaining < 4 := by
      unfold remaining
      omega
    rw [if_neg hr]
    have hshift : v >>> 8 < 16777216 := by
      rw [Nat.shiftRight_eq_div_pow]
      omega
    rw [Nat.mod_eq_of_lt (by omega), ← hval, readInt32_of_le h4]

/-- C31. Decoded length arithmetic.  For every first byte `fByte < 0x80` and
every 32-bit value `v` of the long-form length field, the decoded
`currentPacketLength` (computed modulo 2^32) is the unwrapped product
`fByte * 4`, respectively `(v >> 8) * 4`; it is a multiple of 4 and below 2^26;
`len = currentPacketLength + (1 or 4)` does not overflow; the validation test
`currentPacketLength % 4 != 0 || currentPacketLength > 2 MiB` is true exactly
when the length exceeds 2 MiB; and a pass of the frame loop that reads this
length field takes the `reconnect()` exit if and only if the decoded length
exceeds 2 MiB. -/
theorem decoded_length_arithmetic (fByte v : Nat) (hf : fByte < 0x80) (hv : v < 4294967296) :
    currentPacketLength fByte v = (if fByte ≠ 0x7f then fByte * 4 else (v >>> 8) * 4)
      ∧ currentPacketLength fByte v % 4 = 0
      ∧ currentPacketLength fByte v < 2 ^ 26
      ∧ len fByte v = currentPacketLength fByte v + (if fByte ≠ 0x7f then 1 else 4)
      ∧ len fByte v < 4294967296
      ∧ ((currentPacketLength fByte v % 4 ≠ 0
            ∨ currentPacketLength fByte v > 2 * 1024 * 1024)
          ↔ currentPacketLength fByte v > 2 * 1024 * 1024)
      ∧ ∀ (env : Env) (s : ParseState), s.buffer.position < s.buffer.limit →
          s.buffer.bytes s.buffer.position = fByte →
          (fByte = 0x7f →
            s.buffer.position + 4 ≤ s.buffer.limit ∧ s.buffer.readInt32.1 = v) →
          ((∃ d evs, parseStep env s
              = Step.stop (d, s.events ++ (firstDataSeen env s.conn).2 ++ Event.reconnect :: evs))
            ↔ currentPacketLength fByte v > 2 * 1024 * 1024) := by
  have hshift : v >>> 8 < 16777216 := by
    rw [Nat.shiftRight_eq_div_pow]
    omega
  have e : currentPacketLength fByte v
      = (if fByte ≠ 0x7f then fByte * 4 else (v >>> 8) * 4) := by
    unfold currentPacketLength
    split_ifs
    · exact Nat.mod_eq_of_lt (by omega)
    · exact Nat.mod_eq_of_lt (by omega)
  have h4 : currentPacketLength fByte v % 4 = 0 := by
    rw [e]
    split_ifs
    · omega
    · omega
  have hlt : currentPacketLength fByte v < 2 ^ 26 := by
    rw [e]
    split_ifs
    · omega
    · omega
  have hlen : len fByte v = currentPacketLength fByte v + (if fByte ≠ 0x7f then 1 else 4) := by
    unfold len
    apply Nat.mod_eq_of_lt
    split_ifs
    · omega
    · omega
  refine ⟨e, h4, hlt, hlen, ?_, ?_, fun env s hrem hbyte hlong => ?_⟩
  · rw [hlen]
    split_ifs
    · omega
    · omega
  · constructor
    · rintro (h | h)
      · exact absurd h4 h
      · exact h
    · exact Or.inr
  · rw [parseStep_decodes env s fByte v hf hv hrem hbyte hlong]
    exact parseFrame_rejects_iff env _ _ _ _ h4

theorem decoded_length_arithmetic_witness :
    currentPacketLength 0x7f 134218111 = 2097156
      ∧ len 0x7f 134218111 = 2097160
      ∧ ∃ d evs,
          parseStep sampleEnv ⟨sampleSession, ofList [0x7f, 1, 0, 8] 16, RestRef.null, none, []⟩
            = Step.stop (d,
                [] ++ (firstDataSeen sampleEnv sampleSession).2 ++ Event.reconnect :: evs) := by
  obtain ⟨h1, _, _, h4, _, _, h7⟩ :=
    decoded_length_arithmetic 0x7f 134218111 (by decide) (by decide)
  refine ⟨h1.trans (by decide), ?_, ?_⟩
  · rw [h4, h1]
    decide
  · exact (h7 sampleEnv ⟨sampleSession, ofList [0x7f, 1, 0, 8] 16, RestRef.null, none, []⟩
      (by decide) (by decide) (fun _ => ⟨by decide, by decide⟩)).mpr
      (by rw [h1]; decide)

end Tgnet
